import Mathlib

/-!
# Dungeon generation and room life cycle of `js/game.js`

A shallow embedding of the dungeon system of the game (`generateDungeon`,
`loadRoom`, `checkRoomClear`, `enterDoor`, `generateRoomTerrain`,
`destroyCrate`) together with the properties the specification states about it.

Conventions of the embedding

* `Math.random()` is a stream of fractions in `[0,1)`; the state carries the
  number of calls made so far, so the k-th call returns `rnd k`.
* a JavaScript object used as a map (`dungeon`) is an association list in
  insertion order, which is the order `for (key in dungeon)` visits the keys;
  the key string `"x,y"` is the pair `(x, y)`.
* a statement that can raise returns `Except`; `try { .. } catch` is a match on it.
* numbers are exact rationals.  Where the source computes with decimal constants on
  levels and multipliers (`spawnEnemy`, `shopOffer`), every sum and product is rounded to a
  double by `fl`, so that the values are those of the code to the last bit.  Where
  a roll is scaled to an integer (`between`, `Roll.index`), the product is formed
  exactly before the floor is taken; the code rounds it to a double first, which
  can move a result whose exact value lies within one rounding unit of an integer.
-/

namespace IsaacGame

/-! ## Random numbers -/

/-- One value returned by `Math.random()`: the fraction `num / den`, which lies in `[0,1)`. -/
structure Roll where
  num : Nat
  den : Nat
  lt : num < den

/-- The expression `Math.floor(Math.random() * n)` for the roll `r`: the floor of `num * n / den`. -/
def Roll.index (r : Roll) (n : Nat) : Nat := r.num * n / r.den

/-- The comparison `Math.random() < p / q` for the roll `r` (exact on fractions). -/
def Roll.below (r : Roll) (p q : Nat) : Bool := decide (r.num * q < p * r.den)

/-- The stream of values `Math.random()` returns: `rnd k` is the result of call number `k`. -/
abbrev Rng := Nat → Roll

/-! ## Data model -/

/-- The `type` of a room record. -/
inductive RoomType where
  | spawn | enemy | boss | treasure | shop
  deriving DecidableEq, Repr

/-- The door strings stored in a room's `doors` array. -/
inductive Dir where
  | right | left | down | up
  deriving DecidableEq, Repr

/-- A room coordinate: the key string `"x,y"` of the `dungeon` object. -/
abbrev Coord := Int × Int

/-- A point of the 800x600 room, in pixels. -/
structure Pos where
  x : Int
  y : Int
  deriving DecidableEq, Repr

/-- A crate entry of a terrain layout: `{x, y, destroyed}`. -/
structure CrateData where
  x : Int
  y : Int
  destroyed : Bool
  deriving DecidableEq, Repr

/-- The persisted obstacle layout of a room: `{ walls: [], pits: [], crates: [] }`. -/
structure TerrainLayout where
  walls : List Pos
  pits : List Pos
  crates : List CrateData
  deriving DecidableEq, Repr

/-- An item descriptor (an element of the item pools): the fields the room and pool logic reads.
The `apply` closure of a descriptor is the function `Env.applyItem`. -/
structure ItemData where
  id : String
  price : Option Int
  tier : Option Int
  type : Option String
  deriving DecidableEq, Repr

/-- An entry of `droppedItems`: `{x, y, data}`, the position of a floor item when it was saved. -/
structure Drop where
  x : ℚ
  y : ℚ
  data : ItemData
  deriving DecidableEq, Repr

/-- An entry of a shop room's `shopItems`: `{x, y, data, price, bought}`.  Its `visualRef` is not
stored: it points to the item sprite whose `shopEntry` is this entry, and is reset to `null` when
that sprite is destroyed. -/
structure ShopEntry where
  x : Int
  y : Int
  data : ItemData
  price : Int
  bought : Bool
  deriving DecidableEq, Repr

/-- A room record of the dungeon.  `generateDungeon` creates it with `type`, `cleared` and `doors`;
the other properties are `undefined` until `loadRoom`, `enterDoor`, `pickItem` or the shop code
write them (`false` / `none` here). -/
structure Room where
  type : RoomType
  cleared : Bool
  doors : List Dir
  visited : Bool := false
  seen : Bool := false
  terrainLayout : Option TerrainLayout := none
  droppedItems : Option (List Drop) := none
  bossType : Option String := none
  itemTaken : Bool := false
  shopGenerated : Bool := false
  shopItems : Option (List ShopEntry) := none
  deriving DecidableEq, Repr

/-- The room entries of the `dungeon` object, in insertion order. -/
abbrev Rooms := List (Coord × Room)

/-- The lookup `dungeon[key]`. -/
def getRoom (rooms : Rooms) (c : Coord) : Option Room := rooms.lookup c

/-- The test `dungeon[key]` used as a condition: is there a room record under the key. -/
def hasRoom (rooms : Rooms) (c : Coord) : Bool := (getRoom rooms c).isSome

/-- Update of the record stored under `c` in place (a write to a property of `dungeon[key]`). -/
def updateRoom (rooms : Rooms) (c : Coord) (f : Room → Room) : Rooms :=
  rooms.map fun e => if e.1 = c then (e.1, f e.2) else e

/-! ## generateDungeon -/

/-- Global `roomCount`: base rooms per level. -/
def roomCount : Nat := 8

/-- Global `roomGridSize` (declared with the comment "Map Size 9x9"; no function reads it). -/
def roomGridSize : Nat := 9

/-- The value `Math.min(15, roomCount + (currentLevel - 1))`. -/
def targetCount (level : Int) : Int := min 15 ((roomCount : Int) + (level - 1))

/-- The array `dirs` of `generateDungeon`. -/
def dirs : List (Int × Int) := [(0, 1), (0, -1), (1, 0), (-1, 0)]

/-- The kind given to the room placed while the counter has the value `count`. -/
def roomTypeFor (count : Nat) : RoomType :=
  if count = roomCount - 1 then RoomType.boss
  else if count = roomCount / 2 then RoomType.treasure
  else if count = 3 ∧ roomCount > 4 then RoomType.shop
  else RoomType.enemy

/-- The record literal `{ type: type, cleared: (type==='spawn' || type==='treasure' ||
type==='shop'), doors: [] }`. -/
def newRoom (t : RoomType) : Room :=
  { type := t
    cleared := decide (t = RoomType.spawn) || decide (t = RoomType.treasure)
      || decide (t = RoomType.shop)
    doors := [] }

/-- The record literal `{ type: 'spawn', cleared: true, doors: [] }`. -/
def spawnRoom : Room := { type := RoomType.spawn, cleared := true, doors := [] }

/-- The local variables of `generateDungeon` while its growth loop runs, with the room entries of
`dungeon` and the number of `Math.random()` calls made. -/
structure GenState where
  rooms : Rooms
  stack : List Coord
  count : Nat
  protection : Nat
  calls : Nat
  deriving DecidableEq, Repr

/-- The state before the loop: Spawn placed at (5,5), `stack = [{x:5, y:5}]`. -/
def initGen (calls : Nat) : GenState :=
  { rooms := [((5, 5), spawnRoom)], stack := [(5, 5)], count := 0, protection := 0, calls := calls }

/-- The guard of the growth loop. -/
def loopGuard (target : Int) (s : GenState) : Bool :=
  decide (s.stack.length > 0) && decide ((s.count : Int) < target) && decide (s.protection < 1000)

/-- One pass through the body of the growth loop.  `Except.error` is a raised `TypeError`
(reading `.x` of an `undefined` stack entry, or indexing an `undefined` direction); it carries the
number of `Math.random()` calls made. -/
def growStep (rnd : Rng) (s : GenState) : Except Nat GenState :=
  match s.stack[(rnd s.calls).index s.stack.length]?,
        dirs[(rnd (s.calls + 1)).index dirs.length]? with
  | some current, some dir =>
    let key : Coord := (current.1 + dir.1, current.2 + dir.2)
    if hasRoom s.rooms key then
      Except.ok { s with protection := s.protection + 1, calls := s.calls + 2 }
    else
      Except.ok
        { rooms := s.rooms ++ [(key, newRoom (roomTypeFor s.count))]
          stack := s.stack ++ [key]
          count := s.count + 1
          protection := s.protection + 1
          calls := s.calls + 2 }
  | _, _ => Except.error (s.calls + 2)

/-- The growth loop `while (stack.length > 0 && count < targetCount && protection < 1000)`,
unrolled at most `fuel` times. -/
def growLoop (rnd : Rng) (target : Int) : Nat → GenState → Except Nat GenState
  | 0, s => Except.ok s
  | fuel + 1, s =>
    if loopGuard target s then
      match growStep rnd s with
      | Except.ok s1 => growLoop rnd target fuel s1
      | Except.error e => Except.error e
    else Except.ok s

/-- The coordinate whose key the door pass looks up for a direction: right `x+1`, left `x-1`,
down `y+1`, up `y-1`. -/
def neighbor (c : Coord) : Dir → Coord
  | Dir.right => (c.1 + 1, c.2)
  | Dir.left => (c.1 - 1, c.2)
  | Dir.down => (c.1, c.2 + 1)
  | Dir.up => (c.1, c.2 - 1)

/-- One line of the door pass:
`if (dungeon[neighbour key] && !r.doors.includes(d)) r.doors.push(d)`. -/
def linkDoor (rooms : Rooms) (c : Coord) (doors : List Dir) (d : Dir) : List Dir :=
  if hasRoom rooms (neighbor c d) && !doors.contains d then doors ++ [d] else doors

/-- The four lines of the door pass for the room under key `c`, in source order. -/
def linkRoom (rooms : Rooms) (c : Coord) (r : Room) : Room :=
  { r with doors := [Dir.right, Dir.left, Dir.down, Dir.up].foldl (linkDoor rooms c) r.doors }

/-- The door pass `for (let key in dungeon)`.  It visits every key once; the tests
`dungeon[..]` only depend on which keys exist, which the pass does not change.  The loop also
visits the key `themeVariant` (value `null`): there `parseInt` yields `NaN`, no key
`"NaN,NaN"` exists, so each of the four conditions is false before `r.doors` is read. -/
def linkDoors (rooms : Rooms) : Rooms :=
  rooms.map fun e => (e.1, linkRoom rooms e.1 e.2)

/-- What `generateDungeon` leaves behind: the room entries of `dungeon` (its `themeVariant` is
`null`), the final values of `count` and `protection`, the number of `Math.random()` calls made,
and whether the `catch` branch ran. -/
structure GenResult where
  rooms : Rooms
  count : Nat
  protection : Nat
  calls : Nat
  raised : Bool
  deriving DecidableEq, Repr

/-- The function `generateDungeon` at `currentLevel = level`, the next `Math.random()` call
being number `calls`: the `try` block (growth loop with its budget of 1000 attempts, then the door
pass) and the `catch` block (the fallback dungeon). -/
def generateDungeon (rnd : Rng) (level : Int) (calls : Nat) : GenResult :=
  match growLoop rnd (targetCount level) 1000 (initGen calls) with
  | Except.ok s =>
    { rooms := linkDoors s.rooms, count := s.count, protection := s.protection,
      calls := s.calls, raised := false }
  | Except.error n =>
    { rooms := [((5, 5), spawnRoom)], count := 0, protection := 0, calls := n, raised := true }

/-- The coordinate `enterDoor` passes to `loadRoom` for a door with `dir = d`, from the room
`(x, y)`: left `nx--`, right `nx++`, up `ny--`, down `ny++`. -/
def enterDoorTarget (c : Coord) (d : Dir) : Coord :=
  let nx := c.1
  let ny := c.2
  let nx := if d = Dir.left then nx - 1 else nx
  let nx := if d = Dir.right then nx + 1 else nx
  let ny := if d = Dir.up then ny - 1 else ny
  let ny := if d = Dir.down then ny + 1 else ny
  (nx, ny)

/-- The stream whose every roll is `0`. -/
def rndZero : Rng := fun _ => ⟨0, 1, by decide⟩

/-- The stream whose every roll is `99/100`. -/
def rndHigh : Rng := fun _ => ⟨99, 100, by decide⟩

/-! ## Reachability -/

/-- Coordinates connected to the Spawn cell by steps between adjacent cells of `keys`. -/
inductive AdjReach (keys : List Coord) : Coord → Prop where
  | spawn : (5, 5) ∈ keys → AdjReach keys (5, 5)
  | step {c : Coord} (d : Dir) : AdjReach keys c → neighbor c d ∈ keys →
      AdjReach keys (neighbor c d)

/-- Coordinates reached from the Spawn room by walking through listed doors: each step leaves a
room record through a door of its `doors` array and arrives at the adjacent coordinate in that
direction. -/
inductive DoorReach (rooms : Rooms) : Coord → Prop where
  | spawn : hasRoom rooms (5, 5) = true → DoorReach rooms (5, 5)
  | step {c : Coord} {r : Room} (d : Dir) : DoorReach rooms c → getRoom rooms c = some r →
      d ∈ r.doors → DoorReach rooms (neighbor c d)

/-- The door on the other side of a doorway. -/
def Dir.opposite : Dir → Dir
  | Dir.right => Dir.left
  | Dir.left => Dir.right
  | Dir.down => Dir.up
  | Dir.up => Dir.down

/-- Number of grid steps between a coordinate and the Spawn cell (5,5). -/
def manhattan (c : Coord) : Nat := (c.1 - 5).natAbs + (c.2 - 5).natAbs

/-- The records the growth loop has created after placing `count` rooms, in placement order. -/
def placedRecords (count : Nat) : List Room :=
  spawnRoom :: (List.range count).map fun i => newRoom (roomTypeFor i)

/-- What the growth loop of `generateDungeon` maintains, `calls0` being the number of
`Math.random()` calls made before the loop. -/
structure GenInv (calls0 : Nat) (s : GenState) : Prop where
  keys : s.rooms.map Prod.fst = s.stack
  nodup : s.stack.Nodup
  head : s.stack.head? = some (5, 5)
  recs : s.rooms.map Prod.snd = placedRecords s.count
  reach : ∀ c ∈ s.stack, AdjReach s.stack c
  dist : ∀ c ∈ s.stack, manhattan c ≤ s.count
  count_le : s.count ≤ s.protection
  progress : 0 < s.protection → 0 < s.count
  calls : s.calls = calls0 + 2 * s.protection

/-- The kind the specification gives to the room with placement ordinal `i`: Shop for 3,
Treasure for 4, Boss for 7, Enemy otherwise. -/
def specRoomKind (i : Nat) : RoomType :=
  if i = 3 then RoomType.shop
  else if i = 4 then RoomType.treasure
  else if i = 7 then RoomType.boss
  else RoomType.enemy

/-- Number of room records of a kind in the dungeon. -/
def countKind (rooms : Rooms) (t : RoomType) : Nat :=
  rooms.countP fun e => decide (e.2.type = t)

/-! ## Scene and game state -/

/-- The `boss` property of a theme: one archetype id or an array of ids. -/
inductive BossKey where
  | one (id : String)
  | pool (ids : List String)
  deriving DecidableEq, Repr

/-- An entry of `mapThemes` (the colour is left out). -/
structure Theme where
  name : String
  enemyPool : List String
  boss : Option BossKey
  deriving DecidableEq, Repr

/-- The table `mapThemes`: `mapThemes[index]`, `none` for an index that is no key. -/
def mapThemes (index : Int) : Option (List Theme) :=
  if index = 1 then some [
      { name := "地下室 A"
        enemyPool := ["chaser", "shooter", "fly", "maggot"]
        boss := some (BossKey.pool ["boss_slime", "boss_monstro"]) },
      { name := "地下室 B"
        enemyPool := ["chaser", "bat", "ghost", "tnt", "red_fly"]
        boss := some (BossKey.pool ["boss_slime", "boss_duke"]) },
      { name := "地下室 C"
        enemyPool := ["shooter", "bat", "blob", "spider_red"]
        boss := some (BossKey.pool ["boss_monstro", "boss_duke"]) } ]
  else   if index = 2 then some [
      { name := "洞穴 A"
        enemyPool := ["chaser", "dasher", "spider", "slimeer", "rock_spider"]
        boss := some (BossKey.one "boss_golem") },
      { name := "洞穴 B"
        enemyPool := ["spider", "dasher", "exploder", "ghost", "tnt", "charger"]
        boss := some (BossKey.pool ["boss_golem", "boss_peep"]) },
      { name := "洞穴 C"
        enemyPool := ["bat", "exploder", "slimeer", "tnt", "leech"]
        boss := some (BossKey.pool ["boss_peep", "boss_golem"]) } ]
  else   if index = 3 then some [
      { name := "深渊 A"
        enemyPool := ["shooter", "turret", "tank", "necromancer", "floating_eye"]
        boss := some (BossKey.one "boss_eye") },
      { name := "深渊 B"
        enemyPool := ["turret", "exploder", "snake", "tnt", "grimace"]
        boss := some (BossKey.pool ["boss_eye", "boss_skeletor"]) },
      { name := "深渊 C"
        enemyPool := ["tank", "spider", "ghost", "portal"]
        boss := some (BossKey.pool ["boss_skeletor", "boss_eye"]) } ]
  else   if index = 4 then some [
      { name := "地狱 A"
        enemyPool := ["dasher", "turret", "tank", "necromancer", "snake", "red_ghost"]
        boss := some (BossKey.one "boss_final") },
      { name := "地狱 B"
        enemyPool := ["exploder", "bat", "tank", "ghost", "tnt", "demon_baby"]
        boss := some (BossKey.one "boss_final") },
      { name := "地狱 C"
        enemyPool := ["spider", "exploder", "dasher", "slimeer", "fire_skull"]
        boss := some (BossKey.one "boss_final") } ]
  else none

/-- The list `loadRoom` uses when `mapThemes[themeIndex]` is missing. -/
def errorThemes : List Theme := [{ name := "Error", enemyPool := ["eye"], boss := none }]

/-- An entry of the catalog `enemyStats`: `hp`, `damage`, `speed`, the optional behaviour id
`ai` and the flag `isBoss` (name, texture, colour and description are left out). -/
structure EnemyStats where
  hp : Nat
  damage : Nat
  speed : Nat
  ai : Option String
  isBoss : Bool
  deriving DecidableEq, Repr

/-- The catalog `enemyStats`, in source order. -/
def enemyStatsTable : List (String × EnemyStats) :=
  [
    ("chaser", EnemyStats.mk 7 1 110 none false),
    ("fly", EnemyStats.mk 4 1 90 none false),
    ("red_fly", EnemyStats.mk 7 1 125 none false),
    ("maggot", EnemyStats.mk 9 1 45 none false),
    ("shooter", EnemyStats.mk 5 1 85 none false),
    ("sniper", EnemyStats.mk 6 2 65 none false),
    ("dasher", EnemyStats.mk 6 1 420 none false),
    ("charger", EnemyStats.mk 9 1 370 none false),
    ("turret", EnemyStats.mk 10 1 0 none false),
    ("grimace", EnemyStats.mk 999 1 0 none false),
    ("spider", EnemyStats.mk 3 1 370 none false),
    ("spider_red", EnemyStats.mk 6 1 400 none false),
    ("rock_spider", EnemyStats.mk 12 1 210 none false),
    ("tank", EnemyStats.mk 18 1 45 none false),
    ("exploder", EnemyStats.mk 3 2 190 none false),
    ("bat", EnemyStats.mk 3 1 130 none false),
    ("ghost", EnemyStats.mk 6 1 65 none false),
    ("red_ghost", EnemyStats.mk 10 1 75 none false),
    ("slimeer", EnemyStats.mk 7 1 75 none false),
    ("leech", EnemyStats.mk 5 1 160 none false),
    ("necromancer", EnemyStats.mk 12 1 110 none false),
    ("snake", EnemyStats.mk 5 1 130 none false),
    ("blob", EnemyStats.mk 9 1 160 none false),
    ("tnt", EnemyStats.mk 1 2 0 none false),
    ("floating_eye", EnemyStats.mk 8 1 110 none false),
    ("demon_baby", EnemyStats.mk 12 1 140 none false),
    ("fire_skull", EnemyStats.mk 9 1 0 none false),
    ("portal", EnemyStats.mk 25 0 0 none false),
    ("fly_black", EnemyStats.mk 4 1 90 (some "bat") false),
    ("fly_white", EnemyStats.mk 8 1 60 (some "bat") false),
    ("fly_green", EnemyStats.mk 5 1 80 (some "bat") false),
    ("fly_bomb", EnemyStats.mk 3 2 100 (some "bat") false),
    ("fly_swarm", EnemyStats.mk 2 1 140 (some "bat") false),
    ("spider_tick", EnemyStats.mk 10 1 100 (some "chaser") false),
    ("spider_jump", EnemyStats.mk 4 1 400 (some "spider") false),
    ("spider_widow", EnemyStats.mk 8 1 200 (some "spider") false),
    ("spider_baby", EnemyStats.mk 1 1 300 (some "chaser") false),
    ("spider_giant", EnemyStats.mk 15 2 150 (some "spider") false),
    ("ghost_poltergeist", EnemyStats.mk 6 1 70 (some "ghost") false),
    ("ghost_wraith", EnemyStats.mk 9 1 80 (some "ghost") false),
    ("ghost_banshee", EnemyStats.mk 5 1 150 (some "ghost") false),
    ("ghost_wisp", EnemyStats.mk 2 1 200 (some "bat") false),
    ("skel_warrior", EnemyStats.mk 8 1 90 (some "chaser") false),
    ("skel_archer", EnemyStats.mk 5 1 60 (some "shooter") false),
    ("zombie", EnemyStats.mk 12 1 40 (some "chaser") false),
    ("ghoul", EnemyStats.mk 10 1 110 (some "chaser") false),
    ("mummy", EnemyStats.mk 15 1 50 (some "chaser") false),
    ("worm_round", EnemyStats.mk 5 1 80 (some "snake") false),
    ("worm_tube", EnemyStats.mk 6 1 0 (some "turret") false),
    ("worm_giant", EnemyStats.mk 20 2 60 (some "snake") false),
    ("bot_probe", EnemyStats.mk 4 1 150 (some "bat") false),
    ("bot_sentry", EnemyStats.mk 10 1 0 (some "turret") false),
    ("bot_mine", EnemyStats.mk 3 3 200 (some "tnt") false),
    ("elem_fire", EnemyStats.mk 8 1 90 (some "chaser") false),
    ("elem_ice", EnemyStats.mk 8 1 90 (some "chaser") false),
    ("elem_void", EnemyStats.mk 15 2 50 (some "ghost") false),
    ("eye_blood", EnemyStats.mk 6 1 80 (some "shooter") false),
    ("eye_laser", EnemyStats.mk 8 1 0 (some "turret") false),
    ("eye_psy", EnemyStats.mk 10 1 80 (some "shooter") false),
    ("mimic", EnemyStats.mk 12 2 120 none false),
    ("doppel", EnemyStats.mk 10 1 100 none false),
    ("shopkeeper_angry", EnemyStats.mk 80 2 180 none false),
    ("boss", EnemyStats.mk 80 1 50 none true),
    ("boss_slime", EnemyStats.mk 70 1 65 none true),
    ("boss_monstro", EnemyStats.mk 90 1 100 none true),
    ("boss_duke", EnemyStats.mk 70 1 35 none true),
    ("boss_golem", EnemyStats.mk 100 1 35 none true),
    ("boss_peep", EnemyStats.mk 110 1 80 none true),
    ("boss_eye", EnemyStats.mk 120 1 0 none true),
    ("boss_skeletor", EnemyStats.mk 100 1 90 none true),
    ("boss_widow", EnemyStats.mk 130 1 110 none true),
    ("boss_haunt", EnemyStats.mk 120 1 70 none true),
    ("boss_pin", EnemyStats.mk 100 1 90 none true),
    ("boss_scolex", EnemyStats.mk 140 1 90 none true),
    ("boss_krampus", EnemyStats.mk 150 2 90 none true),
    ("boss_satan", EnemyStats.mk 200 2 110 none true),
    ("boss_final", EnemyStats.mk 100 1 80 none true) ]

/-- The lookup `enemyStats[type]`. -/
def enemyStats (type : String) : Option EnemyStats := enemyStatsTable.lookup type

/-- The value `num / den` of a roll. -/
def Roll.val (r : Roll) : ℚ := (r.num : ℚ) / (r.den : ℚ)

/-- `Phaser.Math.Between(min, max)`, which Phaser defines as
`Math.floor(Math.random() * (max - min + 1) + min)`, for the roll `r`. -/
def between (r : Roll) (min max : Int) : Int := min + ((r.num : Int) * (max - min + 1)) / r.den

/-! ## Double-precision arithmetic -/

/-- Rounding of a rational to the nearest integer, a tie to the even neighbour. -/
def roundEven (y : ℚ) : Int :=
  if y - ⌊y⌋ < 1 / 2 then ⌊y⌋
  else if 1 / 2 < y - ⌊y⌋ then ⌊y⌋ + 1
  else if ⌊y⌋ % 2 = 0 then ⌊y⌋ else ⌊y⌋ + 1

/-- The exponent `e` of the last place of the double nearest to `x`: the significand
`|x| / 2 ^ e` lies in `[2 ^ 52, 2 ^ 53)`. -/
def ulpExp (x : ℚ) : Int := Int.log 2 |x| - 52

/-- The value of the IEEE 754 binary64 number that a JavaScript operation with the exact
result `x` returns: `x` rounded to a significand of 53 bits, to nearest, a tie to the even
significand.  The exponent range is not modelled: a result of magnitude below `2 ^ -1022` or
from `2 ^ 1024` on, which no level and no multiplier of the game produces, is rounded like any
other.  A decimal literal `c` of the source stands for `fl c`. -/
def fl (x : ℚ) : ℚ := (roundEven (x / 2 ^ ulpExp x) : ℚ) * 2 ^ ulpExp x

/-- The test `Phaser.Math.Distance.Between(x1, y1, x2, y2) < d` for `d >= 0`, on squares. -/
def distLt (x1 y1 x2 y2 d : ℚ) : Bool :=
  decide ((x1 - x2) * (x1 - x2) + (y1 - y2) * (y1 - y2) < d * d)

/-- The globals of `playerStats` that the room, shop and pick-up logic reads or writes. -/
structure PlayerStats where
  playStyle : Option String
  activeItem : Option ItemData
  activeCharge : Int
  maxCharge : Int
  money : Int
  shopDiscount : Bool
  fireRate : ℚ
  speed : ℚ
  range : ℚ
  damage : ℚ
  shotSize : ℚ
  deriving DecidableEq, Repr

/-- A child of the `enemies` group, with the properties `spawnEnemy` sets. -/
structure Enemy where
  x : ℚ
  y : ℚ
  kind : Option String
  aiType : Option String
  active : Bool
  hp : ℚ
  maxHp : ℚ
  damage : ℚ
  moveSpeed : ℚ
  isElite : Bool
  aiState : Int
  aiStateTimer : ℚ
  lastShot : ℚ
  deriving DecidableEq, Repr

/-- A child of the `items` group.  `shopEntry` is the reference to an entry of a room's
`shopItems`: the room key and the index in that array. -/
structure ItemSprite where
  x : ℚ
  y : ℚ
  active : Bool
  dataRef : Option ItemData
  price : Option Int
  shopEntry : Option (Coord × Nat)
  deriving DecidableEq, Repr

/-- A child of the `crates` group.  `dataRef` is the reference to a crate entry of a room's
`terrainLayout`: the room key and the index in `crates`. -/
structure CrateSprite where
  x : Int
  y : Int
  dataRef : Option (Coord × Nat)
  deriving DecidableEq, Repr

/-- A child of the `doors` group: position and `dir`. -/
structure DoorSprite where
  x : Int
  y : Int
  dir : Option Dir
  deriving DecidableEq, Repr

/-- A child of the `coins` group. -/
structure Coin where
  x : ℚ
  y : ℚ
  value : Int
  deriving DecidableEq, Repr

/-- A child of the `bullets` or `enemyBullets` group. -/
structure Bullet where
  active : Bool
  isSwordSlash : Bool
  deriving DecidableEq, Repr

/-- The global state the dungeon system works on: the globals of `game.js` and the children of
the Phaser groups, in creation order. -/
structure Game where
  currentLevel : Int
  difficultyMultiplier : ℚ
  calls : Nat
  themeVariant : Option Theme
  rooms : Rooms
  currentRoom : Coord
  playerX : ℚ
  playerY : ℚ
  stats : PlayerStats
  inventory : List ItemData
  collectionItems : List String
  collectionEnemies : List (Option String)
  storageWrites : Nat
  stored : Option (List String × List (Option String))
  enemies : List Enemy
  bullets : List Bullet
  enemyBullets : List Bullet
  items : List ItemSprite
  coins : List Coin
  doors : List DoorSprite
  stairs : List Pos
  walls : List Pos
  crates : List CrateSprite
  pits : List Pos
  deriving DecidableEq, Repr

/-- What `data.apply(playerStats, data)` leaves behind: the stats, `difficultyMultiplier` and the
number of `Math.random()` calls made. -/
structure ApplyResult where
  stats : PlayerStats
  difficultyMultiplier : ℚ
  calls : Nat

/-- What the dungeon system takes from outside: the random stream, the item pools as they are
after start-up (`poolMelee`, `poolRange`, `poolGeneral`, `itemPool`), the effect of the `apply`
closure of an item descriptor, and whether the n-th `localStorage.setItem` raises. -/
structure Env where
  rnd : Rng
  poolMelee : List ItemData
  poolRange : List ItemData
  poolGeneral : List ItemData
  itemPool : List ItemData
  applyItem : ItemData → Rng → Nat → PlayerStats → ℚ → ApplyResult
  storageFails : Nat → Bool

/-- The state a call that may raise leaves behind, raised or not. -/
def finalState : Except Game Game → Game
  | Except.ok g => g
  | Except.error g => g

/-! ## Terrain -/

/-- The cell centres the loops `for gx = 2..10`, `for gy = 2..7` of `generateRoomTerrain` visit,
in loop order: `x = gx * 64 + 32`, `y = gy * 64 + 32`. -/
def terrainCells : List Pos :=
  (List.range 9).flatMap fun i => (List.range 6).map fun j =>
    { x := ((i : Int) + 2) * 64 + 32, y := ((j : Int) + 2) * 64 + 32 }

/-- What the generation branch of `generateRoomTerrain` builds: the new `terrainLayout`, the
sprites created in the groups `walls`, `pits` and `crates`, and the `Math.random()` counter. -/
structure TerrainGen where
  layout : TerrainLayout
  walls : List Pos
  pits : List Pos
  crates : List CrateSprite
  calls : Nat
  deriving DecidableEq, Repr

/-- The body of the inner loop of `generateRoomTerrain` for the cell centre `p`, in the room with
key `key`: the three `continue` tests, then one roll. -/
def terrainCell (rnd : Rng) (key : Coord) (isBoss : Bool) (t : TerrainGen) (p : Pos) :
    TerrainGen :=
  if (p.x - 400).natAbs < 100 ∧ (p.y - 300).natAbs < 100 then t
  else if (p.x - 400).natAbs < 40 then t
  else if (p.y - 300).natAbs < 40 then t
  else
    let roll := rnd t.calls
    let t1 := { t with calls := t.calls + 1 }
    if isBoss then
      if roll.below 5 100 then
        { t1 with walls := t1.walls ++ [p],
                  layout := { t1.layout with walls := t1.layout.walls ++ [p] } }
      else t1
    else if roll.below 5 100 then
      { t1 with pits := t1.pits ++ [p],
                layout := { t1.layout with pits := t1.layout.pits ++ [p] } }
    else if roll.below 12 100 then
      { t1 with walls := t1.walls ++ [p],
                layout := { t1.layout with walls := t1.layout.walls ++ [p] } }
    else if roll.below 20 100 then
      { t1 with crates := t1.crates ++ [{ x := p.x, y := p.y,
                                          dataRef := some (key, t1.layout.crates.length) }],
                layout := { t1.layout with
                            crates := t1.layout.crates ++ [{ x := p.x, y := p.y,
                                                             destroyed := false }] } }
    else if roll.below 22 100 then
      { t1 with calls := t1.calls + 1 }
    else t1

/-- The crate sprites the reconstruction branch creates for the crate entries `ps`, the first of
which has index `i` in the layout: one per entry that is not destroyed, linked to its entry. -/
def crateSpritesFrom (key : Coord) : Nat → List CrateData → List CrateSprite
  | _, [] => []
  | i, p :: ps =>
    if p.destroyed then crateSpritesFrom key (i + 1) ps
    else { x := p.x, y := p.y, dataRef := some (key, i) } :: crateSpritesFrom key (i + 1) ps

/-- The function `generateRoomTerrain(scene, roomData)` where `roomData` is the record under
`key` (the caller `loadRoom` has checked that it exists). -/
def generateRoomTerrain (env : Env) (key : Coord) (g : Game) : Game :=
  match getRoom g.rooms key with
  | none => g
  | some roomData =>
    if roomData.type = RoomType.spawn ∨ roomData.type = RoomType.shop
        ∨ roomData.type = RoomType.treasure then g
    else
      match roomData.terrainLayout with
      | some layout =>
        { g with walls := g.walls ++ layout.walls
                 pits := g.pits ++ layout.pits
                 crates := g.crates ++ crateSpritesFrom key 0 layout.crates }
      | none =>
        let t := terrainCells.foldl
          (terrainCell env.rnd key (decide (roomData.type = RoomType.boss)))
          { layout := { walls := [], pits := [], crates := [] }, walls := [], pits := [],
            crates := [], calls := g.calls }
        { g with rooms := updateRoom g.rooms key fun r => { r with terrainLayout := some t.layout }
                 walls := g.walls ++ t.walls
                 pits := g.pits ++ t.pits
                 crates := g.crates ++ t.crates
                 calls := t.calls }

/-- The function `spawnCoin(scene, x, y, val)`: one roll decides whether a normal drop appears;
a created coin takes its value from `val` or from a second roll, and two more rolls give its
velocity. -/
def spawnCoin (env : Env) (x y : ℚ) (val : Int) (g : Game) : Game :=
  let r := env.rnd g.calls
  let g1 := { g with calls := g.calls + 1 }
  if decide (r.den < r.num * 2) && decide (val = 0) then g1
  else if val > 0 then
    { g1 with coins := g1.coins ++ [{ x := x, y := y, value := val }], calls := g1.calls + 2 }
  else
    let base : Int := 1 + (g1.currentLevel - 1) / 2
    let rand : Int := ((env.rnd g1.calls).num * (base + 2)) / (2 * (env.rnd g1.calls).den)
    { g1 with coins := g1.coins ++ [{ x := x, y := y, value := max 1 (base + rand) }],
              calls := g1.calls + 3 }

/-- The write `crate.dataRef.destroyed = true` on entry `i` of a layout. -/
def markDestroyed (i : Nat) (layout : TerrainLayout) : TerrainLayout :=
  { layout with crates := layout.crates.modify (fun p => { p with destroyed := true }) i }

/-- The call `bullet.disableBody(true, true)` made unless the bullet is a sword slash. -/
def disableBullet (bl : Bullet) : Bullet :=
  if bl.isSwordSlash then bl else { bl with active := false }

/-- The function `destroyCrate(bullet, crate)` for the crate sprite with index `crateIdx` of the
group `crates` and the bullet with index `bulletIdx` of `bullets` (no bullet for `none`). -/
def destroyCrate (env : Env) (bulletIdx : Option Nat) (crateIdx : Nat) (g : Game) : Game :=
  match g.crates[crateIdx]? with
  | none => g
  | some crate =>
    let g1 :=
      match bulletIdx with
      | some b =>
        { g with bullets := g.bullets.modify disableBullet b }
      | none => g
    let g2 :=
      match crate.dataRef with
      | some (k, i) =>
        { g1 with rooms := updateRoom g1.rooms k fun r =>
            { r with terrainLayout := r.terrainLayout.map (markDestroyed i) } }
      | none => g1
    let roll := env.rnd g2.calls
    let g3 := { g2 with calls := g2.calls + 1 }
    let g4 := if roll.below 15 100 then spawnCoin env crate.x crate.y 0 g3 else g3
    { g4 with crates := g4.crates.eraseIdx crateIdx }

/-! ## Items, doors, stairs -/

/-- The filter callback of `getAvailableItemPool` for an item that is not in the inventory,
with the roll `r` drawn for it. -/
def tierCheck (level : Int) (r : Roll) (poolItem : ItemData) : Bool :=
  let itemTier : Int :=
    match poolItem.tier with
    | some t => t
    | none =>
      max 1 ((match poolItem.price with
              | some p => if p = 0 then 15 else p
              | none => 15) / 15)
  let variance : Int := 0
  let variance : Int := if r.below 15 100 then 1 else variance
  let variance : Int := if r.below 5 100 then 2 else variance
  let maxTier := level + variance
  if poolItem.tier.isSome then
    let minSeriesTier : Int := max 1 (min 8 (level - 3))
    decide (itemTier ≥ minSeriesTier) && decide (itemTier ≤ maxTier)
  else decide (itemTier ≤ maxTier)

/-- The call `selectedPool.filter(..)` of `getAvailableItemPool`: an item of the inventory is
dropped without a roll, every other item draws one roll. -/
def filterPool (rnd : Rng) (level : Int) (inventory : List ItemData) :
    List ItemData → Nat → List ItemData × Nat
  | [], calls => ([], calls)
  | poolItem :: rest, calls =>
    if inventory.any (fun invItem => decide (invItem.id = poolItem.id)) then
      filterPool rnd level inventory rest calls
    else
      let keep := tierCheck level (rnd calls) poolItem
      let res := filterPool rnd level inventory rest (calls + 1)
      (if keep then poolItem :: res.1 else res.1, res.2)

/-- The function `getAvailableItemPool()`: the pool and the `Math.random()` counter after it. -/
def getAvailableItemPool (env : Env) (g : Game) : List ItemData × Nat :=
  let style := g.stats.playStyle.getD "shooter"
  let selectedPool :=
    if style = "sword" then env.poolMelee ++ env.poolGeneral
    else env.poolRange ++ env.poolGeneral
  let res := filterPool env.rnd g.currentLevel g.inventory selectedPool g.calls
  if res.1.length = 0 then
    match env.itemPool.find? (fun i => decide (i.id = "hp_up")) with
    | some breakfast => ([breakfast], res.2)
    | none => (env.itemPool, res.2)
  else res

/-- The function `getRandomItemFromPool()`: `none` is `undefined` (an empty pool). -/
def getRandomItemFromPool (env : Env) (g : Game) : Option ItemData × Nat :=
  let res := getAvailableItemPool env g
  (res.1[(env.rnd res.2).index res.1.length]?, res.2 + 1)

/-- The retry loop of `spawnItem`: up to `n` calls of `getRandomItemFromPool`, stopping at the
first that returns an item. -/
def pickRandomItem (env : Env) : Nat → Game → Option ItemData × Game
  | 0, g => (none, g)
  | n + 1, g =>
    let res := getRandomItemFromPool env g
    match res.1 with
    | some it => (some it, { g with calls := res.2 })
    | none => pickRandomItem env n { g with calls := res.2 }

/-- The function `spawnItem(scene, x, y, specificData)`. -/
def spawnItem (env : Env) (x y : ℚ) (specificData : Option ItemData) (g : Game) : Game :=
  let shift := distLt x y g.playerX g.playerY 60
  let x1 := if shift then x + (if x > g.playerX then 50 else -50) else x
  let y1 := if shift then y + (if y > g.playerY then 50 else -50) else y
  let res :=
    match specificData with
    | some d => (some d, g)
    | none => pickRandomItem env 5 g
  match res.1 with
  | none => res.2
  | some itemData =>
    { res.2 with items := res.2.items ++
        [{ x := x1, y := y1, active := true, dataRef := some itemData, price := none,
           shopEntry := none }] }

/-- The condition `entry.visualRef && entry.visualRef.active` of `spawnShopItemSprite`: an
active item sprite is linked to the entry. -/
def hasActiveVisual (g : Game) (ref : Coord × Nat) : Bool :=
  g.items.any fun s => decide (s.shopEntry = some ref) && s.active

/-- The function `spawnShopItemSprite(scene, entry)` for the entry `ref.2` of the `shopItems`
of the room under `ref.1`. -/
def spawnShopItemSprite (ref : Coord × Nat) (g : Game) : Game :=
  match (getRoom g.rooms ref.1).bind (fun r => r.shopItems) |>.bind (fun l => l[ref.2]?) with
  | none => g
  | some entry =>
    if entry.bought then g
    else if hasActiveVisual g ref then
      { g with items := g.items.map fun s =>
          if s.shopEntry = some ref ∧ s.active then { s with x := entry.x, y := entry.y } else s }
    else
      { g with items := g.items ++
          [{ x := entry.x, y := entry.y, active := true, dataRef := some entry.data,
             price := some entry.price, shopEntry := some ref }] }

/-- The descriptor `Object.assign({}, poolItem)` when `poolItem` is `undefined`. -/
def emptyItem : ItemData := { id := "", price := none, tier := none, type := none }

/-- The smallest integer that is at least `a / b`, for `b > 0` (`Math.ceil`). -/
def ceilDiv (a : Int) (b : Int) : Int := -((-a) / b)

/-- The first part of `spawnShopItem`: the descriptor offered and its price.  A roll below 0.3
gives the potion, otherwise a clone of a random pool item with the inflated price
`Math.ceil(base * (1 + (currentLevel - 1) * 0.15))`, computed in doubles; the discount halves
the price. -/
def shopOffer (env : Env) (g : Game) : ItemData × Game :=
  let roll := env.rnd g.calls
  let g1 := { g with calls := g.calls + 1 }
  let res : ItemData × Game :=
    if roll.below 3 10 then
      ({ id := "potion", price := some (5 + (g1.currentLevel - 1) / 3), tier := none,
         type := none }, g1)
    else
      let pick := getRandomItemFromPool env g1
      let itemData := pick.1.getD emptyItem
      let g2 := { g1 with calls := pick.2 }
      let noPrice : Bool :=
        match itemData.price with
        | some p => decide (p = 0)
        | none => true
      let base : Int :=
        if noPrice then between (env.rnd g2.calls) 7 15 else itemData.price.getD 0
      let g3 := if noPrice then { g2 with calls := g2.calls + 1 } else g2
      let inflation : ℚ := fl (1 + fl (fl ((g3.currentLevel : ℚ) - 1) * fl (15 / 100)))
      ({ itemData with price := some (Int.ceil (fl ((base : ℚ) * inflation))) }, g3)
  if res.2.stats.shopDiscount then
    ({ res.1 with price := some (ceilDiv (res.1.price.getD 0) 2) }, res.2)
  else res

/-- The function `spawnShopItem(scene, x, y)`: the offer is stored as a new entry of the current
room's `shopItems` (one more roll gives the entry its id) and its sprite is created.  It raises
when the current room has no record (`roomData.shopItems` on `undefined`). -/
def spawnShopItem (env : Env) (x y : Int) (g : Game) : Except Game Game :=
  let offer := shopOffer env g
  let g4 := offer.2
  match getRoom g4.rooms g4.currentRoom with
  | none => Except.error g4
  | some roomData =>
    let idx := (roomData.shopItems.getD []).length
    let entry : ShopEntry :=
      { x := x, y := y, data := offer.1, price := offer.1.price.getD 0, bought := false }
    let g5 :=
      { g4 with rooms := updateRoom g4.rooms g4.currentRoom fun r =>
                  { r with shopItems := some (r.shopItems.getD [] ++ [entry]) }
                calls := g4.calls + 1 }
    Except.ok (spawnShopItemSprite (g5.currentRoom, idx) g5)

/-- The door sprite `openDoors` creates for a door string. -/
def doorSprite : Dir → DoorSprite
  | Dir.right => { x := 780, y := 300, dir := some Dir.right }
  | Dir.left => { x := 20, y := 300, dir := some Dir.left }
  | Dir.down => { x := 400, y := 580, dir := some Dir.down }
  | Dir.up => { x := 400, y := 20, dir := some Dir.up }

/-- The function `openDoors(scene, roomData)`: the door sprites are destroyed and one is
created for every entry of `roomData.doors`. -/
def openDoors (roomData : Room) (g : Game) : Game :=
  { g with doors := roomData.doors.map doorSprite }

/-- The function `spawnStairs(scene, x, y)`. -/
def spawnStairs (x y : Int) (g : Game) : Game :=
  if g.stairs.length > 0 then g else { g with stairs := g.stairs ++ [{ x := x, y := y }] }

/-- The function `chargeActiveItem()`. -/
def chargeActiveItem (g : Game) : Game :=
  if g.stats.activeItem.isSome ∧ g.stats.activeCharge < g.stats.maxCharge then
    { g with stats := { g.stats with activeCharge := g.stats.activeCharge + 1 } }
  else g

/-! ## Enemies -/

/-- The call `localStorage.setItem('rog_collection', ..)` of `saveData`: it raises when the
environment says so, otherwise the collection is stored. -/
def writeCollection (env : Env) (g : Game) : Except Game Game :=
  if env.storageFails g.storageWrites then
    Except.error { g with storageWrites := g.storageWrites + 1 }
  else
    Except.ok { g with storageWrites := g.storageWrites + 1
                       stored := some (g.collectionItems, g.collectionEnemies) }

/-- The function `saveData('item', id)`. -/
def saveDataItem (env : Env) (id : String) (g : Game) : Except Game Game :=
  if g.collectionItems.contains id then Except.ok g
  else writeCollection env { g with collectionItems := g.collectionItems ++ [id] }

/-- The function `saveData('enemy', id)`; the id is `none` when the caller passes `undefined`. -/
def saveDataEnemy (env : Env) (id : Option String) (g : Game) : Except Game Game :=
  if g.collectionEnemies.contains id then Except.ok g
  else writeCollection env { g with collectionEnemies := g.collectionEnemies ++ [id] }

/-- The catalog entry `enemyStats['chaser']`, the fallback of `spawnEnemy`. -/
def chaserStats : EnemyStats := { hp := 7, damage := 1, speed := 110, ai := none, isBoss := false }

/-- The function `spawnEnemy(scene, x, y, type)`; `type` is `none` for `undefined`.  It raises
when `saveData` raises and when `type` is `undefined` (at `type.startsWith`).  The numbers of the
source are doubles: every sum and product is rounded by `fl`, in the order of the source, and a
decimal literal `c` stands for `fl c`.  Two steps stay on exact numbers: the integer
`Math.floor((currentLevel - 1) / 1.5)`, whose quotient is an integer or at least 1/3 away from
one, and the comparison of a roll with 0.2, since no double lies between 0.2 and the double it
rounds up to. -/
def spawnEnemy (env : Env) (x y : ℚ) (type : Option String) (g : Game) : Except Game Game :=
  match saveDataEnemy env type g with
  | Except.error g1 => Except.error g1
  | Except.ok g1 =>
    let hpMult : ℚ :=
      fl (fl (1 + fl (fl ((g1.currentLevel : ℚ) - 1) * fl (7 / 10))) * g1.difficultyMultiplier)
    let baseStats : EnemyStats := (type.bind enemyStats).getD chaserStats
    let dmgBonus : Int := ((g1.currentLevel - 1) * 2) / 3
    let draw1 : Bool := decide (g1.currentLevel > 5)
    let dmgBonus : Int :=
      if draw1 && (env.rnd g1.calls).below 2 10 then dmgBonus + 1 else dmgBonus
    let g2 := if draw1 then { g1 with calls := g1.calls + 1 } else g1
    let baseDamage : Int := if baseStats.damage = 0 then 1 else baseStats.damage
    let finalDamage : ℚ := fl (((baseDamage + dmgBonus : Int) : ℚ) * g2.difficultyMultiplier)
    let speedMult : ℚ :=
      fl (1 + min (fl (8 / 10)) (fl (fl ((g2.currentLevel : ℚ) - 1) * fl (8 / 100))))
    match type with
    | none => Except.error g2
    | some ty =>
      let aiType : String :=
        match baseStats.ai with
        | some a => if a = "" then ty else a
        | none => ty
      let hp : ℚ := fl ((baseStats.hp : ℚ) * hpMult)
      let draw2 : Bool := !baseStats.isBoss
      let elite : Bool :=
        draw2 && decide ((env.rnd g2.calls).val <
          fl (fl (5 / 100) + fl ((g2.currentLevel : ℚ) * fl (3 / 100))))
      let g3 := if draw2 then { g2 with calls := g2.calls + 1 } else g2
      let hp : ℚ := if elite then fl (hp * 2) else hp
      let finalDamage : ℚ := if elite then fl (finalDamage + 1) else finalDamage
      let speedMult : ℚ := if elite then fl (speedMult + fl (15 / 100)) else speedMult
      Except.ok
        { g3 with enemies := g3.enemies ++
            [{ x := x, y := y, kind := some ty, aiType := some aiType, active := true,
               hp := hp, maxHp := hp, damage := max 1 finalDamage,
               moveSpeed := fl ((baseStats.speed : ℚ) * speedMult), isElite := elite,
               aiState := 0, aiStateTimer := 0, lastShot := 0 }] }

/-- The condition under which `checkRoomClear` counts an enemy: it is active and its `aiType`
is none of `'grimace'`, `'turret'`, `'tnt'`. -/
def countsAsHostile (e : Enemy) : Bool :=
  e.active && decide (e.aiType ≠ some "grimace") && decide (e.aiType ≠ some "turret")
    && decide (e.aiType ≠ some "tnt")

/-- The counter `activeHostiles` of `checkRoomClear`. -/
def activeHostiles (g : Game) : Nat := (g.enemies.filter countsAsHostile).length

/-- One pass of the loop `for (i < 8) spawnCoin(scene, 400 + Between(-60,60), 520 +
Between(-30,30))`. -/
def bossCoin (env : Env) (g : Game) : Game :=
  let cx : Int := 400 + between (env.rnd g.calls) (-60) 60
  let cy : Int := 520 + between (env.rnd (g.calls + 1)) (-30) 30
  spawnCoin env cx cy 0 { g with calls := g.calls + 2 }

/-- The reward of `checkRoomClear`: one roll, and below 0.15 in a room that is no boss room an
item at the room centre. -/
def roomClearReward (env : Env) (roomData : Room) (g : Game) : Game :=
  let roll := env.rnd g.calls
  let g4 := { g with calls := g.calls + 1 }
  if roll.below 15 100 && decide (roomData.type ≠ RoomType.boss) then
    spawnItem env 400 300 none g4
  else g4

/-- The boss part of `checkRoomClear`: the stairs and the eight coin drops. -/
def bossClear (env : Env) (roomData : Room) (g : Game) : Game :=
  if roomData.type = RoomType.boss then
    (List.range 8).foldl (fun acc _ => bossCoin env acc) (spawnStairs 400 300 g)
  else g

/-- The function `checkRoomClear(scene)`: when the current room is not cleared and no counted
enemy is left, `cleared = true`, the active item is charged, the doors are opened, then the
reward, the boss drops, and the doors once more. -/
def checkRoomClear (env : Env) (g : Game) : Game :=
  match getRoom g.rooms g.currentRoom with
  | none => g
  | some roomData =>
    if !roomData.cleared && decide (activeHostiles g = 0) then
      let g1 := { g with rooms := updateRoom g.rooms g.currentRoom fun r =>
                    { r with cleared := true } }
      openDoors roomData (bossClear env roomData (roomClearReward env roomData
        (openDoors roomData (chargeActiveItem g1))))
    else g

/-! ## loadRoom -/

/-- The overlap test of the spawn loops: some obstacle of the layout that is not destroyed lies
within `d` of `(ex, ey)` on both axes (walls and pits have no `destroyed` property). -/
def collides (layout : TerrainLayout) (ex ey : Int) (d : Nat) : Bool :=
  layout.walls.any (fun o => decide ((ex - o.x).natAbs < d) && decide ((ey - o.y).natAbs < d))
  || layout.pits.any (fun o => decide ((ex - o.x).natAbs < d) && decide ((ey - o.y).natAbs < d))
  || layout.crates.any (fun o => !o.destroyed && decide ((ex - o.x).natAbs < d)
      && decide ((ey - o.y).natAbs < d))

/-- The `do .. while (!valid && attempts < 50)` loop that places a wave enemy, with `n` attempts
allowed after the one being made: the position of the last candidate drawn and the
`Math.random()` counter. -/
def findSpot (env : Env) (layout : Option TerrainLayout) (px py : ℚ) :
    Nat → Nat → Int × Int × Nat
  | n, calls =>
    let ex := between (env.rnd calls) 100 700
    let ey := between (env.rnd (calls + 1)) 100 500
    let colliding :=
      match layout with
      | some l => collides l ex ey 45
      | none => false
    let valid := !colliding && !distLt ex ey px py 250
    if valid then (ex, ey, calls + 2)
    else
      match n with
      | 0 => (ex, ey, calls + 2)
      | m + 1 => findSpot env layout px py m (calls + 2)

/-- One pass of the loop `for (i < count)` of the enemy branch of `loadRoom`. -/
def spawnWaveEnemy (env : Env) (key : Coord) (pool : List String) (g : Game) :
    Except Game Game :=
  let etype := pool[(between (env.rnd g.calls) 0 ((pool.length : Int) - 1)).toNat]?
  let layout := (getRoom g.rooms key).bind fun r => r.terrainLayout
  let spot := findSpot env layout g.playerX g.playerY 49 (g.calls + 1)
  spawnEnemy env spot.1 spot.2.1 etype { g with calls := spot.2.2 }

/-- The loop `for (i < count)` of the enemy branch of `loadRoom`; a raise ends it. -/
def spawnWave (env : Env) (key : Coord) (pool : List String) : Nat → Game → Except Game Game
  | 0, g => Except.ok g
  | n + 1, g =>
    match spawnWaveEnemy env key pool g with
    | Except.ok g1 => spawnWave env key pool n g1
    | Except.error g1 => Except.error g1

/-- The loop `while (!valid && attempts < 50)` that moves the boss out of obstacles, with `n`
attempts left. -/
def findBossSpot (env : Env) (layout : TerrainLayout) : Nat → Int → Int → Nat → Int × Int × Nat
  | 0, bx, by_, calls => (bx, by_, calls)
  | n + 1, bx, by_, calls =>
    if collides layout bx by_ 60 then
      findBossSpot env layout n (between (env.rnd calls) 200 600)
        (between (env.rnd (calls + 1)) 150 450) (calls + 2)
    else (bx, by_, calls)

/-- A string used as a condition: `undefined` and the empty string are falsy. -/
def truthy (s : Option String) : Bool :=
  match s with
  | some v => decide (v ≠ "")
  | none => false

/-- The archetype of the boss in the boss branch of `loadRoom`: `theme.boss || 'boss'`, and for
an array the `bossType` stored in the room record, drawn and stored on the first visit. -/
def pickBossKey (env : Env) (key : Coord) (theme : Theme) (g : Game) : Option String × Game :=
  let bossKey : BossKey :=
    match theme.boss with
    | some (BossKey.one s) => if s = "" then BossKey.one "boss" else BossKey.one s
    | some (BossKey.pool l) => BossKey.pool l
    | none => BossKey.one "boss"
  match bossKey with
  | BossKey.one s => (some s, g)
  | BossKey.pool l =>
    match getRoom g.rooms key with
    | none => (none, g)
    | some roomData =>
      if truthy roomData.bossType then (roomData.bossType, g)
      else
        let pick := l[(env.rnd g.calls).index l.length]?
        (pick, { g with rooms := updateRoom g.rooms key fun r => { r with bossType := pick }
                        calls := g.calls + 1 })

/-- The boss branch of `loadRoom` for the room under `key` with the theme `theme`. -/
def spawnBoss (env : Env) (key : Coord) (theme : Theme) (g : Game) : Except Game Game :=
  let res := pickBossKey env key theme g
  let g1 := res.2
  let close := distLt 400 150 g1.playerX g1.playerY 250
  let by0 : Int := if close then (if g1.playerY < 300 then 450 else 150) else 150
  let bx0 : Int := 400
  let spot : Int × Int × Nat :=
    match (getRoom g1.rooms key).bind fun r => r.terrainLayout with
    | some layout => findBossSpot env layout 50 bx0 by0 g1.calls
    | none => (bx0, by0, g1.calls)
  spawnEnemy env spot.1 spot.2.1 res.1 { g1 with calls := spot.2.2 }

/-- The loop `for (i < slots) spawnShopItem(scene, startX + i * gap, 300)`, from slot `i`. -/
def spawnShopSlots (env : Env) (startX gap : Int) : Nat → Nat → Game → Except Game Game
  | 0, _, g => Except.ok g
  | n + 1, i, g =>
    match spawnShopItem env (startX + i * gap) 300 g with
    | Except.ok g1 => spawnShopSlots env startX gap n (i + 1) g1
    | Except.error g1 => Except.error g1

/-- The first visit of a shop: `shopGenerated = true`, then 3 slots (4 from level 2, 5 from
level 5) filled by `spawnShopItem` at `startX + i * gap`. -/
def generateShop (env : Env) (key : Coord) (g : Game) : Except Game Game :=
  let g3 := { g with rooms := updateRoom g.rooms key fun r => { r with shopGenerated := true } }
  let slots : Nat := 3
  let slots : Nat := if g3.currentLevel ≥ 2 then 4 else slots
  let slots : Nat := if g3.currentLevel ≥ 5 then 5 else slots
  let startX : Int := if slots = 3 then 300 else if slots = 4 then 250 else 200
  spawnShopSlots env startX 100 slots 0 g3

/-- A later visit of a shop: `roomData.shopItems.forEach(entry => spawnShopItemSprite(scene,
entry))`. -/
def respawnShop (key : Coord) (roomData : Room) (g : Game) : Game :=
  match roomData.shopItems with
  | some l => (List.range l.length).foldl (fun acc i => spawnShopItemSprite (key, i) acc) g
  | none => g

/-- The shop part of the cleared branch of `loadRoom`. -/
def shopBranch (env : Env) (key : Coord) (roomData : Room) (g : Game) : Except Game Game :=
  if roomData.type = RoomType.shop ∧ roomData.shopGenerated = false then generateShop env key g
  else if roomData.type = RoomType.shop ∧ roomData.shopGenerated = true then
    Except.ok (respawnShop key roomData g)
  else Except.ok g

/-- The treasure part of the cleared branch of `loadRoom`. -/
def treasureReward (env : Env) (roomData : Room) (g : Game) : Game :=
  if roomData.type = RoomType.treasure ∧ roomData.itemTaken = false then
    spawnItem env 400 300 none g
  else g

/-- The cleared branch of `loadRoom` for the room under `key`: doors, treasure reward, shop,
stairs of a boss room. -/
def loadCleared (env : Env) (key : Coord) (roomData : Room) (g : Game) : Except Game Game :=
  match shopBranch env key roomData (treasureReward env roomData (openDoors roomData g)) with
  | Except.error g4 => Except.error g4
  | Except.ok g4 =>
    if roomData.type = RoomType.boss then Except.ok (spawnStairs 400 300 g4) else Except.ok g4

/-- The array `neighbors` of `loadRoom`. -/
def neighbors : List (Int × Int) := [(0, 1), (0, -1), (1, 0), (-1, 0)]

/-- The writes `roomData.visited = true` and `dungeon[key].seen = true` for the four
neighbours, in the order of the array `neighbors`. -/
def markVisited (key : Coord) (rooms : Rooms) : Rooms :=
  neighbors.foldl (fun acc dir => updateRoom acc (key.1 + dir.1, key.2 + dir.2) fun r =>
      { r with seen := true })
    (updateRoom rooms key fun r => { r with visited := true })

/-- The calls `clear(true, true)` of `loadRoom` on the groups `enemies`, `bullets`,
`enemyBullets`, `items`, `doors`, `stairs`, `walls`, `crates` and `pits`. -/
def clearGroups (g : Game) : Game :=
  { g with enemies := [], bullets := [], enemyBullets := [], items := [], doors := [],
           stairs := [], walls := [], crates := [], pits := [] }

/-- The loop `roomData.droppedItems.forEach(drop => spawnItem(scene, drop.x, drop.y,
drop.data))`. -/
def restoreDrops (env : Env) (drops : List Drop) (g : Game) : Game :=
  drops.foldl (fun acc drop => spawnItem env drop.x drop.y (some drop.data) acc) g

/-- The theme step of `loadRoom`: when `dungeon.themeVariant` is not set, one roll picks it from
`mapThemes[(currentLevel - 1) % 4 + 1]`, or from the error list when that entry is missing. -/
def chooseTheme (env : Env) (g : Game) : Game :=
  let themeIndex : Int := Int.tmod (g.currentLevel - 1) 4 + 1
  let themeList : List Theme := (mapThemes themeIndex).getD errorThemes
  if g.themeVariant.isNone then
    { g with themeVariant := themeList[(env.rnd g.calls).index themeList.length]?
             calls := g.calls + 1 }
  else g

/-- The size of an enemy wave: `Phaser.Math.Between(minC, Math.min(10, maxC))` with
`minC = 2 + floor(level * 0.4)` and `maxC = 4 + floor(level * 0.5)`. -/
def waveCount (r : Roll) (level : Int) : Int :=
  let minC : Int := 2 + (level * 2) / 5
  let maxC : Int := 4 + level / 2
  between r minC (min 10 maxC)

/-- The last part of `loadRoom`: the enemy wave or the boss of a room that is not cleared, the
cleared branch otherwise. -/
def populateRoom (env : Env) (key : Coord) (theme : Theme) (roomData : Room) (g : Game) :
    Except Game Game :=
  if roomData.cleared = false then
    if roomData.type = RoomType.enemy then
      spawnWave env key theme.enemyPool (waveCount (env.rnd g.calls) g.currentLevel).toNat
        { g with calls := g.calls + 1 }
    else if roomData.type = RoomType.boss then spawnBoss env key theme g
    else Except.ok g
  else loadCleared env key roomData g

/-- The part of the `try` block of `loadRoom` after the theme step, for the room under `key`:
the `visited` and `seen` flags, the group clears, the terrain, the dropped items, then the
enemies or the cleared branch. -/
def enterRoom (env : Env) (key : Coord) (theme : Theme) (g : Game) : Except Game Game :=
  let g3 :=
    generateRoomTerrain env key (clearGroups { g with rooms := markVisited key g.rooms })
  match getRoom g3.rooms key with
  | none => Except.error g3
  | some roomData =>
    populateRoom env key theme roomData (restoreDrops env (roomData.droppedItems.getD []) g3)

/-- The `try` block of `loadRoom(scene, x, y)`; `Except.error` is the state in which an
exception was raised.  Order: `currentRoom`, the missing-room return, the theme (reading
`theme.color` of an unset theme raises), then `enterRoom`. -/
def loadRoomBody (env : Env) (x y : Int) (g : Game) : Except Game Game :=
  let key : Coord := (x, y)
  let g0 := { g with currentRoom := key }
  match getRoom g0.rooms key with
  | none => Except.ok g0
  | some _ =>
    match (chooseTheme env g0).themeVariant with
    | none => Except.error (chooseTheme env g0)
    | some theme => enterRoom env key theme (chooseTheme env g0)

/-- The function `loadRoom(scene, x, y)`: the `catch` block only logs, so the state in which
an exception was raised stays. -/
def loadRoom (env : Env) (x y : Int) (g : Game) : Game :=
  finalState (loadRoomBody env x y g)

/-! ## enterDoor, pickItem -/

/-- The list `enterDoor` stores in `droppedItems`: one entry for every child of `items` that is
active and has a `dataRef`, with its position at that moment. -/
def floorDrops (items : List ItemSprite) : List Drop :=
  items.filterMap fun item =>
    match item.dataRef with
    | some d => if item.active then some { x := item.x, y := item.y, data := d } else none
    | none => none

/-- The position `enterDoor` gives the player for a door direction. -/
def entryPoint (d : Dir) : ℚ × ℚ :=
  let px : ℚ := 400
  let py : ℚ := 300
  let (px, py) := if d = Dir.left then ((700 : ℚ), (300 : ℚ)) else (px, py)
  let (px, py) := if d = Dir.right then ((100 : ℚ), (300 : ℚ)) else (px, py)
  let (px, py) := if d = Dir.up then ((400 : ℚ), (500 : ℚ)) else (px, py)
  let (px, py) := if d = Dir.down then ((400 : ℚ), (100 : ℚ)) else (px, py)
  (px, py)

/-- The function `enterDoor(player, door)` for the door sprite with index `doorIdx` of the
group `doors`. -/
def enterDoor (env : Env) (doorIdx : Nat) (g : Game) : Game :=
  match g.doors[doorIdx]? with
  | none => g
  | some door =>
    match door.dir with
    | none => g
    | some d =>
      let g1 :=
        { g with rooms := updateRoom g.rooms g.currentRoom fun r =>
            { r with droppedItems := some (floorDrops g.items) } }
      let target := enterDoorTarget g1.currentRoom d
      let g2 := { g1 with playerX := (entryPoint d).1, playerY := (entryPoint d).2 }
      loadRoom env target.1 target.2 g2

/-- The write `item.shopEntry.bought = true` on entry `i` of a `shopItems` array. -/
def markBought (i : Nat) (l : List ShopEntry) : List ShopEntry :=
  l.modify (fun e => { e with bought := true }) i

/-- The clamps `pickItem` applies to `playerStats` after `data.apply`. -/
def clampStats (s : PlayerStats) : PlayerStats :=
  { s with fireRate := max 60 s.fireRate
           speed := min 450 (max 100 s.speed)
           range := max 100 (min 1200 s.range)
           damage := max (1 / 2) s.damage
           shotSize := max (2 / 10) (min 5 s.shotSize) }

/-- The shop check of `pickItem` for an item with a price the player can pay: the money is
taken and the linked shop entry is marked as bought. -/
def payForItem (item : ItemSprite) (g : Game) : Game :=
  let g0 := { g with stats := { g.stats with money := g.stats.money - item.price.getD 0 } }
  match item.shopEntry with
  | some ref =>
    { g0 with rooms := updateRoom g0.rooms ref.1 fun r =>
        { r with shopItems := r.shopItems.map (markBought ref.2) } }
  | none => g0

/-- Sequencing of two calls that may raise: the second runs only when the first returned. -/
def andThen (r : Except Game Game) (f : Game → Except Game Game) : Except Game Game :=
  match r with
  | Except.ok g => f g
  | Except.error g => Except.error g

/-- The call `data.apply(playerStats, data)` followed by the clamps of `pickItem`. -/
def applyAndClamp (env : Env) (data : ItemData) (g : Game) : Game :=
  let res := env.applyItem data env.rnd g.calls g.stats g.difficultyMultiplier
  { g with stats := clampStats res.stats
           difficultyMultiplier := res.difficultyMultiplier
           calls := res.calls }

/-- The statement `if (dungeon[key].type === 'treasure') dungeon[key].itemTaken = true` of
`pickItem`; it raises when the current room has no record. -/
def markTaken (g : Game) : Except Game Game :=
  match getRoom g.rooms g.currentRoom with
  | none => Except.error g
  | some roomData =>
    if roomData.type = RoomType.treasure then
      Except.ok { g with rooms := updateRoom g.rooms g.currentRoom fun r =>
                    { r with itemTaken := true } }
    else Except.ok g

/-- The part of `pickItem` after the shop check for a descriptor that is no active item:
`data.apply`, the clamps, `saveData`, the inventory, `itemTaken` in a treasure room, `saveData`
again and the destruction of the sprite. -/
def collectItem (env : Env) (itemIdx : Nat) (data : ItemData) (g : Game) : Except Game Game :=
  andThen (saveDataItem env data.id (applyAndClamp env data g)) fun g3 =>
  andThen (markTaken { g3 with inventory := g3.inventory ++ [data] }) fun g5 =>
  andThen (saveDataItem env data.id g5) fun g6 =>
  Except.ok { g6 with items := g6.items.eraseIdx itemIdx }

/-- The condition `item.price` of `pickItem`: the sprite has a price that is not 0. -/
def priced (item : ItemSprite) : Bool :=
  match item.price with
  | some p => decide (p ≠ 0)
  | none => false

/-- The part of `pickItem` after the shop check: an item without `dataRef` raises, an active
item is equipped, any other item is collected. -/
def takeItem (env : Env) (itemIdx : Nat) (item : ItemSprite) (g : Game) : Except Game Game :=
  match item.dataRef with
  | none => Except.error g
  | some data =>
    if data.type = some "active" then
      Except.ok { g with stats := { g.stats with activeItem := some data, maxCharge := 3,
                                                 activeCharge := 3 } }
    else collectItem env itemIdx data g

/-- The function `pickItem(player, item)` for the item sprite with index `itemIdx` of the group
`items`.  A priced item the player cannot pay is left; otherwise the price is paid.  The sprite
of an active item is destroyed only by the pick-up tween, which is not part of this call.  The
call raises on an item without `dataRef`, when `saveData` raises, and when the current room has
no record. -/
def pickItem (env : Env) (itemIdx : Nat) (g : Game) : Except Game Game :=
  match g.items[itemIdx]? with
  | none => Except.ok g
  | some item =>
    if priced item && decide (g.stats.money < item.price.getD 0) then Except.ok g
    else takeItem env itemIdx item (if priced item then payForItem item g else g)

/-! ## Events -/

/-- The events of the room life cycle within one level: a tick that runs `checkRoomClear`, a
room load, the player touching a door or an item, an enemy spawn, a bullet hitting a crate. -/
inductive Op where
  | checkRoomClear
  | loadRoom (x y : Int)
  | enterDoor (doorIdx : Nat)
  | pickItem (itemIdx : Nat)
  | spawnEnemy (x y : ℚ) (type : Option String)
  | destroyCrate (bulletIdx : Option Nat) (crateIdx : Nat)

/-- The state after an event; the state in which a call raised stays as it is. -/
def step (env : Env) (g : Game) : Op → Game
  | Op.checkRoomClear => checkRoomClear env g
  | Op.loadRoom x y => loadRoom env x y g
  | Op.enterDoor i => enterDoor env i g
  | Op.pickItem i => finalState (pickItem env i g)
  | Op.spawnEnemy x y type => finalState (spawnEnemy env x y type g)
  | Op.destroyCrate b c => destroyCrate env b c g

/-- The state after a sequence of events. -/
def run (env : Env) (g : Game) (ops : List Op) : Game := ops.foldl (step env) g

/-! ## Relations between states -/

/-- Crate entries that differ at most by `destroyed` flags switched from false to true. -/
def CratesLe (ps qs : List CrateData) : Prop :=
  List.Forall₂ (fun p q => q.x = p.x ∧ q.y = p.y ∧ (p.destroyed = true → q.destroyed = true)) ps qs

/-- A layout and a later version of it: same walls and pits, crates equal up to `destroyed`
flags switched from false to true. -/
def LayoutLe (a b : TerrainLayout) : Prop :=
  b.walls = a.walls ∧ b.pits = a.pits ∧ CratesLe a.crates b.crates

/-- The kinds of room for which `generateRoomTerrain` returns at once. -/
def plainKind (t : RoomType) : Prop :=
  t = RoomType.spawn ∨ t = RoomType.shop ∨ t = RoomType.treasure

/-- A room record and a later version of it: the kind and the doors are the same, `cleared`
is not reset, a layout that exists stays, up to crates being destroyed, and a layout appears
only in a room that is no Spawn, Shop or Treasure room. -/
def RoomLe (r r2 : Room) : Prop :=
  r2.type = r.type ∧ r2.doors = r.doors ∧ (r.cleared = true → r2.cleared = true) ∧
    (∀ a, r.terrainLayout = some a → ∃ b, r2.terrainLayout = some b ∧ LayoutLe a b) ∧
    (r2.terrainLayout.isSome = true → r.terrainLayout.isSome = true ∨ ¬ plainKind r.type)

/-- A room record and a later version of it whose layout, if it existed, is untouched. -/
def RoomKeep (r r2 : Room) : Prop :=
  r2.type = r.type ∧ r2.doors = r.doors ∧ (r.cleared = true → r2.cleared = true) ∧
    (∀ a, r.terrainLayout = some a → r2.terrainLayout = some a) ∧
    (r2.terrainLayout.isSome = true → r.terrainLayout.isSome = true ∨ ¬ plainKind r.type)

/-- Two optional records related by `R`, both present or both absent. -/
def optRel (R : Room → Room → Prop) : Option Room → Option Room → Prop
  | some r, some r2 => R r r2
  | none, none => True
  | _, _ => False

/-- Two dungeons with the same keys whose records are related by `R`. -/
def RoomsRel (R : Room → Room → Prop) (rooms rooms2 : Rooms) : Prop :=
  ∀ c, optRel R (getRoom rooms c) (getRoom rooms2 c)

/-- The layout stored in the record under `c`, if any. -/
def layoutAt (g : Game) (c : Coord) : Option TerrainLayout :=
  (getRoom g.rooms c).bind fun r => r.terrainLayout
/-- What the helper calls that only create sprites or draw random numbers leave as it is: the
dungeon, the current room and level, the theme, the terrain sprites, the enemies and the player
position. -/
structure Untouched (g g2 : Game) : Prop where
  rooms : g2.rooms = g.rooms
  currentRoom : g2.currentRoom = g.currentRoom
  currentLevel : g2.currentLevel = g.currentLevel
  themeVariant : g2.themeVariant = g.themeVariant
  walls : g2.walls = g.walls
  pits : g2.pits = g.pits
  crates : g2.crates = g.crates
  enemies : g2.enemies = g.enemies
  playerX : g2.playerX = g.playerX
  playerY : g2.playerY = g.playerY

/-- What every call made inside a room leaves as it is: the current room and level, the theme,
the terrain sprites, and the room records up to `RoomKeep`. -/
structure Stays (g g2 : Game) : Prop where
  rooms : RoomsRel RoomKeep g.rooms g2.rooms
  currentRoom : g2.currentRoom = g.currentRoom
  currentLevel : g2.currentLevel = g.currentLevel
  themeVariant : g2.themeVariant = g.themeVariant
  walls : g2.walls = g.walls
  pits : g2.pits = g.pits
  crates : g2.crates = g.crates

/-- The obstacle sprites on screen are those of the room record under `c`: none for a Spawn,
Shop or Treasure room; otherwise the walls and pits of its layout and one crate sprite, linked
to its entry, for every crate of the layout that is not destroyed. -/
def Synced (c : Coord) (g : Game) : Prop :=
  ∃ r, getRoom g.rooms c = some r ∧
    (plainKind r.type → g.walls = [] ∧ g.pits = [] ∧ g.crates = []) ∧
    (¬ plainKind r.type →
      ∃ a, r.terrainLayout = some a ∧ g.walls = a.walls ∧ g.pits = a.pits ∧
        g.crates = crateSpritesFrom c 0 a.crates)

/-- The sprites built by the generation branch agree with the layout built with them. -/
def TerrainGen.Ok (key : Coord) (t : TerrainGen) : Prop :=
  t.walls = t.layout.walls ∧ t.pits = t.layout.pits ∧
    t.crates = crateSpritesFrom key 0 t.layout.crates

/-- The events that happen inside the room on screen: everything but a room load and a door. -/
def Op.isLocal : Op → Bool
  | Op.checkRoomClear => true
  | Op.pickItem _ => true
  | Op.spawnEnemy _ _ _ => true
  | Op.destroyCrate _ _ => true
  | Op.loadRoom _ _ => false
  | Op.enterDoor _ => false

/-- The coordinate an event passes to `loadRoom`, if it loads a room: the coordinates of a
load, and for a door with a `dir` the coordinate `enterDoor` computes from the current room. -/
def loadTarget (g : Game) : Op → Option Coord
  | Op.loadRoom x y => some (x, y)
  | Op.enterDoor i => ((g.doors[i]?).bind fun d => d.dir).map (enterDoorTarget g.currentRoom)
  | _ => none

/-- A sequence of events, played from `g`, that never loads the room `c`. -/
def Away (env : Env) (c : Coord) : Game → List Op → Prop
  | _, [] => True
  | g, op :: ops => loadTarget g op ≠ some c ∧ Away env c (step env g op) ops

/-- No crate sprite on screen is linked to a crate entry of the room `c`. -/
def NoRef (c : Coord) (g : Game) : Prop :=
  ∀ s ∈ g.crates, ∀ i, s.dataRef ≠ some (c, i)

/-- Every layout of the dungeon belongs to a room that is no Spawn, Shop or Treasure room. -/
def LayoutsTyped (rooms : Rooms) : Prop :=
  ∀ c r, getRoom rooms c = some r → r.terrainLayout.isSome = true → ¬ plainKind r.type

/-! ## Sample states -/

/-- An environment with every roll 0, empty item pools, items without effect and a storage
that never raises. -/
def sampleEnv : Env :=
  { rnd := rndZero
    poolMelee := []
    poolRange := []
    poolGeneral := []
    itemPool := []
    applyItem := fun _ _ calls stats difficulty =>
      { stats := stats, difficultyMultiplier := difficulty, calls := calls }
    storageFails := fun _ => false }

/-- The values `playerStats` starts with. -/
def initialStats : PlayerStats :=
  { playStyle := some "shooter", activeItem := none, activeCharge := 0, maxCharge := 0,
    money := 0, shopDiscount := false, fireRate := 450, speed := 180, range := 500,
    damage := 1, shotSize := 9 / 10 }

/-- The dungeon `generateDungeon` builds at level 1 when every roll is 0: Spawn and one Enemy
room below it. -/
def sampleRooms : Rooms :=
  [((5, 5), { type := RoomType.spawn, cleared := true, doors := [Dir.down] }),
   ((5, 6), { type := RoomType.enemy, cleared := false, doors := [Dir.up] })]

/-- The state right after `generateDungeon` at level 1 with the dungeon `sampleRooms`, before
the first room is loaded. -/
def sampleGame : Game :=
  { currentLevel := 1, difficultyMultiplier := 1, calls := 0, themeVariant := none,
    rooms := sampleRooms, currentRoom := (0, 0), playerX := 400, playerY := 300,
    stats := initialStats, inventory := [], collectionItems := [], collectionEnemies := [],
    storageWrites := 0, stored := none, enemies := [], bullets := [], enemyBullets := [],
    items := [], coins := [], doors := [], stairs := [], walls := [], crates := [], pits := [] }

/-- A stone head: an active enemy with the behaviour id `'grimace'`. -/
def sampleGrimace : Enemy :=
  { x := 200, y := 200, kind := some "grimace", aiType := some "grimace", active := true,
    hp := 999, maxHp := 999, damage := 1, moveSpeed := 0, isElite := false, aiState := 0,
    aiStateTimer := 0, lastShot := 0 }

/-- The player stands in the Enemy room (5,6) of `sampleRooms`, which is not cleared, and the
only enemy left is a stone head. -/
def sampleFight : Game :=
  { sampleGame with currentRoom := (5, 6), enemies := [sampleGrimace] }

/-- An Enemy room record with a persisted layout: one wall, one pit, a destroyed crate and an
intact crate. -/
def sampleTerrainRoom : Room :=
  { type := RoomType.enemy, cleared := true, doors := [Dir.up],
    terrainLayout := some
      { walls := [{ x := 160, y := 160 }], pits := [{ x := 224, y := 160 }],
        crates := [{ x := 160, y := 480, destroyed := true },
                   { x := 224, y := 480, destroyed := false }] } }

/-- The dungeon `sampleRooms` with the Enemy room replaced by `sampleTerrainRoom`. -/
def sampleVisited : Game :=
  { sampleGame with
    rooms := [((5, 5), { type := RoomType.spawn, cleared := true, doors := [Dir.down] }),
              ((5, 6), sampleTerrainRoom)] }

/-- The state in which the player leaves room `c`: room `c` was loaded from `g0` and the events
`stay` happened inside it. -/
def exitState (env : Env) (g0 : Game) (c : Coord) (stay : List Op) : Game :=
  run env (loadRoom env c.1 c.2 g0) stay

/-- The state after coming back to room `c`: from `exitState` the event `exitOp` loads another
room, the events `rest` follow, then room `c` is loaded again. -/
def backState (env : Env) (g0 : Game) (c : Coord) (stay : List Op) (exitOp : Op)
    (rest : List Op) : Game :=
  loadRoom env c.1 c.2 (run env (step env (exitState env g0 c stay) exitOp) rest)

/-- The obstacle positions recorded in a layout: its walls, its pits and its crates. -/
def layoutPositions (a : TerrainLayout) : List Pos :=
  a.walls ++ a.pits ++ a.crates.map fun c => { x := c.x, y := c.y }

/-- The point `(qx, qy)` lies in the square of 64 by 64 pixels centred at `p`. -/
def inFootprint (p : Pos) (qx qy : ℚ) : Prop :=
  |qx - (p.x : ℚ)| ≤ 32 ∧ |qy - (p.y : ℚ)| ≤ 32

/-- The dungeon `sampleRooms` with a Shop room in place of the Enemy room; the shop has not
been generated yet. -/
def sampleShop : Game :=
  { sampleGame with
    rooms := [((5, 5), { type := RoomType.spawn, cleared := true, doors := [Dir.down] }),
              ((5, 6), { type := RoomType.shop, cleared := true, doors := [Dir.up] })] }

/-- A room record and a later version of it with the same kind, the same `droppedItems` and the
same `itemTaken`. -/
def DropKeep (r r2 : Room) : Prop :=
  r2.type = r.type ∧ r2.droppedItems = r.droppedItems ∧ r2.itemTaken = r.itemTaken

/-- What the calls that spawn enemies leave as it is: the items, doors and stairs on screen, the
player position, the current room, and in every room record what `DropKeep` names. -/
structure Quiet (g g2 : Game) : Prop where
  rooms : RoomsRel DropKeep g.rooms g2.rooms
  currentRoom : g2.currentRoom = g.currentRoom
  playerX : g2.playerX = g.playerX
  playerY : g2.playerY = g.playerY
  items : g2.items = g.items
  doors : g2.doors = g.doors
  stairs : g2.stairs = g.stairs

/-- What the calls made inside a room leave as it is, apart from the pick-up of a treasure and
the snapshot of `enterDoor`: like `Stays`, with `DropKeep` on the room records. -/
structure Drops (g g2 : Game) : Prop where
  rooms : RoomsRel DropKeep g.rooms g2.rooms
  currentRoom : g2.currentRoom = g.currentRoom
  currentLevel : g2.currentLevel = g.currentLevel
  themeVariant : g2.themeVariant = g.themeVariant
  walls : g2.walls = g.walls
  pits : g2.pits = g.pits
  crates : g2.crates = g.crates

/-- The sprite `spawnItem` creates for a stored drop while the player stands at `(px, py)`: a
drop closer than 60 to the player is moved by 50 on both axes. -/
def restoredItem (px py : ℚ) (d : Drop) : ItemSprite :=
  { x := if distLt d.x d.y px py 60 then d.x + (if d.x > px then 50 else -50) else d.x
    y := if distLt d.x d.y px py 60 then d.y + (if d.y > py then 50 else -50) else d.y
    active := true, dataRef := some d.data, price := none, shopEntry := none }

/-- The record of room `c` keeps what `DropKeep` names, and the current room stays. -/
def DropsAt (c : Coord) (g g2 : Game) : Prop :=
  optRel DropKeep (getRoom g.rooms c) (getRoom g2.rooms c) ∧ g2.currentRoom = g.currentRoom

/-- The first entry of `poolGeneral`. -/
def hpUp : ItemData := { id := "hp_up", price := some 10, tier := none, type := some "stat" }

/-- The environment `sampleEnv` with `hpUp` as the only item of `poolGeneral` and `itemPool`. -/
def samplePoolEnv : Env := { sampleEnv with poolGeneral := [hpUp], itemPool := [hpUp] }

/-- The player stands in the Spawn room of `sampleVisited`, its door is open and one item lies
on the floor at `(400, 480)`. -/
def sampleFloor : Game :=
  { sampleVisited with
    currentRoom := (5, 5)
    items := [{ x := 400, y := 480, active := true, dataRef := some hpUp, price := none,
                shopEntry := none }]
    doors := [doorSprite Dir.down] }

/-- The dungeon `sampleRooms` with a Treasure room in place of the Enemy room. -/
def sampleTreasure : Game :=
  { sampleGame with
    rooms := [((5, 5), { type := RoomType.spawn, cleared := true, doors := [Dir.down] }),
              ((5, 6), { type := RoomType.treasure, cleared := true, doors := [Dir.up] })] }

/-- The state `sampleFloor` with one coin lying in the room. -/
def sampleCoins : Game :=
  { sampleFloor with coins := [{ x := 300, y := 300, value := 1 }] }

/-- The enemy a call of `spawnEnemy` has created: the last child of `enemies` when the call
returned, none when it raised. -/
def spawned : Except Game Game → Option Enemy
  | Except.ok g => g.enemies.getLast?
  | Except.error _ => none

/-- The entry of `enemyStats` that `spawnEnemy` uses for `type`: the `'chaser'` entry when
there is none. -/
def baseStatsOf (type : String) : EnemyStats := (enemyStats type).getD chaserStats

/-- The roll `spawnEnemy` compares with 0.2 for the extra damage; it is drawn only when the
level is above 5. -/
def bonusRoll (env : Env) (g : Game) : Roll := env.rnd g.calls

/-- The roll `spawnEnemy` compares with `0.05 + level * 0.03` for the elite promotion; it is
drawn only for an archetype that is no boss, after the damage roll when there was one. -/
def eliteRoll (env : Env) (g : Game) : Roll :=
  env.rnd (if g.currentLevel > 5 then g.calls + 1 else g.calls)

/-- Reference formula, in double arithmetic:
`hpMultiplier = (1 + (level - 1) * 0.7) * difficultyMultiplier`. -/
def specHpMult (level : Int) (difficulty : ℚ) : ℚ :=
  fl (fl (1 + fl (fl ((level : ℚ) - 1) * fl (7 / 10))) * difficulty)

/-- Reference formula, in double arithmetic: the bound `0.05 + level * 0.03` of the elite
promotion. -/
def specEliteBound (level : Int) : ℚ := fl (fl (5 / 100) + fl ((level : ℚ) * fl (3 / 100)))

/-- Reference formula: `damageBonus = floor((level - 1) / 1.5)`, plus 1 when `level > 5` and the
roll is below 0.2. -/
def specDamageBonus (level : Int) (roll : Roll) : Int :=
  Int.floor (((level : ℚ) - 1) / (3 / 2)) + (if level > 5 ∧ roll.val < 2 / 10 then 1 else 0)

/-- Reference formula, in double arithmetic: the scaled damage before the floor of 1 is
applied, `(base damage, or 1 if it is 0, + damageBonus) * difficultyMultiplier`. -/
def specScaledDamage (base : EnemyStats) (level : Int) (difficulty : ℚ) (roll : Roll) : ℚ :=
  fl ((((if base.damage = 0 then 1 else (base.damage : Int)) + specDamageBonus level roll : Int)
    : ℚ) * difficulty)

/-- Reference formula, in double arithmetic:
`speedMultiplier = 1 + min(0.8, (level - 1) * 0.08)`. -/
def specSpeedMult (level : Int) : ℚ :=
  fl (1 + min (fl (8 / 10)) (fl (fl ((level : ℚ) - 1) * fl (8 / 100))))

/-- Reference formula, in double arithmetic: `base hp * hpMultiplier`. -/
def specHp (base : EnemyStats) (level : Int) (difficulty : ℚ) : ℚ :=
  fl ((base.hp : ℚ) * specHpMult level difficulty)

/-- Reference formula, in double arithmetic: `base speed * speedMultiplier`. -/
def specMoveSpeed (base : EnemyStats) (speedMult : ℚ) : ℚ := fl ((base.speed : ℚ) * speedMult)

/-- The state `sampleGame` on level 5. -/
def sampleLevel5 : Game := { sampleGame with currentLevel := 5 }

/-- The state `sampleGame` on level 2 with the difficulty of the hard mode, 1.5. -/
def sampleHard : Game := { sampleGame with currentLevel := 2, difficultyMultiplier := 3 / 2 }

/-- The array `selectedPool` of `getAvailableItemPool`: melee and general items for the play
style `'sword'`, ranged and general items otherwise. -/
def selectedPool (env : Env) (g : Game) : List ItemData :=
  if g.stats.playStyle.getD "shooter" = "sword" then env.poolMelee ++ env.poolGeneral
  else env.poolRange ++ env.poolGeneral

/-- Reference: the variance a roll gives, 2 below 0.05, 1 from 0.05 to below 0.15, else 0. -/
def specVariance (r : Roll) : Int :=
  if r.val < 5 / 100 then 2 else if r.val < 15 / 100 then 1 else 0

/-- Reference: the tier of an item, its explicit tier for a series item and
`max(1, floor((price or 15) / 15))` for a one-off item. -/
def specTier (item : ItemData) : Int :=
  match item.tier with
  | some t => t
  | none =>
    max 1 (Int.floor ((((match item.price with
                         | some p => if p = 0 then 15 else p
                         | none => 15 : Int) : ℚ)) / 15))

/-- Reference: tier eligibility at a level with a variance.  A series item needs
`max(1, min(8, level - 3)) <= tier <= level + variance`, a one-off item `tier <= level +
variance`. -/
def specEligible (level variance : Int) (item : ItemData) : Bool :=
  if item.tier.isSome then
    decide (max 1 (min 8 (level - 3)) ≤ specTier item) && decide (specTier item ≤ level + variance)
  else decide (specTier item ≤ level + variance)

/-- Reference: the items of a pool that are not in the inventory (by id) and are eligible, each
item that is not in the inventory with the next roll of the stream. -/
def specFilter (rnd : Rng) (level : Int) (inventory : List ItemData) :
    List ItemData → Nat → List ItemData
  | [], _ => []
  | item :: rest, calls =>
    if inventory.any (fun invItem => decide (invItem.id = item.id)) then
      specFilter rnd level inventory rest calls
    else if specEligible level (specVariance (rnd calls)) item then
      item :: specFilter rnd level inventory rest (calls + 1)
    else specFilter rnd level inventory rest (calls + 1)

/-- The loop of `createTalentSelection` that removes duplicates by id: an item is kept when
its id is not in `seenIds` yet. -/
def dedupLoop (seenIds : List String) : List ItemData → List ItemData
  | [] => []
  | item :: rest =>
    if seenIds.contains item.id then dedupLoop seenIds rest
    else item :: dedupLoop (item.id :: seenIds) rest

/-- The loop `for (i < 3)` of `createTalentSelection` with `n` passes left: it stops on an empty
pool, otherwise one roll picks an entry, which is pushed to `options` and spliced out. -/
def pickOptions (rnd : Rng) : Nat → List ItemData → Nat → List ItemData × Nat
  | 0, _, calls => ([], calls)
  | n + 1, poolCopy, calls =>
    if poolCopy.length = 0 then ([], calls)
    else
      let idx := (rnd calls).index poolCopy.length
      let res := pickOptions rnd n (poolCopy.eraseIdx idx) (calls + 1)
      match poolCopy[idx]? with
      | some item => (item :: res.1, res.2)
      | none => res

/-- The array `options` built by `createTalentSelection(scene, onComplete)` and the
`Math.random()` counter after it. -/
def createTalentSelection (env : Env) (g : Game) : List ItemData × Nat :=
  let res := getAvailableItemPool env g
  pickOptions env.rnd 3 (dedupLoop [] res.1) res.2

/-- The branch of the `if .. else if` chain of `update` that runs for an enemy with the
behaviour id `aiType` that is neither frozen nor feared: the id the branch tests for, `"boss"`
for the branch `aiType.startsWith('boss')`, and none when no branch runs (the chain has no
final `else`). -/
def dispatchBranch (aiType : String) : Option String :=
  if aiType = "chaser" then some "chaser"
  else if aiType = "shooter" then some "shooter"
  else if aiType = "ghost" then some "ghost"
  else if aiType = "slimeer" then some "slimeer"
  else if aiType = "necromancer" then some "necromancer"
  else if aiType = "snake" then some "snake"
  else if aiType = "blob" then some "blob"
  else if aiType = "tnt" then some "tnt"
  else if aiType = "dasher" then some "dasher"
  else if aiType = "turret" then some "turret"
  else if aiType = "grimace" then some "grimace"
  else if aiType = "spider" then some "spider"
  else if aiType = "tank" then some "tank"
  else if aiType = "exploder" then some "exploder"
  else if aiType = "bat" then some "bat"
  else if aiType.startsWith "boss" then some "boss"
  else none

/-- The environment `sampleEnv` with a storage whose every write raises. -/
def sampleFailEnv : Env := { sampleEnv with storageFails := fun _ => true }

/-- The environment `sampleEnv` with every roll 99/100. -/
def sampleHighEnv : Env := { sampleEnv with rnd := rndHigh }

/-- The player stands in the Boss room (5,6), which is not cleared, and no enemy is left. -/
def sampleBoss : Game :=
  { sampleGame with
    rooms := [((5, 5), { type := RoomType.spawn, cleared := true, doors := [Dir.down] }),
              ((5, 6), { type := RoomType.boss, cleared := false, doors := [Dir.up] })]
    currentRoom := (5, 6) }

/-- A call that creates at most `n` coins and leaves the items, the stairs, the enemies and the
dungeon as they are. -/
def CoinStep (n : Nat) (g g2 : Game) : Prop :=
  (∃ l : List Coin, g2.coins = g.coins ++ l ∧ l.length ≤ n) ∧ g2.items = g.items ∧
    g2.stairs = g.stairs ∧ g2.enemies = g.enemies ∧ g2.rooms = g.rooms ∧
    g2.currentRoom = g.currentRoom

/-- The `k`-th candidate position the placement loop draws when its first roll has index
`calls`: `Between(100, 700)` and `Between(100, 500)`. -/
def candidate (env : Env) (calls k : Nat) : Int × Int :=
  (between (env.rnd (calls + 2 * k)) 100 700, between (env.rnd (calls + 2 * k + 1)) 100 500)

/-- Reference: a candidate is valid when it is at least 250 away from the player and not within
45 px on both axes of any wall, pit or non-destroyed crate of the persisted layout. -/
def validSpot (layout : Option TerrainLayout) (px py : ℚ) (p : Int × Int) : Bool :=
  decide ((250 : ℚ) * 250 ≤ ((p.1 : ℚ) - px) * ((p.1 : ℚ) - px) + ((p.2 : ℚ) - py) * ((p.2 : ℚ) - py))
  && (match layout with
      | none => true
      | some l =>
        l.walls.all (fun o => !(decide ((p.1 - o.x).natAbs < 45) && decide ((p.2 - o.y).natAbs < 45)))
        && l.pits.all (fun o =>
            !(decide ((p.1 - o.x).natAbs < 45) && decide ((p.2 - o.y).natAbs < 45)))
        && l.crates.all (fun o => o.destroyed ||
            !(decide ((p.1 - o.x).natAbs < 45) && decide ((p.2 - o.y).natAbs < 45))))

/-- What an eligible cell of `generateRoomTerrain` gets. -/
inductive CellKind where
  | pit | wall | crate | debris | empty
  deriving DecidableEq, Repr

/-- The three skip tests of `generateRoomTerrain` passed: the cell is outside the central
square and outside both door lanes. -/
def eligibleCell (p : Pos) : Bool :=
  !(decide ((p.x - 400).natAbs < 100) && decide ((p.y - 300).natAbs < 100)) &&
    !decide ((p.x - 400).natAbs < 40) && !decide ((p.y - 300).natAbs < 40)

/-- What the specification gives a cell with roll `r`.  Boss room: a wall below 0.05, else
nothing.  Enemy room: a pit below 0.05, a wall in `[0.05, 0.12)`, a crate in `[0.12, 0.20)`,
decoration that is not persisted in `[0.20, 0.22)`, else nothing. -/
def specCellKind (isBoss : Bool) (r : Roll) : CellKind :=
  if isBoss then
    if r.val < 5 / 100 then CellKind.wall else CellKind.empty
  else if r.val < 5 / 100 then CellKind.pit
  else if 5 / 100 ≤ r.val ∧ r.val < 12 / 100 then CellKind.wall
  else if 12 / 100 ≤ r.val ∧ r.val < 20 / 100 then CellKind.crate
  else if 20 / 100 ≤ r.val ∧ r.val < 22 / 100 then CellKind.debris
  else CellKind.empty

/-- The roll of every eligible cell of `cells`, in loop order, when the random stream stands at
`calls`: every eligible cell draws one roll, and a decoration draws one more for its rotation. -/
def cellRolls (rnd : Rng) (isBoss : Bool) : Nat → List Pos → List (Pos × Roll)
  | _, [] => []
  | calls, p :: ps =>
    if eligibleCell p then
      (p, rnd calls) ::
        cellRolls rnd isBoss
          (if specCellKind isBoss (rnd calls) = CellKind.debris then calls + 2 else calls + 1) ps
    else cellRolls rnd isBoss calls ps

/-- The cells of a list of rolled cells that get `kind`. -/
def cellsOf (isBoss : Bool) (kind : CellKind) (rolled : List (Pos × Roll)) : List Pos :=
  (rolled.filter fun q => decide (specCellKind isBoss q.2 = kind)).map fun q => q.1

/-- The layout the specification gives a room whose eligible cells have the rolls `rolled`. -/
def specLayout (isBoss : Bool) (rolled : List (Pos × Roll)) : TerrainLayout :=
  { walls := cellsOf isBoss CellKind.wall rolled
    pits := cellsOf isBoss CellKind.pit rolled
    crates := (cellsOf isBoss CellKind.crate rolled).map fun p =>
      { x := p.x, y := p.y, destroyed := false } }

/-- The record of the Enemy room (5,6) of `sampleRooms`. -/
def sampleEnemyRoom : Room := { type := RoomType.enemy, cleared := false, doors := [Dir.up] }

/-- What one tick of `update` does to a boss: its record after the tick, the speed of the last
velocity command (0 for `setVelocity(0,0)`, `v` for `moveToObject(e, player, v)`, none when no
command ran), the number of `enemyFire` calls, and the cursor of the random stream. -/
structure BossTick where
  enemy : Enemy
  velocity : Option ℚ
  fired : Nat
  calls : Nat
  deriving DecidableEq, Repr

/-- The toggle at the head of the branch `aiType.startsWith('boss')` of `update`: when `time`
is past `aiStateTimer`, `aiState` becomes `(aiState + 1) % 2` and the timer `time + 3000`. -/
def bossToggle (time : ℚ) (e : Enemy) : Enemy :=
  if time > e.aiStateTimer then
    { e with aiState := Int.tmod (e.aiState + 1) 2, aiStateTimer := time + 3000 }
  else e

/-- The branch `aiType === 'boss_monstro'` of `update`, run on the record the toggle left:
Prep (state 0) stops and with a roll below 0.05 enters state 1 with a timer of 1000 ms; Jump
(state 1) moves at the player at speed 400 and, when `time` is past the timer, lands: state 2,
timer `time + 1000`, stop, twelve `enemyFire` calls; any other state (Recover) stops and goes
to state 0 when `time` is past the timer.  Scale and camera effects are left out. -/
def monstroBranch (rnd : Rng) (calls : Nat) (time : ℚ) (e : Enemy) : BossTick :=
  if e.aiState = 0 then
    if (rnd calls).below 5 100 then
      { enemy := { e with aiState := 1, aiStateTimer := time + 1000 }, velocity := some 0,
        fired := 0, calls := calls + 1 }
    else { enemy := e, velocity := some 0, fired := 0, calls := calls + 1 }
  else if e.aiState = 1 then
    if time > e.aiStateTimer then
      { enemy := { e with aiState := 2, aiStateTimer := time + 1000 }, velocity := some 0,
        fired := 12, calls := calls }
    else { enemy := e, velocity := some 400, fired := 0, calls := calls }
  else if time > e.aiStateTimer then
    { enemy := { e with aiState := 0 }, velocity := some 0, fired := 0, calls := calls }
  else { enemy := e, velocity := some 0, fired := 0, calls := calls }

/-- One tick of `update` at `time` for an active enemy with `aiType === 'boss_monstro'` that
is neither frozen nor feared: the shared toggle, then the Monstro branch. -/
def updateMonstro (rnd : Rng) (calls : Nat) (time : ℚ) (e : Enemy) : BossTick :=
  monstroBranch rnd calls time (bossToggle time e)

/-- The ticks of `update` at the times of the list, in order, for a Monstro: the record and
the stream cursor after the last tick, and the `enemyFire` calls of all ticks together. -/
def monstroTicks (rnd : Rng) : List ℚ → BossTick → BossTick
  | [], s => s
  | time :: rest, s =>
    let s1 := updateMonstro rnd s.calls time s.enemy
    monstroTicks rnd rest { s1 with fired := s.fired + s1.fired }

/-- A Monstro as `spawnEnemy` creates it on level 1: `aiState` 0 and `aiStateTimer` 0. -/
def sampleMonstro : Enemy :=
  { x := 400, y := 300, kind := some "boss_monstro", aiType := some "boss_monstro",
    active := true, hp := 90, maxHp := 90, damage := 1, moveSpeed := 100, isElite := false,
    aiState := 0, aiStateTimer := 0, lastShot := 0 }

/-- The start of a run of ticks for `e`: nothing fired, the stream at its first roll. -/
def tickStart (e : Enemy) : BossTick := { enemy := e, velocity := none, fired := 0, calls := 0 }

/-- The events of a room change or a clearance: `checkRoomClear`, `enterDoor`, and `loadRoom`
at a coordinate that has a record in `rooms`. -/
def roomOp (rooms : Rooms) : Op → Bool
  | Op.checkRoomClear => true
  | Op.enterDoor _ => true
  | Op.loadRoom x y => hasRoom rooms (x, y)
  | _ => false

/-- Every door string of every record leads, by the coordinate `enterDoor` computes, to a
coordinate that has a record. -/
def DoorsLinked (rooms : Rooms) : Prop :=
  ∀ p ∈ rooms, ∀ d ∈ p.2.doors, hasRoom rooms (enterDoorTarget p.1 d) = true

/-- The door sprites on screen: none, or those `openDoors` creates for the record of the
current room, and that record has `cleared = true`. -/
def DoorsOk (g : Game) : Prop :=
  g.doors = [] ∨ ∃ r, getRoom g.rooms g.currentRoom = some r ∧ r.cleared = true ∧
    g.doors = r.doors.map doorSprite

/-- What the calls of the cleared branch of `loadRoom` after `openDoors` leave as it is: the
door sprites and the enemies. -/
structure Settled (g g2 : Game) : Prop where
  doors : g2.doors = g.doors
  enemies : g2.enemies = g.enemies

/-- A pool item with base price 25. -/
def sampleItem25 : ItemData := { id := "big", price := some 25, tier := none, type := some "stat" }

/-- An environment whose pools hold only `sampleItem25` and whose rolls are high. -/
def samplePriceEnv : Env := { sampleHighEnv with poolGeneral := [sampleItem25], itemPool := [sampleItem25] }

/-- The sample game on level 9. -/
def sampleLevel9 : Game := { sampleGame with currentLevel := 9 }

/-! ## Basic facts -/

theorem Roll.index_lt (r : Roll) {n : Nat} (hn : 0 < n) : r.index n < n := by
  have hd : 0 < r.den := lt_of_le_of_lt (Nat.zero_le _) r.lt
  unfold Roll.index
  rw [Nat.div_lt_iff_lt_mul hd]
  exact Nat.mul_lt_mul_of_lt_of_le r.lt (le_refl n) hn |>.trans_eq (Nat.mul_comm _ _)

theorem hasRoom_iff_mem (rooms : Rooms) (c : Coord) :
    hasRoom rooms c = true ↔ c ∈ rooms.map Prod.fst := by
  induction rooms with
  | nil => simp [hasRoom, getRoom]
  | cons e es ih =>
    obtain ⟨k, v⟩ := e
    by_cases h : c = k
    · subst h
      simp [hasRoom, getRoom, List.lookup]
    · have hb : (c == k) = false := by simpa using h
      simp only [hasRoom, getRoom, List.lookup, hb, List.map_cons, List.mem_cons] at ih ⊢
      rw [ih]
      simp [h]

theorem getRoom_mem {rooms : Rooms} {c : Coord} {r : Room} (h : getRoom rooms c = some r) :
    (c, r) ∈ rooms := by
  induction rooms with
  | nil => simp [getRoom] at h
  | cons e es ih =>
    obtain ⟨k, v⟩ := e
    by_cases hk : c = k
    · subst hk
      simp [getRoom, List.lookup] at h
      simp [h]
    · have hb : (c == k) = false := by simpa using hk
      simp only [getRoom, List.lookup, hb] at h
      exact List.mem_cons_of_mem _ (ih h)

theorem getRoom_map (f : Coord → Room → Room) (rooms : Rooms) (c : Coord) :
    getRoom (rooms.map fun e => (e.1, f e.1 e.2)) c = (getRoom rooms c).map (f c) := by
  induction rooms with
  | nil => simp [getRoom]
  | cons e es ih =>
    obtain ⟨k, v⟩ := e
    by_cases hk : c = k
    · subst hk
      simp [getRoom, List.lookup]
    · have hb : (c == k) = false := by simpa using hk
      simp only [getRoom, List.lookup, hb, List.map_cons] at ih ⊢
      exact ih

theorem AdjReach.adjReach_mono {keys keys2 : List Coord} (h : ∀ c ∈ keys, c ∈ keys2) {c : Coord}
    (hc : AdjReach keys c) : AdjReach keys2 c := by
  induction hc with
  | spawn h5 => exact AdjReach.spawn (h _ h5)
  | step d _ hn ih => exact AdjReach.step d ih (h _ hn)

theorem dirs_neighbor {dir : Int × Int} (h : dir ∈ dirs) (c : Coord) :
    ∃ d : Dir, ((c.1 + dir.1, c.2 + dir.2) : Coord) = neighbor c d := by
  simp only [dirs, List.mem_cons, List.mem_singleton, List.not_mem_nil, or_false] at h
  rcases h with h | h | h | h <;> subst h
  · exact ⟨Dir.down, by simp [neighbor]⟩
  · exact ⟨Dir.up, by simp [neighbor, sub_eq_add_neg]⟩
  · exact ⟨Dir.right, by simp [neighbor]⟩
  · exact ⟨Dir.left, by simp [neighbor, sub_eq_add_neg]⟩

theorem manhattan_neighbor (c : Coord) (d : Dir) : manhattan (neighbor c d) ≤ manhattan c + 1 := by
  cases d <;> simp only [manhattan, neighbor] <;> omega

theorem neighbor_ne (c : Coord) (d : Dir) : neighbor c d ≠ c := by
  intro h
  cases d <;> simp only [neighbor] at h <;>
    · have h1 := congrArg Prod.fst h
      have h2 := congrArg Prod.snd h
      simp only at h1 h2
      omega

theorem two_le_length_of_mem_ne {α : Type} {l : List α} {a b : α} (ha : a ∈ l) (hb : b ∈ l)
    (hab : a ≠ b) : 2 ≤ l.length := by
  match l, ha, hb with
  | [x], ha, hb =>
    simp only [List.mem_singleton] at ha hb
    exact absurd (ha.trans hb.symm) hab
  | _ :: _ :: _, _, _ => simp

theorem placedRecords_succ (n : Nat) :
    placedRecords (n + 1) = placedRecords n ++ [newRoom (roomTypeFor n)] := by
  simp [placedRecords, List.range_succ]

theorem genInv_init (calls0 : Nat) : GenInv calls0 (initGen calls0) where
  keys := rfl
  nodup := by simp [initGen]
  head := rfl
  recs := rfl
  reach := by
    intro c hc
    simp only [initGen, List.mem_singleton] at hc
    subst hc
    exact AdjReach.spawn (by simp [initGen])
  dist := by
    intro c hc
    simp only [initGen, List.mem_singleton] at hc
    subst hc
    simp [manhattan]
  count_le := le_refl _
  progress := by simp [initGen]
  calls := by simp [initGen]

theorem growStep_spec (rnd : Rng) {calls0 : Nat} {s : GenState} (h : GenInv calls0 s) :
    ∃ s1, growStep rnd s = Except.ok s1 ∧ GenInv calls0 s1 ∧
      s1.protection = s.protection + 1 ∧
      (s1.count = s.count ∨ s1.count = s.count + 1) := by
  have hpos : 0 < s.stack.length := by
    cases hs : s.stack with
    | nil => have := h.head; simp [hs] at this
    | cons a l => simp
  have hi := Roll.index_lt (rnd s.calls) hpos
  have hj : (rnd (s.calls + 1)).index dirs.length < dirs.length :=
    Roll.index_lt _ (by simp [dirs])
  have hcur : s.stack[(rnd s.calls).index s.stack.length]? =
      some (s.stack[(rnd s.calls).index s.stack.length]) := List.getElem?_eq_getElem hi
  have hdir : dirs[(rnd (s.calls + 1)).index dirs.length]? =
      some (dirs[(rnd (s.calls + 1)).index dirs.length]) := List.getElem?_eq_getElem hj
  have hcmem : s.stack[(rnd s.calls).index s.stack.length] ∈ s.stack := List.getElem_mem _
  have hdmem : dirs[(rnd (s.calls + 1)).index dirs.length] ∈ dirs := List.getElem_mem _
  generalize s.stack[(rnd s.calls).index s.stack.length] = current at hcur hcmem
  generalize dirs[(rnd (s.calls + 1)).index dirs.length] = dir at hdir hdmem
  obtain ⟨d, hd⟩ := dirs_neighbor hdmem current
  unfold growStep
  rw [hcur, hdir]
  simp only
  rw [hd]
  by_cases hex : hasRoom s.rooms (neighbor current d) = true
  · rw [if_pos hex]
    refine ⟨_, rfl, ?_, rfl, Or.inl rfl⟩
    have hmem : neighbor current d ∈ s.stack := by
      rw [← h.keys, ← hasRoom_iff_mem]; exact hex
    have hne : neighbor current d ≠ current := neighbor_ne current d
    have hlen : s.stack.length = s.count + 1 := by
      have h1 := congrArg List.length h.keys
      have h2 := congrArg List.length h.recs
      simp only [List.length_map, placedRecords, List.length_cons, List.length_range] at h1 h2
      omega
    have htwo : 2 ≤ s.stack.length := two_le_length_of_mem_ne hmem hcmem hne
    exact
      { keys := h.keys, nodup := h.nodup, head := h.head, recs := h.recs, reach := h.reach,
        dist := h.dist, count_le := Nat.le_succ_of_le h.count_le,
        progress := fun _ => by show 0 < s.count; omega,
        calls := by simp only [h.calls]; omega }
  · rw [if_neg hex]
    refine ⟨_, rfl, ?_, rfl, Or.inr rfl⟩
    have hnew : neighbor current d ∉ s.stack := by
      rw [← h.keys, ← hasRoom_iff_mem]; exact hex
    have hsub : ∀ c ∈ s.stack, c ∈ s.stack ++ [neighbor current d] :=
      fun c hc => List.mem_append_left _ hc
    exact
      { keys := by simp [h.keys]
        nodup := by
          rw [List.nodup_append]
          refine ⟨h.nodup, List.nodup_singleton _, ?_⟩
          intro a ha hb
          simp only [List.mem_singleton] at hb
          subst hb
          exact hnew ha
        head := by
          cases hs : s.stack with
          | nil => simp [hs] at hpos
          | cons a l => have := h.head; simp [hs] at this ⊢; exact this
        recs := by simp [h.recs, placedRecords_succ]
        reach := by
          intro c hc
          rcases List.mem_append.1 hc with hc | hc
          · exact (h.reach c hc).adjReach_mono hsub
          · simp only [List.mem_singleton] at hc
            subst hc
            exact AdjReach.step d ((h.reach _ hcmem).adjReach_mono hsub) (by simp)
        dist := by
          intro c hc
          rcases List.mem_append.1 hc with hc | hc
          · exact Nat.le_succ_of_le (h.dist c hc)
          · simp only [List.mem_singleton] at hc
            subst hc
            have := manhattan_neighbor current d
            have := h.dist _ hcmem
            show _ ≤ s.count + 1
            omega
        count_le := Nat.succ_le_succ h.count_le
        progress := fun _ => Nat.succ_pos _
        calls := by simp only [h.calls]; omega }

theorem growLoop_spec (rnd : Rng) (target : Int) (calls0 : Nat) :
    ∀ (fuel : Nat) (s : GenState), GenInv calls0 s → s.protection + fuel = 1000 →
      ((s.count : Int) ≤ target ∨ s.count = 0) →
      ∃ s1, growLoop rnd target fuel s = Except.ok s1 ∧ GenInv calls0 s1 ∧
        s1.protection ≤ 1000 ∧ loopGuard target s1 = false ∧
        ((s1.count : Int) ≤ target ∨ s1.count = 0) := by
  intro fuel
  induction fuel with
  | zero =>
    intro s h hp hc
    refine ⟨s, rfl, h, by omega, ?_, hc⟩
    have : ¬ s.protection < 1000 := by omega
    simp [loopGuard, this]
  | succ n ih =>
    intro s h hp hc
    unfold growLoop
    by_cases hg : loopGuard target s = true
    · rw [if_pos hg]
      obtain ⟨s1, hs1, hinv, hprot, hcount⟩ := growStep_spec rnd h
      rw [hs1]
      simp only
      have hlt : (s.count : Int) < target := by
        simp only [loopGuard, Bool.and_eq_true, decide_eq_true_eq] at hg
        exact hg.1.2
      apply ih s1 hinv (by omega)
      rcases hcount with hcount | hcount <;> rw [hcount]
      · exact Or.inl (le_of_lt hlt)
      · left; push_cast; omega
    · rw [if_neg hg]
      exact ⟨s, rfl, h, by omega, by simpa using hg, hc⟩

/-- The result of `generateDungeon` comes from a final loop state: the loop ran without raising
and stopped because its guard failed. -/
theorem generateDungeon_spec (rnd : Rng) (level : Int) (calls : Nat) :
    ∃ s : GenState, GenInv calls s ∧ s.protection ≤ 1000 ∧
      loopGuard (targetCount level) s = false ∧
      ((s.count : Int) ≤ targetCount level ∨ s.count = 0) ∧
      generateDungeon rnd level calls =
        { rooms := linkDoors s.rooms, count := s.count, protection := s.protection,
          calls := s.calls, raised := false } := by
  obtain ⟨s, hs, hinv, hp, hg, hc⟩ :=
    growLoop_spec rnd (targetCount level) calls 1000 (initGen calls) (genInv_init calls)
      (by simp [initGen]) (Or.inr rfl)
  exact ⟨s, hinv, hp, hg, hc, by simp [generateDungeon, hs]⟩

theorem AdjReach.mem {keys : List Coord} {c : Coord} (h : AdjReach keys c) : c ∈ keys := by
  cases h with
  | spawn h5 => exact h5
  | step d _ hn => exact hn

theorem linkRoom_doors (rooms : Rooms) (c : Coord) (r : Room) (h : r.doors = []) :
    (linkRoom rooms c r).doors =
      [Dir.right, Dir.left, Dir.down, Dir.up].filter fun d => hasRoom rooms (neighbor c d) := by
  simp only [linkRoom, h, List.foldl, linkDoor, List.filter]
  cases hasRoom rooms (neighbor c Dir.right) <;> cases hasRoom rooms (neighbor c Dir.left) <;>
    cases hasRoom rooms (neighbor c Dir.down) <;> cases hasRoom rooms (neighbor c Dir.up) <;>
    rfl

theorem getRoom_linkDoors (rooms : Rooms) (c : Coord) :
    getRoom (linkDoors rooms) c = (getRoom rooms c).map (linkRoom rooms c) :=
  getRoom_map (linkRoom rooms) rooms c

theorem hasRoom_linkDoors (rooms : Rooms) (c : Coord) :
    hasRoom (linkDoors rooms) c = hasRoom rooms c := by
  simp [hasRoom, getRoom_linkDoors]

theorem neighbor_opposite (c : Coord) (d : Dir) : neighbor (neighbor c d) d.opposite = c := by
  cases d <;> simp [neighbor, Dir.opposite]

theorem enterDoorTarget_eq (c : Coord) (d : Dir) : enterDoorTarget c d = neighbor c d := by
  cases d <;> simp [enterDoorTarget, neighbor]

/-- The growth state is the Spawn entry followed by the placed rooms in placement order. -/
theorem GenInv.shape {calls0 : Nat} {s : GenState} (h : GenInv calls0 s) :
    ∃ tl : Rooms, s.rooms = ((5, 5), spawnRoom) :: tl ∧
      tl.map Prod.snd = (List.range s.count).map (fun i => newRoom (roomTypeFor i)) ∧
      (5, 5) ∉ tl.map Prod.fst := by
  have hk := h.keys
  have hr := h.recs
  have hh := h.head
  have hn := h.nodup
  cases hs : s.rooms with
  | nil => rw [hs] at hr; simp [placedRecords] at hr
  | cons e tl =>
    obtain ⟨k, v⟩ := e
    rw [hs] at hk hr
    simp only [List.map_cons, placedRecords, List.cons.injEq] at hk hr
    rw [← hk] at hh hn
    simp only [List.head?_cons, Option.some.injEq] at hh
    subst hh
    rw [hr.1]
    exact ⟨tl, rfl, hr.2, (List.nodup_cons.1 hn).1⟩

theorem GenInv.getRoom_spawn {calls0 : Nat} {s : GenState} (h : GenInv calls0 s) :
    getRoom s.rooms (5, 5) = some spawnRoom := by
  obtain ⟨tl, hs, _, _⟩ := h.shape
  simp [hs, getRoom, List.lookup]

theorem GenInv.getRoom_placed {calls0 : Nat} {s : GenState} (h : GenInv calls0 s) {c : Coord}
    {r : Room} (hc : c ≠ (5, 5)) (hr : getRoom s.rooms c = some r) :
    ∃ i, i < s.count ∧ r = newRoom (roomTypeFor i) := by
  obtain ⟨tl, hs, htl, _⟩ := h.shape
  have hb : (c == ((5, 5) : Coord)) = false := by simpa using hc
  rw [hs] at hr
  simp only [getRoom, List.lookup, hb] at hr
  have hmem : r ∈ tl.map Prod.snd := List.mem_map.2 ⟨(c, r), getRoom_mem hr, rfl⟩
  rw [htl] at hmem
  obtain ⟨i, hi, hri⟩ := List.mem_map.1 hmem
  exact ⟨i, List.mem_range.1 hi, hri.symm⟩

theorem GenInv.doors_nil {calls0 : Nat} {s : GenState} (h : GenInv calls0 s) {c : Coord}
    {r : Room} (hr : getRoom s.rooms c = some r) : r.doors = [] := by
  by_cases hc : c = (5, 5)
  · subst hc
    rw [h.getRoom_spawn] at hr
    cases hr
    rfl
  · obtain ⟨i, _, hri⟩ := h.getRoom_placed hc hr
    rw [hri]
    rfl

theorem GenInv.length_rooms {calls0 : Nat} {s : GenState} (h : GenInv calls0 s) :
    s.rooms.length = s.count + 1 := by
  have h2 := congrArg List.length h.recs
  simpa [placedRecords] using h2

/-- After the door pass a room lists exactly the directions in which a neighbour exists. -/
theorem linked_doors {calls0 : Nat} {s : GenState} (h : GenInv calls0 s) {c : Coord} {r : Room}
    (hr : getRoom (linkDoors s.rooms) c = some r) :
    r.doors = [Dir.right, Dir.left, Dir.down, Dir.up].filter
      fun d => hasRoom (linkDoors s.rooms) (neighbor c d) := by
  rw [getRoom_linkDoors] at hr
  cases h0 : getRoom s.rooms c with
  | none => simp [h0] at hr
  | some r0 =>
    simp only [h0, Option.map_some', Option.some.injEq] at hr
    subst hr
    rw [linkRoom_doors _ _ _ (h.doors_nil h0)]
    simp only [hasRoom_linkDoors]

theorem mem_allDirs (d : Dir) : d ∈ [Dir.right, Dir.left, Dir.down, Dir.up] := by
  cases d <;> simp

theorem doorReach_of_adjReach {calls0 : Nat} {s : GenState} (h : GenInv calls0 s) {c : Coord}
    (hc : AdjReach s.stack c) : DoorReach (linkDoors s.rooms) c := by
  have hkeys : ∀ k, k ∈ s.stack → hasRoom (linkDoors s.rooms) k = true := by
    intro k hk
    rw [hasRoom_linkDoors, hasRoom_iff_mem, h.keys]
    exact hk
  induction hc with
  | spawn h5 => exact DoorReach.spawn (hkeys _ h5)
  | @step c0 d hprev hn ih =>
    have h0 := hkeys c0 hprev.mem
    obtain ⟨r0, hr0⟩ := Option.isSome_iff_exists.1 h0
    refine DoorReach.step d ih hr0 ?_
    rw [linked_doors h hr0, List.mem_filter]
    exact ⟨mem_allDirs d, hkeys _ hn⟩

/-! ## Dungeon generation: the claims -/

/-- C1: in the dungeon `generateDungeon` produces, every room record is reached from the Spawn
room at (5,5) by a walk through doors listed in the rooms' `doors` arrays, each step going to the
adjacent coordinate in the door's direction; there is no orphan room.  It holds for every level,
every random stream and every number of earlier `Math.random()` calls. -/
theorem generateDungeon_all_rooms_reachable (rnd : Rng) (level : Int) (calls : Nat) (c : Coord)
    (hc : hasRoom (generateDungeon rnd level calls).rooms c = true) :
    DoorReach (generateDungeon rnd level calls).rooms c := by
  obtain ⟨s, hinv, _, _, _, hres⟩ := generateDungeon_spec rnd level calls
  rw [hres] at hc ⊢
  simp only at hc ⊢
  apply doorReach_of_adjReach hinv
  apply hinv.reach
  rw [hasRoom_linkDoors, hasRoom_iff_mem, hinv.keys] at hc
  exact hc

theorem generateDungeon_all_rooms_reachable_witness :
    hasRoom (generateDungeon rndHigh 1 0).rooms (-3, 5) = true ∧
      DoorReach (generateDungeon rndHigh 1 0).rooms (-3, 5) :=
  ⟨by decide, generateDungeon_all_rooms_reachable rndHigh 1 0 (-3, 5) (by decide)⟩

/-- C2: after `generateDungeon`, for every room record at `c` and every direction `d`, the room's
`doors` array lists `d` exactly when the adjacent coordinate in direction `d` has a room record,
and lists it at most once; doors are symmetric (the room lists `d` iff the neighbour in direction
`d` is a room listing the opposite door); and the coordinate `enterDoor` computes for a listed door
has a room record. -/
theorem generateDungeon_doors_match_neighbours (rnd : Rng) (level : Int) (calls : Nat)
    (c : Coord) (r : Room) (d : Dir)
    (hr : getRoom (generateDungeon rnd level calls).rooms c = some r) :
    (d ∈ r.doors ↔ hasRoom (generateDungeon rnd level calls).rooms (neighbor c d) = true) ∧
    r.doors.count d ≤ 1 ∧
    (d ∈ r.doors ↔ ∃ r2, getRoom (generateDungeon rnd level calls).rooms (neighbor c d) = some r2
      ∧ d.opposite ∈ r2.doors) ∧
    (d ∈ r.doors →
      hasRoom (generateDungeon rnd level calls).rooms (enterDoorTarget c d) = true) := by
  obtain ⟨s, hinv, _, _, _, hres⟩ := generateDungeon_spec rnd level calls
  rw [hres] at hr ⊢
  simp only at hr ⊢
  have hdoors := linked_doors hinv hr
  have hiff : d ∈ r.doors ↔ hasRoom (linkDoors s.rooms) (neighbor c d) = true := by
    rw [hdoors, List.mem_filter]
    exact ⟨fun h => h.2, fun h => ⟨mem_allDirs d, h⟩⟩
  have hself : hasRoom (linkDoors s.rooms) c = true := by
    simp [hasRoom, hr]
  refine ⟨hiff, ?_, ?_, ?_⟩
  · rw [hdoors]
    refine le_trans (List.Sublist.count_le (List.filter_sublist _) d) ?_
    cases d <;> decide
  · rw [hiff]
    constructor
    · intro h
      obtain ⟨r2, hr2⟩ := Option.isSome_iff_exists.1 h
      refine ⟨r2, hr2, ?_⟩
      rw [linked_doors hinv hr2, List.mem_filter, neighbor_opposite]
      exact ⟨mem_allDirs _, hself⟩
    · rintro ⟨r2, hr2, _⟩
      simp [hasRoom, hr2]
  · intro h
    rw [enterDoorTarget_eq]
    exact hiff.1 h

theorem generateDungeon_doors_match_neighbours_witness :
    (Dir.down ∈ [Dir.down] ↔
      hasRoom (generateDungeon rndZero 1 0).rooms (neighbor (5, 5) Dir.down) = true) ∧
    [Dir.down].count Dir.down ≤ 1 ∧
    (Dir.down ∈ [Dir.down] ↔
      ∃ r2, getRoom (generateDungeon rndZero 1 0).rooms (neighbor (5, 5) Dir.down) = some r2
        ∧ Dir.down.opposite ∈ r2.doors) ∧
    (Dir.down ∈ [Dir.down] →
      hasRoom (generateDungeon rndZero 1 0).rooms (enterDoorTarget (5, 5) Dir.down) = true) :=
  generateDungeon_doors_match_neighbours rndZero 1 0 (5, 5)
    { type := RoomType.spawn, cleared := true, doors := [Dir.down] } Dir.down
    (by set_option maxRecDepth 1000000 in decide)

theorem targetCount_of_one_le {level : Int} (h : 1 ≤ level) :
    8 ≤ targetCount level ∧ targetCount level ≤ 15 := by
  simp only [targetCount, roomCount]
  omega

/-- C3: for every level >= 1 and every random stream under which the growth loop stops before
its 1000 attempts are used up, the number of rooms the loop placed (`count`, Spawn not counted)
is `min(15, roomCount + level - 1)` with `roomCount = 8`, the dungeon holds `count + 1` room
records, `count` is 8 at level 1 and 15 at every level >= 8. -/
theorem generateDungeon_room_count (rnd : Rng) (level : Int) (calls : Nat) (hl : 1 ≤ level)
    (hb : (generateDungeon rnd level calls).protection < 1000) :
    ((generateDungeon rnd level calls).count : Int) = min 15 ((roomCount : Int) + level - 1) ∧
    roomCount = 8 ∧
    (generateDungeon rnd level calls).rooms.length = (generateDungeon rnd level calls).count + 1 ∧
    (level = 1 → (generateDungeon rnd level calls).count = 8) ∧
    (8 ≤ level → (generateDungeon rnd level calls).count = 15) := by
  obtain ⟨s, hinv, _, hg, hc, hres⟩ := generateDungeon_spec rnd level calls
  rw [hres] at hb ⊢
  simp only at hb ⊢
  have hpos : 0 < s.stack.length := by
    cases hs : s.stack with
    | nil => have := hinv.head; simp [hs] at this
    | cons a l => simp
  have ht := targetCount_of_one_le hl
  have hge : targetCount level ≤ (s.count : Int) := by
    simp only [loopGuard, hpos, hb, decide_True, Bool.true_and, Bool.and_true,
      decide_eq_false_iff_not, not_lt] at hg
    exact hg
  have hle : (s.count : Int) ≤ targetCount level := by
    rcases hc with hc | hc
    · exact hc
    · rw [hc]; push_cast; omega
  have heq : (s.count : Int) = targetCount level := le_antisymm hle hge
  have hlen : (linkDoors s.rooms).length = s.count + 1 := by
    simp [linkDoors, hinv.length_rooms]
  simp only [targetCount, roomCount] at heq
  refine ⟨by simp only [roomCount]; omega, rfl, hlen, ?_, ?_⟩ <;> intro h <;> omega

theorem generateDungeon_room_count_witness :
    ((generateDungeon rndHigh 1 0).count : Int) = min 15 ((roomCount : Int) + 1 - 1) ∧
    roomCount = 8 ∧
    (generateDungeon rndHigh 1 0).rooms.length = (generateDungeon rndHigh 1 0).count + 1 ∧
    ((1 : Int) = 1 → (generateDungeon rndHigh 1 0).count = 8) ∧
    ((8 : Int) ≤ 1 → (generateDungeon rndHigh 1 0).count = 15) :=
  generateDungeon_room_count rndHigh 1 0 (by decide) (by decide)

/-- C4: `generateDungeon` never leaves the dungeon empty or inconsistent.  For every level and
every random stream the `catch` branch is not taken (nothing raises), the growth loop stops after
at most 1000 attempts with its guard false, having drawn two random numbers per attempt; the
dungeon has a room record at (5,5) of type spawn with `cleared = true`, and every other room
record has one of the kinds enemy, boss, treasure, shop, with `cleared = true` exactly for
treasure and shop. -/
theorem generateDungeon_safe (rnd : Rng) (level : Int) (calls : Nat) :
    (generateDungeon rnd level calls).raised = false ∧
    (generateDungeon rnd level calls).protection ≤ 1000 ∧
    ((generateDungeon rnd level calls).protection = 1000 ∨
      targetCount level ≤ (generateDungeon rnd level calls).count) ∧
    (generateDungeon rnd level calls).calls =
      calls + 2 * (generateDungeon rnd level calls).protection ∧
    (∃ r, getRoom (generateDungeon rnd level calls).rooms (5, 5) = some r ∧
      r.type = RoomType.spawn ∧ r.cleared = true) ∧
    ∀ c r, c ≠ (5, 5) → getRoom (generateDungeon rnd level calls).rooms c = some r →
      (r.type = RoomType.enemy ∨ r.type = RoomType.boss ∨ r.type = RoomType.treasure ∨
        r.type = RoomType.shop) ∧
      (r.cleared = true ↔ (r.type = RoomType.treasure ∨ r.type = RoomType.shop)) := by
  obtain ⟨s, hinv, hp, hg, _, hres⟩ := generateDungeon_spec rnd level calls
  rw [hres]
  simp only
  have hpos : 0 < s.stack.length := by
    cases hs : s.stack with
    | nil => have := hinv.head; simp [hs] at this
    | cons a l => simp
  refine ⟨trivial, hp, ?_, hinv.calls, ?_, ?_⟩
  · simp only [loopGuard, hpos, decide_True, Bool.true_and, Bool.and_eq_false_imp,
      decide_eq_true_eq, decide_eq_false_iff_not, not_lt] at hg
    by_cases hlt : (s.count : Int) < targetCount level
    · left; have := hg hlt; omega
    · right; omega
  · refine ⟨linkRoom s.rooms (5, 5) spawnRoom, ?_, rfl, rfl⟩
    rw [getRoom_linkDoors, hinv.getRoom_spawn]
    rfl
  · intro c r hc hr
    rw [getRoom_linkDoors] at hr
    cases h0 : getRoom s.rooms c with
    | none => simp [h0] at hr
    | some r0 =>
      simp only [h0, Option.map_some', Option.some.injEq] at hr
      obtain ⟨i, _, hri⟩ := hinv.getRoom_placed hc h0
      subst hr
      subst hri
      simp only [linkRoom, newRoom, roomTypeFor]
      split_ifs <;> simp

theorem roomTypeFor_eq_spec (i : Nat) : roomTypeFor i = specRoomKind i := by
  simp only [roomTypeFor, specRoomKind, roomCount]
  split_ifs <;> first | rfl | omega

theorem linkDoors_types (rooms : Rooms) :
    (linkDoors rooms).map (fun e => e.2.type) = rooms.map fun e => e.2.type := by
  simp [linkDoors, linkRoom, Function.comp_def]

theorem GenInv.types {calls0 : Nat} {s : GenState} (h : GenInv calls0 s) :
    s.rooms.map (fun e => e.2.type) = RoomType.spawn :: (List.range s.count).map specRoomKind := by
  have h1 : s.rooms.map (fun e => e.2.type) = (s.rooms.map Prod.snd).map Room.type := by
    simp [Function.comp_def]
  rw [h1, h.recs]
  simp [placedRecords, spawnRoom, newRoom, roomTypeFor_eq_spec, Function.comp_def]

theorem countKind_eq (rooms : Rooms) (t : RoomType) :
    countKind rooms t = (rooms.map fun e => e.2.type).countP fun ty => decide (ty = t) := by
  rw [List.countP_map]
  rfl

/-- C5: the kind of a room is decided by its placement ordinal only.  The room placed while the
counter is 3 is the Shop, 4 the Treasure room, 7 (`roomCount - 1`) the Boss room, every other one
an Enemy room: the kinds of the room records, in placement order after Spawn, are those of the
ordinals `0 .. count - 1`, whatever the coordinates.  Hence when generation reaches its target
count at a level >= 1 (the target is then at least 8), the dungeon has exactly one Boss room,
one Treasure room and one Shop room. -/
theorem generateDungeon_kinds_by_ordinal (rnd : Rng) (level : Int) (calls : Nat) (hl : 1 ≤ level)
    (hreach : ((generateDungeon rnd level calls).count : Int) = targetCount level) :
    (∀ i, roomTypeFor i = specRoomKind i) ∧
    (generateDungeon rnd level calls).rooms.map (fun e => e.2.type) =
      RoomType.spawn :: (List.range (generateDungeon rnd level calls).count).map specRoomKind ∧
    8 ≤ targetCount level ∧
    countKind (generateDungeon rnd level calls).rooms RoomType.boss = 1 ∧
    countKind (generateDungeon rnd level calls).rooms RoomType.treasure = 1 ∧
    countKind (generateDungeon rnd level calls).rooms RoomType.shop = 1 := by
  obtain ⟨s, hinv, _, _, _, hres⟩ := generateDungeon_spec rnd level calls
  rw [hres] at hreach ⊢
  simp only at hreach ⊢
  have ht := targetCount_of_one_le hl
  have hty : (linkDoors s.rooms).map (fun e => e.2.type) =
      RoomType.spawn :: (List.range s.count).map specRoomKind := by
    rw [linkDoors_types, hinv.types]
  have h8 : 8 ≤ s.count := by omega
  have h15 : s.count ≤ 15 := by omega
  refine ⟨roomTypeFor_eq_spec, hty, ht.1, ?_, ?_, ?_⟩ <;>
    · rw [countKind_eq, hty]
      generalize s.count = n at h8 h15
      interval_cases n <;> decide

theorem generateDungeon_kinds_by_ordinal_witness :
    (∀ i, roomTypeFor i = specRoomKind i) ∧
    (generateDungeon rndHigh 1 0).rooms.map (fun e => e.2.type) =
      RoomType.spawn :: (List.range (generateDungeon rndHigh 1 0).count).map specRoomKind ∧
    8 ≤ targetCount 1 ∧
    countKind (generateDungeon rndHigh 1 0).rooms RoomType.boss = 1 ∧
    countKind (generateDungeon rndHigh 1 0).rooms RoomType.treasure = 1 ∧
    countKind (generateDungeon rndHigh 1 0).rooms RoomType.shop = 1 :=
  generateDungeon_kinds_by_ordinal rndHigh 1 0 (by decide) (by decide)

/-- C6, as stated, fails: at level 1 with every roll 0 the loop always picks the Spawn cell and
the direction (0,1); it places (5,6) at the first attempt and nothing afterwards, so the budget of
1000 attempts is used up with `count = 1 < 8`, and the dungeon keeps the two rooms (5,5) and
(5,6) instead of falling back to Spawn alone. -/
theorem generateDungeon_budget_fallback_counterexample :
    (generateDungeon rndZero 1 0).protection = 1000 ∧
    ((generateDungeon rndZero 1 0).count : Int) < targetCount 1 ∧
    (generateDungeon rndZero 1 0).raised = false ∧
    (generateDungeon rndZero 1 0).rooms.map Prod.fst = [(5, 5), (5, 6)] := by
  set_option maxRecDepth 1000000 in decide

/-- C6, amended: when the growth loop uses up its 1000 attempts before the target count is
reached, `generateDungeon` does not fall back (the `catch` branch is not taken): the dungeon keeps
Spawn at (5,5) together with the `count` rooms placed so far, where `1 <= count < target`, so it
holds `count + 1 >= 2` room records, each reachable from Spawn through doors. -/
theorem generateDungeon_budget_exhausted (rnd : Rng) (level : Int) (calls : Nat)
    (hp : (generateDungeon rnd level calls).protection = 1000)
    (hc : ((generateDungeon rnd level calls).count : Int) < targetCount level) :
    (generateDungeon rnd level calls).raised = false ∧
    1 ≤ (generateDungeon rnd level calls).count ∧
    (generateDungeon rnd level calls).rooms.length =
      (generateDungeon rnd level calls).count + 1 ∧
    2 ≤ (generateDungeon rnd level calls).rooms.length ∧
    ((generateDungeon rnd level calls).rooms.length : Int) < targetCount level + 1 ∧
    hasRoom (generateDungeon rnd level calls).rooms (5, 5) = true ∧
    ∀ c, hasRoom (generateDungeon rnd level calls).rooms c = true →
      DoorReach (generateDungeon rnd level calls).rooms c := by
  obtain ⟨s, hinv, _, _, _, hres⟩ := generateDungeon_spec rnd level calls
  rw [hres] at hp hc ⊢
  simp only at hp hc ⊢
  have hcount : 1 ≤ s.count := hinv.progress (by omega)
  have hlen : (linkDoors s.rooms).length = s.count + 1 := by
    simp [linkDoors, hinv.length_rooms]
  refine ⟨trivial, hcount, hlen, by omega, by omega, ?_, ?_⟩
  · rw [hasRoom_linkDoors]
    simp [hasRoom, hinv.getRoom_spawn]
  · intro c h
    apply doorReach_of_adjReach hinv
    apply hinv.reach
    rw [hasRoom_linkDoors, hasRoom_iff_mem, hinv.keys] at h
    exact h

theorem generateDungeon_budget_exhausted_witness :
    (generateDungeon rndZero 1 0).raised = false ∧
    1 ≤ (generateDungeon rndZero 1 0).count ∧
    (generateDungeon rndZero 1 0).rooms.length = (generateDungeon rndZero 1 0).count + 1 ∧
    2 ≤ (generateDungeon rndZero 1 0).rooms.length ∧
    ((generateDungeon rndZero 1 0).rooms.length : Int) < targetCount 1 + 1 ∧
    hasRoom (generateDungeon rndZero 1 0).rooms (5, 5) = true ∧
    ∀ c, hasRoom (generateDungeon rndZero 1 0).rooms c = true →
      DoorReach (generateDungeon rndZero 1 0).rooms c :=
  generateDungeon_budget_exhausted rndZero 1 0
    (by set_option maxRecDepth 1000000 in decide)
    (by set_option maxRecDepth 1000000 in decide)

/-- C7, evaluated at level 1 with every roll 99/100: the loop always extends the newest room
to the left, placing (4,5), (3,5), ... , (-3,5); the room records at (0,5) and (-3,5) have
`x < 1`, outside the 9x9 grid that the comment on `roomGridSize` announces. -/
theorem generateDungeon_leaves_grid :
    hasRoom (generateDungeon rndHigh 1 0).rooms (0, 5) = true ∧
    hasRoom (generateDungeon rndHigh 1 0).rooms (-3, 5) = true ∧
    ¬ (1 ≤ ((0, 5) : Coord).1 ∧ ((0, 5) : Coord).1 ≤ (roomGridSize : Int)) := by
  decide

/-- What does bound a room coordinate.  `generateDungeon` does not read `roomGridSize`; for
every level >= 1 and every random stream, every room key `(x, y)` lies within
`count <= min(15, roomCount + level - 1)` grid steps of the Spawn cell:
`|x - 5| + |y - 5| <= count`, hence `-10 <= x <= 20` and `-10 <= y <= 20`. -/
theorem generateDungeon_coordinates_bounded (rnd : Rng) (level : Int) (calls : Nat) (c : Coord)
    (hl : 1 ≤ level) (hc : hasRoom (generateDungeon rnd level calls).rooms c = true) :
    manhattan c ≤ (generateDungeon rnd level calls).count ∧
    ((generateDungeon rnd level calls).count : Int) ≤ min 15 ((roomCount : Int) + level - 1) ∧
    (-10 ≤ c.1 ∧ c.1 ≤ 20) ∧ (-10 ≤ c.2 ∧ c.2 ≤ 20) := by
  obtain ⟨s, hinv, _, _, hcnt, hres⟩ := generateDungeon_spec rnd level calls
  rw [hres] at hc ⊢
  simp only at hc ⊢
  rw [hasRoom_linkDoors, hasRoom_iff_mem, hinv.keys] at hc
  have hd := hinv.dist c hc
  have ht := targetCount_of_one_le hl
  have hle : (s.count : Int) ≤ targetCount level := by
    rcases hcnt with h | h
    · exact h
    · rw [h]; push_cast; omega
  simp only [targetCount, roomCount] at hle
  simp only [manhattan] at hd ⊢
  simp only [roomCount]
  refine ⟨hd, by omega, by omega, by omega⟩

theorem generateDungeon_coordinates_bounded_witness :
    manhattan (-3, 5) ≤ (generateDungeon rndHigh 1 0).count ∧
    ((generateDungeon rndHigh 1 0).count : Int) ≤ min 15 ((roomCount : Int) + 1 - 1) ∧
    (-10 ≤ ((-3, 5) : Coord).1 ∧ ((-3, 5) : Coord).1 ≤ 20) ∧
    (-10 ≤ ((-3, 5) : Coord).2 ∧ ((-3, 5) : Coord).2 ≤ 20) :=
  generateDungeon_coordinates_bounded rndHigh 1 0 (-3, 5) (by decide) (by decide)

/-! ## Room records under updates -/

theorem updateRoom_eq (rooms : Rooms) (c : Coord) (f : Room → Room) :
    updateRoom rooms c f = rooms.map fun e => (e.1, if e.1 = c then f e.2 else e.2) := by
  unfold updateRoom
  apply List.map_congr_left
  intro e _
  split_ifs <;> rfl

theorem getRoom_updateRoom (rooms : Rooms) (c c2 : Coord) (f : Room → Room) :
    getRoom (updateRoom rooms c f) c2 =
      (getRoom rooms c2).map fun r => if c2 = c then f r else r := by
  rw [updateRoom_eq]
  exact getRoom_map (fun k r => if k = c then f r else r) rooms c2

theorem optRel_refl {R : Room → Room → Prop} (hR : ∀ r, R r r) (o : Option Room) :
    optRel R o o := by
  cases o with
  | none => trivial
  | some r => exact hR r

theorem optRel_trans {R : Room → Room → Prop} (hR : ∀ a b c, R a b → R b c → R a c)
    {o1 o2 o3 : Option Room} (h1 : optRel R o1 o2) (h2 : optRel R o2 o3) : optRel R o1 o3 := by
  cases o1 <;> cases o2 <;> cases o3 <;> simp only [optRel] at h1 h2 ⊢
  exact hR _ _ _ h1 h2

theorem optRel_mono {R S : Room → Room → Prop} (h : ∀ a b, R a b → S a b)
    {o1 o2 : Option Room} (h1 : optRel R o1 o2) : optRel S o1 o2 := by
  cases o1 <;> cases o2 <;> simp only [optRel] at h1 ⊢
  exact h _ _ h1

theorem RoomsRel.roomsRel_refl {R : Room → Room → Prop} (hR : ∀ r, R r r) (rooms : Rooms) :
    RoomsRel R rooms rooms := fun _ => optRel_refl hR _

theorem RoomsRel.roomsRel_trans {R : Room → Room → Prop} (hR : ∀ a b c, R a b → R b c → R a c)
    {r1 r2 r3 : Rooms} (h1 : RoomsRel R r1 r2) (h2 : RoomsRel R r2 r3) : RoomsRel R r1 r3 :=
  fun c => optRel_trans hR (h1 c) (h2 c)

theorem RoomsRel.roomsRel_mono {R S : Room → Room → Prop} (h : ∀ a b, R a b → S a b)
    {r1 r2 : Rooms} (h1 : RoomsRel R r1 r2) : RoomsRel S r1 r2 :=
  fun c => optRel_mono h (h1 c)

theorem RoomsRel.update {R : Room → Room → Prop} (hR : ∀ r, R r r) (rooms : Rooms) (c : Coord)
    {f : Room → Room} (hf : ∀ r, R r (f r)) : RoomsRel R rooms (updateRoom rooms c f) := by
  intro c2
  rw [getRoom_updateRoom]
  cases h : getRoom rooms c2 with
  | none => trivial
  | some r =>
    simp only [Option.map_some', optRel]
    split_ifs
    · exact hf r
    · exact hR r

theorem RoomsRel.roomsRel_get {R : Room → Room → Prop} {r1 r2 : Rooms} (h : RoomsRel R r1 r2)
    {c : Coord} {r : Room} (hr : getRoom r1 c = some r) :
    ∃ r2', getRoom r2 c = some r2' ∧ R r r2' := by
  have := h c
  rw [hr] at this
  cases h2 : getRoom r2 c with
  | none => rw [h2] at this; exact this.elim
  | some r2' => rw [h2] at this; exact ⟨r2', rfl, this⟩

theorem hasRoom_of_roomsRel {R : Room → Room → Prop} {r1 r2 : Rooms} (h : RoomsRel R r1 r2)
    (c : Coord) : hasRoom r2 c = hasRoom r1 c := by
  have := h c
  unfold hasRoom
  cases h1 : getRoom r1 c <;> cases h2 : getRoom r2 c <;> rw [h1, h2] at this <;>
    first | rfl | exact this.elim

theorem CratesLe.cratesLe_refl (ps : List CrateData) : CratesLe ps ps := by
  induction ps with
  | nil => exact List.Forall₂.nil
  | cons p ps ih => exact List.Forall₂.cons ⟨rfl, rfl, id⟩ ih

theorem CratesLe.cratesLe_trans {a b c : List CrateData} (h1 : CratesLe a b) (h2 : CratesLe b c) :
    CratesLe a c := by
  unfold CratesLe at *
  induction h1 generalizing c with
  | nil => cases h2; exact List.Forall₂.nil
  | cons hab _ ih =>
    cases h2 with
    | cons hbc htl =>
      exact List.Forall₂.cons
        ⟨hbc.1.trans hab.1, hbc.2.1.trans hab.2.1, fun h => hbc.2.2 (hab.2.2 h)⟩ (ih htl)

theorem LayoutLe.layoutLe_refl (a : TerrainLayout) : LayoutLe a a := ⟨rfl, rfl, CratesLe.cratesLe_refl _⟩

theorem LayoutLe.layoutLe_trans {a b c : TerrainLayout} (h1 : LayoutLe a b) (h2 : LayoutLe b c) :
    LayoutLe a c :=
  ⟨h2.1.trans h1.1, h2.2.1.trans h1.2.1, h1.2.2.cratesLe_trans h2.2.2⟩

theorem RoomLe.roomLe_refl (r : Room) : RoomLe r r :=
  ⟨rfl, rfl, id, fun a h => ⟨a, h, LayoutLe.layoutLe_refl a⟩, Or.inl⟩

theorem RoomLe.roomLe_trans (a b c : Room) (h1 : RoomLe a b) (h2 : RoomLe b c) : RoomLe a c := by
  refine ⟨h2.1.trans h1.1, h2.2.1.trans h1.2.1, fun h => h2.2.2.1 (h1.2.2.1 h), ?_, ?_⟩
  · intro l hl
    obtain ⟨l2, hl2, hle⟩ := h1.2.2.2.1 l hl
    obtain ⟨l3, hl3, hle3⟩ := h2.2.2.2.1 l2 hl2
    exact ⟨l3, hl3, hle.layoutLe_trans hle3⟩
  · intro hc
    rcases h2.2.2.2.2 hc with hb | hb
    · exact h1.2.2.2.2 hb
    · right
      rw [h1.1] at hb
      exact hb

theorem RoomKeep.roomKeep_refl (r : Room) : RoomKeep r r := ⟨rfl, rfl, id, fun _ h => h, Or.inl⟩

theorem RoomKeep.roomKeep_trans (a b c : Room) (h1 : RoomKeep a b) (h2 : RoomKeep b c) : RoomKeep a c := by
  refine ⟨h2.1.trans h1.1, h2.2.1.trans h1.2.1, fun h => h2.2.2.1 (h1.2.2.1 h),
    fun l hl => h2.2.2.2.1 l (h1.2.2.2.1 l hl), ?_⟩
  intro hc
  rcases h2.2.2.2.2 hc with hb | hb
  · exact h1.2.2.2.2 hb
  · right
    rw [h1.1] at hb
    exact hb

theorem RoomKeep.le (a b : Room) (h : RoomKeep a b) : RoomLe a b :=
  ⟨h.1, h.2.1, h.2.2.1, fun l hl => ⟨l, h.2.2.2.1 l hl, LayoutLe.layoutLe_refl l⟩, h.2.2.2.2⟩
/-! ## Frame lemmas -/

theorem Untouched.untouched_refl (g : Game) : Untouched g g :=
  ⟨rfl, rfl, rfl, rfl, rfl, rfl, rfl, rfl, rfl, rfl⟩

theorem Untouched.untouched_trans {a b c : Game} (h1 : Untouched a b) (h2 : Untouched b c) :
    Untouched a c :=
  ⟨h2.rooms.trans h1.rooms, h2.currentRoom.trans h1.currentRoom,
    h2.currentLevel.trans h1.currentLevel, h2.themeVariant.trans h1.themeVariant,
    h2.walls.trans h1.walls, h2.pits.trans h1.pits, h2.crates.trans h1.crates,
    h2.enemies.trans h1.enemies, h2.playerX.trans h1.playerX, h2.playerY.trans h1.playerY⟩

theorem Stays.stays_refl (g : Game) : Stays g g :=
  ⟨RoomsRel.roomsRel_refl RoomKeep.roomKeep_refl _, rfl, rfl, rfl, rfl, rfl, rfl⟩

theorem Stays.stays_trans {a b c : Game} (h1 : Stays a b) (h2 : Stays b c) : Stays a c :=
  ⟨h1.rooms.roomsRel_trans RoomKeep.roomKeep_trans h2.rooms, h2.currentRoom.trans h1.currentRoom,
    h2.currentLevel.trans h1.currentLevel, h2.themeVariant.trans h1.themeVariant,
    h2.walls.trans h1.walls, h2.pits.trans h1.pits, h2.crates.trans h1.crates⟩

theorem Untouched.stays {g g2 : Game} (h : Untouched g g2) : Stays g g2 :=
  ⟨by rw [h.rooms]; exact RoomsRel.roomsRel_refl RoomKeep.roomKeep_refl _, h.currentRoom, h.currentLevel,
    h.themeVariant, h.walls, h.pits, h.crates⟩

theorem spawnCoin_untouched (env : Env) (x y : ℚ) (val : Int) (g : Game) :
    Untouched g (spawnCoin env x y val g) := by
  unfold spawnCoin
  simp only
  split_ifs <;> exact ⟨rfl, rfl, rfl, rfl, rfl, rfl, rfl, rfl, rfl, rfl⟩

theorem spawnStairs_untouched (x y : Int) (g : Game) : Untouched g (spawnStairs x y g) := by
  unfold spawnStairs
  split_ifs <;> exact ⟨rfl, rfl, rfl, rfl, rfl, rfl, rfl, rfl, rfl, rfl⟩

theorem openDoors_untouched (r : Room) (g : Game) : Untouched g (openDoors r g) :=
  ⟨rfl, rfl, rfl, rfl, rfl, rfl, rfl, rfl, rfl, rfl⟩

theorem chargeActiveItem_untouched (g : Game) : Untouched g (chargeActiveItem g) := by
  unfold chargeActiveItem
  split_ifs <;> exact ⟨rfl, rfl, rfl, rfl, rfl, rfl, rfl, rfl, rfl, rfl⟩

theorem pickRandomItem_untouched (env : Env) (n : Nat) (g : Game) :
    Untouched g (pickRandomItem env n g).2 := by
  induction n generalizing g with
  | zero => exact Untouched.untouched_refl g
  | succ n ih =>
    unfold pickRandomItem
    simp only
    split
    · exact ⟨rfl, rfl, rfl, rfl, rfl, rfl, rfl, rfl, rfl, rfl⟩
    · refine Untouched.untouched_trans ?_ (ih _)
      exact ⟨rfl, rfl, rfl, rfl, rfl, rfl, rfl, rfl, rfl, rfl⟩

theorem spawnItem_untouched (env : Env) (x y : ℚ) (d : Option ItemData) (g : Game) :
    Untouched g (spawnItem env x y d g) := by
  unfold spawnItem
  simp only
  cases d with
  | some d => exact ⟨rfl, rfl, rfl, rfl, rfl, rfl, rfl, rfl, rfl, rfl⟩
  | none =>
    have h := pickRandomItem_untouched env 5 g
    simp only
    split
    · exact h
    · exact h.untouched_trans ⟨rfl, rfl, rfl, rfl, rfl, rfl, rfl, rfl, rfl, rfl⟩

theorem bossCoin_untouched (env : Env) (g : Game) : Untouched g (bossCoin env g) := by
  unfold bossCoin
  refine Untouched.untouched_trans ?_ (spawnCoin_untouched env _ _ 0 _)
  exact ⟨rfl, rfl, rfl, rfl, rfl, rfl, rfl, rfl, rfl, rfl⟩

theorem restoreDrops_untouched (env : Env) (drops : List Drop) (g : Game) :
    Untouched g (restoreDrops env drops g) := by
  unfold restoreDrops
  induction drops generalizing g with
  | nil => exact Untouched.untouched_refl g
  | cons d ds ih =>
    rw [List.foldl_cons]
    exact (spawnItem_untouched env d.x d.y (some d.data) g).untouched_trans (ih _)

theorem spawnShopItemSprite_untouched (ref : Coord × Nat) (g : Game) :
    Untouched g (spawnShopItemSprite ref g) := by
  unfold spawnShopItemSprite
  split
  · exact Untouched.untouched_refl g
  · split_ifs <;> exact ⟨rfl, rfl, rfl, rfl, rfl, rfl, rfl, rfl, rfl, rfl⟩

theorem RoomsRel.updateAt {R : Room → Room → Prop} (hR : ∀ r, R r r) (rooms : Rooms) (c : Coord)
    {f : Room → Room} (hf : ∀ r, getRoom rooms c = some r → R r (f r)) :
    RoomsRel R rooms (updateRoom rooms c f) := by
  intro c2
  rw [getRoom_updateRoom]
  cases h : getRoom rooms c2 with
  | none => trivial
  | some r =>
    simp only [Option.map_some', optRel]
    split_ifs with hc
    · subst hc; exact hf r h
    · exact hR r

theorem stays_of_fields {g g2 : Game} (hr : RoomsRel RoomKeep g.rooms g2.rooms)
    (h1 : g2.currentRoom = g.currentRoom) (h2 : g2.currentLevel = g.currentLevel)
    (h3 : g2.themeVariant = g.themeVariant) (h4 : g2.walls = g.walls) (h5 : g2.pits = g.pits)
    (h6 : g2.crates = g.crates) : Stays g g2 := ⟨hr, h1, h2, h3, h4, h5, h6⟩

theorem stays_eq {g g2 : Game} (h0 : g2.rooms = g.rooms)
    (h1 : g2.currentRoom = g.currentRoom) (h2 : g2.currentLevel = g.currentLevel)
    (h3 : g2.themeVariant = g.themeVariant) (h4 : g2.walls = g.walls) (h5 : g2.pits = g.pits)
    (h6 : g2.crates = g.crates) : Stays g g2 :=
  ⟨by rw [h0]; exact RoomsRel.roomsRel_refl RoomKeep.roomKeep_refl _, h1, h2, h3, h4, h5, h6⟩

theorem stays_update (g : Game) (c : Coord) {f : Room → Room} (hf : ∀ r, RoomKeep r (f r)) :
    Stays g { g with rooms := updateRoom g.rooms c f } :=
  ⟨RoomsRel.update RoomKeep.roomKeep_refl _ _ hf, rfl, rfl, rfl, rfl, rfl, rfl⟩

theorem writeCollection_stays (env : Env) (g : Game) :
    Stays g (finalState (writeCollection env g)) := by
  unfold writeCollection
  split_ifs <;> exact stays_eq rfl rfl rfl rfl rfl rfl rfl

theorem saveDataItem_stays (env : Env) (id : String) (g : Game) :
    Stays g (finalState (saveDataItem env id g)) := by
  unfold saveDataItem
  split_ifs
  · exact Stays.stays_refl g
  · refine Stays.stays_trans ?_ (writeCollection_stays env _)
    exact stays_eq rfl rfl rfl rfl rfl rfl rfl

theorem saveDataEnemy_stays (env : Env) (id : Option String) (g : Game) :
    Stays g (finalState (saveDataEnemy env id g)) := by
  unfold saveDataEnemy
  split_ifs
  · exact Stays.stays_refl g
  · refine Stays.stays_trans ?_ (writeCollection_stays env _)
    exact stays_eq rfl rfl rfl rfl rfl rfl rfl

theorem spawnEnemy_stays (env : Env) (x y : ℚ) (type : Option String) (g : Game) :
    Stays g (finalState (spawnEnemy env x y type g)) := by
  have h0 := saveDataEnemy_stays env type g
  unfold spawnEnemy
  cases hs : saveDataEnemy env type g with
  | error g1 => rw [hs] at h0; exact h0
  | ok g1 =>
    rw [hs] at h0
    simp only [finalState] at h0 ⊢
    refine h0.stays_trans ?_
    cases type with
    | none =>
      simp only
      split_ifs <;> exact stays_eq rfl rfl rfl rfl rfl rfl rfl
    | some ty =>
      simp only
      split_ifs <;> exact stays_eq rfl rfl rfl rfl rfl rfl rfl

theorem roomKeep_shopItems (r : Room) (v : Option (List ShopEntry)) :
    RoomKeep r { r with shopItems := v } := ⟨rfl, rfl, id, fun _ h => h, Or.inl⟩

theorem roomKeep_bossType (r : Room) (v : Option String) :
    RoomKeep r { r with bossType := v } := ⟨rfl, rfl, id, fun _ h => h, Or.inl⟩

theorem roomKeep_shopGenerated (r : Room) (v : Bool) :
    RoomKeep r { r with shopGenerated := v } := ⟨rfl, rfl, id, fun _ h => h, Or.inl⟩

theorem roomKeep_itemTaken (r : Room) (v : Bool) :
    RoomKeep r { r with itemTaken := v } := ⟨rfl, rfl, id, fun _ h => h, Or.inl⟩

theorem roomKeep_droppedItems (r : Room) (v : Option (List Drop)) :
    RoomKeep r { r with droppedItems := v } := ⟨rfl, rfl, id, fun _ h => h, Or.inl⟩

theorem roomKeep_visited (r : Room) (v : Bool) :
    RoomKeep r { r with visited := v } := ⟨rfl, rfl, id, fun _ h => h, Or.inl⟩

theorem roomKeep_seen (r : Room) (v : Bool) :
    RoomKeep r { r with seen := v } := ⟨rfl, rfl, id, fun _ h => h, Or.inl⟩

theorem roomKeep_cleared (r : Room) : RoomKeep r { r with cleared := true } :=
  ⟨rfl, rfl, fun _ => rfl, fun _ h => h, Or.inl⟩

theorem shopOffer_untouched (env : Env) (g : Game) : Untouched g (shopOffer env g).2 := by
  unfold shopOffer
  simp only
  split_ifs <;> exact ⟨rfl, rfl, rfl, rfl, rfl, rfl, rfl, rfl, rfl, rfl⟩

theorem spawnShopItem_stays (env : Env) (x y : Int) (g : Game) :
    Stays g (finalState (spawnShopItem env x y g)) := by
  have h := (shopOffer_untouched env g).stays
  unfold spawnShopItem
  simp only
  split
  · exact h
  · refine h.stays_trans ?_
    refine Stays.stays_trans ?_ (spawnShopItemSprite_untouched _ _).stays
    refine ⟨?_, rfl, rfl, rfl, rfl, rfl, rfl⟩
    dsimp only
    exact RoomsRel.update RoomKeep.roomKeep_refl _ _ (fun r => roomKeep_shopItems r _)

theorem spawnShopSlots_stays (env : Env) (startX gap : Int) (n i : Nat) (g : Game) :
    Stays g (finalState (spawnShopSlots env startX gap n i g)) := by
  induction n generalizing i g with
  | zero => exact Stays.stays_refl g
  | succ n ih =>
    unfold spawnShopSlots
    have h := spawnShopItem_stays env (startX + i * gap) 300 g
    cases hs : spawnShopItem env (startX + i * gap) 300 g with
    | error g1 => rw [hs] at h; exact h
    | ok g1 => rw [hs] at h; exact Stays.stays_trans h (ih _ _)

theorem spawnWaveEnemy_stays (env : Env) (key : Coord) (pool : List String) (g : Game) :
    Stays g (finalState (spawnWaveEnemy env key pool g)) := by
  unfold spawnWaveEnemy
  simp only
  refine Stays.stays_trans ?_ (spawnEnemy_stays env _ _ _ _)
  exact stays_eq rfl rfl rfl rfl rfl rfl rfl

theorem spawnWave_stays (env : Env) (key : Coord) (pool : List String) (n : Nat) (g : Game) :
    Stays g (finalState (spawnWave env key pool n g)) := by
  induction n generalizing g with
  | zero => exact Stays.stays_refl g
  | succ n ih =>
    unfold spawnWave
    have h := spawnWaveEnemy_stays env key pool g
    cases hs : spawnWaveEnemy env key pool g with
    | error g1 => rw [hs] at h; exact h
    | ok g1 => rw [hs] at h; exact Stays.stays_trans h (ih _)

theorem pickBossKey_stays (env : Env) (key : Coord) (theme : Theme) (g : Game) :
    Stays g (pickBossKey env key theme g).2 := by
  unfold pickBossKey
  simp only
  split
  · exact Stays.stays_refl g
  · split
    · exact Stays.stays_refl g
    · split_ifs
      · exact Stays.stays_refl g
      · refine ⟨?_, rfl, rfl, rfl, rfl, rfl, rfl⟩
        dsimp only
        exact RoomsRel.update RoomKeep.roomKeep_refl _ _ (fun r => roomKeep_bossType r _)

theorem spawnBoss_stays (env : Env) (key : Coord) (theme : Theme) (g : Game) :
    Stays g (finalState (spawnBoss env key theme g)) := by
  unfold spawnBoss
  simp only
  refine Stays.stays_trans (pickBossKey_stays env key theme g) ?_
  refine Stays.stays_trans ?_ (spawnEnemy_stays env _ _ _ _)
  exact stays_eq rfl rfl rfl rfl rfl rfl rfl

theorem foldl_spawnShopItemSprite_untouched (key : Coord) (l : List Nat) (g : Game) :
    Untouched g (l.foldl (fun acc i => spawnShopItemSprite (key, i) acc) g) := by
  induction l generalizing g with
  | nil => exact Untouched.untouched_refl g
  | cons i l ih =>
    rw [List.foldl_cons]
    exact (spawnShopItemSprite_untouched (key, i) g).untouched_trans (ih _)

theorem generateShop_stays (env : Env) (key : Coord) (g : Game) :
    Stays g (finalState (generateShop env key g)) := by
  unfold generateShop
  simp only
  refine Stays.stays_trans ?_ (spawnShopSlots_stays env _ _ _ _ _)
  refine ⟨?_, rfl, rfl, rfl, rfl, rfl, rfl⟩
  dsimp only
  exact RoomsRel.update RoomKeep.roomKeep_refl _ _ (fun r => roomKeep_shopGenerated r _)

theorem respawnShop_untouched (key : Coord) (roomData : Room) (g : Game) :
    Untouched g (respawnShop key roomData g) := by
  unfold respawnShop
  split
  · exact foldl_spawnShopItemSprite_untouched key _ g
  · exact Untouched.untouched_refl g

theorem shopBranch_stays (env : Env) (key : Coord) (roomData : Room) (g : Game) :
    Stays g (finalState (shopBranch env key roomData g)) := by
  unfold shopBranch
  split_ifs
  · exact generateShop_stays env key g
  · exact (respawnShop_untouched key roomData g).stays
  · exact Stays.stays_refl g

theorem treasureReward_untouched (env : Env) (roomData : Room) (g : Game) :
    Untouched g (treasureReward env roomData g) := by
  unfold treasureReward
  split_ifs
  · exact spawnItem_untouched env _ _ _ _
  · exact Untouched.untouched_refl g

theorem loadCleared_stays (env : Env) (key : Coord) (roomData : Room) (g : Game) :
    Stays g (finalState (loadCleared env key roomData g)) := by
  have h1 : Stays g (treasureReward env roomData (openDoors roomData g)) :=
    ((openDoors_untouched roomData g).untouched_trans (treasureReward_untouched env roomData _)).stays
  have h2 := shopBranch_stays env key roomData (treasureReward env roomData (openDoors roomData g))
  unfold loadCleared
  cases hs : shopBranch env key roomData (treasureReward env roomData (openDoors roomData g)) with
  | error g4 => rw [hs] at h2; exact h1.stays_trans h2
  | ok g4 =>
    rw [hs] at h2
    simp only
    split_ifs
    · exact (h1.stays_trans h2).stays_trans (spawnStairs_untouched _ _ _).stays
    · exact h1.stays_trans h2

theorem roomClearReward_untouched (env : Env) (roomData : Room) (g : Game) :
    Untouched g (roomClearReward env roomData g) := by
  unfold roomClearReward
  simp only
  split_ifs
  · refine Untouched.untouched_trans ?_ (spawnItem_untouched env _ _ _ _)
    exact ⟨rfl, rfl, rfl, rfl, rfl, rfl, rfl, rfl, rfl, rfl⟩
  · exact ⟨rfl, rfl, rfl, rfl, rfl, rfl, rfl, rfl, rfl, rfl⟩

theorem foldl_bossCoin_untouched (env : Env) (l : List Nat) (g : Game) :
    Untouched g (l.foldl (fun acc _ => bossCoin env acc) g) := by
  induction l generalizing g with
  | nil => exact Untouched.untouched_refl g
  | cons i l ih =>
    rw [List.foldl_cons]
    exact (bossCoin_untouched env g).untouched_trans (ih _)

theorem bossClear_untouched (env : Env) (roomData : Room) (g : Game) :
    Untouched g (bossClear env roomData g) := by
  unfold bossClear
  split_ifs
  · exact (spawnStairs_untouched _ _ g).untouched_trans (foldl_bossCoin_untouched env _ _)
  · exact Untouched.untouched_refl g

/-- The effects of a clearance after the write `cleared = true` leave the dungeon alone. -/
theorem clearEffects_untouched (env : Env) (roomData : Room) (g : Game) :
    Untouched g (openDoors roomData (bossClear env roomData (roomClearReward env roomData
      (openDoors roomData (chargeActiveItem g))))) :=
  ((((chargeActiveItem_untouched g).untouched_trans
    (openDoors_untouched roomData _)).untouched_trans
    (roomClearReward_untouched env roomData _)).untouched_trans
    (bossClear_untouched env roomData _)).untouched_trans (openDoors_untouched roomData _)

theorem checkRoomClear_stays (env : Env) (g : Game) : Stays g (checkRoomClear env g) := by
  unfold checkRoomClear
  split
  · exact Stays.stays_refl g
  · split_ifs
    · simp only
      refine Stays.stays_trans ?_ (clearEffects_untouched env _ _).stays
      refine ⟨?_, rfl, rfl, rfl, rfl, rfl, rfl⟩
      dsimp only
      exact RoomsRel.update RoomKeep.roomKeep_refl _ _ (fun r => roomKeep_cleared r)
    · exact Stays.stays_refl g

theorem payForItem_stays (item : ItemSprite) (g : Game) : Stays g (payForItem item g) := by
  unfold payForItem
  simp only
  split
  · refine ⟨?_, rfl, rfl, rfl, rfl, rfl, rfl⟩
    dsimp only
    exact RoomsRel.update RoomKeep.roomKeep_refl _ _ (fun r => roomKeep_shopItems r _)
  · exact stays_eq rfl rfl rfl rfl rfl rfl rfl

theorem andThen_stays {g : Game} {r : Except Game Game} {f : Game → Except Game Game}
    (hr : Stays g (finalState r)) (hf : ∀ g1, Stays g1 (finalState (f g1))) :
    Stays g (finalState (andThen r f)) := by
  cases r with
  | error g1 => exact hr
  | ok g1 => exact Stays.stays_trans hr (hf g1)

theorem applyAndClamp_stays (env : Env) (data : ItemData) (g : Game) :
    Stays g (applyAndClamp env data g) := stays_eq rfl rfl rfl rfl rfl rfl rfl

theorem markTaken_stays (g : Game) : Stays g (finalState (markTaken g)) := by
  unfold markTaken
  split
  · exact Stays.stays_refl g
  · split_ifs
    · refine ⟨?_, rfl, rfl, rfl, rfl, rfl, rfl⟩
      dsimp only [finalState]
      exact RoomsRel.update RoomKeep.roomKeep_refl _ _ (fun r => roomKeep_itemTaken r _)
    · exact Stays.stays_refl g

theorem collectItem_stays (env : Env) (itemIdx : Nat) (data : ItemData) (g : Game) :
    Stays g (finalState (collectItem env itemIdx data g)) := by
  unfold collectItem
  refine andThen_stays ((applyAndClamp_stays env data g).stays_trans (saveDataItem_stays env _ _)) ?_
  intro g3
  refine andThen_stays (Stays.stays_trans ?_ (markTaken_stays _)) ?_
  · exact stays_eq rfl rfl rfl rfl rfl rfl rfl
  · intro g5
    refine andThen_stays (saveDataItem_stays env _ g5) ?_
    intro g6
    exact stays_eq rfl rfl rfl rfl rfl rfl rfl

theorem takeItem_stays (env : Env) (itemIdx : Nat) (item : ItemSprite) (g : Game) :
    Stays g (finalState (takeItem env itemIdx item g)) := by
  unfold takeItem
  split
  · exact Stays.stays_refl g
  · split_ifs
    · exact stays_eq rfl rfl rfl rfl rfl rfl rfl
    · exact collectItem_stays env itemIdx _ g

theorem pickItem_stays (env : Env) (itemIdx : Nat) (g : Game) :
    Stays g (finalState (pickItem env itemIdx g)) := by
  unfold pickItem
  split
  · exact Stays.stays_refl g
  · split_ifs
    · exact Stays.stays_refl g
    · exact (payForItem_stays _ g).stays_trans (takeItem_stays env itemIdx _ _)
    · exact takeItem_stays env itemIdx _ g

/-! ## Terrain lemmas -/

theorem crateSpritesFrom_append (key : Coord) (ps : List CrateData) (p : CrateData) (i : Nat) :
    crateSpritesFrom key i (ps ++ [p]) =
      crateSpritesFrom key i ps ++
        (if p.destroyed then [] else [{ x := p.x, y := p.y, dataRef := some (key, i + ps.length) }])
    := by
  induction ps generalizing i with
  | nil => simp [crateSpritesFrom]
  | cons q qs ih =>
    have hlen : i + 1 + qs.length = i + (qs.length + 1) := by omega
    rw [List.cons_append]
    simp only [crateSpritesFrom, List.length_cons]
    rw [ih (i + 1), hlen]
    split_ifs <;> simp

theorem terrainCell_ok (rnd : Rng) (key : Coord) (isBoss : Bool) (t : TerrainGen) (p : Pos)
    (h : TerrainGen.Ok key t) : TerrainGen.Ok key (terrainCell rnd key isBoss t p) := by
  obtain ⟨h1, h2, h3⟩ := h
  unfold terrainCell
  simp only
  split_ifs <;> simp only [TerrainGen.Ok, h1, h2, h3, and_self, true_and]
  · rw [crateSpritesFrom_append]
    simp

theorem foldl_terrainCell_ok (rnd : Rng) (key : Coord) (isBoss : Bool) (cells : List Pos)
    (t : TerrainGen) (h : TerrainGen.Ok key t) :
    TerrainGen.Ok key (cells.foldl (terrainCell rnd key isBoss) t) := by
  induction cells generalizing t with
  | nil => exact h
  | cons p ps ih => exact ih _ (terrainCell_ok rnd key isBoss t p h)

theorem generateRoomTerrain_stays_rooms (env : Env) (key : Coord) (g : Game) :
    RoomsRel RoomKeep g.rooms (generateRoomTerrain env key g).rooms ∧
    (generateRoomTerrain env key g).currentRoom = g.currentRoom ∧
    (generateRoomTerrain env key g).currentLevel = g.currentLevel ∧
    (generateRoomTerrain env key g).themeVariant = g.themeVariant ∧
    (generateRoomTerrain env key g).playerX = g.playerX ∧
    (generateRoomTerrain env key g).playerY = g.playerY := by
  unfold generateRoomTerrain
  split
  · exact ⟨RoomsRel.roomsRel_refl RoomKeep.roomKeep_refl _, rfl, rfl, rfl, rfl, rfl⟩
  · rename_i roomData hroom
    split_ifs with hkind
    · exact ⟨RoomsRel.roomsRel_refl RoomKeep.roomKeep_refl _, rfl, rfl, rfl, rfl, rfl⟩
    · split
      · exact ⟨RoomsRel.roomsRel_refl RoomKeep.roomKeep_refl _, rfl, rfl, rfl, rfl, rfl⟩
      · rename_i hnone
        refine ⟨?_, rfl, rfl, rfl, rfl, rfl⟩
        dsimp only
        apply RoomsRel.updateAt RoomKeep.roomKeep_refl
        intro r hr
        rw [hroom] at hr
        cases hr
        exact ⟨rfl, rfl, id, fun a ha => (by rw [hnone] at ha; cases ha), fun _ => Or.inr hkind⟩

theorem generateRoomTerrain_synced (env : Env) (key : Coord) (g : Game)
    (hroom : hasRoom g.rooms key = true) (hw : g.walls = []) (hp : g.pits = [])
    (hc : g.crates = []) : Synced key (generateRoomTerrain env key g) := by
  obtain ⟨roomData, hr⟩ := Option.isSome_iff_exists.1 hroom
  unfold generateRoomTerrain
  rw [hr]
  simp only
  by_cases hk : roomData.type = RoomType.spawn ∨ roomData.type = RoomType.shop
      ∨ roomData.type = RoomType.treasure
  · rw [if_pos hk]
    exact ⟨roomData, hr, fun _ => ⟨hw, hp, hc⟩, fun h => absurd hk h⟩
  · rw [if_neg hk]
    cases hl : roomData.terrainLayout with
    | some layout =>
      refine ⟨roomData, hr, fun h => absurd h hk, fun _ => ⟨layout, hl, ?_, ?_, ?_⟩⟩ <;>
        simp [hw, hp, hc]
    | none =>
      simp only
      have hok := foldl_terrainCell_ok env.rnd key (decide (roomData.type = RoomType.boss))
        terrainCells
        { layout := { walls := [], pits := [], crates := [] }, walls := [], pits := [],
          crates := [], calls := g.calls } ⟨rfl, rfl, rfl⟩
      generalize terrainCells.foldl (terrainCell env.rnd key (decide (roomData.type = RoomType.boss)))
        { layout := { walls := [], pits := [], crates := [] }, walls := [], pits := [],
          crates := [], calls := g.calls } = t at hok
      refine ⟨{ roomData with terrainLayout := some t.layout }, ?_, fun h => absurd h hk,
        fun _ => ⟨t.layout, rfl, ?_, ?_, ?_⟩⟩
      · rw [getRoom_updateRoom, hr]
        simp
      · simp [hw, hok.1]
      · simp [hp, hok.2.1]
      · simp [hc, hok.2.2]

theorem Synced.of_stays {c : Coord} {g g2 : Game} (h : Synced c g) (hs : Stays g g2) :
    Synced c g2 := by
  obtain ⟨r, hr, h1, h2⟩ := h
  obtain ⟨r2, hr2, hk⟩ := hs.rooms.roomsRel_get hr
  refine ⟨r2, hr2, ?_, ?_⟩
  · intro hp
    rw [hs.walls, hs.pits, hs.crates]
    exact h1 (by unfold plainKind at hp ⊢; rw [hk.1] at hp; exact hp)
  · intro hp
    obtain ⟨a, ha, hw⟩ := h2 (by unfold plainKind at hp ⊢; rw [hk.1] at hp; exact hp)
    refine ⟨a, hk.2.2.2.1 a ha, ?_⟩
    rw [hs.walls, hs.pits, hs.crates]
    exact hw

/-! ## loadRoom lemmas -/

theorem themeList_ne_nil (index : Int) : (mapThemes index).getD errorThemes ≠ [] := by
  unfold mapThemes errorThemes
  split_ifs <;> simp

theorem chooseTheme_isSome (env : Env) (g : Game) : (chooseTheme env g).themeVariant.isSome := by
  unfold chooseTheme
  simp only
  split_ifs with h
  · have hne := themeList_ne_nil (Int.tmod (g.currentLevel - 1) 4 + 1)
    have hpos : 0 < ((mapThemes (Int.tmod (g.currentLevel - 1) 4 + 1)).getD errorThemes).length :=
      List.length_pos.2 hne
    have hlt := Roll.index_lt (env.rnd g.calls) hpos
    simp only
    rw [List.getElem?_eq_getElem hlt]
    rfl
  · cases ht : g.themeVariant with
    | none => simp [ht] at h
    | some t => rfl

theorem chooseTheme_frame (env : Env) (g : Game) :
    (chooseTheme env g).rooms = g.rooms ∧ (chooseTheme env g).currentRoom = g.currentRoom ∧
    (chooseTheme env g).currentLevel = g.currentLevel ∧ (chooseTheme env g).walls = g.walls ∧
    (chooseTheme env g).pits = g.pits ∧ (chooseTheme env g).crates = g.crates ∧
    (g.themeVariant.isSome → chooseTheme env g = g) := by
  unfold chooseTheme
  simp only
  split_ifs with h
  · refine ⟨rfl, rfl, rfl, rfl, rfl, rfl, ?_⟩
    intro hs
    cases ht : g.themeVariant <;> simp [ht] at h hs
  · exact ⟨rfl, rfl, rfl, rfl, rfl, rfl, fun _ => rfl⟩

theorem foldl_seen_keep (l : List (Int × Int)) (key : Coord) (rooms : Rooms) :
    RoomsRel RoomKeep rooms
      (l.foldl (fun acc dir => updateRoom acc (key.1 + dir.1, key.2 + dir.2) fun r =>
        { r with seen := true }) rooms) := by
  induction l generalizing rooms with
  | nil => exact RoomsRel.roomsRel_refl RoomKeep.roomKeep_refl _
  | cons d l ih =>
    rw [List.foldl_cons]
    exact RoomsRel.roomsRel_trans RoomKeep.roomKeep_trans
      (RoomsRel.update RoomKeep.roomKeep_refl _ _ (fun r => roomKeep_seen r _)) (ih _)

theorem markVisited_keep (key : Coord) (rooms : Rooms) :
    RoomsRel RoomKeep rooms (markVisited key rooms) := by
  unfold markVisited
  exact RoomsRel.roomsRel_trans RoomKeep.roomKeep_trans
    (RoomsRel.update RoomKeep.roomKeep_refl _ _ (fun r => roomKeep_visited r _)) (foldl_seen_keep _ _ _)

theorem populateRoom_stays (env : Env) (key : Coord) (theme : Theme) (roomData : Room)
    (g : Game) : Stays g (finalState (populateRoom env key theme roomData g)) := by
  unfold populateRoom
  split_ifs
  · refine Stays.stays_trans ?_ (spawnWave_stays env key _ _ _)
    exact stays_eq rfl rfl rfl rfl rfl rfl rfl
  · exact spawnBoss_stays env key theme g
  · exact Stays.stays_refl g
  · exact loadCleared_stays env key roomData g

theorem enterRoom_spec (env : Env) (key : Coord) (theme : Theme) (g : Game)
    (hroom : hasRoom g.rooms key = true) :
    RoomsRel RoomKeep g.rooms (finalState (enterRoom env key theme g)).rooms ∧
    (finalState (enterRoom env key theme g)).currentRoom = g.currentRoom ∧
    (finalState (enterRoom env key theme g)).currentLevel = g.currentLevel ∧
    (finalState (enterRoom env key theme g)).themeVariant = g.themeVariant ∧
    Synced key (finalState (enterRoom env key theme g)) := by
  have hmv : RoomsRel RoomKeep g.rooms (markVisited key g.rooms) := markVisited_keep _ _
  have hhas : hasRoom (clearGroups { g with rooms := markVisited key g.rooms }).rooms key
      = true := by
    show hasRoom (markVisited key g.rooms) key = true
    rw [hasRoom_of_roomsRel hmv]
    exact hroom
  have hsync := generateRoomTerrain_synced env key
    (clearGroups { g with rooms := markVisited key g.rooms }) hhas rfl rfl rfl
  obtain ⟨hg1, hg2, hg3, hg4, _, _⟩ := generateRoomTerrain_stays_rooms env key
    (clearGroups { g with rooms := markVisited key g.rooms })
  unfold enterRoom
  simp only
  generalize generateRoomTerrain env key
    (clearGroups { g with rooms := markVisited key g.rooms }) = g3 at hsync hg1 hg2 hg3 hg4
  have hg1' : RoomsRel RoomKeep g.rooms g3.rooms := RoomsRel.roomsRel_trans RoomKeep.roomKeep_trans hmv hg1
  cases hr3 : getRoom g3.rooms key with
  | none =>
    obtain ⟨r, hr', _⟩ := hsync
    rw [hr3] at hr'
    cases hr'
  | some roomData =>
    simp only
    have hst : Stays g3 (finalState (populateRoom env key theme roomData
        (restoreDrops env (roomData.droppedItems.getD []) g3))) :=
      (restoreDrops_untouched env _ g3).stays.stays_trans (populateRoom_stays env _ _ _ _)
    generalize finalState (populateRoom env key theme roomData
        (restoreDrops env (roomData.droppedItems.getD []) g3)) = g5 at hst
    exact ⟨RoomsRel.roomsRel_trans RoomKeep.roomKeep_trans hg1' hst.rooms, hst.currentRoom.trans hg2,
      hst.currentLevel.trans hg3, hst.themeVariant.trans hg4, hsync.of_stays hst⟩

/-- What `loadRoom` does, by cases: for a coordinate without a record only `currentRoom`
changes; otherwise the theme is set, the records are kept up to `RoomKeep`, and the obstacle
sprites are those of the room loaded. -/
theorem loadRoom_spec (env : Env) (x y : Int) (g : Game) :
    (loadRoom env x y g).currentRoom = (x, y) ∧
    (loadRoom env x y g).currentLevel = g.currentLevel ∧
    RoomsRel RoomKeep g.rooms (loadRoom env x y g).rooms ∧
    (hasRoom g.rooms (x, y) = false → loadRoom env x y g = { g with currentRoom := (x, y) }) ∧
    (hasRoom g.rooms (x, y) = true →
      Synced (x, y) (loadRoom env x y g) ∧ (loadRoom env x y g).themeVariant.isSome) := by
  cases hr : getRoom g.rooms (x, y) with
  | none =>
    have hL : loadRoom env x y g = { g with currentRoom := (x, y) } := by
      unfold loadRoom loadRoomBody
      simp only [hr, finalState]
    rw [hL]
    refine ⟨rfl, rfl, RoomsRel.roomsRel_refl RoomKeep.roomKeep_refl _, fun _ => rfl, ?_⟩
    intro h
    simp [hasRoom, hr] at h
  | some r0 =>
    have hth := chooseTheme_isSome env { g with currentRoom := (x, y) }
    obtain ⟨hc1, hc2, hc3, _, _, _, _⟩ := chooseTheme_frame env { g with currentRoom := (x, y) }
    obtain ⟨theme, ht⟩ := Option.isSome_iff_exists.1 hth
    have hL : loadRoom env x y g =
        finalState (enterRoom env (x, y) theme (chooseTheme env { g with currentRoom := (x, y) }))
        := by
      unfold loadRoom loadRoomBody
      simp only [hr, ht]
    rw [hL]
    have hroom : hasRoom (chooseTheme env { g with currentRoom := (x, y) }).rooms (x, y)
        = true := by
      rw [hc1]
      simp [hasRoom, hr]
    obtain ⟨h1, h2, h3, h4, h5⟩ := enterRoom_spec env (x, y) theme _ hroom
    refine ⟨h2.trans hc2, h3.trans hc3, ?_, ?_, ?_⟩
    · rw [hc1] at h1
      exact h1
    · intro h
      simp [hasRoom, hr] at h
    · intro _
      refine ⟨h5, ?_⟩
      rw [h4, ht]
      rfl

/-! ## destroyCrate and enterDoor lemmas -/

theorem cratesLe_modify (ps : List CrateData) (i : Nat) :
    CratesLe ps (ps.modify (fun p => { p with destroyed := true }) i) := by
  induction ps generalizing i with
  | nil => cases i <;> exact List.Forall₂.nil
  | cons p ps ih =>
    cases i with
    | zero => exact List.Forall₂.cons ⟨rfl, rfl, fun _ => rfl⟩ (CratesLe.cratesLe_refl ps)
    | succ i => exact List.Forall₂.cons ⟨rfl, rfl, id⟩ (ih i)

theorem roomLe_markDestroyed (r : Room) (i : Nat) :
    RoomLe r { r with terrainLayout := r.terrainLayout.map (markDestroyed i) } := by
  refine ⟨rfl, rfl, id, ?_, ?_⟩
  · intro a ha
    refine ⟨markDestroyed i a, by simp [ha], rfl, rfl, ?_⟩
    exact cratesLe_modify a.crates i
  · intro h
    left
    cases hl : r.terrainLayout with
    | none => simp [hl] at h
    | some a => rfl

/-- The state `destroyCrate` leaves, field by field, for an existing crate sprite. -/
theorem destroyCrate_fields (env : Env) (b : Option Nat) (j : Nat) (g : Game) (crate : CrateSprite)
    (hj : g.crates[j]? = some crate) :
    (destroyCrate env b j g).rooms =
      (match crate.dataRef with
       | some (k, i) => updateRoom g.rooms k fun r =>
           { r with terrainLayout := r.terrainLayout.map (markDestroyed i) }
       | none => g.rooms) ∧
    (destroyCrate env b j g).crates = g.crates.eraseIdx j ∧
    (destroyCrate env b j g).walls = g.walls ∧
    (destroyCrate env b j g).pits = g.pits ∧
    (destroyCrate env b j g).currentRoom = g.currentRoom ∧
    (destroyCrate env b j g).currentLevel = g.currentLevel ∧
    (destroyCrate env b j g).themeVariant = g.themeVariant := by
  unfold destroyCrate
  rw [hj]
  simp only
  have hcoin : ∀ g3 : Game, Untouched g3
      (if (env.rnd g3.calls).below 15 100 = true then
        spawnCoin env crate.x crate.y 0 { g3 with calls := g3.calls + 1 }
       else { g3 with calls := g3.calls + 1 }) := by
    intro g3
    split_ifs
    · refine Untouched.untouched_trans ?_ (spawnCoin_untouched env _ _ _ _)
      exact ⟨rfl, rfl, rfl, rfl, rfl, rfl, rfl, rfl, rfl, rfl⟩
    · exact ⟨rfl, rfl, rfl, rfl, rfl, rfl, rfl, rfl, rfl, rfl⟩
  cases hd : crate.dataRef with
  | none =>
    cases b with
    | none =>
      have h := hcoin g
      exact ⟨h.rooms, by rw [h.crates], h.walls, h.pits, h.currentRoom, h.currentLevel,
        h.themeVariant⟩
    | some bi =>
      have h := hcoin { g with bullets := g.bullets.modify disableBullet bi }
      exact ⟨h.rooms, by rw [h.crates], h.walls, h.pits, h.currentRoom, h.currentLevel,
        h.themeVariant⟩
  | some ref =>
    obtain ⟨k, i⟩ := ref
    cases b with
    | none =>
      have h := hcoin { g with rooms := updateRoom g.rooms k fun r =>
        { r with terrainLayout := r.terrainLayout.map (markDestroyed i) } }
      exact ⟨h.rooms, by rw [h.crates], h.walls, h.pits, h.currentRoom, h.currentLevel,
        h.themeVariant⟩
    | some bi =>
      have h := hcoin { g with bullets := g.bullets.modify disableBullet bi
                               rooms := updateRoom g.rooms k fun r =>
        { r with terrainLayout := r.terrainLayout.map (markDestroyed i) } }
      exact ⟨h.rooms, by rw [h.crates], h.walls, h.pits, h.currentRoom, h.currentLevel,
        h.themeVariant⟩

theorem destroyCrate_le (env : Env) (b : Option Nat) (j : Nat) (g : Game) :
    RoomsRel RoomLe g.rooms (destroyCrate env b j g).rooms := by
  cases hj : g.crates[j]? with
  | none =>
    unfold destroyCrate
    rw [hj]
    exact RoomsRel.roomsRel_refl RoomLe.roomLe_refl _
  | some crate =>
    rw [(destroyCrate_fields env b j g crate hj).1]
    cases crate.dataRef with
    | none => exact RoomsRel.roomsRel_refl RoomLe.roomLe_refl _
    | some ref =>
      obtain ⟨k, i⟩ := ref
      exact RoomsRel.update RoomLe.roomLe_refl _ _ (fun r => roomLe_markDestroyed r i)

theorem crateSprites_destroy (key : Coord) (ps : List CrateData) (off j : Nat) (s : CrateSprite)
    (h : (crateSpritesFrom key off ps)[j]? = some s) :
    ∃ k, s.dataRef = some (key, off + k) ∧
      crateSpritesFrom key off (ps.modify (fun p => { p with destroyed := true }) k) =
        (crateSpritesFrom key off ps).eraseIdx j := by
  induction ps generalizing off j with
  | nil => simp [crateSpritesFrom] at h
  | cons p ps ih =>
    by_cases hp : p.destroyed = true
    · rw [crateSpritesFrom, if_pos hp] at h ⊢
      obtain ⟨k, hk, he⟩ := ih (off + 1) j h
      refine ⟨k + 1, by rw [hk]; congr 2; omega, ?_⟩
      rw [List.modify_succ_cons, crateSpritesFrom, if_pos hp]
      exact he
    · rw [crateSpritesFrom, if_neg hp] at h ⊢
      cases j with
      | zero =>
        rw [List.getElem?_cons_zero] at h
        cases h
        refine ⟨0, rfl, ?_⟩
        rw [List.modify_zero_cons, crateSpritesFrom, if_pos rfl]
        rfl
      | succ j =>
        rw [List.getElem?_cons_succ] at h
        obtain ⟨k, hk, he⟩ := ih (off + 1) j h
        refine ⟨k + 1, by rw [hk]; congr 2; omega, ?_⟩
        rw [List.modify_succ_cons, crateSpritesFrom, if_neg hp, List.eraseIdx_cons_succ, he]

theorem crateSprites_ref (key : Coord) (ps : List CrateData) (off : Nat) (s : CrateSprite)
    (h : s ∈ crateSpritesFrom key off ps) : ∃ i, s.dataRef = some (key, i) := by
  induction ps generalizing off with
  | nil => simp [crateSpritesFrom] at h
  | cons p ps ih =>
    simp only [crateSpritesFrom] at h
    split_ifs at h
    · exact ih _ h
    · rcases List.mem_cons.1 h with h | h
      · exact ⟨off, by rw [h]⟩
      · exact ih _ h

/-- Destroying a crate of the room on screen keeps the sprites in step with its layout. -/
theorem destroyCrate_synced (env : Env) (b : Option Nat) (j : Nat) (c : Coord) (g : Game)
    (h : Synced c g) : Synced c (destroyCrate env b j g) := by
  cases hj : g.crates[j]? with
  | none =>
    have : destroyCrate env b j g = g := by
      unfold destroyCrate
      rw [hj]
    rw [this]
    exact h
  | some crate =>
    obtain ⟨hrooms, hcr, hw, hp, _, _, _⟩ := destroyCrate_fields env b j g crate hj
    obtain ⟨r, hr, h1, h2⟩ := h
    by_cases hk : plainKind r.type
    · obtain ⟨_, _, hnil⟩ := h1 hk
      rw [hnil] at hj
      simp at hj
    · obtain ⟨a, ha, hwa, hpa, hca⟩ := h2 hk
      rw [hca] at hj
      obtain ⟨k, hk1, hk2⟩ := crateSprites_destroy c a.crates 0 j crate hj
      rw [hk1] at hrooms
      simp only [Nat.zero_add] at hrooms
      refine ⟨{ r with terrainLayout := r.terrainLayout.map (markDestroyed k) }, ?_,
        fun hk' => absurd hk' hk, fun _ => ⟨markDestroyed k a, by simp [ha], ?_, ?_, ?_⟩⟩
      · rw [hrooms, getRoom_updateRoom, hr]
        simp
      · rw [hw, hwa]; rfl
      · rw [hp, hpa]; rfl
      · rw [hcr, hca]
        exact hk2.symm

theorem noRef_eraseIdx {c : Coord} {g : Game} (h : NoRef c g) (j : Nat) (g2 : Game)
    (hc : g2.crates = g.crates.eraseIdx j) : NoRef c g2 := by
  intro s hs i
  rw [hc] at hs
  exact h s (List.mem_of_mem_eraseIdx hs) i

/-- While no crate sprite is linked to room `c`, destroying a crate leaves the record of `c`
as it is. -/
theorem destroyCrate_away (env : Env) (b : Option Nat) (j : Nat) (c : Coord) (g : Game)
    (h : NoRef c g) :
    NoRef c (destroyCrate env b j g) ∧
      getRoom (destroyCrate env b j g).rooms c = getRoom g.rooms c := by
  cases hj : g.crates[j]? with
  | none =>
    have : destroyCrate env b j g = g := by
      unfold destroyCrate
      rw [hj]
    rw [this]
    exact ⟨h, rfl⟩
  | some crate =>
    obtain ⟨hrooms, hcr, _⟩ := destroyCrate_fields env b j g crate hj
    refine ⟨noRef_eraseIdx h j _ hcr, ?_⟩
    rw [hrooms]
    have hmem : crate ∈ g.crates := List.getElem?_mem hj
    cases hd : crate.dataRef with
    | none => rfl
    | some ref =>
      obtain ⟨k, i⟩ := ref
      simp only
      rw [getRoom_updateRoom]
      have hne : c ≠ k := by
        intro hck
        subst hck
        exact h crate hmem i hd
      cases getRoom g.rooms c <;> simp [hne]

/-! ## Events -/

/-- The function `enterDoor`, by cases on the door touched. -/
theorem enterDoor_eq (env : Env) (i : Nat) (g : Game) :
    (loadTarget g (Op.enterDoor i) = none ∧ enterDoor env i g = g) ∨
    ∃ d, (g.doors[i]?).bind (fun s => s.dir) = some d ∧
      loadTarget g (Op.enterDoor i) = some (enterDoorTarget g.currentRoom d) ∧
      enterDoor env i g =
        loadRoom env (enterDoorTarget g.currentRoom d).1 (enterDoorTarget g.currentRoom d).2
          { g with rooms := updateRoom g.rooms g.currentRoom fun r =>
                     { r with droppedItems := some (floorDrops g.items) }
                   playerX := (entryPoint d).1
                   playerY := (entryPoint d).2 } := by
  cases hd : g.doors[i]? with
  | none => left; simp [enterDoor, loadTarget, hd]
  | some door =>
    cases hdir : door.dir with
    | none => left; simp [enterDoor, loadTarget, hd, hdir]
    | some d =>
      right
      exact ⟨d, by simp [hdir], by simp [loadTarget, hd, hdir],
        by simp [enterDoor, hd, hdir]⟩

theorem enterDoor_keep (env : Env) (i : Nat) (g : Game) :
    RoomsRel RoomKeep g.rooms (enterDoor env i g).rooms ∧
    (enterDoor env i g).currentLevel = g.currentLevel := by
  rcases enterDoor_eq env i g with ⟨_, h⟩ | ⟨d, _, _, h⟩
  · rw [h]
    exact ⟨RoomsRel.roomsRel_refl RoomKeep.roomKeep_refl _, rfl⟩
  · rw [h]
    obtain ⟨_, h2, h3, _, _⟩ := loadRoom_spec env (enterDoorTarget g.currentRoom d).1
      (enterDoorTarget g.currentRoom d).2
      { g with rooms := updateRoom g.rooms g.currentRoom fun r =>
                 { r with droppedItems := some (floorDrops g.items) }
               playerX := (entryPoint d).1
               playerY := (entryPoint d).2 }
    refine ⟨RoomsRel.roomsRel_trans RoomKeep.roomKeep_trans ?_ h3, h2⟩
    exact RoomsRel.update RoomKeep.roomKeep_refl _ _ (fun r => roomKeep_droppedItems r _)

/-- Every event other than a crate hit keeps the room records up to `RoomKeep`. -/
theorem step_keep (env : Env) (g : Game) (op : Op) (h : ∀ b j, op ≠ Op.destroyCrate b j) :
    RoomsRel RoomKeep g.rooms (step env g op).rooms := by
  cases op with
  | checkRoomClear => exact (checkRoomClear_stays env g).rooms
  | loadRoom x y => exact (loadRoom_spec env x y g).2.2.1
  | enterDoor i => exact (enterDoor_keep env i g).1
  | pickItem i => exact (pickItem_stays env i g).rooms
  | spawnEnemy x y t => exact (spawnEnemy_stays env x y t g).rooms
  | destroyCrate b j => exact absurd rfl (h b j)

/-- Every event keeps the room records up to `RoomLe`. -/
theorem step_le (env : Env) (g : Game) (op : Op) :
    RoomsRel RoomLe g.rooms (step env g op).rooms := by
  cases op with
  | destroyCrate b j => exact destroyCrate_le env b j g
  | checkRoomClear =>
    exact RoomsRel.roomsRel_mono RoomKeep.le (step_keep env g _ (fun _ _ h => by cases h))
  | loadRoom x y =>
    exact RoomsRel.roomsRel_mono RoomKeep.le (step_keep env g _ (fun _ _ h => by cases h))
  | enterDoor i =>
    exact RoomsRel.roomsRel_mono RoomKeep.le (step_keep env g _ (fun _ _ h => by cases h))
  | pickItem i =>
    exact RoomsRel.roomsRel_mono RoomKeep.le (step_keep env g _ (fun _ _ h => by cases h))
  | spawnEnemy x y t =>
    exact RoomsRel.roomsRel_mono RoomKeep.le (step_keep env g _ (fun _ _ h => by cases h))

theorem run_le (env : Env) (ops : List Op) (g : Game) :
    RoomsRel RoomLe g.rooms (run env g ops).rooms := by
  induction ops generalizing g with
  | nil => exact RoomsRel.roomsRel_refl RoomLe.roomLe_refl _
  | cons op ops ih =>
    exact RoomsRel.roomsRel_trans RoomLe.roomLe_trans (step_le env g op) (ih (step env g op))

theorem run_cons (env : Env) (g : Game) (op : Op) (ops : List Op) :
    run env g (op :: ops) = run env (step env g op) ops := rfl

/-- An event inside the room on screen keeps the obstacle sprites in step with its layout. -/
theorem step_local_synced (env : Env) (c : Coord) (g : Game) (op : Op)
    (hop : op.isLocal = true) (h : Synced c g) : Synced c (step env g op) := by
  cases op with
  | checkRoomClear => exact h.of_stays (checkRoomClear_stays env g)
  | pickItem i => exact h.of_stays (pickItem_stays env i g)
  | spawnEnemy x y t => exact h.of_stays (spawnEnemy_stays env x y t g)
  | destroyCrate b j => exact destroyCrate_synced env b j c g h
  | loadRoom x y => cases hop
  | enterDoor i => cases hop

theorem run_local_synced (env : Env) (c : Coord) (ops : List Op) (g : Game)
    (hops : ∀ op ∈ ops, op.isLocal = true) (h : Synced c g) : Synced c (run env g ops) := by
  induction ops generalizing g with
  | nil => exact h
  | cons op ops ih =>
    rw [run_cons]
    exact ih _ (fun o ho => hops o (List.mem_cons_of_mem _ ho))
      (step_local_synced env c g op (hops op (List.mem_cons_self _ _)) h)

theorem synced_noRef {t c : Coord} {g : Game} (h : Synced t g) (hne : t ≠ c) : NoRef c g := by
  obtain ⟨r, _, h1, h2⟩ := h
  intro s hs i hd
  by_cases hk : plainKind r.type
  · rw [(h1 hk).2.2] at hs
    simp at hs
  · obtain ⟨a, _, _, _, hc⟩ := h2 hk
    rw [hc] at hs
    obtain ⟨i2, hi2⟩ := crateSprites_ref t a.crates 0 s hs
    rw [hi2] at hd
    simp only [Option.some.injEq, Prod.mk.injEq] at hd
    exact hne hd.1

/-- Loading a room other than `c` leaves no crate sprite linked to `c`, provided none was
linked before or the room loaded exists. -/
theorem loadRoom_noRef (env : Env) (x y : Int) (c : Coord) (g : Game) (hne : (x, y) ≠ c)
    (h : NoRef c g ∨ hasRoom g.rooms (x, y) = true) : NoRef c (loadRoom env x y g) := by
  obtain ⟨_, _, _, hmiss, hex⟩ := loadRoom_spec env x y g
  cases hh : hasRoom g.rooms (x, y) with
  | true => exact synced_noRef (hex hh).1 hne
  | false =>
    rw [hmiss hh]
    rcases h with h | h
    · exact h
    · rw [hh] at h; cases h

/-- An event that does not load room `c` keeps its record up to `RoomKeep` and links no crate
sprite to it, provided none was linked before; for a load of an existing room the proviso is
not needed. -/
theorem step_away (env : Env) (c : Coord) (g : Game) (op : Op)
    (hop : loadTarget g op ≠ some c)
    (h : NoRef c g ∨ ∃ t, loadTarget g op = some t ∧ hasRoom g.rooms t = true) :
    NoRef c (step env g op) ∧ optRel RoomKeep (getRoom g.rooms c) (getRoom (step env g op).rooms c)
    := by
  cases op with
  | checkRoomClear =>
    have hn : NoRef c g := by
      rcases h with h | ⟨t, ht, _⟩
      · exact h
      · simp [loadTarget] at ht
    have hs := checkRoomClear_stays env g
    refine ⟨?_, hs.rooms c⟩
    intro s hsm i
    rw [show (step env g Op.checkRoomClear).crates = g.crates from hs.crates] at hsm
    exact hn s hsm i
  | pickItem j =>
    have hn : NoRef c g := by
      rcases h with h | ⟨t, ht, _⟩
      · exact h
      · simp [loadTarget] at ht
    have hs := pickItem_stays env j g
    refine ⟨?_, hs.rooms c⟩
    intro s hsm i
    rw [show (step env g (Op.pickItem j)).crates = g.crates from hs.crates] at hsm
    exact hn s hsm i
  | spawnEnemy x y ty =>
    have hn : NoRef c g := by
      rcases h with h | ⟨t, ht, _⟩
      · exact h
      · simp [loadTarget] at ht
    have hs := spawnEnemy_stays env x y ty g
    refine ⟨?_, hs.rooms c⟩
    intro s hsm i
    rw [show (step env g (Op.spawnEnemy x y ty)).crates = g.crates from hs.crates] at hsm
    exact hn s hsm i
  | destroyCrate b j =>
    have hn : NoRef c g := by
      rcases h with h | ⟨t, ht, _⟩
      · exact h
      · simp [loadTarget] at ht
    obtain ⟨h1, h2⟩ := destroyCrate_away env b j c g hn
    refine ⟨h1, ?_⟩
    show optRel RoomKeep (getRoom g.rooms c) (getRoom (destroyCrate env b j g).rooms c)
    rw [h2]
    exact optRel_refl RoomKeep.roomKeep_refl _
  | loadRoom x y =>
    have hne : (x, y) ≠ c := by
      intro hxy
      exact hop (by simp [loadTarget, hxy])
    refine ⟨loadRoom_noRef env x y c g hne ?_, (loadRoom_spec env x y g).2.2.1 c⟩
    rcases h with h | ⟨t, ht, hr⟩
    · exact Or.inl h
    · right
      simp only [loadTarget, Option.some.injEq] at ht
      rw [ht]
      exact hr
  | enterDoor j =>
    refine ⟨?_, (enterDoor_keep env j g).1 c⟩
    rcases enterDoor_eq env j g with ⟨hnone, heq⟩ | ⟨d, _, htar, heq⟩
    · show NoRef c (enterDoor env j g)
      rw [heq]
      rcases h with h | ⟨t, ht, _⟩
      · exact h
      · rw [hnone] at ht; cases ht
    · show NoRef c (enterDoor env j g)
      rw [heq]
      have hne : ((enterDoorTarget g.currentRoom d).1, (enterDoorTarget g.currentRoom d).2) ≠ c := by
        intro hxy
        apply hop
        rw [htar, ← hxy]
      apply loadRoom_noRef env _ _ c _ hne
      rcases h with h | ⟨t, ht, hr⟩
      · exact Or.inl h
      · right
        rw [htar] at ht
        simp only [Option.some.injEq] at ht
        have hk : RoomsRel RoomKeep g.rooms
            (updateRoom g.rooms g.currentRoom fun r =>
              { r with droppedItems := some (floorDrops g.items) }) :=
          RoomsRel.update RoomKeep.roomKeep_refl _ _ (fun r => roomKeep_droppedItems r _)
        show hasRoom (updateRoom g.rooms g.currentRoom fun r =>
              { r with droppedItems := some (floorDrops g.items) }) _ = true
        rw [hasRoom_of_roomsRel hk]
        rw [← ht] at hr
        exact hr

theorem run_away (env : Env) (c : Coord) (ops : List Op) (g : Game) (h : Away env c g ops)
    (hn : NoRef c g) :
    NoRef c (run env g ops) ∧ optRel RoomKeep (getRoom g.rooms c) (getRoom (run env g ops).rooms c)
    := by
  induction ops generalizing g with
  | nil => exact ⟨hn, optRel_refl RoomKeep.roomKeep_refl _⟩
  | cons op ops ih =>
    obtain ⟨h1, h2⟩ := h
    obtain ⟨s1, s2⟩ := step_away env c g op h1 (Or.inl hn)
    obtain ⟨r1, r2⟩ := ih (step env g op) h2 s1
    rw [run_cons]
    exact ⟨r1, optRel_trans RoomKeep.roomKeep_trans s2 r2⟩

theorem layoutsTyped_of_le {rooms rooms2 : Rooms} (h : RoomsRel RoomLe rooms rooms2)
    (ht : LayoutsTyped rooms) : LayoutsTyped rooms2 := by
  intro c r2 hr2 hl
  have hc := h c
  rw [hr2] at hc
  cases hr : getRoom rooms c with
  | none => rw [hr] at hc; exact hc.elim
  | some r =>
    rw [hr] at hc
    have hle : RoomLe r r2 := hc
    unfold plainKind
    rw [hle.1]
    rcases hle.2.2.2.2 hl with h1 | h1
    · exact ht c r hr h1
    · exact h1

theorem layoutsTyped_generateDungeon (rnd : Rng) (level : Int) (calls : Nat) :
    LayoutsTyped (generateDungeon rnd level calls).rooms := by
  obtain ⟨s, hinv, _, _, _, hres⟩ := generateDungeon_spec rnd level calls
  rw [hres]
  intro c r hr hl
  simp only [getRoom_linkDoors] at hr
  cases h0 : getRoom s.rooms c with
  | none => simp [h0] at hr
  | some r0 =>
    simp only [h0, Option.map_some', Option.some.injEq] at hr
    subst hr
    exfalso
    by_cases hc : c = (5, 5)
    · subst hc
      rw [hinv.getRoom_spawn] at h0
      cases h0
      simp [linkRoom, spawnRoom] at hl
    · obtain ⟨i, _, hri⟩ := hinv.getRoom_placed hc h0
      subst hri
      simp [linkRoom, newRoom] at hl

theorem crateSprites_positions (key : Coord) (ps : List CrateData) (i : Nat) :
    (crateSpritesFrom key i ps).map (fun s => (s.x, s.y)) =
      (ps.filter fun p => !p.destroyed).map fun p => (p.x, p.y) := by
  induction ps generalizing i with
  | nil => rfl
  | cons p ps ih =>
    by_cases hp : p.destroyed = true
    · rw [crateSpritesFrom, if_pos hp, ih]
      simp [hp]
    · rw [crateSpritesFrom, if_neg hp]
      simp only [List.map_cons, ih]
      simp [hp]

theorem countsAsHostile_iff (e : Enemy) :
    countsAsHostile e = true ↔ e.active = true ∧ e.aiType ≠ some "grimace" ∧
      e.aiType ≠ some "turret" ∧ e.aiType ≠ some "tnt" := by
  simp only [countsAsHostile, Bool.and_eq_true, decide_eq_true_eq]
  tauto

theorem activeHostiles_eq_zero (g : Game) :
    activeHostiles g = 0 ↔ ∀ e ∈ g.enemies, e.active = true →
      (e.aiType = some "grimace" ∨ e.aiType = some "turret" ∨ e.aiType = some "tnt") := by
  unfold activeHostiles
  rw [List.length_eq_zero, List.filter_eq_nil_iff]
  constructor
  · intro h e he ha
    have := h e he
    rw [countsAsHostile_iff] at this
    by_contra hcon
    push_neg at hcon
    exact this ⟨ha, hcon.1, hcon.2.1, hcon.2.2⟩
  · intro h e he
    rw [countsAsHostile_iff]
    rintro ⟨ha, h1, h2, h3⟩
    rcases h e he ha with h4 | h4 | h4
    · exact h1 h4
    · exact h2 h4
    · exact h3 h4

/-! ## Room life cycle: the claims -/

/-- C8: clearance is monotonic within a level.  Once the record of room `c` has
`cleared = true`, it still has it after every sequence of events (ticks running
`checkRoomClear`, room loads, door transitions, item pick-ups, enemy spawns, and also crate
hits), and in every state so reached a `checkRoomClear` call made while `c` is the current room
changes nothing at all: the room record stays and no clearance effect fires. -/
theorem cleared_is_monotonic (env : Env) (g : Game) (ops : List Op) (c : Coord) (r : Room)
    (hr : getRoom g.rooms c = some r) (hc : r.cleared = true) :
    (∃ r2, getRoom (run env g ops).rooms c = some r2 ∧ r2.cleared = true) ∧
    ((run env g ops).currentRoom = c →
      checkRoomClear env (run env g ops) = run env g ops) := by
  obtain ⟨r2, hr2, hle⟩ := (run_le env ops g).roomsRel_get hr
  have hc2 : r2.cleared = true := hle.2.2.1 hc
  refine ⟨⟨r2, hr2, hc2⟩, ?_⟩
  intro hcur
  unfold checkRoomClear
  rw [hcur, hr2]
  simp [hc2]

theorem cleared_is_monotonic_witness :
    (∃ r2, getRoom (run sampleEnv sampleGame
        [Op.loadRoom 5 5, Op.checkRoomClear, Op.enterDoor 0, Op.spawnEnemy 300 300 (some "fly"),
          Op.checkRoomClear, Op.loadRoom 5 5]).rooms (5, 5) = some r2 ∧ r2.cleared = true) ∧
    ((run sampleEnv sampleGame
        [Op.loadRoom 5 5, Op.checkRoomClear, Op.enterDoor 0, Op.spawnEnemy 300 300 (some "fly"),
          Op.checkRoomClear, Op.loadRoom 5 5]).currentRoom = (5, 5) →
      checkRoomClear sampleEnv (run sampleEnv sampleGame
        [Op.loadRoom 5 5, Op.checkRoomClear, Op.enterDoor 0, Op.spawnEnemy 300 300 (some "fly"),
          Op.checkRoomClear, Op.loadRoom 5 5]) =
      run sampleEnv sampleGame
        [Op.loadRoom 5 5, Op.checkRoomClear, Op.enterDoor 0, Op.spawnEnemy 300 300 (some "fly"),
          Op.checkRoomClear, Op.loadRoom 5 5]) :=
  cleared_is_monotonic sampleEnv sampleGame
    [Op.loadRoom 5 5, Op.checkRoomClear, Op.enterDoor 0, Op.spawnEnemy 300 300 (some "fly"),
      Op.checkRoomClear, Op.loadRoom 5 5] (5, 5)
    { type := RoomType.spawn, cleared := true, doors := [Dir.down] } rfl rfl

/-- C9: `checkRoomClear` marks the current room, when it is not yet cleared, as cleared exactly
when no active enemy has a behaviour id (`aiType`) other than `'grimace'`, `'turret'` or
`'tnt'`.  The enemies themselves are left as they are, so a room whose only live enemies are
of those three kinds is reported cleared while they are still alive; and with at least one
other active enemy the call changes nothing, so the room stays uncleared. -/
theorem checkRoomClear_clears_iff_no_hostile (env : Env) (g : Game) (roomData : Room)
    (hr : getRoom g.rooms g.currentRoom = some roomData) (hn : roomData.cleared = false) :
    ((∃ r, getRoom (checkRoomClear env g).rooms g.currentRoom = some r ∧ r.cleared = true) ↔
      ∀ e ∈ g.enemies, e.active = true →
        (e.aiType = some "grimace" ∨ e.aiType = some "turret" ∨ e.aiType = some "tnt")) ∧
    ((∀ e ∈ g.enemies, e.active = true →
        (e.aiType = some "grimace" ∨ e.aiType = some "turret" ∨ e.aiType = some "tnt")) →
      getRoom (checkRoomClear env g).rooms g.currentRoom =
        some { roomData with cleared := true }) ∧
    ((∃ e ∈ g.enemies, e.active = true ∧ e.aiType ≠ some "grimace" ∧
        e.aiType ≠ some "turret" ∧ e.aiType ≠ some "tnt") → checkRoomClear env g = g) ∧
    (checkRoomClear env g).enemies = g.enemies ∧
    (checkRoomClear env g).currentRoom = g.currentRoom := by
  have hzero := activeHostiles_eq_zero g
  by_cases h0 : activeHostiles g = 0
  · have hall := hzero.1 h0
    have heq : checkRoomClear env g =
        openDoors roomData (bossClear env roomData (roomClearReward env roomData
          (openDoors roomData (chargeActiveItem
            { g with rooms := updateRoom g.rooms g.currentRoom fun r =>
                { r with cleared := true } })))) := by
      unfold checkRoomClear
      rw [hr]
      simp [hn, h0]
    have hu := clearEffects_untouched env roomData
      { g with rooms := updateRoom g.rooms g.currentRoom fun r => { r with cleared := true } }
    rw [← heq] at hu
    have hroom : getRoom (checkRoomClear env g).rooms g.currentRoom =
        some { roomData with cleared := true } := by
      rw [hu.rooms]
      dsimp only
      rw [getRoom_updateRoom, hr]
      simp
    refine ⟨⟨fun _ => hall, fun _ => ⟨_, hroom, rfl⟩⟩, fun _ => hroom, ?_, hu.enemies,
      hu.currentRoom⟩
    rintro ⟨e, he, ha, h1, h2, h3⟩
    rcases hall e he ha with h | h | h
    · exact absurd h h1
    · exact absurd h h2
    · exact absurd h h3
  · have heq : checkRoomClear env g = g := by
      unfold checkRoomClear
      rw [hr]
      simp [h0]
    rw [heq]
    refine ⟨⟨?_, fun hall => absurd (hzero.2 hall) h0⟩, fun hall => absurd (hzero.2 hall) h0,
      fun _ => rfl, rfl, rfl⟩
    rintro ⟨r, hr2, hc⟩
    rw [hr] at hr2
    cases hr2
    rw [hn] at hc
    cases hc

theorem checkRoomClear_clears_iff_no_hostile_witness :
    ((∃ r, getRoom (checkRoomClear sampleEnv sampleFight).rooms sampleFight.currentRoom = some r
        ∧ r.cleared = true) ↔
      ∀ e ∈ sampleFight.enemies, e.active = true →
        (e.aiType = some "grimace" ∨ e.aiType = some "turret" ∨ e.aiType = some "tnt")) ∧
    ((∀ e ∈ sampleFight.enemies, e.active = true →
        (e.aiType = some "grimace" ∨ e.aiType = some "turret" ∨ e.aiType = some "tnt")) →
      getRoom (checkRoomClear sampleEnv sampleFight).rooms sampleFight.currentRoom =
        some { type := RoomType.enemy, cleared := true, doors := [Dir.up] }) ∧
    ((∃ e ∈ sampleFight.enemies, e.active = true ∧ e.aiType ≠ some "grimace" ∧
        e.aiType ≠ some "turret" ∧ e.aiType ≠ some "tnt") →
      checkRoomClear sampleEnv sampleFight = sampleFight) ∧
    (checkRoomClear sampleEnv sampleFight).enemies = sampleFight.enemies ∧
    (checkRoomClear sampleEnv sampleFight).currentRoom = sampleFight.currentRoom :=
  checkRoomClear_clears_iff_no_hostile sampleEnv sampleFight
    { type := RoomType.enemy, cleared := false, doors := [Dir.up] } rfl rfl

/-- C10: terrain is generated at most once per room.  (1) When the record under `key` already
has a `terrainLayout`, `generateRoomTerrain` draws no random number and leaves every room record
as it is, and (for a room that is no Spawn, Shop or Treasure room, the only rooms that ever get
a layout) it adds exactly the recorded walls, the recorded pits and one crate sprite for each
recorded crate that is not destroyed.  (2) Layouts sit only in such rooms, from `generateDungeon`
on and after every sequence of events.  (3) Every event keeps an existing layout up to crate
flags switched from false to true, and every event other than `destroyCrate` keeps it as it
is.  (4) Round trip: room `c` is loaded, the events `stay` happen inside it, `exitOp` loads
another existing room `t`, the events `rest` never load `c`, then `c` is loaded again: the walls,
pits and crate sprites are those on screen at the exit, and the layout is the one left then. -/
theorem terrain_generated_once (env : Env) (g0 : Game) (c t : Coord) (stay rest : List Op)
    (exitOp : Op) (hc : hasRoom g0.rooms c = true) (hstay : ∀ op ∈ stay, op.isLocal = true)
    (hexit : loadTarget (exitState env g0 c stay) exitOp = some t) (hne : t ≠ c)
    (ht : hasRoom g0.rooms t = true)
    (haway : Away env c (step env (exitState env g0 c stay) exitOp) rest) :
    (∀ (g : Game) (key : Coord) (r : Room) (a : TerrainLayout),
      getRoom g.rooms key = some r → r.terrainLayout = some a →
        (generateRoomTerrain env key g).calls = g.calls ∧
        (generateRoomTerrain env key g).rooms = g.rooms ∧
        (¬ plainKind r.type →
          (generateRoomTerrain env key g).walls = g.walls ++ a.walls ∧
          (generateRoomTerrain env key g).pits = g.pits ++ a.pits ∧
          (generateRoomTerrain env key g).crates = g.crates ++ crateSpritesFrom key 0 a.crates ∧
          (crateSpritesFrom key 0 a.crates).map (fun s => (s.x, s.y)) =
            (a.crates.filter fun p => !p.destroyed).map fun p => (p.x, p.y))) ∧
    (∀ (rnd : Rng) (level : Int) (calls : Nat) (ops : List Op) (g : Game),
      g.rooms = (generateDungeon rnd level calls).rooms → LayoutsTyped (run env g ops).rooms) ∧
    (∀ (g : Game) (op : Op), RoomsRel RoomLe g.rooms (step env g op).rooms ∧
      ((∀ b j, op ≠ Op.destroyCrate b j) → RoomsRel RoomKeep g.rooms (step env g op).rooms)) ∧
    (backState env g0 c stay exitOp rest).walls = (exitState env g0 c stay).walls ∧
    (backState env g0 c stay exitOp rest).pits = (exitState env g0 c stay).pits ∧
    (backState env g0 c stay exitOp rest).crates = (exitState env g0 c stay).crates ∧
    (∀ a, layoutAt (exitState env g0 c stay) c = some a →
      layoutAt (backState env g0 c stay exitOp rest) c = some a) := by
  refine ⟨?_, ?_, fun g op => ⟨step_le env g op, step_keep env g op⟩, ?_⟩
  · intro g key r a hr ha
    have hgen : ¬ plainKind r.type → generateRoomTerrain env key g =
        { g with walls := g.walls ++ a.walls, pits := g.pits ++ a.pits,
                 crates := g.crates ++ crateSpritesFrom key 0 a.crates } := by
      intro hk
      unfold plainKind at hk
      simp only [generateRoomTerrain, hr, ha, if_neg hk]
    by_cases hk : plainKind r.type
    · have h0 : generateRoomTerrain env key g = g := by
        unfold plainKind at hk
        simp only [generateRoomTerrain, hr, if_pos hk]
      rw [h0]
      exact ⟨rfl, rfl, fun h => absurd hk h⟩
    · rw [hgen hk]
      exact ⟨rfl, rfl, fun _ => ⟨rfl, rfl, rfl, crateSprites_positions key a.crates 0⟩⟩
  · intro rnd level calls ops g hg
    refine layoutsTyped_of_le (run_le env ops g) ?_
    rw [hg]
    exact layoutsTyped_generateDungeon rnd level calls
  · -- the state at the exit
    obtain ⟨_, _, hk0, _, hs0⟩ := loadRoom_spec env c.1 c.2 g0
    have hsE : Synced c (exitState env g0 c stay) :=
      run_local_synced env c stay _ hstay (hs0 hc).1
    have hleE : RoomsRel RoomLe g0.rooms (exitState env g0 c stay).rooms :=
      RoomsRel.roomsRel_trans RoomLe.roomLe_trans (RoomsRel.roomsRel_mono RoomKeep.le hk0) (run_le env stay _)
    have htE : hasRoom (exitState env g0 c stay).rooms t = true := by
      rw [hasRoom_of_roomsRel hleE]; exact ht
    -- leaving and staying away
    have hop : loadTarget (exitState env g0 c stay) exitOp ≠ some c := by
      rw [hexit]
      intro h
      exact hne (Option.some.inj h)
    obtain ⟨hn1, hr1⟩ := step_away env c _ exitOp hop (Or.inr ⟨t, hexit, htE⟩)
    obtain ⟨_, hr2⟩ := run_away env c rest _ haway hn1
    -- coming back
    obtain ⟨_, _, hk3, _, hs3⟩ := loadRoom_spec env c.1 c.2
      (run env (step env (exitState env g0 c stay) exitOp) rest)
    have hkeep : optRel RoomKeep (getRoom (exitState env g0 c stay).rooms c)
        (getRoom (backState env g0 c stay exitOp rest).rooms c) :=
      optRel_trans RoomKeep.roomKeep_trans (optRel_trans RoomKeep.roomKeep_trans hr1 hr2) (hk3 c)
    obtain ⟨rE, hrE, hE1, hE2⟩ := hsE
    rw [hrE] at hkeep
    have hc2 : hasRoom (run env (step env (exitState env g0 c stay) exitOp) rest).rooms c
        = true := by
      have h12 := optRel_trans RoomKeep.roomKeep_trans hr1 hr2
      rw [hrE] at h12
      unfold hasRoom
      cases hx : getRoom (run env (step env (exitState env g0 c stay) exitOp) rest).rooms c with
      | none => rw [hx] at h12; exact h12.elim
      | some _ => rfl
    obtain ⟨rB, hrB, hB1, hB2⟩ := (hs3 hc2).1
    have hrB2 : getRoom (backState env g0 c stay exitOp rest).rooms c = some rB := hrB
    rw [hrB2] at hkeep
    have hk : RoomKeep rE rB := hkeep
    have hlay : ∀ a, layoutAt (exitState env g0 c stay) c = some a →
        layoutAt (backState env g0 c stay exitOp rest) c = some a := by
      intro a ha
      unfold layoutAt at ha ⊢
      rw [hrE] at ha
      rw [hrB2]
      exact hk.2.2.2.1 a ha
    by_cases hp : plainKind rE.type
    · have hpB : plainKind rB.type := by unfold plainKind at hp ⊢; rw [hk.1]; exact hp
      obtain ⟨w1, p1, c1⟩ := hE1 hp
      obtain ⟨w2, p2, c2⟩ := hB1 hpB
      exact ⟨w2.trans w1.symm, p2.trans p1.symm, c2.trans c1.symm, hlay⟩
    · have hpB : ¬ plainKind rB.type := by unfold plainKind at hp ⊢; rw [hk.1]; exact hp
      obtain ⟨a, ha, w1, p1, c1⟩ := hE2 hp
      obtain ⟨b, hb, w2, p2, c2⟩ := hB2 hpB
      have hab : b = a := by
        have := hk.2.2.2.1 a ha
        rw [hb] at this
        exact Option.some.inj this
      subst hab
      exact ⟨w2.trans w1.symm, p2.trans p1.symm, c2.trans c1.symm, hlay⟩

theorem terrain_generated_once_witness :
    (∀ (g : Game) (key : Coord) (r : Room) (a : TerrainLayout),
      getRoom g.rooms key = some r → r.terrainLayout = some a →
        (generateRoomTerrain sampleEnv key g).calls = g.calls ∧
        (generateRoomTerrain sampleEnv key g).rooms = g.rooms ∧
        (¬ plainKind r.type →
          (generateRoomTerrain sampleEnv key g).walls = g.walls ++ a.walls ∧
          (generateRoomTerrain sampleEnv key g).pits = g.pits ++ a.pits ∧
          (generateRoomTerrain sampleEnv key g).crates = g.crates ++ crateSpritesFrom key 0 a.crates ∧
          (crateSpritesFrom key 0 a.crates).map (fun s => (s.x, s.y)) =
            (a.crates.filter fun p => !p.destroyed).map fun p => (p.x, p.y))) ∧
    (∀ (rnd : Rng) (level : Int) (calls : Nat) (ops : List Op) (g : Game),
      g.rooms = (generateDungeon rnd level calls).rooms → LayoutsTyped (run sampleEnv g ops).rooms) ∧
    (∀ (g : Game) (op : Op), RoomsRel RoomLe g.rooms (step sampleEnv g op).rooms ∧
      ((∀ b j, op ≠ Op.destroyCrate b j) → RoomsRel RoomKeep g.rooms (step sampleEnv g op).rooms)) ∧
    (backState sampleEnv sampleVisited (5, 6) [Op.destroyCrate none 0]
      (Op.loadRoom 5 5) [Op.checkRoomClear]).walls = (exitState sampleEnv sampleVisited (5, 6) [Op.destroyCrate none 0]).walls ∧
    (backState sampleEnv sampleVisited (5, 6) [Op.destroyCrate none 0]
      (Op.loadRoom 5 5) [Op.checkRoomClear]).pits = (exitState sampleEnv sampleVisited (5, 6) [Op.destroyCrate none 0]).pits ∧
    (backState sampleEnv sampleVisited (5, 6) [Op.destroyCrate none 0]
      (Op.loadRoom 5 5) [Op.checkRoomClear]).crates = (exitState sampleEnv sampleVisited (5, 6) [Op.destroyCrate none 0]).crates ∧
    (∀ a, layoutAt (exitState sampleEnv sampleVisited (5, 6) [Op.destroyCrate none 0]) (5, 6) = some a →
      layoutAt (backState sampleEnv sampleVisited (5, 6) [Op.destroyCrate none 0]
      (Op.loadRoom 5 5) [Op.checkRoomClear]) (5, 6) = some a) :=
  terrain_generated_once sampleEnv sampleVisited (5, 6) (5, 5) [Op.destroyCrate none 0]
    [Op.checkRoomClear] (Op.loadRoom 5 5) rfl (by simp [Op.isLocal]) rfl (by decide) rfl
    ⟨by simp [loadTarget], trivial⟩

/-! ## Terrain positions -/

/-- The positions a cell adds to the layout pass the three skip tests of the loop. -/
theorem terrainCell_positions (rnd : Rng) (key : Coord) (isBoss : Bool) (t : TerrainGen) (p : Pos)
    (P : Pos → Prop)
    (hP : ¬ ((p.x - 400).natAbs < 100 ∧ (p.y - 300).natAbs < 100) → ¬ (p.x - 400).natAbs < 40 →
      ¬ (p.y - 300).natAbs < 40 → P p)
    (h : ∀ q ∈ layoutPositions t.layout, P q) :
    ∀ q ∈ layoutPositions (terrainCell rnd key isBoss t p).layout, P q := by
  unfold terrainCell
  simp only
  split_ifs with h1 h2 h3 <;> try exact h
  all_goals
    have hp := hP h1 h2 h3
    intro q hq
    simp only [layoutPositions, List.mem_append, List.mem_map, List.map_append, List.map_cons,
      List.map_nil, List.mem_cons, List.mem_singleton, List.not_mem_nil, or_false] at hq h
    rcases hq with (hq | hq) | hq
    all_goals first
      | exact h q (Or.inl (Or.inl hq))
      | exact h q (Or.inl (Or.inr hq))
      | exact h q (Or.inr hq)
      | (rcases hq with hq | hq
         · first
             | exact h q (Or.inl (Or.inl hq))
             | exact h q (Or.inl (Or.inr hq))
             | exact h q (Or.inr hq)
         · rw [hq]; exact hp)

theorem foldl_terrainCell_positions (rnd : Rng) (key : Coord) (isBoss : Bool) (P : Pos → Prop)
    (hP : ∀ p : Pos, ¬ ((p.x - 400).natAbs < 100 ∧ (p.y - 300).natAbs < 100) →
      ¬ (p.x - 400).natAbs < 40 → ¬ (p.y - 300).natAbs < 40 → P p)
    (cells : List Pos) (t : TerrainGen) (h : ∀ q ∈ layoutPositions t.layout, P q) :
    ∀ q ∈ layoutPositions (cells.foldl (terrainCell rnd key isBoss) t).layout, P q := by
  induction cells generalizing t with
  | nil => exact h
  | cons p ps ih => exact ih _ (terrainCell_positions rnd key isBoss t p P (hP p) h)

/-- The layout under `key` after `generateRoomTerrain`, when there was none before: nothing for a
missing record or a Spawn, Shop or Treasure room, else the layout the loops build. -/
theorem generateRoomTerrain_layout (env : Env) (key : Coord) (g : Game)
    (hl : layoutAt g key = none) :
    layoutAt (generateRoomTerrain env key g) key = none ∨
    ∃ isBoss, layoutAt (generateRoomTerrain env key g) key = some
      (terrainCells.foldl (terrainCell env.rnd key isBoss)
        { layout := { walls := [], pits := [], crates := [] }, walls := [], pits := [],
          crates := [], calls := g.calls }).layout := by
  unfold generateRoomTerrain
  cases hr : getRoom g.rooms key with
  | none => exact Or.inl hl
  | some r =>
    have hn : r.terrainLayout = none := by
      unfold layoutAt at hl
      rw [hr] at hl
      exact hl
    simp only [hn]
    split_ifs with hk
    · exact Or.inl hl
    · refine Or.inr ⟨decide (r.type = RoomType.boss), ?_⟩
      unfold layoutAt
      dsimp only
      rw [getRoom_updateRoom, hr]
      simp

/-- C11: no obstacle recorded by `generateRoomTerrain` lies in the centre area or in a door
lane.  Whatever the room kind, the random stream and the state, every wall, pit or crate
position `(x, y)` of the layout `generateRoomTerrain` records for a room that had none satisfies
`|x - 400| >= 40`, `|y - 300| >= 40` and not (`|x - 400| < 100` and `|y - 300| < 100`); hence
the square of 64 by 64 pixels around it contains neither the room centre `(400, 300)` nor any
of the four points at which `enterDoor` places the player. -/
theorem terrain_clear_of_lanes (env : Env) (key : Coord) (g : Game) (p : Pos)
    (hl : layoutAt g key = none)
    (hp : p ∈ (layoutAt (generateRoomTerrain env key g) key).elim [] layoutPositions) :
    40 ≤ |p.x - 400| ∧ 40 ≤ |p.y - 300| ∧ ¬ (|p.x - 400| < 100 ∧ |p.y - 300| < 100) ∧
    ¬ inFootprint p 400 300 ∧ ∀ d : Dir, ¬ inFootprint p (entryPoint d).1 (entryPoint d).2 := by
  have key1 : 40 ≤ |p.x - 400| ∧ 40 ≤ |p.y - 300| ∧
      ¬ (|p.x - 400| < 100 ∧ |p.y - 300| < 100) := by
    rcases generateRoomTerrain_layout env key g hl with h | ⟨isBoss, h⟩
    · rw [h] at hp
      cases hp
    · rw [h] at hp
      refine foldl_terrainCell_positions env.rnd key isBoss
        (fun p => 40 ≤ |p.x - 400| ∧ 40 ≤ |p.y - 300| ∧
          ¬ (|p.x - 400| < 100 ∧ |p.y - 300| < 100)) ?_ terrainCells _ ?_ p hp
      · intro q h1 h2 h3
        simp only [Int.abs_eq_natAbs]
        omega
      · intro q hq
        cases hq
  obtain ⟨hx, hy, hc⟩ := key1
  have hx2 : (40 : ℚ) ≤ |(p.x : ℚ) - 400| := by exact_mod_cast hx
  have hy2 : (40 : ℚ) ≤ |(p.y : ℚ) - 300| := by exact_mod_cast hy
  refine ⟨hx, hy, hc, ?_, ?_⟩
  · rintro ⟨h1, _⟩
    rw [abs_sub_comm] at h1
    linarith
  · intro d
    rintro ⟨h1, h2⟩
    have he : (entryPoint d).1 = 400 ∨ (entryPoint d).2 = 300 := by
      cases d <;> simp [entryPoint]
    rcases he with he | he
    · rw [he, abs_sub_comm] at h1
      linarith
    · rw [he, abs_sub_comm] at h2
      linarith

theorem terrain_clear_of_lanes_witness :
    40 ≤ |(Pos.mk 160 160).x - 400| ∧ 40 ≤ |(Pos.mk 160 160).y - 300| ∧
    ¬ (|(Pos.mk 160 160).x - 400| < 100 ∧ |(Pos.mk 160 160).y - 300| < 100) ∧
    ¬ inFootprint (Pos.mk 160 160) 400 300 ∧
    ∀ d : Dir, ¬ inFootprint (Pos.mk 160 160) (entryPoint d).1 (entryPoint d).2 :=
  terrain_clear_of_lanes sampleEnv (5, 6) sampleGame (Pos.mk 160 160) rfl (by decide)

/-! ## Shop and floor items on re-entry -/

/-- C12, evaluated: the Shop room (5,6) is loaded and generates three priced slots; the player
leaves through the door and comes back through the door of the Spawn room.  `enterDoor` has
stored the three shop sprites in `droppedItems`, so the room then holds six items: three
restored by `spawnItem` without a price and without a shop entry, and the three slots. -/
theorem shop_reentry_duplicates :
    ((getRoom (run sampleEnv sampleShop [Op.loadRoom 5 6]).rooms (5, 6)).map fun r =>
      (r.shopGenerated, (r.shopItems.getD []).map fun e =>
        (e.x, e.y, e.data.id, e.price, e.bought))) =
      some (true, [(300, 300, "potion", 5, false), (400, 300, "potion", 5, false),
        (500, 300, "potion", 5, false)]) ∧
    (run sampleEnv sampleShop [Op.loadRoom 5 6, Op.enterDoor 0, Op.enterDoor 0]).currentRoom
      = (5, 6) ∧
    ((run sampleEnv sampleShop [Op.loadRoom 5 6, Op.enterDoor 0, Op.enterDoor 0]).items.map
      fun s => (s.dataRef.map fun d => d.id, s.price, s.shopEntry)) =
      [(some "potion", none, none), (some "potion", none, none), (some "potion", none, none),
       (some "potion", some 5, some ((5, 6), 0)), (some "potion", some 5, some ((5, 6), 1)),
       (some "potion", some 5, some ((5, 6), 2))] :=
  ⟨rfl, rfl, rfl⟩

/-! ## Items, doors and dropped items under the spawn calls -/

theorem DropKeep.dropKeep_refl (r : Room) : DropKeep r r := ⟨rfl, rfl, rfl⟩

theorem DropKeep.dropKeep_trans (a b c : Room) (h1 : DropKeep a b) (h2 : DropKeep b c) : DropKeep a c :=
  ⟨h2.1.trans h1.1, h2.2.1.trans h1.2.1, h2.2.2.trans h1.2.2⟩

theorem Quiet.quiet_refl (g : Game) : Quiet g g :=
  ⟨RoomsRel.roomsRel_refl DropKeep.dropKeep_refl _, rfl, rfl, rfl, rfl, rfl, rfl⟩

theorem Quiet.quiet_trans {a b c : Game} (h1 : Quiet a b) (h2 : Quiet b c) : Quiet a c :=
  ⟨h1.rooms.roomsRel_trans DropKeep.dropKeep_trans h2.rooms, h2.currentRoom.trans h1.currentRoom,
    h2.playerX.trans h1.playerX, h2.playerY.trans h1.playerY, h2.items.trans h1.items,
    h2.doors.trans h1.doors, h2.stairs.trans h1.stairs⟩

theorem quiet_eq {g g2 : Game} (h0 : g2.rooms = g.rooms)
    (h1 : g2.currentRoom = g.currentRoom) (h2 : g2.playerX = g.playerX)
    (h3 : g2.playerY = g.playerY) (h4 : g2.items = g.items) (h5 : g2.doors = g.doors)
    (h6 : g2.stairs = g.stairs) : Quiet g g2 :=
  ⟨by rw [h0]; exact RoomsRel.roomsRel_refl DropKeep.dropKeep_refl _, h1, h2, h3, h4, h5, h6⟩

theorem dropKeep_bossType (r : Room) (v : Option String) :
    DropKeep r { r with bossType := v } := ⟨rfl, rfl, rfl⟩

theorem dropKeep_shopItems (r : Room) (v : Option (List ShopEntry)) :
    DropKeep r { r with shopItems := v } := ⟨rfl, rfl, rfl⟩

theorem dropKeep_shopGenerated (r : Room) (v : Bool) :
    DropKeep r { r with shopGenerated := v } := ⟨rfl, rfl, rfl⟩

theorem dropKeep_visited (r : Room) (v : Bool) :
    DropKeep r { r with visited := v } := ⟨rfl, rfl, rfl⟩

theorem dropKeep_seen (r : Room) (v : Bool) :
    DropKeep r { r with seen := v } := ⟨rfl, rfl, rfl⟩

theorem dropKeep_cleared (r : Room) (v : Bool) :
    DropKeep r { r with cleared := v } := ⟨rfl, rfl, rfl⟩

theorem dropKeep_layout (r : Room) (v : Option TerrainLayout) :
    DropKeep r { r with terrainLayout := v } := ⟨rfl, rfl, rfl⟩

theorem writeCollection_quiet (env : Env) (g : Game) :
    Quiet g (finalState (writeCollection env g)) := by
  unfold writeCollection
  split_ifs <;> exact quiet_eq rfl rfl rfl rfl rfl rfl rfl

theorem saveDataEnemy_quiet (env : Env) (id : Option String) (g : Game) :
    Quiet g (finalState (saveDataEnemy env id g)) := by
  unfold saveDataEnemy
  split_ifs
  · exact Quiet.quiet_refl g
  · refine Quiet.quiet_trans ?_ (writeCollection_quiet env _)
    exact quiet_eq rfl rfl rfl rfl rfl rfl rfl

theorem spawnEnemy_quiet (env : Env) (x y : ℚ) (type : Option String) (g : Game) :
    Quiet g (finalState (spawnEnemy env x y type g)) := by
  have h0 := saveDataEnemy_quiet env type g
  unfold spawnEnemy
  cases hs : saveDataEnemy env type g with
  | error g1 => rw [hs] at h0; exact h0
  | ok g1 =>
    rw [hs] at h0
    simp only [finalState] at h0 ⊢
    refine h0.quiet_trans ?_
    cases type with
    | none =>
      simp only
      split_ifs <;> exact quiet_eq rfl rfl rfl rfl rfl rfl rfl
    | some ty =>
      simp only
      split_ifs <;> exact quiet_eq rfl rfl rfl rfl rfl rfl rfl

theorem spawnWaveEnemy_quiet (env : Env) (key : Coord) (pool : List String) (g : Game) :
    Quiet g (finalState (spawnWaveEnemy env key pool g)) := by
  unfold spawnWaveEnemy
  simp only
  refine Quiet.quiet_trans ?_ (spawnEnemy_quiet env _ _ _ _)
  exact quiet_eq rfl rfl rfl rfl rfl rfl rfl

theorem spawnWave_quiet (env : Env) (key : Coord) (pool : List String) (n : Nat) (g : Game) :
    Quiet g (finalState (spawnWave env key pool n g)) := by
  induction n generalizing g with
  | zero => exact Quiet.quiet_refl g
  | succ n ih =>
    unfold spawnWave
    have h := spawnWaveEnemy_quiet env key pool g
    cases hs : spawnWaveEnemy env key pool g with
    | error g1 => rw [hs] at h; exact h
    | ok g1 => rw [hs] at h; exact Quiet.quiet_trans h (ih _)

theorem pickBossKey_quiet (env : Env) (key : Coord) (theme : Theme) (g : Game) :
    Quiet g (pickBossKey env key theme g).2 := by
  unfold pickBossKey
  simp only
  split
  · exact Quiet.quiet_refl g
  · split
    · exact Quiet.quiet_refl g
    · split_ifs
      · exact Quiet.quiet_refl g
      · refine ⟨?_, rfl, rfl, rfl, rfl, rfl, rfl⟩
        dsimp only
        exact RoomsRel.update DropKeep.dropKeep_refl _ _ (fun r => dropKeep_bossType r _)

theorem spawnBoss_quiet (env : Env) (key : Coord) (theme : Theme) (g : Game) :
    Quiet g (finalState (spawnBoss env key theme g)) := by
  unfold spawnBoss
  simp only
  refine Quiet.quiet_trans (pickBossKey_quiet env key theme g) ?_
  refine Quiet.quiet_trans ?_ (spawnEnemy_quiet env _ _ _ _)
  exact quiet_eq rfl rfl rfl rfl rfl rfl rfl

/-! ## Dropped items under the calls made inside a room -/

theorem Drops.drops_refl (g : Game) : Drops g g :=
  ⟨RoomsRel.roomsRel_refl DropKeep.dropKeep_refl _, rfl, rfl, rfl, rfl, rfl, rfl⟩

theorem Drops.drops_trans {a b c : Game} (h1 : Drops a b) (h2 : Drops b c) : Drops a c :=
  ⟨h1.rooms.roomsRel_trans DropKeep.dropKeep_trans h2.rooms, h2.currentRoom.trans h1.currentRoom,
    h2.currentLevel.trans h1.currentLevel, h2.themeVariant.trans h1.themeVariant,
    h2.walls.trans h1.walls, h2.pits.trans h1.pits, h2.crates.trans h1.crates⟩

theorem Untouched.drops {g g2 : Game} (h : Untouched g g2) : Drops g g2 :=
  ⟨by rw [h.rooms]; exact RoomsRel.roomsRel_refl DropKeep.dropKeep_refl _, h.currentRoom, h.currentLevel,
    h.themeVariant, h.walls, h.pits, h.crates⟩

theorem drops_of_fields {g g2 : Game} (hr : RoomsRel DropKeep g.rooms g2.rooms)
    (h1 : g2.currentRoom = g.currentRoom) (h2 : g2.currentLevel = g.currentLevel)
    (h3 : g2.themeVariant = g.themeVariant) (h4 : g2.walls = g.walls) (h5 : g2.pits = g.pits)
    (h6 : g2.crates = g.crates) : Drops g g2 := ⟨hr, h1, h2, h3, h4, h5, h6⟩

theorem drops_eq {g g2 : Game} (h0 : g2.rooms = g.rooms)
    (h1 : g2.currentRoom = g.currentRoom) (h2 : g2.currentLevel = g.currentLevel)
    (h3 : g2.themeVariant = g.themeVariant) (h4 : g2.walls = g.walls) (h5 : g2.pits = g.pits)
    (h6 : g2.crates = g.crates) : Drops g g2 :=
  ⟨by rw [h0]; exact RoomsRel.roomsRel_refl DropKeep.dropKeep_refl _, h1, h2, h3, h4, h5, h6⟩

theorem drops_update (g : Game) (c : Coord) {f : Room → Room} (hf : ∀ r, DropKeep r (f r)) :
    Drops g { g with rooms := updateRoom g.rooms c f } :=
  ⟨RoomsRel.update DropKeep.dropKeep_refl _ _ hf, rfl, rfl, rfl, rfl, rfl, rfl⟩

theorem writeCollection_drops (env : Env) (g : Game) :
    Drops g (finalState (writeCollection env g)) := by
  unfold writeCollection
  split_ifs <;> exact drops_eq rfl rfl rfl rfl rfl rfl rfl

theorem saveDataItem_drops (env : Env) (id : String) (g : Game) :
    Drops g (finalState (saveDataItem env id g)) := by
  unfold saveDataItem
  split_ifs
  · exact Drops.drops_refl g
  · refine Drops.drops_trans ?_ (writeCollection_drops env _)
    exact drops_eq rfl rfl rfl rfl rfl rfl rfl

theorem saveDataEnemy_drops (env : Env) (id : Option String) (g : Game) :
    Drops g (finalState (saveDataEnemy env id g)) := by
  unfold saveDataEnemy
  split_ifs
  · exact Drops.drops_refl g
  · refine Drops.drops_trans ?_ (writeCollection_drops env _)
    exact drops_eq rfl rfl rfl rfl rfl rfl rfl

theorem spawnEnemy_drops (env : Env) (x y : ℚ) (type : Option String) (g : Game) :
    Drops g (finalState (spawnEnemy env x y type g)) := by
  have h0 := saveDataEnemy_drops env type g
  unfold spawnEnemy
  cases hs : saveDataEnemy env type g with
  | error g1 => rw [hs] at h0; exact h0
  | ok g1 =>
    rw [hs] at h0
    simp only [finalState] at h0 ⊢
    refine h0.drops_trans ?_
    cases type with
    | none =>
      simp only
      split_ifs <;> exact drops_eq rfl rfl rfl rfl rfl rfl rfl
    | some ty =>
      simp only
      split_ifs <;> exact drops_eq rfl rfl rfl rfl rfl rfl rfl

theorem spawnShopItem_drops (env : Env) (x y : Int) (g : Game) :
    Drops g (finalState (spawnShopItem env x y g)) := by
  have h := (shopOffer_untouched env g).drops
  unfold spawnShopItem
  simp only
  split
  · exact h
  · refine h.drops_trans ?_
    refine Drops.drops_trans ?_ (spawnShopItemSprite_untouched _ _).drops
    refine ⟨?_, rfl, rfl, rfl, rfl, rfl, rfl⟩
    dsimp only
    exact RoomsRel.update DropKeep.dropKeep_refl _ _ (fun r => dropKeep_shopItems r _)

theorem spawnShopSlots_drops (env : Env) (startX gap : Int) (n i : Nat) (g : Game) :
    Drops g (finalState (spawnShopSlots env startX gap n i g)) := by
  induction n generalizing i g with
  | zero => exact Drops.drops_refl g
  | succ n ih =>
    unfold spawnShopSlots
    have h := spawnShopItem_drops env (startX + i * gap) 300 g
    cases hs : spawnShopItem env (startX + i * gap) 300 g with
    | error g1 => rw [hs] at h; exact h
    | ok g1 => rw [hs] at h; exact Drops.drops_trans h (ih _ _)

theorem spawnWaveEnemy_drops (env : Env) (key : Coord) (pool : List String) (g : Game) :
    Drops g (finalState (spawnWaveEnemy env key pool g)) := by
  unfold spawnWaveEnemy
  simp only
  refine Drops.drops_trans ?_ (spawnEnemy_drops env _ _ _ _)
  exact drops_eq rfl rfl rfl rfl rfl rfl rfl

theorem spawnWave_drops (env : Env) (key : Coord) (pool : List String) (n : Nat) (g : Game) :
    Drops g (finalState (spawnWave env key pool n g)) := by
  induction n generalizing g with
  | zero => exact Drops.drops_refl g
  | succ n ih =>
    unfold spawnWave
    have h := spawnWaveEnemy_drops env key pool g
    cases hs : spawnWaveEnemy env key pool g with
    | error g1 => rw [hs] at h; exact h
    | ok g1 => rw [hs] at h; exact Drops.drops_trans h (ih _)

theorem pickBossKey_drops (env : Env) (key : Coord) (theme : Theme) (g : Game) :
    Drops g (pickBossKey env key theme g).2 := by
  unfold pickBossKey
  simp only
  split
  · exact Drops.drops_refl g
  · split
    · exact Drops.drops_refl g
    · split_ifs
      · exact Drops.drops_refl g
      · refine ⟨?_, rfl, rfl, rfl, rfl, rfl, rfl⟩
        dsimp only
        exact RoomsRel.update DropKeep.dropKeep_refl _ _ (fun r => dropKeep_bossType r _)

theorem spawnBoss_drops (env : Env) (key : Coord) (theme : Theme) (g : Game) :
    Drops g (finalState (spawnBoss env key theme g)) := by
  unfold spawnBoss
  simp only
  refine Drops.drops_trans (pickBossKey_drops env key theme g) ?_
  refine Drops.drops_trans ?_ (spawnEnemy_drops env _ _ _ _)
  exact drops_eq rfl rfl rfl rfl rfl rfl rfl

theorem generateShop_drops (env : Env) (key : Coord) (g : Game) :
    Drops g (finalState (generateShop env key g)) := by
  unfold generateShop
  simp only
  refine Drops.drops_trans ?_ (spawnShopSlots_drops env _ _ _ _ _)
  refine ⟨?_, rfl, rfl, rfl, rfl, rfl, rfl⟩
  dsimp only
  exact RoomsRel.update DropKeep.dropKeep_refl _ _ (fun r => dropKeep_shopGenerated r _)

theorem shopBranch_drops (env : Env) (key : Coord) (roomData : Room) (g : Game) :
    Drops g (finalState (shopBranch env key roomData g)) := by
  unfold shopBranch
  split_ifs
  · exact generateShop_drops env key g
  · exact (respawnShop_untouched key roomData g).drops
  · exact Drops.drops_refl g

theorem loadCleared_drops (env : Env) (key : Coord) (roomData : Room) (g : Game) :
    Drops g (finalState (loadCleared env key roomData g)) := by
  have h1 : Drops g (treasureReward env roomData (openDoors roomData g)) :=
    ((openDoors_untouched roomData g).untouched_trans (treasureReward_untouched env roomData _)).drops
  have h2 := shopBranch_drops env key roomData (treasureReward env roomData (openDoors roomData g))
  unfold loadCleared
  cases hs : shopBranch env key roomData (treasureReward env roomData (openDoors roomData g)) with
  | error g4 => rw [hs] at h2; exact h1.drops_trans h2
  | ok g4 =>
    rw [hs] at h2
    simp only
    split_ifs
    · exact (h1.drops_trans h2).drops_trans (spawnStairs_untouched _ _ _).drops
    · exact h1.drops_trans h2

theorem checkRoomClear_drops (env : Env) (g : Game) : Drops g (checkRoomClear env g) := by
  unfold checkRoomClear
  split
  · exact Drops.drops_refl g
  · split_ifs
    · simp only
      refine Drops.drops_trans ?_ (clearEffects_untouched env _ _).drops
      refine ⟨?_, rfl, rfl, rfl, rfl, rfl, rfl⟩
      dsimp only
      exact RoomsRel.update DropKeep.dropKeep_refl _ _ (fun r => dropKeep_cleared r _)
    · exact Drops.drops_refl g

theorem payForItem_drops (item : ItemSprite) (g : Game) : Drops g (payForItem item g) := by
  unfold payForItem
  simp only
  split
  · refine ⟨?_, rfl, rfl, rfl, rfl, rfl, rfl⟩
    dsimp only
    exact RoomsRel.update DropKeep.dropKeep_refl _ _ (fun r => dropKeep_shopItems r _)
  · exact drops_eq rfl rfl rfl rfl rfl rfl rfl

theorem andThen_drops {g : Game} {r : Except Game Game} {f : Game → Except Game Game}
    (hr : Drops g (finalState r)) (hf : ∀ g1, Drops g1 (finalState (f g1))) :
    Drops g (finalState (andThen r f)) := by
  cases r with
  | error g1 => exact hr
  | ok g1 => exact Drops.drops_trans hr (hf g1)

theorem applyAndClamp_drops (env : Env) (data : ItemData) (g : Game) :
    Drops g (applyAndClamp env data g) := drops_eq rfl rfl rfl rfl rfl rfl rfl

theorem populateRoom_drops (env : Env) (key : Coord) (theme : Theme) (roomData : Room)
    (g : Game) : Drops g (finalState (populateRoom env key theme roomData g)) := by
  unfold populateRoom
  split_ifs
  · refine Drops.drops_trans ?_ (spawnWave_drops env key _ _ _)
    exact drops_eq rfl rfl rfl rfl rfl rfl rfl
  · exact spawnBoss_drops env key theme g
  · exact Drops.drops_refl g
  · exact loadCleared_drops env key roomData g

theorem foldl_seen_dropKeep (l : List (Int × Int)) (key : Coord) (rooms : Rooms) :
    RoomsRel DropKeep rooms
      (l.foldl (fun acc dir => updateRoom acc (key.1 + dir.1, key.2 + dir.2) fun r =>
        { r with seen := true }) rooms) := by
  induction l generalizing rooms with
  | nil => exact RoomsRel.roomsRel_refl DropKeep.dropKeep_refl _
  | cons d l ih =>
    rw [List.foldl_cons]
    exact RoomsRel.roomsRel_trans DropKeep.dropKeep_trans
      (RoomsRel.update DropKeep.dropKeep_refl _ _ (fun r => dropKeep_seen r _)) (ih _)

theorem markVisited_dropKeep (key : Coord) (rooms : Rooms) :
    RoomsRel DropKeep rooms (markVisited key rooms) := by
  unfold markVisited
  exact RoomsRel.roomsRel_trans DropKeep.dropKeep_trans
    (RoomsRel.update DropKeep.dropKeep_refl _ _ (fun r => dropKeep_visited r _)) (foldl_seen_dropKeep _ _ _)


theorem Quiet.drops_rooms {g g2 : Game} (h : Quiet g g2) : RoomsRel DropKeep g.rooms g2.rooms :=
  h.rooms

theorem generateRoomTerrain_quiet (env : Env) (key : Coord) (g : Game) :
    Quiet g (generateRoomTerrain env key g) := by
  unfold generateRoomTerrain
  split
  · exact Quiet.quiet_refl g
  · split_ifs
    · exact Quiet.quiet_refl g
    · split
      · exact quiet_eq rfl rfl rfl rfl rfl rfl rfl
      · refine ⟨?_, rfl, rfl, rfl, rfl, rfl, rfl⟩
        dsimp only
        exact RoomsRel.update DropKeep.dropKeep_refl _ _ (fun r => dropKeep_layout r _)

theorem spawnItem_some (env : Env) (x y : ℚ) (d : ItemData) (g : Game) :
    spawnItem env x y (some d) g =
      { g with items := g.items ++ [restoredItem g.playerX g.playerY { x := x, y := y, data := d }] }
    := rfl

theorem restoreDrops_eq (env : Env) (drops : List Drop) (g : Game) :
    restoreDrops env drops g =
      { g with items := g.items ++ drops.map (restoredItem g.playerX g.playerY) } := by
  unfold restoreDrops
  induction drops generalizing g with
  | nil => simp
  | cons d ds ih =>
    rw [List.foldl_cons, ih, spawnItem_some]
    simp

/-- The cleared branch of `loadRoom` creates no item in a room that is neither a Shop nor a
Treasure room with its reward left. -/
theorem loadCleared_items (env : Env) (key : Coord) (roomData : Room) (g : Game)
    (hs : roomData.type ≠ RoomType.shop)
    (ht : ¬ (roomData.type = RoomType.treasure ∧ roomData.itemTaken = false)) :
    (finalState (loadCleared env key roomData g)).items = g.items ∧
    (finalState (loadCleared env key roomData g)).playerX = g.playerX ∧
    (finalState (loadCleared env key roomData g)).playerY = g.playerY := by
  unfold loadCleared shopBranch treasureReward
  rw [if_neg ht, if_neg (fun h => hs h.1), if_neg (fun h => hs h.1)]
  simp only
  split_ifs
  · simp only [finalState]
    have h := spawnStairs_untouched 400 300 (openDoors roomData g)
    refine ⟨?_, h.playerX, h.playerY⟩
    unfold spawnStairs
    split_ifs <;> rfl
  · exact ⟨rfl, rfl, rfl⟩

theorem populateRoom_items (env : Env) (key : Coord) (theme : Theme) (roomData : Room) (g : Game)
    (hs : roomData.type ≠ RoomType.shop)
    (ht : ¬ (roomData.type = RoomType.treasure ∧ roomData.itemTaken = false)) :
    (finalState (populateRoom env key theme roomData g)).items = g.items ∧
    (finalState (populateRoom env key theme roomData g)).playerX = g.playerX ∧
    (finalState (populateRoom env key theme roomData g)).playerY = g.playerY := by
  unfold populateRoom
  split_ifs
  · have h := spawnWave_quiet env key theme.enemyPool
      (waveCount (env.rnd g.calls) g.currentLevel).toNat { g with calls := g.calls + 1 }
    exact ⟨h.items, h.playerX, h.playerY⟩
  · have h := spawnBoss_quiet env key theme g
    exact ⟨h.items, h.playerX, h.playerY⟩
  · exact ⟨rfl, rfl, rfl⟩
  · exact loadCleared_items env key roomData g hs ht

theorem enterRoom_drops (env : Env) (key : Coord) (theme : Theme) (g : Game) :
    RoomsRel DropKeep g.rooms (finalState (enterRoom env key theme g)).rooms := by
  have hmv : RoomsRel DropKeep g.rooms (markVisited key g.rooms) := markVisited_dropKeep _ _
  have hg := (generateRoomTerrain_quiet env key
    (clearGroups { g with rooms := markVisited key g.rooms })).rooms
  unfold enterRoom
  simp only
  generalize generateRoomTerrain env key
    (clearGroups { g with rooms := markVisited key g.rooms }) = g3 at hg
  have hg1 : RoomsRel DropKeep g.rooms g3.rooms := RoomsRel.roomsRel_trans DropKeep.dropKeep_trans hmv hg
  cases hr3 : getRoom g3.rooms key with
  | none => exact hg1
  | some roomData =>
    simp only
    have hst := (restoreDrops_untouched env (roomData.droppedItems.getD []) g3).drops.drops_trans
      (populateRoom_drops env key theme roomData _)
    exact RoomsRel.roomsRel_trans DropKeep.dropKeep_trans hg1 hst.rooms

/-- Loading a room changes no `droppedItems`, no `itemTaken` and no room kind. -/
theorem loadRoom_drops (env : Env) (x y : Int) (g : Game) :
    RoomsRel DropKeep g.rooms (loadRoom env x y g).rooms := by
  unfold loadRoom loadRoomBody
  simp only
  split
  · exact RoomsRel.roomsRel_refl DropKeep.dropKeep_refl _
  · have hc := (chooseTheme_frame env { g with currentRoom := (x, y) }).1
    split
    · simp only [finalState]
      rw [hc]
      exact RoomsRel.roomsRel_refl DropKeep.dropKeep_refl _
    · have h := enterRoom_drops env (x, y) ‹Theme› (chooseTheme env { g with currentRoom := (x, y) })
      rw [hc] at h
      exact h

theorem chooseTheme_player (env : Env) (g : Game) :
    (chooseTheme env g).playerX = g.playerX ∧ (chooseTheme env g).playerY = g.playerY ∧
    (chooseTheme env g).items = g.items := by
  unfold chooseTheme
  simp only
  split_ifs <;> exact ⟨rfl, rfl, rfl⟩

theorem enterRoom_floor (env : Env) (key : Coord) (theme : Theme) (g : Game) (r : Room)
    (hr : getRoom g.rooms key = some r) (hs : r.type ≠ RoomType.shop)
    (ht : ¬ (r.type = RoomType.treasure ∧ r.itemTaken = false)) :
    (finalState (enterRoom env key theme g)).items =
      (r.droppedItems.getD []).map (restoredItem g.playerX g.playerY) ∧
    (finalState (enterRoom env key theme g)).playerX = g.playerX ∧
    (finalState (enterRoom env key theme g)).playerY = g.playerY := by
  have hmv : RoomsRel DropKeep g.rooms (markVisited key g.rooms) := markVisited_dropKeep _ _
  have hq := generateRoomTerrain_quiet env key
    (clearGroups { g with rooms := markVisited key g.rooms })
  unfold enterRoom
  simp only
  generalize generateRoomTerrain env key
    (clearGroups { g with rooms := markVisited key g.rooms }) = g3 at hq
  have hg1 : RoomsRel DropKeep g.rooms g3.rooms := RoomsRel.roomsRel_trans DropKeep.dropKeep_trans hmv hq.rooms
  obtain ⟨roomData, hr3, hk⟩ := hg1.roomsRel_get hr
  have hi : g3.items = [] := hq.items
  have hx : g3.playerX = g.playerX := hq.playerX
  have hy : g3.playerY = g.playerY := hq.playerY
  rw [hr3]
  simp only
  have hs2 : roomData.type ≠ RoomType.shop := by rw [hk.1]; exact hs
  have ht2 : ¬ (roomData.type = RoomType.treasure ∧ roomData.itemTaken = false) := by
    rw [hk.1, hk.2.2]; exact ht
  obtain ⟨p1, p2, p3⟩ := populateRoom_items env key theme roomData
    (restoreDrops env (roomData.droppedItems.getD []) g3) hs2 ht2
  rw [p1, p2, p3, restoreDrops_eq]
  simp only [hi, hx, hy, hk.2.1, List.nil_append]
  exact ⟨trivial, trivial, trivial⟩

/-- The items on the floor after `loadRoom` of a room that is neither a Shop nor a Treasure room
with its reward left: one per entry of `droppedItems`, in order. -/
theorem loadRoom_floor (env : Env) (x y : Int) (g : Game) (r : Room)
    (hr : getRoom g.rooms (x, y) = some r) (hs : r.type ≠ RoomType.shop)
    (ht : ¬ (r.type = RoomType.treasure ∧ r.itemTaken = false)) :
    (loadRoom env x y g).items =
      (r.droppedItems.getD []).map (restoredItem g.playerX g.playerY) ∧
    (loadRoom env x y g).playerX = g.playerX ∧ (loadRoom env x y g).playerY = g.playerY := by
  have hth := chooseTheme_isSome env { g with currentRoom := (x, y) }
  obtain ⟨theme, hth2⟩ := Option.isSome_iff_exists.1 hth
  have hc := (chooseTheme_frame env { g with currentRoom := (x, y) }).1
  obtain ⟨hpx, hpy, _⟩ := chooseTheme_player env { g with currentRoom := (x, y) }
  have hL : loadRoom env x y g =
      finalState (enterRoom env (x, y) theme (chooseTheme env { g with currentRoom := (x, y) }))
      := by
    unfold loadRoom loadRoomBody
    simp only [hr, hth2]
  rw [hL]
  have hr2 : getRoom (chooseTheme env { g with currentRoom := (x, y) }).rooms (x, y) = some r := by
    rw [hc]; exact hr
  obtain ⟨h1, h2, h3⟩ := enterRoom_floor env (x, y) theme _ r hr2 hs ht
  rw [h1, h2, h3, hpx, hpy]
  exact ⟨rfl, rfl, rfl⟩

theorem Drops.at {g g2 : Game} (h : Drops g g2) (c : Coord) : DropsAt c g g2 :=
  ⟨h.rooms c, h.currentRoom⟩

theorem DropsAt.dropsAt_trans {c : Coord} {g1 g2 g3 : Game} (h1 : DropsAt c g1 g2)
    (h2 : DropsAt c g2 g3) : DropsAt c g1 g3 :=
  ⟨optRel_trans DropKeep.dropKeep_trans h1.1 h2.1, h2.2.trans h1.2⟩

theorem getRoom_updateRoom_ne (rooms : Rooms) {c c2 : Coord} (f : Room → Room) (h : c2 ≠ c) :
    getRoom (updateRoom rooms c f) c2 = getRoom rooms c2 := by
  rw [getRoom_updateRoom]
  cases getRoom rooms c2 with
  | none => rfl
  | some r => simp [h]

theorem markTaken_dropsAt (c : Coord) (g : Game) (h : g.currentRoom ≠ c) :
    DropsAt c g (finalState (markTaken g)) := by
  unfold markTaken
  split
  · exact (Drops.drops_refl g).at c
  · split_ifs
    · refine ⟨?_, rfl⟩
      simp only [finalState]
      rw [getRoom_updateRoom_ne _ _ (Ne.symm h)]
      exact optRel_refl DropKeep.dropKeep_refl _
    · exact (Drops.drops_refl g).at c

theorem andThen_dropsAt {c : Coord} {g : Game} {r : Except Game Game}
    {f : Game → Except Game Game} (hc : g.currentRoom ≠ c) (hr : DropsAt c g (finalState r))
    (hf : ∀ g1, g1.currentRoom ≠ c → DropsAt c g1 (finalState (f g1))) :
    DropsAt c g (finalState (andThen r f)) := by
  cases r with
  | error g1 => exact hr
  | ok g1 =>
    refine DropsAt.dropsAt_trans hr (hf g1 ?_)
    have : g1.currentRoom = g.currentRoom := hr.2
    rw [this]
    exact hc

theorem collectItem_dropsAt (env : Env) (itemIdx : Nat) (data : ItemData) (c : Coord) (g : Game)
    (hc : g.currentRoom ≠ c) : DropsAt c g (finalState (collectItem env itemIdx data g)) := by
  unfold collectItem
  refine andThen_dropsAt hc
    (((applyAndClamp_drops env data g).drops_trans (saveDataItem_drops env _ _)).at c) ?_
  intro g3 h3
  refine andThen_dropsAt h3 (DropsAt.dropsAt_trans ?_ (markTaken_dropsAt c _ ?_)) ?_
  · exact (drops_eq rfl rfl rfl rfl rfl rfl rfl : Drops g3 _).at c
  · exact h3
  · intro g5 h5
    refine andThen_dropsAt h5 ((saveDataItem_drops env _ g5).at c) ?_
    intro g6 _
    exact (drops_eq rfl rfl rfl rfl rfl rfl rfl : Drops g6 _).at c

theorem takeItem_dropsAt (env : Env) (itemIdx : Nat) (item : ItemSprite) (c : Coord) (g : Game)
    (hc : g.currentRoom ≠ c) : DropsAt c g (finalState (takeItem env itemIdx item g)) := by
  unfold takeItem
  split
  · exact (Drops.drops_refl g).at c
  · split_ifs
    · exact (drops_eq rfl rfl rfl rfl rfl rfl rfl : Drops g _).at c
    · exact collectItem_dropsAt env itemIdx _ c g hc

theorem pickItem_dropsAt (env : Env) (itemIdx : Nat) (c : Coord) (g : Game)
    (hc : g.currentRoom ≠ c) : DropsAt c g (finalState (pickItem env itemIdx g)) := by
  unfold pickItem
  split
  · exact (Drops.drops_refl g).at c
  · split_ifs
    · exact (Drops.drops_refl g).at c
    · have hp := payForItem_drops ‹ItemSprite› g
      refine DropsAt.dropsAt_trans (hp.at c) (takeItem_dropsAt env itemIdx _ c _ ?_)
      rw [hp.currentRoom]
      exact hc
    · exact takeItem_dropsAt env itemIdx _ c g hc

theorem destroyCrate_drops (env : Env) (b : Option Nat) (j : Nat) (g : Game) :
    RoomsRel DropKeep g.rooms (destroyCrate env b j g).rooms ∧
    (destroyCrate env b j g).currentRoom = g.currentRoom := by
  cases hj : g.crates[j]? with
  | none =>
    unfold destroyCrate
    rw [hj]
    exact ⟨RoomsRel.roomsRel_refl DropKeep.dropKeep_refl _, rfl⟩
  | some crate =>
    obtain ⟨h1, _, _, _, h5, _, _⟩ := destroyCrate_fields env b j g crate hj
    refine ⟨?_, h5⟩
    rw [h1]
    cases crate.dataRef with
    | none => exact RoomsRel.roomsRel_refl DropKeep.dropKeep_refl _
    | some ref =>
      obtain ⟨k, i⟩ := ref
      exact RoomsRel.update DropKeep.dropKeep_refl _ _ (fun r => dropKeep_layout r _)

/-- An event that does not load room `c`, made while another room is current, keeps the
`droppedItems`, the `itemTaken` flag and the kind of its record, and `c` does not become
current. -/
theorem step_dropsAway (env : Env) (c : Coord) (g : Game) (op : Op) (hc : g.currentRoom ≠ c)
    (hop : loadTarget g op ≠ some c) :
    optRel DropKeep (getRoom g.rooms c) (getRoom (step env g op).rooms c) ∧
    (step env g op).currentRoom ≠ c := by
  cases op with
  | checkRoomClear =>
    have h := checkRoomClear_drops env g
    exact ⟨h.rooms c, fun e => hc (h.currentRoom.symm.trans e)⟩
  | pickItem j =>
    have h := pickItem_dropsAt env j c g hc
    exact ⟨h.1, fun e => hc (h.2.symm.trans e)⟩
  | spawnEnemy x y ty =>
    have h := spawnEnemy_drops env x y ty g
    exact ⟨h.rooms c, fun e => hc (h.currentRoom.symm.trans e)⟩
  | destroyCrate b j =>
    have h := destroyCrate_drops env b j g
    exact ⟨h.1 c, fun e => hc (h.2.symm.trans e)⟩
  | loadRoom x y =>
    refine ⟨loadRoom_drops env x y g c, ?_⟩
    rw [show (step env g (Op.loadRoom x y)).currentRoom = (x, y) from
      (loadRoom_spec env x y g).1]
    intro hxy
    exact hop (by simp [loadTarget, hxy])
  | enterDoor j =>
    rcases enterDoor_eq env j g with ⟨_, heq⟩ | ⟨d, _, htar, heq⟩
    · show optRel DropKeep _ (getRoom (enterDoor env j g).rooms c) ∧
        (enterDoor env j g).currentRoom ≠ c
      rw [heq]
      exact ⟨optRel_refl DropKeep.dropKeep_refl _, hc⟩
    · show optRel DropKeep _ (getRoom (enterDoor env j g).rooms c) ∧
        (enterDoor env j g).currentRoom ≠ c
      rw [heq]
      refine ⟨?_, ?_⟩
      · have h := loadRoom_drops env (enterDoorTarget g.currentRoom d).1
          (enterDoorTarget g.currentRoom d).2
          { g with rooms := updateRoom g.rooms g.currentRoom fun r =>
                     { r with droppedItems := some (floorDrops g.items) }
                   playerX := (entryPoint d).1
                   playerY := (entryPoint d).2 } c
        dsimp only at h
        rw [getRoom_updateRoom_ne _ _ (Ne.symm hc)] at h
        exact h
      · rw [(loadRoom_spec env _ _ _).1]
        intro hxy
        apply hop
        rw [htar, ← hxy]

theorem run_dropsAway (env : Env) (c : Coord) (ops : List Op) (g : Game) (hc : g.currentRoom ≠ c)
    (h : Away env c g ops) :
    optRel DropKeep (getRoom g.rooms c) (getRoom (run env g ops).rooms c) ∧
    (run env g ops).currentRoom ≠ c := by
  induction ops generalizing g with
  | nil => exact ⟨optRel_refl DropKeep.dropKeep_refl _, hc⟩
  | cons op ops ih =>
    obtain ⟨h1, h2⟩ := h
    obtain ⟨s1, s2⟩ := step_dropsAway env c g op hc h1
    obtain ⟨r1, r2⟩ := ih (step env g op) s2 h2
    rw [run_cons]
    exact ⟨optRel_trans DropKeep.dropKeep_trans s1 r1, r2⟩

/-- An event that loads room `c` from another room puts one item per stored drop on its floor,
unless `c` is a Shop or a Treasure room with its reward left. -/
theorem reenter_floor (env : Env) (g : Game) (back : Op) (c : Coord) (r : Room)
    (hc : g.currentRoom ≠ c) (hr : getRoom g.rooms c = some r)
    (hback : loadTarget g back = some c) (hs : r.type ≠ RoomType.shop)
    (ht : ¬ (r.type = RoomType.treasure ∧ r.itemTaken = false)) :
    (step env g back).currentRoom = c ∧
    (step env g back).items = (r.droppedItems.getD []).map
      (restoredItem (step env g back).playerX (step env g back).playerY) := by
  cases back with
  | checkRoomClear => simp [loadTarget] at hback
  | pickItem j => simp [loadTarget] at hback
  | spawnEnemy x y ty => simp [loadTarget] at hback
  | destroyCrate b j => simp [loadTarget] at hback
  | loadRoom x y =>
    simp only [loadTarget, Option.some.injEq] at hback
    subst hback
    obtain ⟨h1, h2, h3⟩ := loadRoom_floor env x y g r hr hs ht
    rw [show step env g (Op.loadRoom x y) = loadRoom env x y g from rfl, h1, h2, h3]
    exact ⟨(loadRoom_spec env x y g).1, rfl⟩
  | enterDoor j =>
    rcases enterDoor_eq env j g with ⟨hnone, _⟩ | ⟨d, _, htar, heq⟩
    · rw [hnone] at hback; cases hback
    · rw [htar] at hback
      simp only [Option.some.injEq] at hback
      rw [show step env g (Op.enterDoor j) = _ from heq, hback]
      have hr2 : getRoom
          ({ g with rooms := updateRoom g.rooms g.currentRoom fun r =>
                      { r with droppedItems := some (floorDrops g.items) }
                    playerX := (entryPoint d).1
                    playerY := (entryPoint d).2 } : Game).rooms (c.1, c.2) = some r := by
        dsimp only
        rw [getRoom_updateRoom_ne _ _ (Ne.symm hc)]
        exact hr
      obtain ⟨h1, h2, h3⟩ := loadRoom_floor env c.1 c.2 _ r hr2 hs ht
      rw [h1, h2, h3]
      exact ⟨(loadRoom_spec env c.1 c.2 _).1, rfl⟩

/-- The snapshot of `enterDoor`: the record of the room that is left holds the active floor
items, and the room entered is another one. -/
theorem enterDoor_snapshot (env : Env) (i : Nat) (g : Game) (door : DoorSprite) (d : Dir)
    (r : Room) (hdoor : g.doors[i]? = some door) (hdir : door.dir = some d)
    (hr : getRoom g.rooms g.currentRoom = some r) :
    (∃ r1, getRoom (enterDoor env i g).rooms g.currentRoom = some r1 ∧
      r1.droppedItems = some (floorDrops g.items) ∧ r1.type = r.type ∧
      r1.itemTaken = r.itemTaken) ∧
    (enterDoor env i g).currentRoom ≠ g.currentRoom := by
  rcases enterDoor_eq env i g with ⟨hnone, _⟩ | ⟨d2, _, _, heq⟩
  · simp [loadTarget, hdoor, hdir] at hnone
  · rw [heq]
    refine ⟨?_, ?_⟩
    · have h := loadRoom_drops env (enterDoorTarget g.currentRoom d2).1
        (enterDoorTarget g.currentRoom d2).2
        { g with rooms := updateRoom g.rooms g.currentRoom fun r =>
                   { r with droppedItems := some (floorDrops g.items) }
                 playerX := (entryPoint d2).1
                 playerY := (entryPoint d2).2 }
      have hr1 : getRoom (updateRoom g.rooms g.currentRoom fun r =>
          { r with droppedItems := some (floorDrops g.items) }) g.currentRoom =
          some { r with droppedItems := some (floorDrops g.items) } := by
        rw [getRoom_updateRoom, hr]
        simp
      obtain ⟨r1, h1, hk⟩ := h.roomsRel_get hr1
      exact ⟨r1, h1, hk.2.1, hk.1, hk.2.2⟩
    · rw [(loadRoom_spec env _ _ _).1]
      rw [show ((enterDoorTarget g.currentRoom d2).1, (enterDoorTarget g.currentRoom d2).2) =
        enterDoorTarget g.currentRoom d2 from rfl, enterDoorTarget_eq]
      exact neighbor_ne _ _

/-- C13, evaluated at a Treasure room whose reward is left on the floor.  The player enters the
Treasure room (5,6) from the Spawn room: one reward lies at `(400, 300)`.  The player leaves
through the upper door without taking it and comes back: the room now holds two items at
`(400, 300)`, the one restored from `droppedItems` and a second reward, where the claim says
that the room holds the same number of items as at the exit, one reward. -/
theorem treasure_reentry_duplicates :
    (run samplePoolEnv sampleTreasure [Op.loadRoom 5 5, Op.enterDoor 0]).currentRoom = (5, 6) ∧
    (run samplePoolEnv sampleTreasure [Op.loadRoom 5 5, Op.enterDoor 0]).items =
      [{ x := 400, y := 300, active := true, dataRef := some hpUp, price := none,
         shopEntry := none }] ∧
    (run samplePoolEnv sampleTreasure
      [Op.loadRoom 5 5, Op.enterDoor 0, Op.enterDoor 0, Op.enterDoor 0]).currentRoom = (5, 6) ∧
    (run samplePoolEnv sampleTreasure
      [Op.loadRoom 5 5, Op.enterDoor 0, Op.enterDoor 0, Op.enterDoor 0]).items =
      [{ x := 400, y := 300, active := true, dataRef := some hpUp, price := none,
         shopEntry := none },
       { x := 400, y := 300, active := true, dataRef := some hpUp, price := none,
         shopEntry := none }] := by
  refine ⟨rfl, ?_, rfl, ?_⟩
  · have h : (run samplePoolEnv sampleTreasure [Op.loadRoom 5 5, Op.enterDoor 0]).items =
        [restoredItem 400 100 { x := 400, y := 300, data := hpUp }] := rfl
    rw [h]
    norm_num [restoredItem, distLt]
  · have h : (run samplePoolEnv sampleTreasure
        [Op.loadRoom 5 5, Op.enterDoor 0, Op.enterDoor 0, Op.enterDoor 0]).items =
        [restoredItem 400 100
           { x := (restoredItem 400 100 { x := 400, y := 300, data := hpUp }).x
             y := (restoredItem 400 100 { x := 400, y := 300, data := hpUp }).y
             data := hpUp },
         restoredItem 400 100 { x := 400, y := 300, data := hpUp }] := rfl
    rw [h]
    norm_num [restoredItem, distLt]

/-- What the round trip through `droppedItems` does restore.  When the player leaves the
current room through a door, `enterDoor` replaces the room's `droppedItems` by exactly the active
floor items (position and descriptor).  The list, the kind and `itemTaken` of that record stay
as they are while the room is not loaded.  When an event then loads the room again and it is
neither a Shop nor a Treasure room with its reward left, the items on its floor are exactly one
per stored entry, in order and with the stored descriptor, each at the stored position unless it
is closer than 60 to the player, in which case it is moved by 50 on both axes; so with no stored
entry that close the positions are those of the exit. -/
theorem floor_items_round_trip (env : Env) (g : Game) (i : Nat) (door : DoorSprite) (d : Dir)
    (r : Room) (rest : List Op) (back : Op)
    (hdoor : g.doors[i]? = some door) (hdir : door.dir = some d)
    (hr : getRoom g.rooms g.currentRoom = some r)
    (haway : Away env g.currentRoom (enterDoor env i g) rest)
    (hback : loadTarget (run env (enterDoor env i g) rest) back = some g.currentRoom) :
    (∃ r1, getRoom (enterDoor env i g).rooms g.currentRoom = some r1 ∧
      r1.droppedItems = some (floorDrops g.items)) ∧
    (∃ r2, getRoom (run env (enterDoor env i g) rest).rooms g.currentRoom = some r2 ∧
      r2.droppedItems = some (floorDrops g.items) ∧ r2.type = r.type ∧
      r2.itemTaken = r.itemTaken) ∧
    (r.type ≠ RoomType.shop → ¬ (r.type = RoomType.treasure ∧ r.itemTaken = false) →
      (step env (run env (enterDoor env i g) rest) back).currentRoom = g.currentRoom ∧
      (step env (run env (enterDoor env i g) rest) back).items =
        (floorDrops g.items).map
          (restoredItem (step env (run env (enterDoor env i g) rest) back).playerX
            (step env (run env (enterDoor env i g) rest) back).playerY) ∧
      ((∀ dr ∈ floorDrops g.items,
          distLt dr.x dr.y (step env (run env (enterDoor env i g) rest) back).playerX
            (step env (run env (enterDoor env i g) rest) back).playerY 60 = false) →
        (step env (run env (enterDoor env i g) rest) back).items =
          (floorDrops g.items).map fun dr =>
            { x := dr.x, y := dr.y, active := true, dataRef := some dr.data, price := none,
              shopEntry := none })) := by
  obtain ⟨⟨r1, hr1, hd1, ht1, hi1⟩, hne⟩ := enterDoor_snapshot env i g door d r hdoor hdir hr
  obtain ⟨hk, hne2⟩ := run_dropsAway env g.currentRoom rest _ hne haway
  rw [hr1] at hk
  cases hr2 : getRoom (run env (enterDoor env i g) rest).rooms g.currentRoom with
  | none => rw [hr2] at hk; exact hk.elim
  | some r2 =>
    rw [hr2] at hk
    have hk2 : DropKeep r1 r2 := hk
    have hd2 : r2.droppedItems = some (floorDrops g.items) := hk2.2.1.trans hd1
    have ht2 : r2.type = r.type := hk2.1.trans ht1
    have hi2 : r2.itemTaken = r.itemTaken := hk2.2.2.trans hi1
    refine ⟨⟨r1, hr1, hd1⟩, ⟨r2, rfl, hd2, ht2, hi2⟩, ?_⟩
    intro hs ht
    obtain ⟨h1, h2⟩ := reenter_floor env _ back g.currentRoom r2 hne2 hr2 hback
      (by rw [ht2]; exact hs) (by rw [ht2, hi2]; exact ht)
    rw [hd2] at h2
    simp only [Option.getD_some] at h2
    refine ⟨h1, h2, ?_⟩
    intro hfar
    rw [h2]
    apply List.map_congr_left
    intro dr hdr
    have := hfar dr hdr
    simp only [restoredItem, this]
    rfl

theorem floor_items_round_trip_witness :
    (∃ r1, getRoom (enterDoor sampleEnv 0 sampleFloor).rooms sampleFloor.currentRoom = some r1 ∧
      r1.droppedItems = some (floorDrops sampleFloor.items)) ∧
    (∃ r2, getRoom (run sampleEnv (enterDoor sampleEnv 0 sampleFloor) [Op.checkRoomClear]).rooms
        sampleFloor.currentRoom = some r2 ∧
      r2.droppedItems = some (floorDrops sampleFloor.items) ∧ r2.type = RoomType.spawn ∧
      r2.itemTaken = false) ∧
    (RoomType.spawn ≠ RoomType.shop → ¬ (RoomType.spawn = RoomType.treasure ∧ false = false) →
      (step sampleEnv (run sampleEnv (enterDoor sampleEnv 0 sampleFloor) [Op.checkRoomClear])
        (Op.enterDoor 0)).currentRoom = sampleFloor.currentRoom ∧
      (step sampleEnv (run sampleEnv (enterDoor sampleEnv 0 sampleFloor) [Op.checkRoomClear])
        (Op.enterDoor 0)).items =
        (floorDrops sampleFloor.items).map
          (restoredItem
            (step sampleEnv (run sampleEnv (enterDoor sampleEnv 0 sampleFloor)
              [Op.checkRoomClear]) (Op.enterDoor 0)).playerX
            (step sampleEnv (run sampleEnv (enterDoor sampleEnv 0 sampleFloor)
              [Op.checkRoomClear]) (Op.enterDoor 0)).playerY) ∧
      ((∀ dr ∈ floorDrops sampleFloor.items,
          distLt dr.x dr.y
            (step sampleEnv (run sampleEnv (enterDoor sampleEnv 0 sampleFloor)
              [Op.checkRoomClear]) (Op.enterDoor 0)).playerX
            (step sampleEnv (run sampleEnv (enterDoor sampleEnv 0 sampleFloor)
              [Op.checkRoomClear]) (Op.enterDoor 0)).playerY 60 = false) →
        (step sampleEnv (run sampleEnv (enterDoor sampleEnv 0 sampleFloor) [Op.checkRoomClear])
          (Op.enterDoor 0)).items =
          (floorDrops sampleFloor.items).map fun dr =>
            { x := dr.x, y := dr.y, active := true, dataRef := some dr.data, price := none,
              shopEntry := none })) :=
  floor_items_round_trip sampleEnv sampleFloor 0 (doorSprite Dir.down) Dir.down
    { type := RoomType.spawn, cleared := true, doors := [Dir.down] } [Op.checkRoomClear]
    (Op.enterDoor 0) rfl rfl rfl ⟨by simp [loadTarget], trivial⟩ rfl

/-! ## Transient state on a room load -/

/-- C14, evaluated: a coin lies in the Spawn room (5,5) when the player goes through the door;
`loadRoom` clears the groups of enemies, bullets, items, doors, stairs, walls, crates and pits,
but not `coins`, so the coin of the room that was left is present in room (5,6). -/
theorem loadRoom_keeps_coins :
    (enterDoor sampleEnv 0 sampleCoins).currentRoom = (5, 6) ∧
    sampleCoins.coins = [{ x := 300, y := 300, value := 1 }] ∧
    (enterDoor sampleEnv 0 sampleCoins).coins = [{ x := 300, y := 300, value := 1 }] ∧
    (enterDoor sampleEnv 0 sampleCoins).items.length = 0 :=
  ⟨rfl, rfl, rfl, rfl⟩

/-! ## spawnEnemy: the instance created -/

theorem writeCollection_fields (env : Env) (g g1 : Game)
    (h : writeCollection env g = Except.ok g1) :
    g1.calls = g.calls ∧ g1.currentLevel = g.currentLevel ∧
    g1.difficultyMultiplier = g.difficultyMultiplier ∧ g1.enemies = g.enemies := by
  unfold writeCollection at h
  split_ifs at h
  cases h
  exact ⟨rfl, rfl, rfl, rfl⟩

theorem saveDataEnemy_fields (env : Env) (id : Option String) (g g1 : Game)
    (h : saveDataEnemy env id g = Except.ok g1) :
    g1.calls = g.calls ∧ g1.currentLevel = g.currentLevel ∧
    g1.difficultyMultiplier = g.difficultyMultiplier ∧ g1.enemies = g.enemies := by
  unfold saveDataEnemy at h
  split_ifs at h
  · cases h
    exact ⟨rfl, rfl, rfl, rfl⟩
  · exact writeCollection_fields env
      { g with collectionEnemies := g.collectionEnemies ++ [id] } g1 h

theorem spawned_append (g : Game) (l : List Enemy) (e : Enemy) (h : g.enemies = l ++ [e]) :
    spawned (Except.ok g) = some e := by
  simp [spawned, h]

/-! ## Double-precision arithmetic: rounding lemmas -/

theorem roundEven_floor_le (y : ℚ) : ⌊y⌋ ≤ roundEven y := by
  unfold roundEven
  split_ifs <;> omega

theorem roundEven_le_floor_succ (y : ℚ) : roundEven y ≤ ⌊y⌋ + 1 := by
  unfold roundEven
  split_ifs <;> omega

theorem roundEven_intCast (n : Int) : roundEven (n : ℚ) = n := by
  unfold roundEven
  simp

theorem roundEven_near (y : ℚ) (m : Int) (h : |y - m| < 1 / 2) : roundEven y = m := by
  rw [abs_lt] at h
  obtain ⟨h1, h2⟩ := h
  by_cases hc : (m : ℚ) ≤ y
  · have hf : ⌊y⌋ = m := by
      rw [Int.floor_eq_iff]
      constructor
      · exact hc
      · linarith
    unfold roundEven
    rw [hf, if_pos (by linarith)]
  · have hf : ⌊y⌋ = m - 1 := by
      rw [Int.floor_eq_iff]
      push_cast
      constructor
      · linarith
      · linarith
    unfold roundEven
    rw [hf]
    push_cast
    rw [if_neg (by linarith), if_pos (by linarith)]
    ring

theorem roundEven_err (y : ℚ) : |(roundEven y : ℚ) - y| ≤ 1 / 2 := by
  have h1 := Int.floor_le y
  have h2 := Int.lt_floor_add_one y
  unfold roundEven
  rw [abs_le]
  split_ifs with a b c
  · constructor <;> linarith
  · push_cast
    constructor <;> linarith
  · have : y - ⌊y⌋ = 1 / 2 := le_antisymm (not_lt.1 b) (not_lt.1 a)
    constructor <;> linarith
  · have : y - ⌊y⌋ = 1 / 2 := le_antisymm (not_lt.1 b) (not_lt.1 a)
    push_cast
    constructor <;> linarith

theorem roundEven_mono {a b : ℚ} (h : a ≤ b) : roundEven a ≤ roundEven b := by
  have hf : ⌊a⌋ ≤ ⌊b⌋ := Int.floor_mono h
  rcases lt_or_eq_of_le hf with hlt | heq
  · have h1 := roundEven_le_floor_succ a
    have h2 := roundEven_floor_le b
    omega
  · unfold roundEven
    rw [heq]
    have hab : a - ⌊b⌋ ≤ b - ⌊b⌋ := by linarith
    split_ifs <;> first | omega | (exfalso; linarith)

theorem ulpExp_eq (x : ℚ) (e : Int) (h1 : (2 : ℚ) ^ (e + 52) ≤ |x|)
    (h2 : |x| < (2 : ℚ) ^ (e + 53)) : ulpExp x = e := by
  have hpos : 0 < |x| := lt_of_lt_of_le (zpow_pos (by norm_num) _) h1
  have a : e + 52 ≤ Int.log 2 |x| :=
    (Int.zpow_le_iff_le_log (by norm_num) hpos).1 (by exact_mod_cast h1)
  have b : Int.log 2 |x| < e + 53 :=
    (Int.lt_zpow_iff_log_lt (by norm_num) hpos).1 (by exact_mod_cast h2)
  unfold ulpExp
  omega

theorem ulpExp_spec (x : ℚ) (hx : x ≠ 0) :
    (2 : ℚ) ^ (ulpExp x + 52) ≤ |x| ∧ |x| < (2 : ℚ) ^ (ulpExp x + 53) := by
  have hpos : 0 < |x| := abs_pos.2 hx
  unfold ulpExp
  constructor
  · have := Int.zpow_log_le_self (b := 2) (r := |x|) (by norm_num) hpos
    rw [show Int.log 2 |x| - 52 + 52 = Int.log 2 |x| by ring]
    exact_mod_cast this
  · have := Int.lt_zpow_succ_log_self (b := 2) (by norm_num) |x|
    rw [show Int.log 2 |x| - 52 + 53 = Int.log 2 |x| + 1 by ring]
    exact_mod_cast this

theorem fl_zero : fl 0 = 0 := by
  unfold fl ulpExp roundEven
  simp

/-- The double nearest to `x`, given by its significand `m` and exponent `e`: `x` lies in the
binade of `e` and closer to `m * 2 ^ e` than half a unit of the last place. -/
theorem fl_eq_of_near (x : ℚ) (m e : Int) (h1 : (2 : ℚ) ^ (e + 52) ≤ |x|)
    (h2 : |x| < (2 : ℚ) ^ (e + 53)) (h3 : |x - m * 2 ^ e| < 2 ^ e / 2) :
    fl x = m * 2 ^ e := by
  have he := ulpExp_eq x e h1 h2
  have hp : (0 : ℚ) < 2 ^ e := zpow_pos (by norm_num) _
  unfold fl
  rw [he, roundEven_near (x / 2 ^ e) m]
  have : x / 2 ^ e - m = (x - m * 2 ^ e) / 2 ^ e := by
    field_simp
    ring
  rw [this, abs_div, abs_of_pos hp, div_lt_iff₀ hp]
  linarith

/-- The form of `fl_eq_of_near` for a positive `x`, without absolute values. -/
theorem fl_eq_of_pos (x : ℚ) (m e : Int) (h1 : (2 : ℚ) ^ (e + 52) ≤ x)
    (h2 : x < (2 : ℚ) ^ (e + 53)) (h3 : x - m * 2 ^ e < 2 ^ e / 2)
    (h4 : m * 2 ^ e - x < 2 ^ e / 2) : fl x = m * 2 ^ e := by
  have hx : 0 < x := lt_of_lt_of_le (zpow_pos (by norm_num) _) h1
  apply fl_eq_of_near
  · rw [abs_of_pos hx]; exact h1
  · rw [abs_of_pos hx]; exact h2
  · rw [abs_lt]
    constructor <;> linarith

theorem fl_two_mul (x : ℚ) : fl (2 * x) = 2 * fl x := by
  by_cases hx : x = 0
  · rw [hx, mul_zero, fl_zero, mul_zero]
  · obtain ⟨h1, h2⟩ := ulpExp_spec x hx
    have he : ulpExp (2 * x) = ulpExp x + 1 := by
      apply ulpExp_eq
      · rw [abs_mul, abs_of_pos (by norm_num : (0 : ℚ) < 2),
          show ulpExp x + 1 + 52 = (ulpExp x + 52) + 1 by ring, zpow_add_one₀ (by norm_num)]
        linarith
      · rw [abs_mul, abs_of_pos (by norm_num : (0 : ℚ) < 2),
          show ulpExp x + 1 + 53 = (ulpExp x + 53) + 1 by ring, zpow_add_one₀ (by norm_num)]
        linarith
    have hp : (0 : ℚ) < 2 ^ ulpExp x := zpow_pos (by norm_num) _
    unfold fl
    rw [he, zpow_add_one₀ (by norm_num)]
    have : 2 * x / (2 ^ ulpExp x * 2) = x / 2 ^ ulpExp x := by
      field_simp
      ring
    rw [this]
    ring

/-- A number with a significand below `2 ^ 53` in magnitude is a double. -/
theorem fl_repr (m e : Int) (hm : |m| < 2 ^ 53) : fl ((m : ℚ) * 2 ^ e) = (m : ℚ) * 2 ^ e := by
  by_cases h0 : m = 0
  · rw [h0]
    simp [fl_zero]
  · have hp : (0 : ℚ) < 2 ^ e := zpow_pos (by norm_num) _
    have hx : (m : ℚ) * 2 ^ e ≠ 0 := mul_ne_zero (by exact_mod_cast h0) (ne_of_gt hp)
    obtain ⟨h1, _⟩ := ulpExp_spec _ hx
    have hm2 : |(m : ℚ)| < 2 ^ 53 := by exact_mod_cast hm
    have hlt : (2 : ℚ) ^ (ulpExp ((m : ℚ) * 2 ^ e) + 52) < 2 ^ (e + 53) := by
      refine lt_of_le_of_lt h1 ?_
      rw [abs_mul, abs_of_pos hp, zpow_add₀ (by norm_num), mul_comm]
      have : (2 : ℚ) ^ (53 : ℤ) = 2 ^ 53 := by norm_num
      rw [this]
      exact mul_lt_mul_of_pos_left hm2 hp
    have hle : ulpExp ((m : ℚ) * 2 ^ e) ≤ e := by
      have := (zpow_lt_zpow_iff_right₀ (by norm_num : (1 : ℚ) < 2)).1 hlt
      omega
    obtain ⟨k, hk⟩ := Int.eq_ofNat_of_zero_le (sub_nonneg.2 hle)
    have he : e = ulpExp ((m : ℚ) * 2 ^ e) + k := by omega
    unfold fl
    generalize ulpExp ((m : ℚ) * 2 ^ e) = e2 at he
    subst he
    have hp2 : (0 : ℚ) < 2 ^ e2 := zpow_pos (by norm_num) _
    have : (m : ℚ) * 2 ^ (e2 + (k : ℤ)) / 2 ^ e2 = ((m * 2 ^ k : Int) : ℚ) := by
      rw [zpow_add₀ (by norm_num), zpow_natCast]
      push_cast
      field_simp
      ring
    rw [this, roundEven_intCast, zpow_add₀ (by norm_num), zpow_natCast]
    push_cast
    ring

theorem roundEven_abs_le (y : ℚ) (h : |y| < 2 ^ 53) : |roundEven y| ≤ 2 ^ 53 := by
  rw [abs_lt] at h
  have h1 := roundEven_floor_le y
  have h2 := roundEven_le_floor_succ y
  have h3 : ⌊y⌋ < 2 ^ 53 := by
    rw [Int.floor_lt]
    push_cast
    exact h.2
  have h4 : -(2 : Int) ^ 53 ≤ ⌊y⌋ := by
    rw [Int.le_floor]
    push_cast
    linarith [h.1]
  rw [abs_le]
  constructor <;> omega

/-- Rounding a double changes nothing. -/
theorem fl_fl (x : ℚ) : fl (fl x) = fl x := by
  by_cases hx : x = 0
  · rw [hx, fl_zero, fl_zero]
  · obtain ⟨_, h2⟩ := ulpExp_spec x hx
    have hp : (0 : ℚ) < 2 ^ ulpExp x := zpow_pos (by norm_num) _
    have hy : |x / 2 ^ ulpExp x| < 2 ^ 53 := by
      rw [abs_div, abs_of_pos hp, div_lt_iff₀ hp]
      rw [zpow_add₀ (by norm_num), mul_comm] at h2
      have : (2 : ℚ) ^ (53 : ℤ) = 2 ^ 53 := by norm_num
      rw [this] at h2
      exact h2
    have hM := roundEven_abs_le _ hy
    unfold fl
    generalize roundEven (x / 2 ^ ulpExp x) = M at hM
    generalize ulpExp x = e
    rcases lt_or_eq_of_le hM with hlt | heq
    · exact fl_repr M e hlt
    · have hcase : M = 2 ^ 53 ∨ M = -2 ^ 53 := by
        rcases abs_cases M with ⟨ha, _⟩ | ⟨ha, _⟩ <;> omega
      have key : ∀ s : Int, |s| < 2 ^ 53 → M = 2 * s →
          fl ((M : ℚ) * 2 ^ e) = (M : ℚ) * 2 ^ e := by
        intro s hs hMs
        have : (M : ℚ) * 2 ^ e = (s : ℚ) * 2 ^ (e + 1) := by
          rw [hMs, zpow_add_one₀ (by norm_num)]
          push_cast
          ring
        rw [this]
        exact fl_repr s (e + 1) hs
      rcases hcase with h | h
      · exact key (2 ^ 52) (by norm_num) (by rw [h]; norm_num)
      · exact key (-2 ^ 52) (by norm_num) (by rw [h]; norm_num)

theorem fl_nonneg {x : ℚ} (hx : 0 ≤ x) : 0 ≤ fl x := by
  have hp : (0 : ℚ) < 2 ^ ulpExp x := zpow_pos (by norm_num) _
  unfold fl
  apply mul_nonneg _ (le_of_lt hp)
  have h1 : (0 : Int) ≤ ⌊x / 2 ^ ulpExp x⌋ := by
    rw [Int.le_floor]
    push_cast
    exact div_nonneg hx (le_of_lt hp)
  have h2 := roundEven_floor_le (x / 2 ^ ulpExp x)
  exact_mod_cast le_trans h1 h2

/-- Rounding to a double is monotone on the positive numbers. -/
theorem fl_mono {x y : ℚ} (hx : 0 < x) (h : x ≤ y) : fl x ≤ fl y := by
  have hy : 0 < y := lt_of_lt_of_le hx h
  obtain ⟨x1, x2⟩ := ulpExp_spec x (ne_of_gt hx)
  obtain ⟨y1, y2⟩ := ulpExp_spec y (ne_of_gt hy)
  rw [abs_of_pos hx] at x1 x2
  rw [abs_of_pos hy] at y1 y2
  have hpx : (0 : ℚ) < 2 ^ ulpExp x := zpow_pos (by norm_num) _
  have hpy : (0 : ℚ) < 2 ^ ulpExp y := zpow_pos (by norm_num) _
  have hle : ulpExp x ≤ ulpExp y := by
    have hlt : (2 : ℚ) ^ (ulpExp x + 52) < 2 ^ (ulpExp y + 53) :=
      lt_of_le_of_lt x1 (lt_of_le_of_lt h y2)
    have := (zpow_lt_zpow_iff_right₀ (by norm_num : (1 : ℚ) < 2)).1 hlt
    omega
  unfold fl
  rcases lt_or_eq_of_le hle with hlt | heq
  · have hMx : (roundEven (x / 2 ^ ulpExp x) : ℚ) ≤ 2 ^ 53 := by
      have h1 : ⌊x / 2 ^ ulpExp x⌋ < 2 ^ 53 := by
        rw [Int.floor_lt]
        push_cast
        rw [div_lt_iff₀ hpx]
        rw [zpow_add₀ (by norm_num), mul_comm] at x2
        have : (2 : ℚ) ^ (53 : ℤ) = 2 ^ 53 := by norm_num
        rw [this] at x2
        exact x2
      have h2 := roundEven_le_floor_succ (x / 2 ^ ulpExp x)
      have h3 : roundEven (x / 2 ^ ulpExp x) ≤ 2 ^ 53 := by omega
      exact_mod_cast h3
    have hMy : (2 : ℚ) ^ 52 ≤ (roundEven (y / 2 ^ ulpExp y) : ℚ) := by
      have h1 : (2 : Int) ^ 52 ≤ ⌊y / 2 ^ ulpExp y⌋ := by
        rw [Int.le_floor]
        push_cast
        rw [le_div_iff₀ hpy]
        rw [zpow_add₀ (by norm_num), mul_comm] at y1
        have : (2 : ℚ) ^ (52 : ℤ) = 2 ^ 52 := by norm_num
        rw [this] at y1
        linarith
      have h2 := roundEven_floor_le (y / 2 ^ ulpExp y)
      exact_mod_cast le_trans h1 h2
    have hstep : (2 : ℚ) ^ 53 * 2 ^ ulpExp x ≤ 2 ^ 52 * 2 ^ ulpExp y := by
      obtain ⟨k, hk⟩ := Int.eq_ofNat_of_zero_le (show (0 : Int) ≤ ulpExp y - ulpExp x - 1 by omega)
      have : ulpExp y = ulpExp x + 1 + k := by omega
      rw [this, zpow_add₀ (by norm_num), zpow_add_one₀ (by norm_num), zpow_natCast]
      have hk1 : (1 : ℚ) ≤ 2 ^ k := one_le_pow₀ (by norm_num)
      have : (2 : ℚ) ^ 52 * (2 ^ ulpExp x * 2 * 2 ^ k) = (2 ^ 53 * 2 ^ ulpExp x) * 2 ^ k := by ring
      rw [this]
      exact le_mul_of_one_le_right (le_of_lt (mul_pos (by norm_num) hpx)) hk1
    calc (roundEven (x / 2 ^ ulpExp x) : ℚ) * 2 ^ ulpExp x
        ≤ 2 ^ 53 * 2 ^ ulpExp x := mul_le_mul_of_nonneg_right hMx (le_of_lt hpx)
      _ ≤ 2 ^ 52 * 2 ^ ulpExp y := hstep
      _ ≤ (roundEven (y / 2 ^ ulpExp y) : ℚ) * 2 ^ ulpExp y :=
          mul_le_mul_of_nonneg_right hMy (le_of_lt hpy)
  · rw [heq]
    apply mul_le_mul_of_nonneg_right _ (le_of_lt hpy)
    have : x / 2 ^ ulpExp y ≤ y / 2 ^ ulpExp y := div_le_div_of_nonneg_right h (le_of_lt hpy)
    exact_mod_cast roundEven_mono this

theorem roundEven_tie (y : ℚ) (m : Int) (hm : m % 2 = 0)
    (h : y - m = 1 / 2 ∨ (m : ℚ) - y = 1 / 2) : roundEven y = m := by
  rcases h with h | h
  · have hf : ⌊y⌋ = m := by
      rw [Int.floor_eq_iff]
      constructor <;> linarith
    unfold roundEven
    rw [hf, if_neg (by linarith), if_neg (by linarith), if_pos hm]
  · have hf : ⌊y⌋ = m - 1 := by
      rw [Int.floor_eq_iff]
      push_cast
      constructor <;> linarith
    unfold roundEven
    rw [hf]
    push_cast
    rw [if_neg (by linarith), if_neg (by linarith), if_neg (by omega)]
    ring

/-- The double nearest to a positive `x` that lies halfway between two doubles: the one with
the even significand `m`. -/
theorem fl_eq_of_tie (x : ℚ) (m e : Int) (h1 : (2 : ℚ) ^ (e + 52) ≤ x)
    (h2 : x < (2 : ℚ) ^ (e + 53)) (hm : m % 2 = 0)
    (h3 : x - m * 2 ^ e = 2 ^ e / 2 ∨ m * 2 ^ e - x = 2 ^ e / 2) : fl x = m * 2 ^ e := by
  have hx : 0 < x := lt_of_lt_of_le (zpow_pos (by norm_num) _) h1
  have he := ulpExp_eq x e (by rw [abs_of_pos hx]; exact h1) (by rw [abs_of_pos hx]; exact h2)
  have hp : (0 : ℚ) < 2 ^ e := zpow_pos (by norm_num) _
  unfold fl
  rw [he, roundEven_tie (x / 2 ^ e) m hm]
  rcases h3 with h | h
  · left
    field_simp
    linarith
  · right
    field_simp
    linarith

/-! ## Values of double operations -/

theorem fl_zero_val : fl 0 = 0 := fl_zero

theorem flv_1 : fl (1080863910568919 / 36028797018963968) = 1080863910568919 / 36028797018963968 := by
  rw [fl_eq_of_pos (1080863910568919 / 36028797018963968) 8646911284551352 (-58) (by norm_num) (by norm_num) (by norm_num)
    (by norm_num)]
  norm_num

theorem fl_c003 : fl (3 / 100) = 1080863910568919 / 36028797018963968 := by
  rw [fl_eq_of_pos (3 / 100) 8646911284551352 (-58) (by norm_num) (by norm_num) (by norm_num)
    (by norm_num)]
  norm_num

theorem fl_c005 : fl (1 / 20) = 3602879701896397 / 72057594037927936 := by
  rw [fl_eq_of_pos (1 / 20) 7205759403792794 (-57) (by norm_num) (by norm_num) (by norm_num)
    (by norm_num)]
  norm_num

theorem flv_4 : fl (1080863910568919 / 18014398509481984) = 1080863910568919 / 18014398509481984 := by
  rw [fl_eq_of_pos (1080863910568919 / 18014398509481984) 8646911284551352 (-57) (by norm_num) (by norm_num) (by norm_num)
    (by norm_num)]
  norm_num

theorem fl_c008 : fl (2 / 25) = 5764607523034235 / 72057594037927936 := by
  rw [fl_eq_of_pos (2 / 25) 5764607523034235 (-56) (by norm_num) (by norm_num) (by norm_num)
    (by norm_num)]
  norm_num

theorem flv_6 : fl (5764607523034235 / 72057594037927936) = 5764607523034235 / 72057594037927936 := by
  rw [fl_eq_of_pos (5764607523034235 / 72057594037927936) 5764607523034235 (-56) (by norm_num) (by norm_num) (by norm_num)
    (by norm_num)]
  norm_num

theorem flv_7 : fl (7926335344172073 / 72057594037927936) = 7926335344172073 / 72057594037927936 := by
  rw [fl_eq_of_pos (7926335344172073 / 72057594037927936) 7926335344172073 (-56) (by norm_num) (by norm_num) (by norm_num)
    (by norm_num)]
  norm_num

theorem flv_8 : fl (5404319552844595 / 36028797018963968) = 5404319552844595 / 36028797018963968 := by
  rw [fl_eq_of_pos (5404319552844595 / 36028797018963968) 5404319552844595 (-55) (by norm_num) (by norm_num) (by norm_num)
    (by norm_num)]
  norm_num

theorem fl_c015 : fl (3 / 20) = 5404319552844595 / 36028797018963968 := by
  rw [fl_eq_of_pos (3 / 20) 5404319552844595 (-55) (by norm_num) (by norm_num) (by norm_num)
    (by norm_num)]
  norm_num

theorem flv_10 : fl (14411518807585587 / 72057594037927936) = 3602879701896397 / 18014398509481984 := by
  rw [fl_eq_of_tie (14411518807585587 / 72057594037927936) 7205759403792794 (-55) (by norm_num) (by norm_num) (by decide)
    (Or.inr (by norm_num))]
  norm_num

theorem flv_11 : fl (5764607523034235 / 18014398509481984) = 5764607523034235 / 18014398509481984 := by
  rw [fl_eq_of_pos (5764607523034235 / 18014398509481984) 5764607523034235 (-54) (by norm_num) (by norm_num) (by norm_num)
    (by norm_num)]
  norm_num

theorem flv_12 : fl (7566047373982433 / 18014398509481984) = 7566047373982433 / 18014398509481984 := by
  rw [fl_eq_of_pos (7566047373982433 / 18014398509481984) 7566047373982433 (-54) (by norm_num) (by norm_num) (by norm_num)
    (by norm_num)]
  norm_num

theorem flv_13 : fl (33867069197826129 / 72057594037927936) = 2116691824864133 / 4503599627370496 := by
  rw [fl_eq_of_pos (33867069197826129 / 72057594037927936) 8466767299456532 (-54) (by norm_num) (by norm_num) (by norm_num)
    (by norm_num)]
  norm_num

theorem flv_14 : fl (47 / 100) = 2116691824864133 / 4503599627370496 := by
  rw [fl_eq_of_pos (47 / 100) 8466767299456532 (-54) (by norm_num) (by norm_num) (by norm_num)
    (by norm_num)]
  norm_num

theorem flv_15 : fl (3152519739159347 / 4503599627370496) = 3152519739159347 / 4503599627370496 := by
  rw [fl_eq_of_pos (3152519739159347 / 4503599627370496) 6305039478318694 (-53) (by norm_num) (by norm_num) (by norm_num)
    (by norm_num)]
  norm_num

theorem fl_c07 : fl (7 / 10) = 3152519739159347 / 4503599627370496 := by
  rw [fl_eq_of_pos (7 / 10) 6305039478318694 (-53) (by norm_num) (by norm_num) (by norm_num)
    (by norm_num)]
  norm_num

theorem fl_c08 : fl (4 / 5) = 3602879701896397 / 4503599627370496 := by
  rw [fl_eq_of_pos (4 / 5) 7205759403792794 (-53) (by norm_num) (by norm_num) (by norm_num)
    (by norm_num)]
  norm_num

theorem fl_ten_c008 : fl (28823037615171175 / 36028797018963968) = 3602879701896397 / 4503599627370496 := by
  rw [fl_eq_of_pos (28823037615171175 / 36028797018963968) 7205759403792794 (-53) (by norm_num) (by norm_num) (by norm_num)
    (by norm_num)]
  norm_num

theorem fl_61_64 : fl (61 / 64) = 61 / 64 := by
  rw [fl_eq_of_pos (61 / 64) 8584986789675008 (-53) (by norm_num) (by norm_num) (by norm_num)
    (by norm_num)]
  norm_num

theorem fl_one : fl (1) = 1 := by
  rw [fl_eq_of_pos (1) 4503599627370496 (-52) (by norm_num) (by norm_num) (by norm_num)
    (by norm_num)]
  norm_num

theorem flv_21 : fl (41433116571808563 / 36028797018963968) = 2589569785738035 / 2251799813685248 := by
  rw [fl_eq_of_pos (41433116571808563 / 36028797018963968) 5179139571476070 (-52) (by norm_num) (by norm_num) (by norm_num)
    (by norm_num)]
  norm_num

theorem flv_22 : fl (23779006032516219 / 18014398509481984) = 5944751508129055 / 4503599627370496 := by
  rw [fl_eq_of_pos (23779006032516219 / 18014398509481984) 5944751508129055 (-52) (by norm_num) (by norm_num) (by norm_num)
    (by norm_num)]
  norm_num

theorem flv_23 : fl (7656119366529843 / 4503599627370496) = 7656119366529843 / 4503599627370496 := by
  rw [fl_eq_of_pos (7656119366529843 / 4503599627370496) 7656119366529843 (-52) (by norm_num) (by norm_num) (by norm_num)
    (by norm_num)]
  norm_num

theorem fl_c18 : fl (9 / 5) = 8106479329266893 / 4503599627370496 := by
  rw [fl_eq_of_pos (9 / 5) 8106479329266893 (-52) (by norm_num) (by norm_num) (by norm_num)
    (by norm_num)]
  norm_num

theorem fl_one_add_c08 : fl (8106479329266893 / 4503599627370496) = 8106479329266893 / 4503599627370496 := by
  rw [fl_eq_of_pos (8106479329266893 / 4503599627370496) 8106479329266893 (-52) (by norm_num) (by norm_num) (by norm_num)
    (by norm_num)]
  norm_num

theorem flv_26 : fl (2) = 2 := by
  rw [fl_eq_of_pos (2) 4503599627370496 (-51) (by norm_num) (by norm_num) (by norm_num)
    (by norm_num)]
  norm_num

theorem flv_27 : fl (22968358099589529 / 9007199254740992) = 2871044762448691 / 1125899906842624 := by
  rw [fl_eq_of_pos (22968358099589529 / 9007199254740992) 5742089524897382 (-51) (by norm_num) (by norm_num) (by norm_num)
    (by norm_num)]
  norm_num

theorem flv_28 : fl (3152519739159347 / 1125899906842624) = 3152519739159347 / 1125899906842624 := by
  rw [fl_eq_of_pos (3152519739159347 / 1125899906842624) 6305039478318694 (-51) (by norm_num) (by norm_num) (by norm_num)
    (by norm_num)]
  norm_num

theorem flv_29 : fl (4278419646001971 / 1125899906842624) = 4278419646001971 / 1125899906842624 := by
  rw [fl_eq_of_pos (4278419646001971 / 1125899906842624) 8556839292003942 (-51) (by norm_num) (by norm_num) (by norm_num)
    (by norm_num)]
  norm_num

theorem flv_30 : fl (19 / 5) = 4278419646001971 / 1125899906842624 := by
  rw [fl_eq_of_pos (19 / 5) 8556839292003942 (-51) (by norm_num) (by norm_num) (by norm_num)
    (by norm_num)]
  norm_num

theorem flv_31 : fl (4) = 4 := by
  rw [fl_eq_of_pos (4) 4503599627370496 (-50) (by norm_num) (by norm_num) (by norm_num)
    (by norm_num)]
  norm_num

theorem flv_32 : fl (7) = 7 := by
  rw [fl_eq_of_pos (7) 7881299347898368 (-50) (by norm_num) (by norm_num) (by norm_num)
    (by norm_num)]
  norm_num

theorem fl_ten : fl (10) = 10 := by
  rw [fl_eq_of_pos (10) 5629499534213120 (-49) (by norm_num) (by norm_num) (by norm_num)
    (by norm_num)]
  norm_num

theorem flv_34 : fl (53592835565708901 / 4503599627370496) = 6699104445713613 / 562949953421312 := by
  rw [fl_eq_of_pos (53592835565708901 / 4503599627370496) 6699104445713613 (-49) (by norm_num) (by norm_num) (by norm_num)
    (by norm_num)]
  norm_num

theorem flv_35 : fl (14) = 14 := by
  rw [fl_eq_of_pos (14) 7881299347898368 (-49) (by norm_num) (by norm_num) (by norm_num)
    (by norm_num)]
  norm_num

theorem flv_36 : fl (20097313337140837 / 1125899906842624) = 5024328334285209 / 281474976710656 := by
  rw [fl_eq_of_pos (20097313337140837 / 1125899906842624) 5024328334285209 (-48) (by norm_num) (by norm_num) (by norm_num)
    (by norm_num)]
  norm_num

theorem flv_37 : fl (20097313337140839 / 1125899906842624) = 2512164167142605 / 140737488355328 := by
  rw [fl_eq_of_pos (20097313337140839 / 1125899906842624) 5024328334285210 (-48) (by norm_num) (by norm_num) (by norm_num)
    (by norm_num)]
  norm_num

theorem flv_38 : fl (29948937522013797 / 1125899906842624) = 7487234380503449 / 281474976710656 := by
  rw [fl_eq_of_pos (29948937522013797 / 1125899906842624) 7487234380503449 (-48) (by norm_num) (by norm_num) (by norm_num)
    (by norm_num)]
  norm_num

theorem flv_39 : fl (133 / 5) = 3743617190251725 / 140737488355328 := by
  rw [fl_eq_of_pos (133 / 5) 7487234380503450 (-48) (by norm_num) (by norm_num) (by norm_num)
    (by norm_num)]
  norm_num

theorem flv_40 : fl (142426338215591925 / 1125899906842624) = 8901646138474495 / 70368744177664 := by
  rw [fl_eq_of_pos (142426338215591925 / 1125899906842624) 8901646138474495 (-46) (by norm_num) (by norm_num) (by norm_num)
    (by norm_num)]
  norm_num

theorem flv_41 : fl (326961332947098025 / 2251799813685248) = 5108770827298407 / 35184372088832 := by
  rw [fl_eq_of_pos (326961332947098025 / 2251799813685248) 5108770827298407 (-45) (by norm_num) (by norm_num) (by norm_num)
    (by norm_num)]
  norm_num

theorem floor_two_thirds (n : Int) : Int.floor (((n : ℚ) - 1) / (3 / 2)) = ((n - 1) * 2) / 3 := by
  have h : ((n : ℚ) - 1) / (3 / 2) = (((n - 1) * 2 : Int) : ℚ) / ((3 : Nat) : ℚ) := by
    push_cast
    ring
  rw [h, Rat.floor_intCast_div_natCast]
  rfl

theorem Roll.below_iff (r : Roll) (p q : Nat) (hq : 0 < q) :
    r.below p q = true ↔ r.val < (p : ℚ) / q := by
  have hd : (0 : ℚ) < r.den := by
    exact_mod_cast lt_of_le_of_lt (Nat.zero_le _) r.lt
  have hq2 : (0 : ℚ) < q := by exact_mod_cast hq
  unfold Roll.below Roll.val
  rw [decide_eq_true_iff, div_lt_div_iff₀ hd hq2]
  exact_mod_cast Iff.rfl

theorem Roll.val_lt_one (r : Roll) : r.val < 1 := by
  have hd : (0 : ℚ) < r.den := by
    exact_mod_cast lt_of_le_of_lt (Nat.zero_le _) r.lt
  unfold Roll.val
  rw [div_lt_one hd]
  exact_mod_cast r.lt

theorem Roll.val_nonneg (r : Roll) : 0 ≤ r.val := by
  unfold Roll.val
  positivity

/-- The instance `spawnEnemy` creates when `saveData` does not raise, field by field, in terms
of the state before the call. -/
theorem spawnEnemy_spawned (env : Env) (x y : ℚ) (ty : String) (g g1 : Game)
    (hs : saveDataEnemy env (some ty) g = Except.ok g1) :
    ∃ e, spawned (spawnEnemy env x y (some ty) g) = some e ∧
      e.isElite = (!(baseStatsOf ty).isBoss &&
        decide ((eliteRoll env g).val < specEliteBound g.currentLevel)) ∧
      e.maxHp = e.hp ∧
      e.hp = (if e.isElite then
          fl (fl (((baseStatsOf ty).hp : ℚ) *
            specHpMult g.currentLevel g.difficultyMultiplier) * 2)
        else fl (((baseStatsOf ty).hp : ℚ) *
            specHpMult g.currentLevel g.difficultyMultiplier)) ∧
      e.damage = max 1
        (if e.isElite then
          fl (fl ((((if (baseStatsOf ty).damage = 0 then 1 else ((baseStatsOf ty).damage : Int)) +
            (((g.currentLevel - 1) * 2) / 3 +
              (if decide (g.currentLevel > 5) && (bonusRoll env g).below 2 10 then 1 else 0))
            : Int) : ℚ) * g.difficultyMultiplier) + 1)
        else
          fl ((((if (baseStatsOf ty).damage = 0 then 1 else ((baseStatsOf ty).damage : Int)) +
            (((g.currentLevel - 1) * 2) / 3 +
              (if decide (g.currentLevel > 5) && (bonusRoll env g).below 2 10 then 1 else 0))
            : Int) : ℚ) * g.difficultyMultiplier)) ∧
      e.moveSpeed = fl (((baseStatsOf ty).speed : ℚ) *
        (if e.isElite then fl (specSpeedMult g.currentLevel + fl (15 / 100))
          else specSpeedMult g.currentLevel)) := by
  obtain ⟨hc, hl, hd, he⟩ := saveDataEnemy_fields env (some ty) g g1 hs
  unfold spawnEnemy
  rw [hs]
  simp only [Option.bind_some]
  refine ⟨_, spawned_append _ _ _ rfl, ?_⟩
  simp only [baseStatsOf, eliteRoll, bonusRoll, specEliteBound, specHpMult, specSpeedMult,
    hc, hl, hd]
  refine ⟨?_, ?_, ?_, ?_, ?_⟩
  · split_ifs <;> simp_all
  · trivial
  · split_ifs <;> simp_all
  · split_ifs <;> simp_all
  · split_ifs <;> simp_all

theorem specDamageBonus_eq (level : Int) (roll : Roll) :
    specDamageBonus level roll =
      ((level - 1) * 2) / 3 + (if decide (level > 5) && roll.below 2 10 then 1 else 0) := by
  unfold specDamageBonus
  rw [floor_two_thirds]
  have h := Roll.below_iff roll 2 10 (by decide)
  have h2 : ((2 : Nat) : ℚ) / ((10 : Nat) : ℚ) = 2 / 10 := by norm_num
  rw [h2] at h
  by_cases h5 : level > 5 <;> by_cases hr : roll.val < 2 / 10
  · simp [h5, hr, h.2 hr]
  · have : roll.below 2 10 = false := by
      cases hb : roll.below 2 10
      · rfl
      · exact absurd (h.1 hb) hr
    simp [h5, hr, this]
  · simp [h5, hr]
  · simp [h5, hr]

theorem fl_mul_two (x : ℚ) : fl (fl x * 2) = 2 * fl x := by
  rw [mul_comm, fl_two_mul, fl_fl]

theorem eliteTest_iff (level : Int) (roll : Roll) (isBoss : Bool) :
    (!isBoss && decide (roll.val < specEliteBound level)) = true ↔
      isBoss = false ∧ roll.val < specEliteBound level := by
  cases isBoss <;> simp

/-- The instance `spawnEnemy` creates, in terms of the reference formulas. -/
theorem spawnEnemy_reference (env : Env) (x y : ℚ) (ty : String) (g g1 : Game)
    (hs : saveDataEnemy env (some ty) g = Except.ok g1) :
    ∃ e, spawned (spawnEnemy env x y (some ty) g) = some e ∧
      (e.isElite = true ↔ (baseStatsOf ty).isBoss = false ∧
        (eliteRoll env g).val < specEliteBound g.currentLevel) ∧
      e.maxHp = e.hp ∧
      e.hp = (if e.isElite then
          2 * specHp (baseStatsOf ty) g.currentLevel g.difficultyMultiplier
        else specHp (baseStatsOf ty) g.currentLevel g.difficultyMultiplier) ∧
      e.damage = (if e.isElite then
          max 1 (fl (specScaledDamage (baseStatsOf ty) g.currentLevel g.difficultyMultiplier
            (bonusRoll env g) + 1))
        else max 1 (specScaledDamage (baseStatsOf ty) g.currentLevel g.difficultyMultiplier
            (bonusRoll env g))) ∧
      e.moveSpeed = (if e.isElite then
          specMoveSpeed (baseStatsOf ty) (fl (specSpeedMult g.currentLevel + fl (15 / 100)))
        else specMoveSpeed (baseStatsOf ty) (specSpeedMult g.currentLevel)) := by
  obtain ⟨e, h0, h1, h2, h3, h4, h5⟩ := spawnEnemy_spawned env x y ty g g1 hs
  refine ⟨e, h0, ?_, h2, ?_, ?_, ?_⟩
  · rw [h1, eliteTest_iff]
  · rw [h3]
    unfold specHp
    split_ifs
    · exact fl_mul_two _
    · rfl
  · rw [h4]
    unfold specScaledDamage
    rw [specDamageBonus_eq]
    split_ifs <;> rfl
  · rw [h5]
    unfold specMoveSpeed
    split_ifs <;> rfl

/-! ## spawnEnemy: the claims -/

theorem chaser_stats : ((baseStatsOf "chaser").hp : ℚ) = 7 ∧
    ((baseStatsOf "chaser").speed : ℚ) = 110 ∧ (baseStatsOf "chaser").isBoss = false ∧
    (baseStatsOf "chaser").damage = 1 := by
  have h1 : (baseStatsOf "chaser").hp = 7 := rfl
  have h2 : (baseStatsOf "chaser").speed = 110 := rfl
  rw [h1, h2]
  exact ⟨by norm_num, by norm_num, rfl, rfl⟩

theorem specHp_chaser :
    specHp (baseStatsOf "chaser") 1 1 = 7 ∧
    specHpMult 5 1 = 4278419646001971 / 2 ^ 50 ∧
    specHp (baseStatsOf "chaser") 5 1 = 7487234380503449 / 2 ^ 48 ∧
    specHp (baseStatsOf "chaser") 2 (3 / 2) = 5024328334285209 / 2 ^ 48 := by
  obtain ⟨hb, _, _, _⟩ := chaser_stats
  unfold specHp
  rw [hb]
  unfold specHpMult
  refine ⟨?_, ?_, ?_, ?_⟩ <;> norm_num [fl_zero_val, flv_1, fl_c003, fl_c005, flv_4, fl_c008, flv_6, flv_7, flv_8, fl_c015, flv_10, flv_11, flv_12, flv_13, flv_14, flv_15, fl_c07, fl_c08, fl_ten_c008, fl_61_64, fl_one, flv_21, flv_22, flv_23, fl_c18, fl_one_add_c08, flv_26, flv_27, flv_28, flv_29, flv_30, flv_31, flv_32, fl_ten, flv_34, flv_35, flv_36, flv_37, flv_38, flv_39, flv_40, flv_41]

theorem specEliteBound_values :
    specEliteBound 1 = 5764607523034235 / 2 ^ 56 ∧
    specEliteBound 2 = 7926335344172073 / 2 ^ 56 ∧
    specEliteBound 5 = 3602879701896397 / 2 ^ 54 := by
  unfold specEliteBound
  refine ⟨?_, ?_, ?_⟩ <;> norm_num [fl_zero_val, flv_1, fl_c003, fl_c005, flv_4, fl_c008, flv_6, flv_7, flv_8, fl_c015, flv_10, flv_11, flv_12, flv_13, flv_14, flv_15, fl_c07, fl_c08, fl_ten_c008, fl_61_64, fl_one, flv_21, flv_22, flv_23, fl_c18, fl_one_add_c08, flv_26, flv_27, flv_28, flv_29, flv_30, flv_31, flv_32, fl_ten, flv_34, flv_35, flv_36, flv_37, flv_38, flv_39, flv_40, flv_41]

/-- C15, as stated, fails.  At level 1 with `difficultyMultiplier` 1 a `'chaser'` (base hp 7)
spawned while the promotion roll is 0 is an elite with hp 14 and maxHp 14, not 7.  At level 5 a
`'chaser'` that is not promoted has hp 7487234380503449 / 2 ^ 48, the double
26.599999999999998, which is neither 26.6 nor the double nearest to 26.6.  And the order of the
two products matters: at level 2 with `difficultyMultiplier` 1.5 the instance has hp
17.849999999999998, where `(base hp * (1 + (level - 1) * 0.7)) * difficultyMultiplier` gives the
double 17.85. -/
theorem spawnEnemy_hp_counterexample :
    (∃ e, spawned (spawnEnemy sampleEnv 300 300 (some "chaser") sampleGame) = some e ∧
      e.isElite = true ∧ e.hp = 14 ∧ e.maxHp = 14 ∧
      specHp (baseStatsOf "chaser") sampleGame.currentLevel sampleGame.difficultyMultiplier
        = 7) ∧
    (∃ e, spawned (spawnEnemy sampleHighEnv 300 300 (some "chaser") sampleLevel5) = some e ∧
      e.isElite = false ∧ e.hp = 7487234380503449 / 2 ^ 48 ∧ e.hp ≠ 266 / 10 ∧
      e.hp ≠ fl (266 / 10)) ∧
    (∃ e, spawned (spawnEnemy sampleHighEnv 300 300 (some "chaser") sampleHard) = some e ∧
      e.isElite = false ∧ e.hp = 5024328334285209 / 2 ^ 48 ∧
      fl (fl (7 * fl (1 + fl (fl (2 - 1) * fl (7 / 10)))) * (3 / 2)) =
        2512164167142605 / 2 ^ 47 ∧
      e.hp ≠ fl (fl (7 * fl (1 + fl (fl (2 - 1) * fl (7 / 10)))) * (3 / 2))) := by
  obtain ⟨v1, _, v5, v2⟩ := specHp_chaser
  obtain ⟨b1, b2, b5⟩ := specEliteBound_values
  obtain ⟨_, _, hboss, _⟩ := chaser_stats
  refine ⟨?_, ?_, ?_⟩
  · obtain ⟨e, h0, h1, h2, h3, _, _⟩ := spawnEnemy_reference sampleEnv 300 300 "chaser"
      sampleGame (finalState (saveDataEnemy sampleEnv (some "chaser") sampleGame)) rfl
    have hl : sampleGame.currentLevel = 1 := rfl
    have hd : sampleGame.difficultyMultiplier = 1 := rfl
    rw [hl] at h1 h3 ⊢
    rw [hd] at h3 ⊢
    have he : e.isElite = true := by
      rw [h1, b1]
      refine ⟨hboss, ?_⟩
      norm_num [eliteRoll, sampleEnv, sampleGame, rndZero, Roll.val]
    rw [he, if_pos rfl, v1] at h3
    refine ⟨e, h0, he, ?_, ?_, v1⟩
    · rw [h3]; norm_num
    · rw [h2, h3]; norm_num
  · obtain ⟨e, h0, h1, _, h3, _, _⟩ := spawnEnemy_reference sampleHighEnv 300 300 "chaser"
      sampleLevel5 (finalState (saveDataEnemy sampleHighEnv (some "chaser") sampleLevel5)) rfl
    have hl : sampleLevel5.currentLevel = 5 := rfl
    have hd : sampleLevel5.difficultyMultiplier = 1 := rfl
    rw [hl] at h1 h3
    rw [hd] at h3
    have he : e.isElite = false := by
      cases hc : e.isElite
      · rfl
      · have := (h1.1 hc).2
        rw [b5] at this
        norm_num [eliteRoll, sampleHighEnv, sampleEnv, sampleLevel5, sampleGame, rndHigh,
          Roll.val] at this
    rw [he, if_neg (by simp), v5] at h3
    refine ⟨e, h0, he, h3, ?_, ?_⟩
    · rw [h3]; norm_num
    · rw [h3]; norm_num [fl_zero_val, flv_1, fl_c003, fl_c005, flv_4, fl_c008, flv_6, flv_7, flv_8, fl_c015, flv_10, flv_11, flv_12, flv_13, flv_14, flv_15, fl_c07, fl_c08, fl_ten_c008, fl_61_64, fl_one, flv_21, flv_22, flv_23, fl_c18, fl_one_add_c08, flv_26, flv_27, flv_28, flv_29, flv_30, flv_31, flv_32, fl_ten, flv_34, flv_35, flv_36, flv_37, flv_38, flv_39, flv_40, flv_41]
  · obtain ⟨e, h0, h1, _, h3, _, _⟩ := spawnEnemy_reference sampleHighEnv 300 300 "chaser"
      sampleHard (finalState (saveDataEnemy sampleHighEnv (some "chaser") sampleHard)) rfl
    have hl : sampleHard.currentLevel = 2 := rfl
    have hd : sampleHard.difficultyMultiplier = 3 / 2 := rfl
    rw [hl] at h1 h3
    rw [hd] at h3
    have he : e.isElite = false := by
      cases hc : e.isElite
      · rfl
      · have := (h1.1 hc).2
        rw [b2] at this
        norm_num [eliteRoll, sampleHighEnv, sampleEnv, sampleHard, sampleGame, rndHigh,
          Roll.val] at this
    rw [he, if_neg (by simp), v2] at h3
    have hleft : fl (fl (7 * fl (1 + fl (fl (2 - 1) * fl (7 / 10)))) * (3 / 2)) =
        2512164167142605 / 2 ^ 47 := by
      norm_num [fl_zero_val, flv_1, fl_c003, fl_c005, flv_4, fl_c008, flv_6, flv_7, flv_8, fl_c015, flv_10, flv_11, flv_12, flv_13, flv_14, flv_15, fl_c07, fl_c08, fl_ten_c008, fl_61_64, fl_one, flv_21, flv_22, flv_23, fl_c18, fl_one_add_c08, flv_26, flv_27, flv_28, flv_29, flv_30, flv_31, flv_32, fl_ten, flv_34, flv_35, flv_36, flv_37, flv_38, flv_39, flv_40, flv_41]
    refine ⟨e, h0, he, h3, hleft, ?_⟩
    rw [h3, hleft]
    norm_num

/-- C15, amended: whenever `spawnEnemy` returns, for every level, every `difficultyMultiplier`
and every random outcome the instance has `hp = maxHp`, equal to `base hp * hpMult` with
`hpMult = (1 + (level - 1) * 0.7) * difficultyMultiplier` when it is not promoted to elite and
to exactly twice that when it is, every operation rounded to a double in the order of the code
(`hpMult` first, then the product with the base hp).  With base hp 7 and `difficultyMultiplier`
1 the non-elite value is 7 at level 1 and, at level 5, where `hpMult` is the double 3.8,
7487234380503449 / 2 ^ 48, the double 26.599999999999998. -/
theorem spawnEnemy_hp (env : Env) (x y : ℚ) (ty : String) (g g1 : Game)
    (hs : saveDataEnemy env (some ty) g = Except.ok g1) :
    (∃ e, spawned (spawnEnemy env x y (some ty) g) = some e ∧ e.hp = e.maxHp ∧
      (e.isElite = false →
        e.hp = specHp (baseStatsOf ty) g.currentLevel g.difficultyMultiplier) ∧
      (e.isElite = true →
        e.hp = 2 * specHp (baseStatsOf ty) g.currentLevel g.difficultyMultiplier)) ∧
    (baseStatsOf "chaser").hp = 7 ∧ specHp (baseStatsOf "chaser") 1 1 = 7 ∧
    specHpMult 5 1 = fl (38 / 10) ∧
    specHp (baseStatsOf "chaser") 5 1 = 7487234380503449 / 2 ^ 48 := by
  obtain ⟨e, h0, _, h2, h3, _, _⟩ := spawnEnemy_reference env x y ty g g1 hs
  obtain ⟨v1, vm, v5, _⟩ := specHp_chaser
  refine ⟨⟨e, h0, h2.symm, ?_, ?_⟩, rfl, v1, ?_, v5⟩
  · intro hn
    rw [h3, hn]
    simp
  · intro he
    rw [h3, he]
    simp
  · rw [vm]
    norm_num [fl_zero_val, flv_1, fl_c003, fl_c005, flv_4, fl_c008, flv_6, flv_7, flv_8, fl_c015, flv_10, flv_11, flv_12, flv_13, flv_14, flv_15, fl_c07, fl_c08, fl_ten_c008, fl_61_64, fl_one, flv_21, flv_22, flv_23, fl_c18, fl_one_add_c08, flv_26, flv_27, flv_28, flv_29, flv_30, flv_31, flv_32, fl_ten, flv_34, flv_35, flv_36, flv_37, flv_38, flv_39, flv_40, flv_41]

theorem specEliteBound_ge_one (level : Int) (h : 32 ≤ level) : 1 ≤ specEliteBound level := by
  have h3 : fl (3 / 100) = 1080863910568919 / 36028797018963968 := by norm_num [fl_c003]
  have h5 : fl (5 / 100) = 3602879701896397 / 72057594037927936 := by norm_num [fl_c005]
  have hl : (32 : ℚ) ≤ (level : ℚ) := by exact_mod_cast h
  unfold specEliteBound
  rw [h3, h5]
  have hm : (61 / 64 : ℚ) ≤ fl ((level : ℚ) * (1080863910568919 / 36028797018963968)) := by
    have := fl_mono (x := 61 / 64)
      (y := (level : ℚ) * (1080863910568919 / 36028797018963968)) (by norm_num) (by linarith)
    rw [fl_61_64] at this
    exact this
  have := fl_mono (x := 1)
    (y := 3602879701896397 / 72057594037927936 +
      fl ((level : ℚ) * (1080863910568919 / 36028797018963968))) (by norm_num) (by linarith)
  rw [fl_one] at this
  exact this

/-- C16: elite promotion in `spawnEnemy`, in the double arithmetic of the code.  Whenever the
call returns, the instance is elite exactly when its archetype is no boss and the promotion
roll is below `0.05 + level * 0.03`; so a boss is never elite and from level 32 on every other
spawn is.  An elite has exactly twice the hp and maxHp of the non-elite instance,
`damage = max(1, non-elite scaled damage + 1)` and
`moveSpeed = base speed * (speedMultiplier + 0.15)`; a non-elite has the plain values.  The
bound is the double 0.08 at level 1 and the double 0.47 at level 14, and an elite `'chaser'` of
level 1 has the moveSpeed 8901646138474495 / 2 ^ 46, the double 126.49999999999999. -/
theorem spawnEnemy_elite (env : Env) (x y : ℚ) (ty : String) (g g1 : Game)
    (hs : saveDataEnemy env (some ty) g = Except.ok g1) :
    (∃ e, spawned (spawnEnemy env x y (some ty) g) = some e ∧
      (e.isElite = true ↔ (baseStatsOf ty).isBoss = false ∧
        (eliteRoll env g).val < specEliteBound g.currentLevel) ∧
      ((baseStatsOf ty).isBoss = true → e.isElite = false) ∧
      ((baseStatsOf ty).isBoss = false → 32 ≤ g.currentLevel → e.isElite = true) ∧
      (e.isElite = true →
        e.hp = 2 * specHp (baseStatsOf ty) g.currentLevel g.difficultyMultiplier ∧
        e.maxHp = 2 * specHp (baseStatsOf ty) g.currentLevel g.difficultyMultiplier ∧
        e.damage = max 1 (fl (specScaledDamage (baseStatsOf ty) g.currentLevel
          g.difficultyMultiplier (bonusRoll env g) + 1)) ∧
        e.moveSpeed = specMoveSpeed (baseStatsOf ty)
          (fl (specSpeedMult g.currentLevel + fl (15 / 100)))) ∧
      (e.isElite = false →
        e.hp = specHp (baseStatsOf ty) g.currentLevel g.difficultyMultiplier ∧
        e.maxHp = specHp (baseStatsOf ty) g.currentLevel g.difficultyMultiplier ∧
        e.damage = max 1 (specScaledDamage (baseStatsOf ty) g.currentLevel
          g.difficultyMultiplier (bonusRoll env g)) ∧
        e.moveSpeed = specMoveSpeed (baseStatsOf ty) (specSpeedMult g.currentLevel))) ∧
    specEliteBound 1 = fl (8 / 100) ∧ specEliteBound 14 = fl (47 / 100) ∧
    specMoveSpeed (baseStatsOf "chaser") (fl (specSpeedMult 1 + fl (15 / 100))) =
      8901646138474495 / 2 ^ 46 := by
  obtain ⟨e, h0, h1, h2, h3, h4, h5⟩ := spawnEnemy_reference env x y ty g g1 hs
  obtain ⟨_, hsp, _, _⟩ := chaser_stats
  refine ⟨⟨e, h0, h1, ?_, ?_, ?_, ?_⟩, ?_, ?_, ?_⟩
  · intro hb
    cases he : e.isElite
    · rfl
    · rw [(h1.1 he).1] at hb
      cases hb
  · intro hb hl
    rw [h1]
    refine ⟨hb, ?_⟩
    exact lt_of_lt_of_le (eliteRoll env g).val_lt_one (specEliteBound_ge_one _ hl)
  · intro he
    rw [h2, h3, h4, h5, he]
    simp
  · intro he
    rw [h2, h3, h4, h5, he]
    simp
  · unfold specEliteBound
    norm_num [fl_zero_val, flv_1, fl_c003, fl_c005, flv_4, fl_c008, flv_6, flv_7, flv_8, fl_c015, flv_10, flv_11, flv_12, flv_13, flv_14, flv_15, fl_c07, fl_c08, fl_ten_c008, fl_61_64, fl_one, flv_21, flv_22, flv_23, fl_c18, fl_one_add_c08, flv_26, flv_27, flv_28, flv_29, flv_30, flv_31, flv_32, fl_ten, flv_34, flv_35, flv_36, flv_37, flv_38, flv_39, flv_40, flv_41]
  · unfold specEliteBound
    norm_num [fl_zero_val, flv_1, fl_c003, fl_c005, flv_4, fl_c008, flv_6, flv_7, flv_8, fl_c015, flv_10, flv_11, flv_12, flv_13, flv_14, flv_15, fl_c07, fl_c08, fl_ten_c008, fl_61_64, fl_one, flv_21, flv_22, flv_23, fl_c18, fl_one_add_c08, flv_26, flv_27, flv_28, flv_29, flv_30, flv_31, flv_32, fl_ten, flv_34, flv_35, flv_36, flv_37, flv_38, flv_39, flv_40, flv_41]
  · unfold specMoveSpeed specSpeedMult
    rw [hsp]
    norm_num [fl_zero_val, flv_1, fl_c003, fl_c005, flv_4, fl_c008, flv_6, flv_7, flv_8, fl_c015, flv_10, flv_11, flv_12, flv_13, flv_14, flv_15, fl_c07, fl_c08, fl_ten_c008, fl_61_64, fl_one, flv_21, flv_22, flv_23, fl_c18, fl_one_add_c08, flv_26, flv_27, flv_28, flv_29, flv_30, flv_31, flv_32, fl_ten, flv_34, flv_35, flv_36, flv_37, flv_38, flv_39, flv_40, flv_41]

theorem specSpeedMult_le (level : Int) (h : 1 ≤ level) : specSpeedMult level ≤ fl (18 / 10) := by
  have h8 : fl (8 / 10) = 3602879701896397 / 4503599627370496 := by norm_num [fl_c08]
  have h08 : fl (8 / 100) = 5764607523034235 / 72057594037927936 := by norm_num [fl_c008]
  have h18 : fl (18 / 10) = 8106479329266893 / 4503599627370496 := by norm_num [fl_c18]
  have hl : (0 : ℚ) ≤ (level : ℚ) - 1 := by
    have : (1 : ℚ) ≤ (level : ℚ) := by exact_mod_cast h
    linarith
  have ht : 0 ≤ fl (fl ((level : ℚ) - 1) * fl (8 / 100)) := by
    apply fl_nonneg
    rw [h08]
    exact mul_nonneg (fl_nonneg hl) (by norm_num)
  unfold specSpeedMult
  rw [h18, ← fl_one_add_c08, h8]
  apply fl_mono
  · have : 0 ≤ min (3602879701896397 / 4503599627370496 : ℚ)
        (fl (fl ((level : ℚ) - 1) * fl (8 / 100))) := le_min (by norm_num) ht
    linarith
  · have := min_le_left (3602879701896397 / 4503599627370496 : ℚ)
        (fl (fl ((level : ℚ) - 1) * fl (8 / 100)))
    linarith

theorem specSpeedMult_eq (level : Int) (h : 11 ≤ level) : specSpeedMult level = fl (18 / 10) := by
  have h8 : fl (8 / 10) = 3602879701896397 / 4503599627370496 := by norm_num [fl_c08]
  have h08 : fl (8 / 100) = 5764607523034235 / 72057594037927936 := by norm_num [fl_c008]
  have h18 : fl (18 / 10) = 8106479329266893 / 4503599627370496 := by norm_num [fl_c18]
  have hl : (10 : ℚ) ≤ (level : ℚ) - 1 := by
    have : (11 : ℚ) ≤ (level : ℚ) := by exact_mod_cast h
    linarith
  have h10 : (10 : ℚ) ≤ fl ((level : ℚ) - 1) := by
    have := fl_mono (x := 10) (y := (level : ℚ) - 1) (by norm_num) hl
    rw [fl_ten] at this
    exact this
  have ht : (3602879701896397 / 4503599627370496 : ℚ) ≤
      fl (fl ((level : ℚ) - 1) * (5764607523034235 / 72057594037927936)) := by
    have := fl_mono (x := 10 * (5764607523034235 / 72057594037927936))
      (y := fl ((level : ℚ) - 1) * (5764607523034235 / 72057594037927936)) (by norm_num)
      (by linarith)
    have hv : fl (10 * (5764607523034235 / 72057594037927936)) =
        3602879701896397 / 4503599627370496 := by norm_num [fl_ten_c008]
    rw [hv] at this
    exact this
  unfold specSpeedMult
  rw [h8, h08, min_eq_left ht, h18, ← fl_one_add_c08]
  norm_num

/-- C17: damage and speed of a non-elite spawn follow the reference formulas, in the double
arithmetic of the code.  Whenever `spawnEnemy` returns a non-elite instance,
`damage = max(1, (base damage, or 1 if it is 0, + damageBonus) * difficultyMultiplier)` with
`damageBonus = floor((level - 1) / 1.5)` plus 1 exactly when `level > 5` and the roll is below
0.2, and `moveSpeed = base speed * (1 + min(0.8, (level - 1) * 0.08))`.  The damage of any
instance is at least 1; the bonus without the extra is 0, 1, 2 at levels 1, 3, 5; from level 1
on the speed multiplier is at most the double 1.8 and equals it from level 11 on.  A non-elite
`'chaser'` of level 5 has the moveSpeed 5108770827298407 / 2 ^ 45, the double
145.20000000000002. -/
theorem spawnEnemy_damage_speed (env : Env) (x y : ℚ) (ty : String) (g g1 : Game)
    (hs : saveDataEnemy env (some ty) g = Except.ok g1) :
    (∃ e, spawned (spawnEnemy env x y (some ty) g) = some e ∧ 1 ≤ e.damage ∧
      (e.isElite = false →
        e.damage = max 1 (specScaledDamage (baseStatsOf ty) g.currentLevel
          g.difficultyMultiplier (bonusRoll env g)) ∧
        e.moveSpeed = specMoveSpeed (baseStatsOf ty) (specSpeedMult g.currentLevel))) ∧
    (∀ (level : Int) (roll : Roll), specDamageBonus level roll =
      Int.floor (((level : ℚ) - 1) / (3 / 2)) +
        (if level > 5 ∧ roll.val < 2 / 10 then 1 else 0)) ∧
    (∀ roll : Roll, specDamageBonus 1 roll = 0 ∧ specDamageBonus 3 roll = 1 ∧
      specDamageBonus 5 roll = 2) ∧
    (∀ level : Int, 1 ≤ level → specSpeedMult level ≤ fl (18 / 10)) ∧
    (∀ level : Int, 11 ≤ level → specSpeedMult level = fl (18 / 10)) ∧
    fl (18 / 10) = 8106479329266893 / 2 ^ 52 ∧
    specMoveSpeed (baseStatsOf "chaser") (specSpeedMult 5) = 5108770827298407 / 2 ^ 45 := by
  obtain ⟨e, h0, _, _, _, h4, h5⟩ := spawnEnemy_reference env x y ty g g1 hs
  obtain ⟨_, hsp, _, _⟩ := chaser_stats
  refine ⟨⟨e, h0, ?_, ?_⟩, fun _ _ => rfl, ?_, specSpeedMult_le, specSpeedMult_eq, ?_, ?_⟩
  · rw [h4]
    split_ifs <;> exact le_max_left _ _
  · intro he
    rw [h4, h5, he]
    simp
  · intro roll
    simp only [specDamageBonus_eq]
    refine ⟨?_, ?_, ?_⟩ <;> simp
  · norm_num [fl_c18]
  · unfold specMoveSpeed specSpeedMult
    rw [hsp]
    norm_num [fl_zero_val, flv_1, fl_c003, fl_c005, flv_4, fl_c008, flv_6, flv_7, flv_8, fl_c015, flv_10, flv_11, flv_12, flv_13, flv_14, flv_15, fl_c07, fl_c08, fl_ten_c008, fl_61_64, fl_one, flv_21, flv_22, flv_23, fl_c18, fl_one_add_c08, flv_26, flv_27, flv_28, flv_29, flv_30, flv_31, flv_32, fl_ten, flv_34, flv_35, flv_36, flv_37, flv_38, flv_39, flv_40, flv_41]

theorem spawnEnemy_hp_witness :
    (∃ e, spawned (spawnEnemy sampleEnv 300 300 (some "chaser") sampleGame) = some e ∧ e.hp = e.maxHp ∧
      (e.isElite = false →
        e.hp = specHp (baseStatsOf "chaser") sampleGame.currentLevel sampleGame.difficultyMultiplier) ∧
      (e.isElite = true →
        e.hp = 2 * specHp (baseStatsOf "chaser") sampleGame.currentLevel sampleGame.difficultyMultiplier)) ∧
    (baseStatsOf "chaser").hp = 7 ∧ specHp (baseStatsOf "chaser") 1 1 = 7 ∧
    specHpMult 5 1 = fl (38 / 10) ∧
    specHp (baseStatsOf "chaser") 5 1 = 7487234380503449 / 2 ^ 48 :=
  spawnEnemy_hp sampleEnv 300 300 "chaser" sampleGame
    (finalState (saveDataEnemy sampleEnv (some "chaser") sampleGame)) rfl

theorem spawnEnemy_elite_witness :
    (∃ e, spawned (spawnEnemy sampleEnv 300 300 (some "chaser") sampleGame) = some e ∧
      (e.isElite = true ↔ (baseStatsOf "chaser").isBoss = false ∧
        (eliteRoll sampleEnv sampleGame).val < specEliteBound sampleGame.currentLevel) ∧
      ((baseStatsOf "chaser").isBoss = true → e.isElite = false) ∧
      ((baseStatsOf "chaser").isBoss = false → 32 ≤ sampleGame.currentLevel → e.isElite = true) ∧
      (e.isElite = true →
        e.hp = 2 * specHp (baseStatsOf "chaser") sampleGame.currentLevel sampleGame.difficultyMultiplier ∧
        e.maxHp = 2 * specHp (baseStatsOf "chaser") sampleGame.currentLevel sampleGame.difficultyMultiplier ∧
        e.damage = max 1 (fl (specScaledDamage (baseStatsOf "chaser") sampleGame.currentLevel
          sampleGame.difficultyMultiplier (bonusRoll sampleEnv sampleGame) + 1)) ∧
        e.moveSpeed = specMoveSpeed (baseStatsOf "chaser")
          (fl (specSpeedMult sampleGame.currentLevel + fl (15 / 100)))) ∧
      (e.isElite = false →
        e.hp = specHp (baseStatsOf "chaser") sampleGame.currentLevel sampleGame.difficultyMultiplier ∧
        e.maxHp = specHp (baseStatsOf "chaser") sampleGame.currentLevel sampleGame.difficultyMultiplier ∧
        e.damage = max 1 (specScaledDamage (baseStatsOf "chaser") sampleGame.currentLevel
          sampleGame.difficultyMultiplier (bonusRoll sampleEnv sampleGame)) ∧
        e.moveSpeed = specMoveSpeed (baseStatsOf "chaser") (specSpeedMult sampleGame.currentLevel))) ∧
    specEliteBound 1 = fl (8 / 100) ∧ specEliteBound 14 = fl (47 / 100) ∧
    specMoveSpeed (baseStatsOf "chaser") (fl (specSpeedMult 1 + fl (15 / 100))) =
      8901646138474495 / 2 ^ 46 :=
  spawnEnemy_elite sampleEnv 300 300 "chaser" sampleGame
    (finalState (saveDataEnemy sampleEnv (some "chaser") sampleGame)) rfl

theorem spawnEnemy_damage_speed_witness :
    (∃ e, spawned (spawnEnemy sampleEnv 300 300 (some "boss") sampleGame) = some e ∧ 1 ≤ e.damage ∧
      (e.isElite = false →
        e.damage = max 1 (specScaledDamage (baseStatsOf "boss") sampleGame.currentLevel
          sampleGame.difficultyMultiplier (bonusRoll sampleEnv sampleGame)) ∧
        e.moveSpeed = specMoveSpeed (baseStatsOf "boss") (specSpeedMult sampleGame.currentLevel))) ∧
    (∀ (level : Int) (roll : Roll), specDamageBonus level roll =
      Int.floor (((level : ℚ) - 1) / (3 / 2)) +
        (if level > 5 ∧ roll.val < 2 / 10 then 1 else 0)) ∧
    (∀ roll : Roll, specDamageBonus 1 roll = 0 ∧ specDamageBonus 3 roll = 1 ∧
      specDamageBonus 5 roll = 2) ∧
    (∀ level : Int, 1 ≤ level → specSpeedMult level ≤ fl (18 / 10)) ∧
    (∀ level : Int, 11 ≤ level → specSpeedMult level = fl (18 / 10)) ∧
    fl (18 / 10) = 8106479329266893 / 2 ^ 52 ∧
    specMoveSpeed (baseStatsOf "chaser") (specSpeedMult 5) = 5108770827298407 / 2 ^ 45 :=
  spawnEnemy_damage_speed sampleEnv 300 300 "boss" sampleGame
    (finalState (saveDataEnemy sampleEnv (some "boss") sampleGame)) rfl

/-! ## The item pool -/

theorem specVariance_eq (r : Roll) :
    specVariance r = (if r.below 5 100 then 2 else if r.below 15 100 then 1 else 0) := by
  have h5 := Roll.below_iff r 5 100 (by decide)
  have h15 := Roll.below_iff r 15 100 (by decide)
  have e5 : ((5 : Nat) : ℚ) / ((100 : Nat) : ℚ) = 5 / 100 := by norm_num
  have e15 : ((15 : Nat) : ℚ) / ((100 : Nat) : ℚ) = 15 / 100 := by norm_num
  rw [e5] at h5
  rw [e15] at h15
  unfold specVariance
  by_cases a : r.val < 5 / 100 <;> by_cases b : r.val < 15 / 100
  · simp [a, h5.2 a]
  · simp [a, h5.2 a]
  · have : r.below 5 100 = false := by
      cases hb : r.below 5 100
      · rfl
      · exact absurd (h5.1 hb) a
    simp [a, b, this, h15.2 b]
  · have h1 : r.below 5 100 = false := by
      cases hb : r.below 5 100
      · rfl
      · exact absurd (h5.1 hb) a
    have h2 : r.below 15 100 = false := by
      cases hb : r.below 15 100
      · rfl
      · exact absurd (h15.1 hb) b
    simp [a, b, h1, h2]

theorem floor_div_fifteen (p : Int) : Int.floor ((p : ℚ) / 15) = p / 15 := by
  have h : (p : ℚ) / 15 = (p : ℚ) / ((15 : Nat) : ℚ) := by norm_num
  rw [h, Rat.floor_intCast_div_natCast]
  rfl

/-- The tier test of the code is the reference eligibility with the reference variance. -/
theorem tierCheck_eq (level : Int) (r : Roll) (item : ItemData) :
    tierCheck level r item = specEligible level (specVariance r) item := by
  unfold tierCheck specEligible specTier
  rw [specVariance_eq]
  simp only [floor_div_fifteen]

theorem filterPool_eq (rnd : Rng) (level : Int) (inventory pool : List ItemData) (calls : Nat) :
    (filterPool rnd level inventory pool calls).1 = specFilter rnd level inventory pool calls := by
  induction pool generalizing calls with
  | nil => rfl
  | cons item rest ih =>
    unfold filterPool specFilter
    split_ifs with h1 h2
    · exact ih calls
    · simp only [tierCheck_eq, h2, if_true]
      rw [ih]
    · simp only [tierCheck_eq, h2]
      rw [ih]
      simp

theorem specFilter_mem (rnd : Rng) (level : Int) (inventory pool : List ItemData) (calls : Nat)
    (item : ItemData) (h : item ∈ specFilter rnd level inventory pool calls) :
    item ∈ pool ∧ (∀ invItem ∈ inventory, invItem.id ≠ item.id) ∧
    ∃ k, calls ≤ k ∧ specEligible level (specVariance (rnd k)) item = true := by
  induction pool generalizing calls with
  | nil => cases h
  | cons p rest ih =>
    unfold specFilter at h
    split_ifs at h with h1 h2
    · obtain ⟨a, b, c⟩ := ih calls h
      exact ⟨List.mem_cons_of_mem _ a, b, c⟩
    · rcases List.mem_cons.1 h with h | h
      · subst h
        refine ⟨List.mem_cons_self _ _, ?_, calls, le_refl _, h2⟩
        intro invItem hi he
        exact h1 (List.any_eq_true.2 ⟨invItem, hi, by simpa using he⟩)
      · obtain ⟨a, b, k, hk, c⟩ := ih (calls + 1) h
        exact ⟨List.mem_cons_of_mem _ a, b, k, by omega, c⟩
    · obtain ⟨a, b, k, hk, c⟩ := ih (calls + 1) h
      exact ⟨List.mem_cons_of_mem _ a, b, k, by omega, c⟩

theorem getAvailableItemPool_eq (env : Env) (g : Game) :
    (getAvailableItemPool env g).1 =
      if specFilter env.rnd g.currentLevel g.inventory (selectedPool env g) g.calls = [] then
        match env.itemPool.find? (fun i => decide (i.id = "hp_up")) with
        | some breakfast => [breakfast]
        | none => env.itemPool
      else specFilter env.rnd g.currentLevel g.inventory (selectedPool env g) g.calls := by
  rw [← filterPool_eq]
  unfold getAvailableItemPool selectedPool
  simp only [List.length_eq_zero]
  cases hfind : List.find? (fun i => decide (i.id = "hp_up")) env.itemPool <;>
    split_ifs <;> rfl

/-- C18: tier gating in `getAvailableItemPool`.  Whenever at least one item passes, the result
is exactly the list of the items of the play style's pool (melee and general for `'sword'`,
ranged and general otherwise) that are not in the inventory by id and are tier-eligible, each
with its own roll, which gives variance 2 below 0.05, 1 from 0.05 to below 0.15 and 0 otherwise;
a series item is eligible iff `max(1, min(8, level - 3)) <= tier <= level + variance`, a one-off
item iff its derived tier `max(1, floor((price or 15) / 15))` is at most `level + variance`.
At level 1 with variance 0 only series items of tier 1 and one-off items of tier at most 1 are
eligible, and no series item of tier 3. -/
theorem item_pool_tier_gating (env : Env) (g : Game)
    (hpass : specFilter env.rnd g.currentLevel g.inventory (selectedPool env g) g.calls ≠ []) :
    (getAvailableItemPool env g).1 =
      specFilter env.rnd g.currentLevel g.inventory (selectedPool env g) g.calls ∧
    (∀ item ∈ (getAvailableItemPool env g).1,
      item ∈ selectedPool env g ∧ (∀ invItem ∈ g.inventory, invItem.id ≠ item.id) ∧
      ∃ k, specEligible g.currentLevel (specVariance (env.rnd k)) item = true) ∧
    (g.stats.playStyle = some "sword" → selectedPool env g = env.poolMelee ++ env.poolGeneral) ∧
    (g.stats.playStyle ≠ some "sword" → selectedPool env g = env.poolRange ++ env.poolGeneral) ∧
    (∀ (level variance : Int) (item : ItemData), specEligible level variance item = true ↔
      (match item.tier with
       | some t => max 1 (min 8 (level - 3)) ≤ t ∧ t ≤ level + variance
       | none => specTier item ≤ level + variance)) ∧
    (∀ item : ItemData, specEligible 1 0 item = true →
      (item.tier = some 1 ∨ item.tier = none) ∧ specTier item ≤ 1) ∧
    (∀ item : ItemData, item.tier = some 3 → specEligible 1 0 item = false) := by
  have heq : (getAvailableItemPool env g).1 =
      specFilter env.rnd g.currentLevel g.inventory (selectedPool env g) g.calls := by
    rw [getAvailableItemPool_eq, if_neg hpass]
  have hel : ∀ (level variance : Int) (item : ItemData), specEligible level variance item = true ↔
      (match item.tier with
       | some t => max 1 (min 8 (level - 3)) ≤ t ∧ t ≤ level + variance
       | none => specTier item ≤ level + variance) := by
    intro level variance item
    unfold specEligible
    cases ht : item.tier with
    | none => simp
    | some t => simp [specTier, ht]
  refine ⟨heq, ?_, ?_, ?_, hel, ?_, ?_⟩
  · intro item hi
    rw [heq] at hi
    obtain ⟨a, b, k, _, c⟩ := specFilter_mem _ _ _ _ _ item hi
    exact ⟨a, b, k, c⟩
  · intro hs
    simp [selectedPool, hs]
  · intro hs
    unfold selectedPool
    cases hp : g.stats.playStyle with
    | none => simp
    | some s =>
      have : s ≠ "sword" := fun h => hs (by rw [hp, h])
      simp [this]
  · intro item h
    have h2 := (hel 1 0 item).1 h
    cases ht : item.tier with
    | none =>
      rw [ht] at h2
      exact ⟨Or.inr rfl, by simpa using h2⟩
    | some t =>
      rw [ht] at h2
      have h3 : (1 : Int) ≤ t ∧ t ≤ 1 := by
        obtain ⟨a, b⟩ := h2
        constructor
        · exact le_trans (le_max_left _ _) a
        · simpa using b
      have : t = 1 := by omega
      subst this
      exact ⟨Or.inl rfl, by simp [specTier, ht]⟩
  · intro item ht
    cases h : specEligible 1 0 item
    · rfl
    · have h2 := (hel 1 0 item).1 h
      rw [ht] at h2
      obtain ⟨_, b⟩ := h2
      norm_num at b

theorem item_pool_tier_gating_witness :
    (getAvailableItemPool samplePoolEnv sampleGame).1 =
      specFilter samplePoolEnv.rnd sampleGame.currentLevel sampleGame.inventory
        (selectedPool samplePoolEnv sampleGame) sampleGame.calls ∧
    (∀ item ∈ (getAvailableItemPool samplePoolEnv sampleGame).1,
      item ∈ selectedPool samplePoolEnv sampleGame ∧
      (∀ invItem ∈ sampleGame.inventory, invItem.id ≠ item.id) ∧
      ∃ k, specEligible sampleGame.currentLevel (specVariance (samplePoolEnv.rnd k)) item
        = true) ∧
    (sampleGame.stats.playStyle = some "sword" →
      selectedPool samplePoolEnv sampleGame =
        samplePoolEnv.poolMelee ++ samplePoolEnv.poolGeneral) ∧
    (sampleGame.stats.playStyle ≠ some "sword" →
      selectedPool samplePoolEnv sampleGame =
        samplePoolEnv.poolRange ++ samplePoolEnv.poolGeneral) ∧
    (∀ (level variance : Int) (item : ItemData), specEligible level variance item = true ↔
      (match item.tier with
       | some t => max 1 (min 8 (level - 3)) ≤ t ∧ t ≤ level + variance
       | none => specTier item ≤ level + variance)) ∧
    (∀ item : ItemData, specEligible 1 0 item = true →
      (item.tier = some 1 ∨ item.tier = none) ∧ specTier item ≤ 1) ∧
    (∀ item : ItemData, item.tier = some 3 → specEligible 1 0 item = false) :=
  item_pool_tier_gating samplePoolEnv sampleGame (by
    rw [← filterPool_eq]
    decide)

/-- C19: the item pool is never empty at decision time.  The master list `itemPool` holds the
item `'hp_up'` (the first entry of `poolGeneral`, pushed when the script loads); then for every
inventory, level, play style and random stream `getAvailableItemPool` returns a non-empty list,
when no item passes the filter the result is the single item `'hp_up'`, and
`getRandomItemFromPool` returns an item of the pool. -/
theorem item_pool_never_empty (env : Env) (g : Game)
    (hb : ∃ b ∈ env.itemPool, b.id = "hp_up") :
    (getAvailableItemPool env g).1 ≠ [] ∧
    (specFilter env.rnd g.currentLevel g.inventory (selectedPool env g) g.calls = [] →
      ∃ b, (getAvailableItemPool env g).1 = [b] ∧ b.id = "hp_up" ∧ b ∈ env.itemPool) ∧
    ∃ item, (getRandomItemFromPool env g).1 = some item ∧
      item ∈ (getAvailableItemPool env g).1 := by
  obtain ⟨b0, hb0, hid0⟩ := hb
  have hfind : ∃ b, env.itemPool.find? (fun i => decide (i.id = "hp_up")) = some b ∧
      b.id = "hp_up" ∧ b ∈ env.itemPool := by
    cases hf : env.itemPool.find? (fun i => decide (i.id = "hp_up")) with
    | none =>
      rw [List.find?_eq_none] at hf
      exact absurd (by simpa using hid0) (hf b0 hb0)
    | some b =>
      exact ⟨b, rfl, by simpa using List.find?_some hf, List.mem_of_find?_eq_some hf⟩
  obtain ⟨b, hfb, hidb, hmb⟩ := hfind
  have hfall : specFilter env.rnd g.currentLevel g.inventory (selectedPool env g) g.calls = [] →
      (getAvailableItemPool env g).1 = [b] := by
    intro he
    rw [getAvailableItemPool_eq, if_pos he, hfb]
  have hne : (getAvailableItemPool env g).1 ≠ [] := by
    by_cases he : specFilter env.rnd g.currentLevel g.inventory (selectedPool env g) g.calls = []
    · rw [hfall he]
      simp
    · rw [getAvailableItemPool_eq, if_neg he]
      exact he
  refine ⟨hne, fun he => ⟨b, hfall he, hidb, hmb⟩, ?_⟩
  unfold getRandomItemFromPool
  simp only
  have hlen : 0 < (getAvailableItemPool env g).1.length := List.length_pos.2 hne
  have hidx := Roll.index_lt (env.rnd (getAvailableItemPool env g).2) hlen
  refine ⟨(getAvailableItemPool env g).1.get ⟨_, hidx⟩, ?_, List.get_mem _ _ _⟩
  exact List.getElem?_eq_getElem hidx

theorem item_pool_never_empty_witness :
    (getAvailableItemPool samplePoolEnv sampleGame).1 ≠ [] ∧
    (specFilter samplePoolEnv.rnd sampleGame.currentLevel sampleGame.inventory
        (selectedPool samplePoolEnv sampleGame) sampleGame.calls = [] →
      ∃ b, (getAvailableItemPool samplePoolEnv sampleGame).1 = [b] ∧ b.id = "hp_up" ∧
        b ∈ samplePoolEnv.itemPool) ∧
    ∃ item, (getRandomItemFromPool samplePoolEnv sampleGame).1 = some item ∧
      item ∈ (getAvailableItemPool samplePoolEnv sampleGame).1 :=
  item_pool_never_empty samplePoolEnv sampleGame ⟨hpUp, by simp [samplePoolEnv], rfl⟩

/-! ## createTalentSelection -/

theorem dedupLoop_spec (seen : List String) (l : List ItemData) :
    ((dedupLoop seen l).map fun i => i.id).Nodup ∧
    (∀ i ∈ dedupLoop seen l, i ∈ l ∧ i.id ∉ seen) ∧
    (∀ i ∈ l, i.id ∈ seen ∨ i.id ∈ (dedupLoop seen l).map fun i => i.id) := by
  induction l generalizing seen with
  | nil => simp [dedupLoop]
  | cons a rest ih =>
    unfold dedupLoop
    split_ifs with h
    · obtain ⟨h1, h2, h3⟩ := ih seen
      refine ⟨h1, fun i hi => ⟨List.mem_cons_of_mem _ (h2 i hi).1, (h2 i hi).2⟩, ?_⟩
      intro i hi
      rcases List.mem_cons.1 hi with hi | hi
      · subst hi
        left
        simpa using h
      · exact h3 i hi
    · obtain ⟨h1, h2, h3⟩ := ih (a.id :: seen)
      have ha : a.id ∉ seen := by simpa using h
      refine ⟨?_, ?_, ?_⟩
      · rw [List.map_cons, List.nodup_cons]
        refine ⟨?_, h1⟩
        intro hm
        obtain ⟨i, hi, he⟩ := List.mem_map.1 hm
        have := (h2 i hi).2
        rw [he] at this
        exact this (List.mem_cons_self _ _)
      · intro i hi
        rcases List.mem_cons.1 hi with hi | hi
        · subst hi
          exact ⟨List.mem_cons_self _ _, ha⟩
        · obtain ⟨x1, x2⟩ := h2 i hi
          exact ⟨List.mem_cons_of_mem _ x1, fun hs => x2 (List.mem_cons_of_mem _ hs)⟩
      · intro i hi
        rcases List.mem_cons.1 hi with hi | hi
        · subst hi
          right
          simp
        · rcases h3 i hi with hx | hx
          · rcases List.mem_cons.1 hx with hx | hx
            · right
              rw [hx]
              simp
            · exact Or.inl hx
          · right
            exact List.mem_cons_of_mem _ hx

theorem nodup_ids_eraseIdx (l : List ItemData) (i : Nat) (item : ItemData)
    (h : l[i]? = some item) (hn : (l.map fun x => x.id).Nodup) :
    ((l.eraseIdx i).map fun x => x.id).Nodup ∧
    item.id ∉ (l.eraseIdx i).map fun x => x.id := by
  induction l generalizing i with
  | nil => simp at h
  | cons a rest ih =>
    rw [List.map_cons, List.nodup_cons] at hn
    cases i with
    | zero =>
      simp only [List.getElem?_cons_zero, Option.some.injEq] at h
      subst h
      exact ⟨hn.2, hn.1⟩
    | succ j =>
      simp only [List.getElem?_cons_succ] at h
      obtain ⟨h1, h2⟩ := ih j h hn.2
      have hsub : ∀ s, s ∈ (rest.eraseIdx j).map (fun x => x.id) →
          s ∈ rest.map (fun x => x.id) := by
        intro s hs
        obtain ⟨x, hx, he⟩ := List.mem_map.1 hs
        exact List.mem_map.2 ⟨x, List.mem_of_mem_eraseIdx hx, he⟩
      rw [List.eraseIdx_cons_succ, List.map_cons]
      refine ⟨List.nodup_cons.2 ⟨fun hm => hn.1 (hsub _ hm), h1⟩, ?_⟩
      intro hm
      rcases List.mem_cons.1 hm with hm | hm
      · apply hn.1
        rw [← hm]
        exact List.mem_map.2 ⟨item, List.getElem?_mem h, rfl⟩
      · exact h2 hm

theorem pickOptions_spec (rnd : Rng) (n : Nat) (pool : List ItemData) (calls : Nat)
    (hn : (pool.map fun x => x.id).Nodup) :
    (pickOptions rnd n pool calls).1.length = min n pool.length ∧
    ((pickOptions rnd n pool calls).1.map fun x => x.id).Nodup ∧
    ∀ o ∈ (pickOptions rnd n pool calls).1, o ∈ pool := by
  induction n generalizing pool calls with
  | zero => simp [pickOptions]
  | succ n ih =>
    unfold pickOptions
    split_ifs with h0
    · rw [List.length_eq_zero] at h0
      subst h0
      simp
    · have hpos : 0 < pool.length := Nat.pos_of_ne_zero h0
      have hidx := Roll.index_lt (rnd calls) hpos
      have hget : pool[(rnd calls).index pool.length]? =
          some (pool.get ⟨_, hidx⟩) := List.getElem?_eq_getElem hidx
      simp only [hget]
      obtain ⟨e1, e2⟩ := nodup_ids_eraseIdx pool _ _ hget hn
      obtain ⟨i1, i2, i3⟩ := ih (pool.eraseIdx ((rnd calls).index pool.length)) (calls + 1) e1
      refine ⟨?_, ?_, ?_⟩
      · rw [List.length_cons, i1, List.length_eraseIdx_of_lt hidx]
        omega
      · rw [List.map_cons, List.nodup_cons]
        refine ⟨?_, i2⟩
        intro hm
        obtain ⟨o, ho, he⟩ := List.mem_map.1 hm
        exact e2 (List.mem_map.2 ⟨o, i3 o ho, he⟩)
      · intro o ho
        rcases List.mem_cons.1 ho with ho | ho
        · rw [ho]
          exact List.get_mem _ _ _
        · exact List.mem_of_mem_eraseIdx (i3 o ho)

/-- C20, as stated, fails: with `'hp_up'` as the only item of the pool, `createTalentSelection`
presents one option, not three. -/
theorem talent_selection_counterexample :
    (getAvailableItemPool samplePoolEnv sampleGame).1 = [hpUp] ∧
    (createTalentSelection samplePoolEnv sampleGame).1 = [hpUp] ∧
    (createTalentSelection samplePoolEnv sampleGame).1.length ≠ 3 := by
  decide

/-- C20, amended: for every inventory, level and random stream the options
`createTalentSelection` presents are drawn from the result of `getAvailableItemPool`, have
pairwise distinct ids, and their number is the smaller of 3 and the number of items left after
removing duplicate ids from that result (the loop stops on an empty pool); so there are exactly
3 options whenever the pool holds three items with pairwise distinct ids, and never more
than 3. -/
theorem talent_selection_options (env : Env) (g : Game) :
    (createTalentSelection env g).1.length =
      min 3 (dedupLoop [] (getAvailableItemPool env g).1).length ∧
    ((createTalentSelection env g).1.map fun o => o.id).Nodup ∧
    (∀ o ∈ (createTalentSelection env g).1, o ∈ (getAvailableItemPool env g).1) ∧
    (createTalentSelection env g).1.length ≤ 3 ∧
    (∀ a b c : ItemData, a ∈ (getAvailableItemPool env g).1 →
      b ∈ (getAvailableItemPool env g).1 → c ∈ (getAvailableItemPool env g).1 →
      a.id ≠ b.id → a.id ≠ c.id → b.id ≠ c.id → (createTalentSelection env g).1.length = 3) := by
  obtain ⟨d1, d2, d3⟩ := dedupLoop_spec [] (getAvailableItemPool env g).1
  obtain ⟨p1, p2, p3⟩ := pickOptions_spec env.rnd 3 (dedupLoop [] (getAvailableItemPool env g).1)
    (getAvailableItemPool env g).2 d1
  have hlen : (createTalentSelection env g).1.length =
      min 3 (dedupLoop [] (getAvailableItemPool env g).1).length := p1
  refine ⟨hlen, p2, fun o ho => (d2 o (p3 o ho)).1, ?_, ?_⟩
  · rw [hlen]
    exact min_le_left _ _
  · intro a b c ha hb hc hab hac hbc
    have hmem : ∀ i ∈ (getAvailableItemPool env g).1,
        i.id ∈ (dedupLoop [] (getAvailableItemPool env g).1).map fun i => i.id := by
      intro i hi
      rcases d3 i hi with h | h
      · cases h
      · exact h
    have hsub : [a.id, b.id, c.id] ⊆
        (dedupLoop [] (getAvailableItemPool env g).1).map fun i => i.id := by
      intro s hs
      simp only [List.mem_cons, List.mem_singleton, List.not_mem_nil, or_false] at hs
      rcases hs with hs | hs | hs <;> rw [hs]
      · exact hmem a ha
      · exact hmem b hb
      · exact hmem c hc
    have hnd : [a.id, b.id, c.id].Nodup := by
      simp [hab, hac, hbc]
    have h3 := (List.subperm_of_subset hnd hsub).length_le
    simp only [List.length_cons, List.length_nil, List.length_map] at h3
    rw [hlen]
    omega

/-! ## Behaviour dispatch, fallbacks and failures, evaluated -/

/-- C21, evaluated: `'fly'` is in the catalog without an `ai` entry and in the enemy pool of the
first theme of `mapThemes[1]`; `spawnEnemy` gives it the behaviour id `'fly'`, for which no
branch of the chain of `update` runs, so nothing sets its velocity.  The chain does handle
`'chaser'`. -/
theorem dispatch_has_no_fallback :
    ((enemyStats "fly").map fun s => s.ai) = some none ∧
    ((mapThemes 1).map fun l => l.map fun t => decide ("fly" ∈ t.enemyPool)) =
      some [true, false, false] ∧
    ((spawned (spawnEnemy sampleEnv 300 300 (some "fly") sampleGame)).map fun e =>
      (e.active, e.aiType)) = some (true, some "fly") ∧
    dispatchBranch "fly" = none ∧ dispatchBranch "chaser" = some "chaser" :=
  ⟨rfl, rfl, rfl, rfl, rfl⟩

/-- C22, evaluated: `'foo'` is no key of the catalog; `spawnEnemy` does not fail and creates an
instance with the hp, damage and moveSpeed it creates for `'chaser'`, but with the behaviour id
`'foo'`, not `'chaser'`; no branch of the chain of `update` runs for it. -/
theorem spawnEnemy_unknown_archetype :
    enemyStats "foo" = none ∧
    ∃ e c, spawned (spawnEnemy sampleEnv 300 300 (some "foo") sampleGame) = some e ∧
      spawned (spawnEnemy sampleEnv 300 300 (some "chaser") sampleGame) = some c ∧
      e.hp = c.hp ∧ e.maxHp = c.maxHp ∧ e.damage = c.damage ∧ e.moveSpeed = c.moveSpeed ∧
      c.aiType = some "chaser" ∧ e.aiType = some "foo" ∧ dispatchBranch "foo" = none :=
  ⟨rfl, _, _, rfl, rfl, rfl, rfl, rfl, rfl, rfl, rfl, rfl⟩

/-- C24, evaluated: `loadRoom(7, 7)` in a dungeon without a record for (7,7), called while the
player is in room (5,5): the call changes `currentRoom` to (7,7) and nothing else, so the door of
room (5,5) is still on screen while the current room has no record. -/
theorem loadRoom_missing_sets_currentRoom :
    getRoom sampleFloor.rooms (7, 7) = none ∧ sampleFloor.currentRoom = (5, 5) ∧
    (loadRoom sampleEnv 7 7 sampleFloor).currentRoom = (7, 7) ∧
    loadRoom sampleEnv 7 7 sampleFloor = { sampleFloor with currentRoom := (7, 7) } ∧
    (loadRoom sampleEnv 7 7 sampleFloor).doors = [doorSprite Dir.down] :=
  ⟨rfl, rfl, rfl, rfl, rfl⟩

/-- C25, evaluated: with a storage whose write raises, `spawnEnemy` raises after `saveData` has
added the id to the collection in memory, and no enemy is created; the enemy wave of room (5,6)
is therefore not spawned by `loadRoom`, where two enemies are spawned when the write
succeeds. -/
theorem saveData_failure_propagates :
    (∃ g1, spawnEnemy sampleFailEnv 300 300 (some "fly") sampleGame = Except.error g1 ∧
      g1.collectionEnemies = [some "fly"] ∧ g1.enemies = [] ∧ g1.stored = none) ∧
    (loadRoom sampleFailEnv 5 6 sampleGame).enemies.length = 0 ∧
    (loadRoom sampleEnv 5 6 sampleGame).enemies.length = 2 :=
  ⟨⟨_, rfl, rfl, rfl, rfl⟩, rfl, rfl⟩

/-- C29, evaluated: at level 23 the lower bound `2 + floor(23 * 0.4) = 11` passed to
`Phaser.Math.Between` is above the upper bound `min(10, 4 + floor(23 * 0.5)) = 10`, the draw
gives 11 whatever the roll, and `loadRoom` spawns 11 enemies in an uncleared Enemy room.  For the
levels 1 to 22 the bounds are in order and the count lies between 2 and 10, between 2 and 4 at
level 1. -/
theorem wave_size_exceeds_ten :
    (2 + (23 * 2) / 5 : Int) = 11 ∧ min (10 : Int) (4 + 23 / 2) = 10 ∧
    (∀ r : Roll, waveCount r 23 = 11) ∧
    (loadRoom sampleEnv 5 6 { sampleGame with currentLevel := 23 }).enemies.length = 11 ∧
    (∀ (r : Roll) (level : Int), 1 ≤ level → level ≤ 22 →
      2 + (level * 2) / 5 ≤ min 10 (4 + level / 2) ∧ 2 ≤ waveCount r level ∧
      waveCount r level ≤ 10) ∧
    (∀ r : Roll, 2 ≤ waveCount r 1 ∧ waveCount r 1 ≤ 4) := by
  have hbetween : ∀ (r : Roll) (a b : Int), a ≤ b → a ≤ between r a b ∧ between r a b ≤ b := by
    intro r a b hab
    unfold between
    have hd : (0 : Int) < r.den := by
      exact_mod_cast lt_of_le_of_lt (Nat.zero_le _) r.lt
    have hn : (r.num : Int) < r.den := by exact_mod_cast r.lt
    have h0 : (0 : Int) ≤ (r.num : Int) * (b - a + 1) / r.den :=
      Int.ediv_nonneg (mul_nonneg (Int.natCast_nonneg _) (by omega)) (le_of_lt hd)
    have h1 : (r.num : Int) * (b - a + 1) / r.den < b - a + 1 := by
      apply Int.ediv_lt_of_lt_mul hd
      have : (r.num : Int) * (b - a + 1) < r.den * (b - a + 1) :=
        mul_lt_mul_of_pos_right hn (by omega)
      linarith
    omega
  refine ⟨by decide, by decide, ?_, rfl, ?_, ?_⟩
  · intro r
    unfold waveCount between
    norm_num
  · intro r level h1 h2
    have hb : 2 + (level * 2) / 5 ≤ min 10 (4 + level / 2) := by
      rw [le_min_iff]
      omega
    obtain ⟨l, u⟩ := hbetween r _ _ hb
    have hw : waveCount r level = between r (2 + (level * 2) / 5) (min 10 (4 + level / 2)) :=
      rfl
    rw [hw]
    refine ⟨hb, ?_, le_trans u (min_le_left _ _)⟩
    omega
  · intro r
    have hb : (2 + (1 * 2) / 5 : Int) ≤ min 10 (4 + 1 / 2) := by decide
    obtain ⟨l, u⟩ := hbetween r _ _ hb
    have hw : waveCount r 1 = between r (2 + (1 * 2) / 5) (min 10 (4 + 1 / 2)) := rfl
    rw [hw]
    constructor
    · exact le_trans (by decide) l
    · exact le_trans u (by decide)

/-! ## Clearing a boss room -/

theorem CoinStep.coinStep_trans {n m : Nat} {a b c : Game} (h1 : CoinStep n a b) (h2 : CoinStep m b c) :
    CoinStep (n + m) a c := by
  obtain ⟨⟨l1, e1, b1⟩, i1, s1, en1, r1, c1⟩ := h1
  obtain ⟨⟨l2, e2, b2⟩, i2, s2, en2, r2, c2⟩ := h2
  refine ⟨⟨l1 ++ l2, ?_, ?_⟩, i2.trans i1, s2.trans s1, en2.trans en1, r2.trans r1, c2.trans c1⟩
  · rw [e2, e1, List.append_assoc]
  · rw [List.length_append]
    omega

/-- A coin drop without a value creates one coin unless its roll is above 0.5. -/
theorem spawnCoin_drop (env : Env) (x y : ℚ) (g : Game) :
    CoinStep 1 g (spawnCoin env x y 0 g) ∧
    (spawnCoin env x y 0 g).coins.length =
      g.coins.length + (if (env.rnd g.calls).val > 1 / 2 then 0 else 1) := by
  have hd : (0 : ℚ) < (env.rnd g.calls).den := by
    exact_mod_cast lt_of_le_of_lt (Nat.zero_le _) (env.rnd g.calls).lt
  have hiff : (env.rnd g.calls).den < (env.rnd g.calls).num * 2 ↔
      (env.rnd g.calls).val > 1 / 2 := by
    unfold Roll.val
    rw [gt_iff_lt, div_lt_div_iff₀ (by norm_num) hd]
    constructor
    · intro h
      have : ((env.rnd g.calls).den : ℚ) < ((env.rnd g.calls).num : ℚ) * 2 := by exact_mod_cast h
      linarith
    · intro h
      have : ((env.rnd g.calls).den : ℚ) < ((env.rnd g.calls).num : ℚ) * 2 := by linarith
      exact_mod_cast this
  unfold spawnCoin
  simp only [decide_True, Bool.and_true, decide_eq_true_eq, lt_self_iff_false, if_false]
  by_cases h : (env.rnd g.calls).den < (env.rnd g.calls).num * 2
  · rw [if_pos h, if_pos (hiff.1 h)]
    exact ⟨⟨⟨[], by simp, by simp⟩, rfl, rfl, rfl, rfl, rfl⟩, rfl⟩
  · rw [if_neg h, if_neg (fun hc => h (hiff.2 hc))]
    exact ⟨⟨⟨[_], rfl, by simp⟩, rfl, rfl, rfl, rfl, rfl⟩, by simp⟩

theorem bossCoin_step (env : Env) (g : Game) : CoinStep 1 g (bossCoin env g) := by
  unfold bossCoin
  obtain ⟨⟨⟨l, e, b⟩, i, s, en, r, c⟩, _⟩ := spawnCoin_drop env
    ((400 + between (env.rnd g.calls) (-60) 60 : Int) : ℚ)
    ((520 + between (env.rnd (g.calls + 1)) (-30) 30 : Int) : ℚ) { g with calls := g.calls + 2 }
  exact ⟨⟨l, e, b⟩, i, s, en, r, c⟩

theorem foldl_bossCoin_step (env : Env) (l : List Nat) (g : Game) :
    CoinStep l.length g (l.foldl (fun acc _ => bossCoin env acc) g) := by
  induction l generalizing g with
  | nil => exact ⟨⟨[], by simp, by simp⟩, rfl, rfl, rfl, rfl, rfl⟩
  | cons a l ih =>
    rw [List.foldl_cons, List.length_cons, Nat.add_comm]
    exact (bossCoin_step env g).coinStep_trans (ih _)

/-- The state `checkRoomClear` leaves when it clears a boss room, as a chain of calls. -/
theorem checkRoomClear_boss (env : Env) (g : Game) (roomData : Room)
    (hr : getRoom g.rooms g.currentRoom = some roomData) (hn : roomData.cleared = false)
    (hb : roomData.type = RoomType.boss) (h0 : activeHostiles g = 0) :
    ∃ g1 : Game, g1.items = g.items ∧ g1.coins = g.coins ∧ g1.stairs = g.stairs ∧
      checkRoomClear env g = openDoors roomData
        ((List.range 8).foldl (fun acc _ => bossCoin env acc) (spawnStairs 400 300 g1)) := by
  refine ⟨{ (openDoors roomData (chargeActiveItem
      { g with rooms := updateRoom g.rooms g.currentRoom fun r => { r with cleared := true } }))
      with calls := (openDoors roomData (chargeActiveItem
      { g with rooms := updateRoom g.rooms g.currentRoom fun r =>
          { r with cleared := true } })).calls + 1 }, ?_, ?_, ?_, ?_⟩
  · simp only [openDoors, chargeActiveItem]
    split_ifs <;> rfl
  · simp only [openDoors, chargeActiveItem]
    split_ifs <;> rfl
  · simp only [openDoors, chargeActiveItem]
    split_ifs <;> rfl
  · unfold checkRoomClear
    rw [hr]
    simp only [hn, h0, Bool.not_false, decide_True, Bool.and_self, if_true]
    unfold bossClear roomClearReward
    simp [hb]

/-- C23, as stated, fails: the Boss room (5,6) is cleared by `checkRoomClear` while every roll is
0.99; each of the eight coin drops is skipped, so no coin comes into existence in the call; the
stairs are there. -/
theorem boss_clear_coins_counterexample :
    ((getRoom sampleBoss.rooms sampleBoss.currentRoom).map fun r => (r.type, r.cleared)) =
      some (RoomType.boss, false) ∧
    ((getRoom (checkRoomClear sampleHighEnv sampleBoss).rooms sampleBoss.currentRoom).map
      fun r => r.cleared) = some true ∧
    sampleBoss.coins.length = 0 ∧ (checkRoomClear sampleHighEnv sampleBoss).coins.length = 0 ∧
    (checkRoomClear sampleHighEnv sampleBoss).stairs.length = 1 :=
  ⟨rfl, rfl, rfl, rfl, rfl⟩

/-- C23, amended: when an uncleared Boss room becomes cleared, `checkRoomClear` spawns no
room-clear reward item, creates the level-exit stairs (when there are none yet) and makes eight
coin drops, each of which creates one coin unless its roll is above 0.5; so at most eight coins
come into existence in that call, eight when every roll is 0 and none when every roll is
0.99. -/
theorem boss_clear_coins (env : Env) (g : Game) (roomData : Room)
    (hr : getRoom g.rooms g.currentRoom = some roomData) (hn : roomData.cleared = false)
    (hb : roomData.type = RoomType.boss) (h0 : activeHostiles g = 0) :
    (checkRoomClear env g).items = g.items ∧
    (∃ l : List Coin, (checkRoomClear env g).coins = g.coins ++ l ∧ l.length ≤ 8) ∧
    (g.stairs = [] → (checkRoomClear env g).stairs.length = 1) ∧
    (checkRoomClear env g).stairs ≠ [] ∧
    (∀ (x y : ℚ) (g0 : Game), (spawnCoin env x y 0 g0).coins.length =
      g0.coins.length + (if (env.rnd g0.calls).val > 1 / 2 then 0 else 1)) ∧
    (checkRoomClear sampleEnv sampleBoss).coins.length = 8 := by
  obtain ⟨g1, hi, hc, hs, heq⟩ := checkRoomClear_boss env g roomData hr hn hb h0
  obtain ⟨⟨l, e, b⟩, i, s, _, _, _⟩ :=
    foldl_bossCoin_step env (List.range 8) (spawnStairs 400 300 g1)
  have hst : (spawnStairs 400 300 g1).items = g1.items ∧
      (spawnStairs 400 300 g1).coins = g1.coins ∧
      (g1.stairs = [] → (spawnStairs 400 300 g1).stairs.length = 1) ∧
      (spawnStairs 400 300 g1).stairs ≠ [] := by
    unfold spawnStairs
    split_ifs with h
    · refine ⟨rfl, rfl, ?_, ?_⟩
      · intro he
        rw [he] at h
        simp at h
      · intro he
        rw [he] at h
        simp at h
    · refine ⟨rfl, rfl, ?_, by simp⟩
      intro he
      simp [he]
  rw [heq]
  refine ⟨?_, ⟨l, ?_, by simpa using b⟩, ?_, ?_, fun x y g0 => (spawnCoin_drop env x y g0).2,
    rfl⟩
  · show ((List.range 8).foldl (fun acc _ => bossCoin env acc) (spawnStairs 400 300 g1)).items = _
    rw [i, hst.1, hi]
  · show ((List.range 8).foldl (fun acc _ => bossCoin env acc) (spawnStairs 400 300 g1)).coins = _
    rw [e, hst.2.1, hc]
  · intro he
    show ((List.range 8).foldl (fun acc _ => bossCoin env acc)
      (spawnStairs 400 300 g1)).stairs.length = 1
    rw [s]
    exact hst.2.2.1 (hs.trans he)
  · show ((List.range 8).foldl (fun acc _ => bossCoin env acc) (spawnStairs 400 300 g1)).stairs ≠ []
    rw [s]
    exact hst.2.2.2

theorem boss_clear_coins_witness :
    (checkRoomClear sampleHighEnv sampleBoss).items = sampleBoss.items ∧
    (∃ l : List Coin, (checkRoomClear sampleHighEnv sampleBoss).coins = sampleBoss.coins ++ l ∧
      l.length ≤ 8) ∧
    (sampleBoss.stairs = [] → (checkRoomClear sampleHighEnv sampleBoss).stairs.length = 1) ∧
    (checkRoomClear sampleHighEnv sampleBoss).stairs ≠ [] ∧
    (∀ (x y : ℚ) (g0 : Game), (spawnCoin sampleHighEnv x y 0 g0).coins.length =
      g0.coins.length + (if (sampleHighEnv.rnd g0.calls).val > 1 / 2 then 0 else 1)) ∧
    (checkRoomClear sampleEnv sampleBoss).coins.length = 8 :=
  boss_clear_coins sampleHighEnv sampleBoss
    { type := RoomType.boss, cleared := false, doors := [Dir.up] } rfl rfl rfl rfl

/-! ## Enemy placement -/

theorem collides_eq (l : TerrainLayout) (ex ey : Int) :
    (!collides l ex ey 45) =
      (l.walls.all (fun o => !(decide ((ex - o.x).natAbs < 45) && decide ((ey - o.y).natAbs < 45)))
        && l.pits.all (fun o =>
            !(decide ((ex - o.x).natAbs < 45) && decide ((ey - o.y).natAbs < 45)))
        && l.crates.all (fun o => o.destroyed ||
            !(decide ((ex - o.x).natAbs < 45) && decide ((ey - o.y).natAbs < 45)))) := by
  unfold collides
  simp only [Bool.not_or, List.not_any_eq_all_not]
  congr 1
  congr 1
  funext o
  cases o.destroyed <;> simp

/-- The validity test of the placement loop is the reference test. -/
theorem validSpot_eq (layout : Option TerrainLayout) (px py : ℚ) (ex ey : Int) (b : Bool)
    (hb : b = match layout with
      | some l => collides l ex ey 45
      | none => false) :
    (!b && !distLt ex ey px py 250) = validSpot layout px py (ex, ey) := by
  have hd : (!distLt ex ey px py 250) =
      decide ((250 : ℚ) * 250 ≤ ((ex : ℚ) - px) * ((ex : ℚ) - px) +
        ((ey : ℚ) - py) * ((ey : ℚ) - py)) := by
    unfold distLt
    by_cases h : ((ex : ℚ) - px) * ((ex : ℚ) - px) + ((ey : ℚ) - py) * ((ey : ℚ) - py)
        < 250 * 250
    · simp [h, not_le.2 h]
    · simp [h, not_lt.1 h]
  unfold validSpot
  rw [hd, Bool.and_comm, hb]
  cases layout with
  | none => rfl
  | some l =>
    simp only
    rw [collides_eq]

theorem findSpot_unfold (env : Env) (layout : Option TerrainLayout) (px py : ℚ) (n calls : Nat) :
    findSpot env layout px py n calls =
      if validSpot layout px py (candidate env calls 0) = true then
        ((candidate env calls 0).1, (candidate env calls 0).2, calls + 2)
      else
        match n with
        | 0 => ((candidate env calls 0).1, (candidate env calls 0).2, calls + 2)
        | m + 1 => findSpot env layout px py m (calls + 2) := by
  have hv := validSpot_eq layout px py (between (env.rnd calls) 100 700)
    (between (env.rnd (calls + 1)) 100 500) _ rfl
  have hc : candidate env calls 0 =
      (between (env.rnd calls) 100 700, between (env.rnd (calls + 1)) 100 500) := rfl
  rw [hc, ← hv]
  cases layout <;> cases n <;> rfl

theorem findSpot_spec (env : Env) (layout : Option TerrainLayout) (px py : ℚ) (n calls : Nat) :
    ∃ j, j ≤ n ∧
      findSpot env layout px py n calls =
        ((candidate env calls j).1, (candidate env calls j).2, calls + 2 * (j + 1)) ∧
      (∀ i, i < j → validSpot layout px py (candidate env calls i) = false) ∧
      (validSpot layout px py (candidate env calls j) = true ∨ j = n) := by
  induction n generalizing calls with
  | zero =>
    refine ⟨0, le_refl _, ?_, fun i hi => absurd hi (Nat.not_lt_zero _), Or.inr rfl⟩
    rw [findSpot_unfold]
    split_ifs <;> rfl
  | succ n ih =>
    by_cases hv : validSpot layout px py (candidate env calls 0) = true
    · refine ⟨0, Nat.zero_le _, ?_, fun i hi => absurd hi (Nat.not_lt_zero _), Or.inl hv⟩
      rw [findSpot_unfold, if_pos hv]
    · obtain ⟨j, hj, he, hall, hlast⟩ := ih (calls + 2)
      have hc : ∀ k, candidate env (calls + 2) k = candidate env calls (k + 1) := by
        intro k
        unfold candidate
        rw [show calls + 2 + 2 * k = calls + 2 * (k + 1) by ring]
      refine ⟨j + 1, Nat.succ_le_succ hj, ?_, ?_, ?_⟩
      · rw [findSpot_unfold, if_neg hv]
        simp only
        rw [he, hc]
        rw [show calls + 2 + 2 * (j + 1) = calls + 2 * (j + 1 + 1) by ring]
      · intro i hi
        cases i with
        | zero => simpa using hv
        | succ i =>
          rw [← hc]
          exact hall i (by omega)
      · rcases hlast with h | h
        · left
          rw [← hc]
          exact h
        · right
          omega

theorem spawnEnemy_position (env : Env) (x y : ℚ) (ty : String) (g g1 : Game)
    (hs : saveDataEnemy env (some ty) g = Except.ok g1) :
    ∃ e, spawned (spawnEnemy env x y (some ty) g) = some e ∧ e.x = x ∧ e.y = y := by
  unfold spawnEnemy
  rw [hs]
  simp only
  exact ⟨_, spawned_append _ _ _ rfl, rfl, rfl⟩
/-- C26: enemy placement in `loadRoom` is a bounded retry.  For a wave enemy the loop draws
`j + 1` candidates with `j < 50`, so between 1 and 50; the candidates before the last are not
valid, and the last is valid or is the 50th.  `spawnEnemy` is called at the last candidate
drawn; so, whenever the call creates the enemy, the enemy stands at a valid position if one of
the candidates drawn was valid and at the 50th candidate otherwise.  Valid means at least 250
away from the player and not within 45 px on both axes of any wall, pit or non-destroyed crate
of the persisted `terrainLayout`. -/
theorem wave_enemy_placement (env : Env) (key : Coord) (pool : List String) (g : Game) :
    ∃ j, j < 50 ∧
      (∀ i, i < j →
        validSpot (layoutAt g key) g.playerX g.playerY (candidate env (g.calls + 1) i) = false) ∧
      (validSpot (layoutAt g key) g.playerX g.playerY (candidate env (g.calls + 1) j) = true ∨
        j = 49) ∧
      ((∃ i, i ≤ j ∧
          validSpot (layoutAt g key) g.playerX g.playerY (candidate env (g.calls + 1) i) = true) →
        validSpot (layoutAt g key) g.playerX g.playerY (candidate env (g.calls + 1) j) = true) ∧
      spawnWaveEnemy env key pool g =
        spawnEnemy env (candidate env (g.calls + 1) j).1 (candidate env (g.calls + 1) j).2
          pool[(between (env.rnd g.calls) 0 ((pool.length : Int) - 1)).toNat]?
          { g with calls := g.calls + 1 + 2 * (j + 1) } ∧
      (∀ (ty : String) (g1 : Game),
        pool[(between (env.rnd g.calls) 0 ((pool.length : Int) - 1)).toNat]? = some ty →
        saveDataEnemy env (some ty) { g with calls := g.calls + 1 + 2 * (j + 1) } = Except.ok g1 →
        ∃ e, spawned (spawnWaveEnemy env key pool g) = some e ∧
          e.x = (candidate env (g.calls + 1) j).1 ∧ e.y = (candidate env (g.calls + 1) j).2) := by
  obtain ⟨j, hj, he, hall, hlast⟩ :=
    findSpot_spec env (layoutAt g key) g.playerX g.playerY 49 (g.calls + 1)
  have hsp : spawnWaveEnemy env key pool g =
      spawnEnemy env (candidate env (g.calls + 1) j).1 (candidate env (g.calls + 1) j).2
        pool[(between (env.rnd g.calls) 0 ((pool.length : Int) - 1)).toNat]?
        { g with calls := g.calls + 1 + 2 * (j + 1) } := by
    unfold spawnWaveEnemy
    simp only
    rw [show ((getRoom g.rooms key).bind fun r => r.terrainLayout) = layoutAt g key from rfl, he]
  refine ⟨j, by omega, hall, hlast, ?_, hsp, ?_⟩
  · rintro ⟨i, hi, hv⟩
    rcases Nat.lt_or_eq_of_le hi with h | h
    · rw [hall i h] at hv
      cases hv
    · rw [← h]
      exact hv
  · intro ty g1 hty hs
    rw [hsp, hty]
    exact spawnEnemy_position env _ _ ty _ g1 hs
/-! ## Terrain by room kind -/

theorem below_eq_decide (r : Roll) (p : Nat) (c : ℚ) (hc : c = (p : ℚ) / ((100 : Nat) : ℚ)) :
    r.below p 100 = decide (r.val < c) := by
  have h := Roll.below_iff r p 100 (by decide)
  rw [← hc] at h
  cases hb : r.below p 100
  · symm
    rw [decide_eq_false_iff_not]
    intro hlt
    rw [h.2 hlt] at hb
    cases hb
  · symm
    rw [decide_eq_true_iff]
    exact h.1 hb

/-- One cell of the loop: a cell that fails a skip test changes nothing; an eligible cell
draws the roll at the cursor and gets what `specCellKind` says. -/
theorem terrainCell_spec (rnd : Rng) (key : Coord) (isBoss : Bool) (t : TerrainGen) (p : Pos) :
    (eligibleCell p = false → terrainCell rnd key isBoss t p = t) ∧
    (eligibleCell p = true →
      (terrainCell rnd key isBoss t p).calls =
        (if specCellKind isBoss (rnd t.calls) = CellKind.debris then t.calls + 2
          else t.calls + 1) ∧
      (terrainCell rnd key isBoss t p).layout.walls = t.layout.walls ++
        (if specCellKind isBoss (rnd t.calls) = CellKind.wall then [p] else []) ∧
      (terrainCell rnd key isBoss t p).layout.pits = t.layout.pits ++
        (if specCellKind isBoss (rnd t.calls) = CellKind.pit then [p] else []) ∧
      (terrainCell rnd key isBoss t p).layout.crates = t.layout.crates ++
        (if specCellKind isBoss (rnd t.calls) = CellKind.crate then
          [{ x := p.x, y := p.y, destroyed := false }] else [])) := by
  have b5 := below_eq_decide (rnd t.calls) 5 (5 / 100) (by norm_num)
  have b12 := below_eq_decide (rnd t.calls) 12 (12 / 100) (by norm_num)
  have b20 := below_eq_decide (rnd t.calls) 20 (20 / 100) (by norm_num)
  have b22 := below_eq_decide (rnd t.calls) 22 (22 / 100) (by norm_num)
  constructor
  · intro he
    unfold eligibleCell at he
    unfold terrainCell
    by_cases h1 : (p.x - 400).natAbs < 100 ∧ (p.y - 300).natAbs < 100
    · rw [if_pos h1]
    · by_cases h2 : (p.x - 400).natAbs < 40
      · rw [if_neg h1, if_pos h2]
      · by_cases h3 : (p.y - 300).natAbs < 40
        · rw [if_neg h1, if_neg h2, if_pos h3]
        · exfalso
          simp only [not_and_or] at h1
          rcases h1 with h1 | h1 <;> simp [h1, h2, h3] at he
  · intro he
    unfold eligibleCell at he
    have h1 : ¬ ((p.x - 400).natAbs < 100 ∧ (p.y - 300).natAbs < 100) := by
      intro h
      simp [h.1, h.2] at he
    have h2 : ¬ (p.x - 400).natAbs < 40 := by
      intro h
      simp [h] at he
    have h3 : ¬ (p.y - 300).natAbs < 40 := by
      intro h
      simp [h] at he
    unfold terrainCell specCellKind
    rw [if_neg h1, if_neg h2, if_neg h3]
    simp only [b5, b12, b20, b22]
    cases isBoss
    · by_cases c5 : (rnd t.calls).val < 5 / 100
      · simp [c5]
      · by_cases c12 : (rnd t.calls).val < 12 / 100
        · simp [c5, c12, not_lt.1 c5]
        · by_cases c20 : (rnd t.calls).val < 20 / 100
          · simp [c5, c12, c20, not_lt.1 c12]
          · by_cases c22 : (rnd t.calls).val < 22 / 100
            · simp [c5, c12, c20, c22, not_lt.1 c20]
            · simp [c5, c12, c20, c22]
    · by_cases c5 : (rnd t.calls).val < 5 / 100
      · simp [c5]
      · simp [c5]

/-- The loops of `generateRoomTerrain` over `cells`: the layout gains, in loop order, the cells
that `specCellKind` gives a wall, a pit or a crate, every eligible cell is rolled once, and the
cursor ends after the last roll. -/
theorem foldl_terrainCell_spec (rnd : Rng) (key : Coord) (isBoss : Bool) (cells : List Pos) :
    ∀ t : TerrainGen,
      (cells.foldl (terrainCell rnd key isBoss) t).layout.walls =
        t.layout.walls ++ cellsOf isBoss CellKind.wall (cellRolls rnd isBoss t.calls cells) ∧
      (cells.foldl (terrainCell rnd key isBoss) t).layout.pits =
        t.layout.pits ++ cellsOf isBoss CellKind.pit (cellRolls rnd isBoss t.calls cells) ∧
      (cells.foldl (terrainCell rnd key isBoss) t).layout.crates =
        t.layout.crates ++
          (cellsOf isBoss CellKind.crate (cellRolls rnd isBoss t.calls cells)).map
            (fun p => { x := p.x, y := p.y, destroyed := false }) ∧
      (cellRolls rnd isBoss t.calls cells).map (fun q => q.1) = cells.filter eligibleCell := by
  induction cells with
  | nil => intro t; simp [cellRolls, cellsOf]
  | cons p ps ih =>
    intro t
    rw [List.foldl_cons]
    obtain ⟨i1, i2, i3, i4⟩ := ih (terrainCell rnd key isBoss t p)
    obtain ⟨hs1, hs2⟩ := terrainCell_spec rnd key isBoss t p
    cases he : eligibleCell p with
    | false =>
      rw [hs1 he] at i1 i2 i3 i4 ⊢
      simp only [cellRolls, he, Bool.false_eq_true, if_false]
      rw [List.filter_cons_of_neg (by simp [he])]
      exact ⟨i1, i2, i3, i4⟩
    | true =>
      obtain ⟨c1, c2, c3, c4⟩ := hs2 he
      rw [i1, i2, i3, c1, c2, c3, c4]
      rw [c1] at i4
      simp only [cellRolls, he, if_true]
      rw [List.filter_cons_of_pos (by simp [he])]
      refine ⟨?_, ?_, ?_, ?_⟩
      · simp only [cellsOf, List.filter_cons, List.append_assoc]
        split_ifs <;> simp_all
      · simp only [cellsOf, List.filter_cons, List.append_assoc]
        split_ifs <;> simp_all
      · simp only [cellsOf, List.filter_cons, List.append_assoc]
        split_ifs <;> simp_all
      · simp only [List.map_cons]
        rw [i4]

theorem specLayout_boss (rolled : List (Pos × Roll)) :
    (specLayout true rolled).pits = [] ∧ (specLayout true rolled).crates = [] := by
  have h : ∀ kind, kind ≠ CellKind.wall → kind ≠ CellKind.empty →
      cellsOf true kind rolled = [] := by
    intro kind h1 h2
    unfold cellsOf
    rw [List.map_eq_nil_iff, List.filter_eq_nil_iff]
    intro q _
    unfold specCellKind
    simp only [if_true]
    split_ifs
    · simpa using fun h => h1 h.symm
    · simpa using fun h => h2 h.symm
  unfold specLayout
  simp only
  rw [h CellKind.pit (by decide) (by decide), h CellKind.crate (by decide) (by decide)]
  exact ⟨rfl, rfl⟩

theorem mem_cellsOf (isBoss : Bool) (kind : CellKind) (rolled : List (Pos × Roll)) (p : Pos) :
    p ∈ cellsOf isBoss kind rolled ↔
      ∃ ro, (p, ro) ∈ rolled ∧ specCellKind isBoss ro = kind := by
  unfold cellsOf
  simp only [List.mem_map, List.mem_filter, decide_eq_true_eq]
  constructor
  · rintro ⟨q, ⟨hq, hk⟩, rfl⟩
    exact ⟨q.2, hq, hk⟩
  · rintro ⟨ro, hq, hk⟩
    exact ⟨(p, ro), ⟨hq, hk⟩, rfl⟩

/-- C27: the output of `generateRoomTerrain` by room kind.  For a Spawn, Shop or Treasure room
the call changes nothing: no obstacle and no `terrainLayout`.  For a Boss or Enemy room without
a layout, every cell of the grid that passes the skip tests is rolled once, in loop order, and
the layout stored and the sprites created are those of the specification: in a Boss room a
cell gets a wall iff its roll is below 0.05, and there is no pit and no crate; in an Enemy room
a cell with roll `r` gets a pit iff `r < 0.05`, a wall iff `0.05 <= r < 0.12`, a crate with
`destroyed = false` iff `0.12 <= r < 0.20`, and nothing that is stored or collides otherwise
(for `0.20 <= r < 0.22` only a decoration, which costs one more roll). -/
theorem terrain_by_room_kind (env : Env) (key : Coord) (g : Game) (r : Room)
    (hr : getRoom g.rooms key = some r) :
    (plainKind r.type → generateRoomTerrain env key g = g) ∧
    (¬ plainKind r.type → r.terrainLayout = none →
      (cellRolls env.rnd (decide (r.type = RoomType.boss)) g.calls terrainCells).map
          (fun q => q.1) = terrainCells.filter eligibleCell ∧
      layoutAt (generateRoomTerrain env key g) key = some
        (specLayout (decide (r.type = RoomType.boss))
          (cellRolls env.rnd (decide (r.type = RoomType.boss)) g.calls terrainCells)) ∧
      (generateRoomTerrain env key g).walls = g.walls ++
        (specLayout (decide (r.type = RoomType.boss))
          (cellRolls env.rnd (decide (r.type = RoomType.boss)) g.calls terrainCells)).walls ∧
      (generateRoomTerrain env key g).pits = g.pits ++
        (specLayout (decide (r.type = RoomType.boss))
          (cellRolls env.rnd (decide (r.type = RoomType.boss)) g.calls terrainCells)).pits ∧
      (generateRoomTerrain env key g).crates = g.crates ++
        crateSpritesFrom key 0 (specLayout (decide (r.type = RoomType.boss))
          (cellRolls env.rnd (decide (r.type = RoomType.boss)) g.calls terrainCells)).crates) ∧
    (∀ (rolled : List (Pos × Roll)) (p : Pos),
      (specLayout true rolled).pits = [] ∧ (specLayout true rolled).crates = [] ∧
      (p ∈ (specLayout true rolled).walls ↔ ∃ ro, (p, ro) ∈ rolled ∧ ro.val < 5 / 100) ∧
      (p ∈ (specLayout false rolled).pits ↔ ∃ ro, (p, ro) ∈ rolled ∧ ro.val < 5 / 100) ∧
      (p ∈ (specLayout false rolled).walls ↔
        ∃ ro, (p, ro) ∈ rolled ∧ 5 / 100 ≤ ro.val ∧ ro.val < 12 / 100) ∧
      (({ x := p.x, y := p.y, destroyed := false } : CrateData) ∈
          (specLayout false rolled).crates ↔
        ∃ ro, (p, ro) ∈ rolled ∧ 12 / 100 ≤ ro.val ∧ ro.val < 20 / 100) ∧
      (∀ c ∈ (specLayout false rolled).crates, c.destroyed = false)) := by
  refine ⟨?_, ?_, ?_⟩
  · intro hk
    unfold plainKind at hk
    simp only [generateRoomTerrain, hr, if_pos hk]
  · intro hk hl
    unfold plainKind at hk
    obtain ⟨f1, f2, f3, f4⟩ := foldl_terrainCell_spec env.rnd key
      (decide (r.type = RoomType.boss)) terrainCells
      { layout := { walls := [], pits := [], crates := [] }, walls := [], pits := [],
        crates := [], calls := g.calls }
    obtain ⟨o1, o2, o3⟩ := foldl_terrainCell_ok env.rnd key
      (decide (r.type = RoomType.boss)) terrainCells
      { layout := { walls := [], pits := [], crates := [] }, walls := [], pits := [],
        crates := [], calls := g.calls } ⟨rfl, rfl, rfl⟩
    simp only [List.nil_append] at f1 f2 f3
    have hlay : (terrainCells.foldl (terrainCell env.rnd key (decide (r.type = RoomType.boss)))
        { layout := { walls := [], pits := [], crates := [] }, walls := [], pits := [],
          crates := [], calls := g.calls }).layout =
        specLayout (decide (r.type = RoomType.boss))
          (cellRolls env.rnd (decide (r.type = RoomType.boss)) g.calls terrainCells) := by
      unfold specLayout
      rw [← f1, ← f2, ← f3]
    refine ⟨f4, ?_, ?_, ?_, ?_⟩
    · simp only [generateRoomTerrain, hr, hl, if_neg hk]
      unfold layoutAt
      rw [getRoom_updateRoom, hr]
      simp [hlay]
    · simp only [generateRoomTerrain, hr, hl, if_neg hk]
      rw [o1, hlay]
    · simp only [generateRoomTerrain, hr, hl, if_neg hk]
      rw [o2, hlay]
    · simp only [generateRoomTerrain, hr, hl, if_neg hk]
      rw [o3, hlay]
  · intro rolled p
    obtain ⟨b1, b2⟩ := specLayout_boss rolled
    refine ⟨b1, b2, ?_, ?_, ?_, ?_, ?_⟩
    · show p ∈ cellsOf true CellKind.wall rolled ↔ _
      rw [mem_cellsOf]
      refine exists_congr fun ro => and_congr_right fun _ => ?_
      unfold specCellKind
      simp only [if_true]
      split_ifs with h <;> simp [h]
    · show p ∈ cellsOf false CellKind.pit rolled ↔ _
      rw [mem_cellsOf]
      refine exists_congr fun ro => and_congr_right fun _ => ?_
      unfold specCellKind
      simp only [Bool.false_eq_true, if_false]
      split_ifs with h <;> simp [h]
    · show p ∈ cellsOf false CellKind.wall rolled ↔ _
      rw [mem_cellsOf]
      refine exists_congr fun ro => and_congr_right fun _ => ?_
      unfold specCellKind
      simp only [Bool.false_eq_true, if_false]
      split_ifs with h1 h2 h3 h4
      · simp only [reduceCtorEq, false_iff, not_and, not_lt]
        intro h
        exact absurd h1 (not_lt.2 h)
      · simp [h2]
      · simp [h2]
      · simp [h2]
      · simp [h2]
    · show _ ∈ (cellsOf false CellKind.crate rolled).map _ ↔ _
      rw [List.mem_map]
      constructor
      · rintro ⟨q, hq, he⟩
        have hqp : q = p := by
          cases q; cases p
          simp only [CrateData.mk.injEq] at he
          simp [he.1, he.2.1]
        subst hqp
        obtain ⟨ro, hro, hk⟩ := (mem_cellsOf false CellKind.crate rolled q).1 hq
        refine ⟨ro, hro, ?_⟩
        unfold specCellKind at hk
        simp only [Bool.false_eq_true, if_false] at hk
        split_ifs at hk with h1 h2 h3 h4
        exact h3
      · rintro ⟨ro, hro, h1, h2⟩
        refine ⟨p, (mem_cellsOf false CellKind.crate rolled p).2 ⟨ro, hro, ?_⟩, rfl⟩
        unfold specCellKind
        simp only [Bool.false_eq_true, if_false]
        have n5 : ¬ ro.val < 5 / 100 := by
          intro h; linarith
        have n12 : ¬ (5 / 100 ≤ ro.val ∧ ro.val < 12 / 100) := by
          intro h; linarith [h.2]
        rw [if_neg n5, if_neg n12, if_pos ⟨h1, h2⟩]
    · intro c hc
      have hc2 : c ∈ (cellsOf false CellKind.crate rolled).map
          (fun p => ({ x := p.x, y := p.y, destroyed := false } : CrateData)) := hc
      rw [List.mem_map] at hc2
      obtain ⟨q, _, rfl⟩ := hc2
      rfl

theorem terrain_by_room_kind_witness :
    (plainKind sampleEnemyRoom.type → generateRoomTerrain sampleEnv (5, 6) sampleGame = sampleGame) ∧
    (¬ plainKind sampleEnemyRoom.type → sampleEnemyRoom.terrainLayout = none →
      (cellRolls sampleEnv.rnd (decide (sampleEnemyRoom.type = RoomType.boss)) sampleGame.calls terrainCells).map
          (fun q => q.1) = terrainCells.filter eligibleCell ∧
      layoutAt (generateRoomTerrain sampleEnv (5, 6) sampleGame) (5, 6) = some
        (specLayout (decide (sampleEnemyRoom.type = RoomType.boss))
          (cellRolls sampleEnv.rnd (decide (sampleEnemyRoom.type = RoomType.boss)) sampleGame.calls terrainCells)) ∧
      (generateRoomTerrain sampleEnv (5, 6) sampleGame).walls = sampleGame.walls ++
        (specLayout (decide (sampleEnemyRoom.type = RoomType.boss))
          (cellRolls sampleEnv.rnd (decide (sampleEnemyRoom.type = RoomType.boss)) sampleGame.calls terrainCells)).walls ∧
      (generateRoomTerrain sampleEnv (5, 6) sampleGame).pits = sampleGame.pits ++
        (specLayout (decide (sampleEnemyRoom.type = RoomType.boss))
          (cellRolls sampleEnv.rnd (decide (sampleEnemyRoom.type = RoomType.boss)) sampleGame.calls terrainCells)).pits ∧
      (generateRoomTerrain sampleEnv (5, 6) sampleGame).crates = sampleGame.crates ++
        crateSpritesFrom (5, 6) 0 (specLayout (decide (sampleEnemyRoom.type = RoomType.boss))
          (cellRolls sampleEnv.rnd (decide (sampleEnemyRoom.type = RoomType.boss)) sampleGame.calls terrainCells)).crates) ∧
    (∀ (rolled : List (Pos × Roll)) (p : Pos),
      (specLayout true rolled).pits = [] ∧ (specLayout true rolled).crates = [] ∧
      (p ∈ (specLayout true rolled).walls ↔ ∃ ro, (p, ro) ∈ rolled ∧ ro.val < 5 / 100) ∧
      (p ∈ (specLayout false rolled).pits ↔ ∃ ro, (p, ro) ∈ rolled ∧ ro.val < 5 / 100) ∧
      (p ∈ (specLayout false rolled).walls ↔
        ∃ ro, (p, ro) ∈ rolled ∧ 5 / 100 ≤ ro.val ∧ ro.val < 12 / 100) ∧
      (({ x := p.x, y := p.y, destroyed := false } : CrateData) ∈
          (specLayout false rolled).crates ↔
        ∃ ro, (p, ro) ∈ rolled ∧ 12 / 100 ≤ ro.val ∧ ro.val < 20 / 100) ∧
      (∀ c ∈ (specLayout false rolled).crates, c.destroyed = false)) :=
  terrain_by_room_kind sampleEnv (5, 6) sampleGame sampleEnemyRoom rfl

/-! ## Monstro -/

theorem bossToggle_expired (time : ℚ) (e : Enemy) :
    ¬ time > (bossToggle time e).aiStateTimer := by
  unfold bossToggle
  split_ifs with h
  · simp
  · exact h

theorem bossToggle_state (time : ℚ) (e : Enemy) (h : e.aiState = 0 ∨ e.aiState = 1) :
    (bossToggle time e).aiState = 0 ∨ (bossToggle time e).aiState = 1 := by
  unfold bossToggle
  split_ifs with ht
  · rcases h with h | h <;> simp [h, Int.tmod]
  · exact h

theorem updateMonstro_fired (rnd : Rng) (calls : Nat) (time : ℚ) (e : Enemy) :
    (updateMonstro rnd calls time e).fired = 0 := by
  have h := bossToggle_expired time e
  unfold updateMonstro monstroBranch
  split_ifs <;> rfl

theorem updateMonstro_state (rnd : Rng) (calls : Nat) (time : ℚ) (e : Enemy)
    (h : e.aiState = 0 ∨ e.aiState = 1) :
    (updateMonstro rnd calls time e).enemy.aiState = 0 ∨
      (updateMonstro rnd calls time e).enemy.aiState = 1 := by
  have h1 := bossToggle_expired time e
  have h2 := bossToggle_state time e h
  unfold updateMonstro monstroBranch
  split_ifs with a b c
  · right; rfl
  · left; exact a
  · right; exact c
  · exact h2

theorem monstroTicks_spec (rnd : Rng) (times : List ℚ) :
    ∀ s : BossTick, s.enemy.aiState = 0 ∨ s.enemy.aiState = 1 →
      (monstroTicks rnd times s).fired = s.fired ∧
      ((monstroTicks rnd times s).enemy.aiState = 0 ∨
        (monstroTicks rnd times s).enemy.aiState = 1) := by
  induction times with
  | nil => intro s h; exact ⟨rfl, h⟩
  | cons t rest ih =>
    intro s h
    have h1 := updateMonstro_state rnd s.calls t s.enemy h
    have h2 := updateMonstro_fired rnd s.calls t s.enemy
    have := ih { updateMonstro rnd s.calls t s.enemy with
      fired := s.fired + (updateMonstro rnd s.calls t s.enemy).fired } h1
    simp only [monstroTicks]
    refine ⟨?_, this.2⟩
    rw [this.1]
    simp [h2]

/-- C28: the Land transition of Monstro never runs.  A Monstro as spawned is put into state 1
by the shared toggle at the first tick (time 1, timer then 3001); at the tick at time 3002 it
is in state 1 with its timer expired, and that tick leaves it in state 0 with the timer 6002
and fires nothing.  In general no tick of `update` fires a projectile from the Monstro branch,
a tick that starts in state 1 with an expired timer ends in state 0 or 1, and from the spawned
state every sequence of ticks ends in state 0 or 1 with no `enemyFire` call at all. -/
theorem monstro_never_lands :
    (monstroTicks rndHigh [1] (tickStart sampleMonstro)).enemy =
        { sampleMonstro with aiState := 1, aiStateTimer := 3001 } ∧
    updateMonstro rndHigh 0 3002 { sampleMonstro with aiState := 1, aiStateTimer := 3001 } =
        { enemy := { sampleMonstro with aiState := 0, aiStateTimer := 6002 },
          velocity := some 0, fired := 0, calls := 1 } ∧
    (∀ (rnd : Rng) (calls : Nat) (time : ℚ) (e : Enemy),
      (updateMonstro rnd calls time e).fired = 0) ∧
    (∀ (rnd : Rng) (calls : Nat) (time : ℚ) (e : Enemy),
      e.aiState = 1 → time > e.aiStateTimer →
      (updateMonstro rnd calls time e).enemy.aiState ≠ 2) ∧
    (∀ (rnd : Rng) (times : List ℚ) (e : Enemy), e.aiState = 0 → e.aiStateTimer = 0 →
      (monstroTicks rnd times (tickStart e)).fired = 0 ∧
      ((monstroTicks rnd times (tickStart e)).enemy.aiState = 0 ∨
        (monstroTicks rnd times (tickStart e)).enemy.aiState = 1)) := by
  refine ⟨?_, ?_, updateMonstro_fired, ?_, ?_⟩
  · simp [monstroTicks, updateMonstro, monstroBranch, bossToggle, tickStart, sampleMonstro,
      Int.tmod]
    norm_num
  · simp [updateMonstro, monstroBranch, bossToggle, sampleMonstro, Int.tmod, rndHigh,
      Roll.below]
    norm_num
  · intro rnd calls time e h _
    rcases updateMonstro_state rnd calls time e (Or.inr h) with h | h <;> rw [h] <;> decide
  · intro rnd times e h _
    exact monstroTicks_spec rnd times (tickStart e) (Or.inl h)

/-! ## Doors and enemies under a room load -/

theorem Settled.settled_refl (g : Game) : Settled g g := ⟨rfl, rfl⟩

theorem Settled.settled_trans {a b c : Game} (h1 : Settled a b) (h2 : Settled b c) : Settled a c :=
  ⟨h2.doors.trans h1.doors, h2.enemies.trans h1.enemies⟩

theorem spawnStairs_settled (x y : Int) (g : Game) : Settled g (spawnStairs x y g) := by
  unfold spawnStairs
  split_ifs <;> exact ⟨rfl, rfl⟩

theorem pickRandomItem_settled (env : Env) (n : Nat) (g : Game) :
    Settled g (pickRandomItem env n g).2 := by
  induction n generalizing g with
  | zero => exact Settled.settled_refl g
  | succ n ih =>
    unfold pickRandomItem
    simp only
    split
    · exact ⟨rfl, rfl⟩
    · refine Settled.settled_trans ?_ (ih _)
      exact ⟨rfl, rfl⟩

theorem spawnItem_settled (env : Env) (x y : ℚ) (d : Option ItemData) (g : Game) :
    Settled g (spawnItem env x y d g) := by
  unfold spawnItem
  simp only
  cases d with
  | some d => exact ⟨rfl, rfl⟩
  | none =>
    have h := pickRandomItem_settled env 5 g
    simp only
    split
    · exact h
    · exact h.settled_trans ⟨rfl, rfl⟩

theorem restoreDrops_settled (env : Env) (drops : List Drop) (g : Game) :
    Settled g (restoreDrops env drops g) := by
  rw [restoreDrops_eq]
  exact ⟨rfl, rfl⟩

theorem spawnShopItemSprite_settled (ref : Coord × Nat) (g : Game) :
    Settled g (spawnShopItemSprite ref g) := by
  unfold spawnShopItemSprite
  split
  · exact Settled.settled_refl g
  · split_ifs <;> exact ⟨rfl, rfl⟩

theorem shopOffer_settled (env : Env) (g : Game) : Settled g (shopOffer env g).2 := by
  unfold shopOffer
  simp only
  split_ifs <;> exact ⟨rfl, rfl⟩

theorem spawnShopItem_settled (env : Env) (x y : Int) (g : Game) :
    Settled g (finalState (spawnShopItem env x y g)) := by
  have h := shopOffer_settled env g
  unfold spawnShopItem
  simp only
  split
  · exact h
  · refine h.settled_trans ?_
    refine Settled.settled_trans ?_ (spawnShopItemSprite_settled _ _)
    exact ⟨rfl, rfl⟩

theorem spawnShopSlots_settled (env : Env) (startX gap : Int) (n i : Nat) (g : Game) :
    Settled g (finalState (spawnShopSlots env startX gap n i g)) := by
  induction n generalizing i g with
  | zero => exact Settled.settled_refl g
  | succ n ih =>
    unfold spawnShopSlots
    have h := spawnShopItem_settled env (startX + i * gap) 300 g
    cases hs : spawnShopItem env (startX + i * gap) 300 g with
    | error g1 => rw [hs] at h; exact h
    | ok g1 => rw [hs] at h; exact Settled.settled_trans h (ih _ _)

theorem generateShop_settled (env : Env) (key : Coord) (g : Game) :
    Settled g (finalState (generateShop env key g)) := by
  unfold generateShop
  simp only
  refine Settled.settled_trans ?_ (spawnShopSlots_settled env _ _ _ _ _)
  exact ⟨rfl, rfl⟩

theorem foldl_spawnShopItemSprite_settled (key : Coord) (l : List Nat) (g : Game) :
    Settled g (l.foldl (fun acc i => spawnShopItemSprite (key, i) acc) g) := by
  induction l generalizing g with
  | nil => exact Settled.settled_refl g
  | cons i l ih =>
    rw [List.foldl_cons]
    exact (spawnShopItemSprite_settled (key, i) g).settled_trans (ih _)

theorem respawnShop_settled (key : Coord) (roomData : Room) (g : Game) :
    Settled g (respawnShop key roomData g) := by
  unfold respawnShop
  split
  · exact foldl_spawnShopItemSprite_settled key _ g
  · exact Settled.settled_refl g

theorem shopBranch_settled (env : Env) (key : Coord) (roomData : Room) (g : Game) :
    Settled g (finalState (shopBranch env key roomData g)) := by
  unfold shopBranch
  split_ifs
  · exact generateShop_settled env key g
  · exact respawnShop_settled key roomData g
  · exact Settled.settled_refl g

theorem treasureReward_settled (env : Env) (roomData : Room) (g : Game) :
    Settled g (treasureReward env roomData g) := by
  unfold treasureReward
  split_ifs
  · exact spawnItem_settled env _ _ _ _
  · exact Settled.settled_refl g

/-- The cleared branch of `loadRoom` ends with the door sprites of `roomData.doors` and the
enemies it started with. -/
theorem loadCleared_settled (env : Env) (key : Coord) (roomData : Room) (g : Game) :
    (finalState (loadCleared env key roomData g)).doors = roomData.doors.map doorSprite ∧
    (finalState (loadCleared env key roomData g)).enemies = g.enemies := by
  have h1 : Settled (openDoors roomData g) (treasureReward env roomData (openDoors roomData g)) :=
    treasureReward_settled env roomData _
  have h2 := shopBranch_settled env key roomData
    (treasureReward env roomData (openDoors roomData g))
  have h0 : (openDoors roomData g).doors = roomData.doors.map doorSprite ∧
      (openDoors roomData g).enemies = g.enemies := ⟨rfl, rfl⟩
  unfold loadCleared
  cases hs : shopBranch env key roomData (treasureReward env roomData (openDoors roomData g)) with
  | error g4 =>
    rw [hs] at h2
    exact ⟨((h1.settled_trans h2).doors).trans h0.1, ((h1.settled_trans h2).enemies).trans h0.2⟩
  | ok g4 =>
    rw [hs] at h2
    simp only
    split_ifs
    · have h3 := (h1.settled_trans h2).settled_trans (spawnStairs_settled 400 300 g4)
      exact ⟨h3.doors.trans h0.1, h3.enemies.trans h0.2⟩
    · exact ⟨((h1.settled_trans h2).doors).trans h0.1, ((h1.settled_trans h2).enemies).trans h0.2⟩

theorem generateRoomTerrain_settled (env : Env) (key : Coord) (g : Game) :
    Settled g (generateRoomTerrain env key g) := by
  unfold generateRoomTerrain
  split
  · exact Settled.settled_refl g
  · split_ifs
    · exact Settled.settled_refl g
    · split <;> exact ⟨rfl, rfl⟩

/-- The last part of `loadRoom` started without door sprites: for a record that is not
cleared it ends without door sprites; for a cleared record it ends with the door sprites of
the record and without new enemies. -/
theorem populateRoom_doors (env : Env) (key : Coord) (theme : Theme) (roomData : Room)
    (g : Game) (hd : g.doors = []) :
    (roomData.cleared = false →
      (finalState (populateRoom env key theme roomData g)).doors = []) ∧
    (roomData.cleared = true →
      (finalState (populateRoom env key theme roomData g)).doors =
          roomData.doors.map doorSprite ∧
      (finalState (populateRoom env key theme roomData g)).enemies = g.enemies) := by
  constructor
  · intro hc
    unfold populateRoom
    rw [if_pos hc]
    split_ifs
    · exact ((spawnWave_quiet env key _ _ _).doors).trans hd
    · exact ((spawnBoss_quiet env key theme g).doors).trans hd
    · exact hd
  · intro hc
    unfold populateRoom
    rw [if_neg (by simp [hc])]
    exact loadCleared_settled env key roomData g

theorem enterRoom_doors (env : Env) (key : Coord) (theme : Theme) (g : Game)
    (hcur : g.currentRoom = key) :
    DoorsOk (finalState (enterRoom env key theme g)) ∧
    (∀ r0, getRoom g.rooms key = some r0 → r0.cleared = true →
      (finalState (enterRoom env key theme g)).enemies = []) := by
  have hmv : RoomsRel RoomKeep g.rooms (markVisited key g.rooms) := markVisited_keep _ _
  obtain ⟨hg1, hg2, _, _, _, _⟩ := generateRoomTerrain_stays_rooms env key
    (clearGroups { g with rooms := markVisited key g.rooms })
  have hs := generateRoomTerrain_settled env key
    (clearGroups { g with rooms := markVisited key g.rooms })
  have hd3 : (generateRoomTerrain env key
      (clearGroups { g with rooms := markVisited key g.rooms })).doors = [] := hs.doors
  have he3 : (generateRoomTerrain env key
      (clearGroups { g with rooms := markVisited key g.rooms })).enemies = [] := hs.enemies
  have hc3 : (generateRoomTerrain env key
      (clearGroups { g with rooms := markVisited key g.rooms })).currentRoom = key :=
    hg2.trans hcur
  unfold enterRoom
  simp only
  generalize generateRoomTerrain env key
    (clearGroups { g with rooms := markVisited key g.rooms }) = g3 at hg1 hd3 he3 hc3
  have hk : RoomsRel RoomKeep g.rooms g3.rooms := RoomsRel.roomsRel_trans RoomKeep.roomKeep_trans hmv hg1
  cases hr3 : getRoom g3.rooms key with
  | none => exact ⟨Or.inl hd3, fun _ _ _ => he3⟩
  | some roomData =>
    simp only
    have h4 := restoreDrops_settled env (roomData.droppedItems.getD []) g3
    have hu := restoreDrops_untouched env (roomData.droppedItems.getD []) g3
    have hst := populateRoom_stays env key theme roomData
      (restoreDrops env (roomData.droppedItems.getD []) g3)
    obtain ⟨hA, hB⟩ := populateRoom_doors env key theme roomData
      (restoreDrops env (roomData.droppedItems.getD []) g3) (h4.doors.trans hd3)
    generalize finalState (populateRoom env key theme roomData
      (restoreDrops env (roomData.droppedItems.getD []) g3)) = g5 at hst hA hB
    cases hc : roomData.cleared with
    | false =>
      refine ⟨Or.inl (hA hc), ?_⟩
      intro r0 h0 hc0
      obtain ⟨r3, h3, hkeep⟩ := hk.roomsRel_get h0
      rw [hr3] at h3
      cases h3
      rw [hkeep.2.2.1 hc0] at hc
      cases hc
    | true =>
      obtain ⟨hdo, hen⟩ := hB hc
      have hr4 : getRoom (restoreDrops env (roomData.droppedItems.getD []) g3).rooms key
          = some roomData := by rw [hu.rooms]; exact hr3
      obtain ⟨r5, h5, hkeep⟩ := hst.rooms.roomsRel_get hr4
      refine ⟨Or.inr ⟨r5, ?_, hkeep.2.2.1 hc, ?_⟩, fun _ _ _ => hen.trans (h4.enemies.trans he3)⟩
      · rw [hst.currentRoom, hu.currentRoom, hc3]
        exact h5
      · rw [hdo, hkeep.2.1]

/-- A load of a coordinate that has a record ends with door sprites only for a cleared record,
and without enemies when the record was cleared before the call. -/
theorem loadRoom_doors (env : Env) (x y : Int) (g : Game)
    (h : hasRoom g.rooms (x, y) = true) :
    DoorsOk (loadRoom env x y g) ∧
    (∀ r0, getRoom g.rooms (x, y) = some r0 → r0.cleared = true →
      (loadRoom env x y g).enemies = []) := by
  cases hr : getRoom g.rooms (x, y) with
  | none => simp [hasRoom, hr] at h
  | some r0 =>
    have hth := chooseTheme_isSome env { g with currentRoom := (x, y) }
    obtain ⟨hc1, hc2, _, _, _, _, _⟩ := chooseTheme_frame env { g with currentRoom := (x, y) }
    obtain ⟨theme, ht⟩ := Option.isSome_iff_exists.1 hth
    have hL : loadRoom env x y g =
        finalState (enterRoom env (x, y) theme (chooseTheme env { g with currentRoom := (x, y) }))
        := by
      unfold loadRoom loadRoomBody
      simp only [hr, ht]
    rw [hL]
    obtain ⟨h1, h2⟩ := enterRoom_doors env (x, y) theme
      (chooseTheme env { g with currentRoom := (x, y) }) hc2
    refine ⟨h1, ?_⟩
    intro r1 hr1 hcl
    rw [hc1] at h2
    exact h2 r0 hr (by cases hr1; exact hcl)

theorem checkRoomClear_doorsOk (env : Env) (g : Game) (h : DoorsOk g) :
    DoorsOk (checkRoomClear env g) := by
  unfold checkRoomClear
  cases hr : getRoom g.rooms g.currentRoom with
  | none => exact h
  | some roomData =>
    simp only
    split_ifs
    · have hu := clearEffects_untouched env roomData
        { g with rooms := updateRoom g.rooms g.currentRoom fun r => { r with cleared := true } }
      refine Or.inr ⟨{ roomData with cleared := true }, ?_, rfl, rfl⟩
      rw [hu.rooms, hu.currentRoom]
      dsimp only
      rw [getRoom_updateRoom, hr]
      simp
    · exact h

/-- The form of `DoorsLinked` on the records of the dungeon. -/
theorem DoorsLinked.doorsLinked_get {rooms : Rooms} (h : DoorsLinked rooms) {c : Coord} {r : Room}
    (hr : getRoom rooms c = some r) {d : Dir} (hd : d ∈ r.doors) :
    hasRoom rooms (enterDoorTarget c d) = true :=
  h (c, r) (getRoom_mem hr) d hd

theorem doorSprite_dir (d : Dir) : (doorSprite d).dir = some d := by
  cases d <;> rfl

/-- A door sprite of a state with `DoorsOk` belongs to a door string of the current room's
record, which is cleared. -/
theorem DoorsOk.door {g : Game} (h : DoorsOk g) {i : Nat} {d : Dir}
    (hd : (g.doors[i]?).bind (fun s => s.dir) = some d) :
    ∃ r, getRoom g.rooms g.currentRoom = some r ∧ r.cleared = true ∧ d ∈ r.doors := by
  rcases h with h | ⟨r, hr, hc, hdo⟩
  · rw [h] at hd
    simp at hd
  · refine ⟨r, hr, hc, ?_⟩
    rw [hdo, List.getElem?_map] at hd
    cases hi : r.doors[i]? with
    | none => rw [hi] at hd; simp at hd
    | some d2 =>
      rw [hi] at hd
      simp only [Option.map_some', Option.some_bind, doorSprite_dir, Option.some.injEq] at hd
      subst hd
      exact List.getElem?_mem hi

theorem enterDoor_doorsOk (env : Env) (i : Nat) (g : Game) (h : DoorsOk g)
    (hl : ∀ c r d, getRoom g.rooms c = some r → d ∈ r.doors →
      hasRoom g.rooms (enterDoorTarget c d) = true) :
    DoorsOk (enterDoor env i g) := by
  rcases enterDoor_eq env i g with ⟨_, he⟩ | ⟨d, hd, _, he⟩
  · rw [he]
    exact h
  · rw [he]
    obtain ⟨r, hr, _, hmem⟩ := h.door hd
    have ht := hl _ r d hr hmem
    refine (loadRoom_doors env _ _ _ ?_).1
    dsimp only
    rw [hasRoom_of_roomsRel
      (RoomsRel.update RoomKeep.roomKeep_refl _ _ (fun r => roomKeep_droppedItems r _))]
    exact ht

theorem roomOp_congr {rooms rooms2 : Rooms} (h : ∀ c, hasRoom rooms2 c = hasRoom rooms c)
    (op : Op) : roomOp rooms2 op = roomOp rooms op := by
  cases op <;> simp [roomOp, h]

theorem linked_of_le {rooms rooms2 : Rooms} (hk : RoomsRel RoomLe rooms rooms2)
    (h : ∀ c r d, getRoom rooms c = some r → d ∈ r.doors →
      hasRoom rooms (enterDoorTarget c d) = true) :
    ∀ c r d, getRoom rooms2 c = some r → d ∈ r.doors →
      hasRoom rooms2 (enterDoorTarget c d) = true := by
  intro c r2 d hr2 hd
  rw [hasRoom_of_roomsRel hk]
  have hc := hk c
  rw [hr2] at hc
  cases hr : getRoom rooms c with
  | none => rw [hr] at hc; exact hc.elim
  | some r =>
    rw [hr] at hc
    have hle : RoomLe r r2 := hc
    exact h c r d hr (by rw [← hle.2.1]; exact hd)

theorem step_doorsOk (env : Env) (g : Game) (op : Op) (h : DoorsOk g)
    (hl : ∀ c r d, getRoom g.rooms c = some r → d ∈ r.doors →
      hasRoom g.rooms (enterDoorTarget c d) = true)
    (hop : roomOp g.rooms op = true) : DoorsOk (step env g op) := by
  cases op with
  | checkRoomClear => exact checkRoomClear_doorsOk env g h
  | loadRoom x y => exact (loadRoom_doors env x y g hop).1
  | enterDoor i => exact enterDoor_doorsOk env i g h hl
  | pickItem i => simp [roomOp] at hop
  | spawnEnemy x y t => simp [roomOp] at hop
  | destroyCrate b j => simp [roomOp] at hop

theorem run_doorsOk (env : Env) (ops : List Op) :
    ∀ g : Game, DoorsOk g →
      (∀ c r d, getRoom g.rooms c = some r → d ∈ r.doors →
        hasRoom g.rooms (enterDoorTarget c d) = true) →
      (∀ op ∈ ops, roomOp g.rooms op = true) →
      DoorsOk (run env g ops) ∧
      (∀ c r d, getRoom (run env g ops).rooms c = some r → d ∈ r.doors →
        hasRoom (run env g ops).rooms (enterDoorTarget c d) = true) := by
  induction ops with
  | nil => intro g h hl _; exact ⟨h, hl⟩
  | cons op ops ih =>
    intro g h hl hops
    rw [run_cons]
    refine ih (step env g op)
      (step_doorsOk env g op h hl (hops op (List.mem_cons_self _ _)))
      (linked_of_le (step_le env g op) hl) ?_
    intro op2 hm
    rw [roomOp_congr (hasRoom_of_roomsRel (step_le env g op))]
    exact hops op2 (List.mem_cons_of_mem _ hm)

/-- An event that loads a room whose record is cleared leaves no enemy on screen. -/
theorem load_cleared_enemies (env : Env) (g : Game) (op : Op) (c : Coord) (r : Room)
    (ht : loadTarget g op = some c) (hr : getRoom g.rooms c = some r)
    (hc : r.cleared = true) : (step env g op).enemies = [] := by
  cases op with
  | loadRoom x y =>
    simp only [loadTarget, Option.some.injEq] at ht
    subst ht
    exact (loadRoom_doors env x y g (by simp [hasRoom, hr])).2 r hr hc
  | enterDoor i =>
    rcases enterDoor_eq env i g with ⟨hn, _⟩ | ⟨d, _, ht2, he⟩
    · rw [hn] at ht
      cases ht
    · rw [ht] at ht2
      simp only [Option.some.injEq] at ht2
      subst ht2
      have hk : RoomsRel RoomKeep g.rooms (updateRoom g.rooms g.currentRoom fun r =>
          { r with droppedItems := some (floorDrops g.items) }) :=
        RoomsRel.update RoomKeep.roomKeep_refl _ _ (fun r => roomKeep_droppedItems r _)
      obtain ⟨r2, hr2, hkeep⟩ := hk.roomsRel_get hr
      show (enterDoor env i g).enemies = []
      rw [he]
      refine (loadRoom_doors env _ _ _ ?_).2 r2 hr2 (hkeep.2.2.1 hc)
      dsimp only
      simp [hasRoom, hr2]
  | checkRoomClear => simp [loadTarget] at ht
  | pickItem i => simp [loadTarget] at ht
  | spawnEnemy x y t => simp [loadTarget] at ht
  | destroyCrate b j => simp [loadTarget] at ht

/-- C30: doors exist only in cleared rooms.  Start from a dungeon whose door strings lead to
coordinates with a record and from a state whose door sprites, if any, are those of its
cleared current room (as before the first load, when there is none), and play any sequence of
`loadRoom` calls at coordinates with a record, `checkRoomClear` calls and `enterDoor` calls.
Then in the state reached the current room has door sprites only if its record has
`cleared = true`; a door transition starts only from a cleared room and leads to a coordinate
with a record, and in a room that is not cleared `enterDoor` changes nothing; and once the
record of a room is cleared, every later entry into that room, by `loadRoom` or through a
door, after any further events, leaves no enemy on screen. -/
theorem doors_only_in_cleared_rooms (env : Env) (g : Game) (ops : List Op)
    (hlink : DoorsLinked g.rooms) (hdoors : DoorsOk g)
    (hops : ∀ op ∈ ops, roomOp g.rooms op = true) :
    ((run env g ops).doors ≠ [] →
      ∃ r, getRoom (run env g ops).rooms (run env g ops).currentRoom = some r ∧
        r.cleared = true) ∧
    (∀ i t, loadTarget (run env g ops) (Op.enterDoor i) = some t →
      hasRoom (run env g ops).rooms t = true ∧
      ∃ r, getRoom (run env g ops).rooms (run env g ops).currentRoom = some r ∧
        r.cleared = true) ∧
    (∀ i, (∀ r, getRoom (run env g ops).rooms (run env g ops).currentRoom = some r →
        r.cleared = false) →
      enterDoor env i (run env g ops) = run env g ops) ∧
    (∀ (c : Coord) (r : Room) (later : List Op) (op : Op),
      getRoom (run env g ops).rooms c = some r → r.cleared = true →
      loadTarget (run env (run env g ops) later) op = some c →
      (step env (run env (run env g ops) later) op).enemies = []) := by
  obtain ⟨hok, hl⟩ := run_doorsOk env ops g hdoors (fun c r d hr hd => hlink.doorsLinked_get hr hd) hops
  generalize run env g ops = s at hok hl
  have hA : s.doors ≠ [] → ∃ r, getRoom s.rooms s.currentRoom = some r ∧ r.cleared = true := by
    intro hne
    rcases hok with h | ⟨r, hr, hc, _⟩
    · exact absurd h hne
    · exact ⟨r, hr, hc⟩
  refine ⟨hA, ?_, ?_, ?_⟩
  · intro i t ht
    rcases enterDoor_eq env i s with ⟨hn, _⟩ | ⟨d, hd, ht2, _⟩
    · rw [hn] at ht
      cases ht
    · obtain ⟨r, hr, hc, hmem⟩ := hok.door hd
      rw [ht] at ht2
      simp only [Option.some.injEq] at ht2
      subst ht2
      exact ⟨hl _ r d hr hmem, r, hr, hc⟩
  · intro i hun
    rcases enterDoor_eq env i s with ⟨_, he⟩ | ⟨d, hd, _, _⟩
    · exact he
    · obtain ⟨r, hr, hc, _⟩ := hok.door hd
      rw [hun r hr] at hc
      cases hc
  · intro c r later op hr hc ht
    obtain ⟨r2, hr2, hle⟩ := (run_le env later s).roomsRel_get hr
    exact load_cleared_enemies env _ op c r2 ht hr2 (hle.2.2.1 hc)

theorem doors_only_in_cleared_rooms_witness :
    ((run sampleEnv sampleGame
        [Op.loadRoom 5 5, Op.checkRoomClear, Op.enterDoor 0]).doors ≠ [] →
      ∃ r, getRoom (run sampleEnv sampleGame
        [Op.loadRoom 5 5, Op.checkRoomClear, Op.enterDoor 0]).rooms (run sampleEnv sampleGame
        [Op.loadRoom 5 5, Op.checkRoomClear, Op.enterDoor 0]).currentRoom = some r ∧
        r.cleared = true) ∧
    (∀ i t, loadTarget (run sampleEnv sampleGame
        [Op.loadRoom 5 5, Op.checkRoomClear, Op.enterDoor 0]) (Op.enterDoor i) = some t →
      hasRoom (run sampleEnv sampleGame
        [Op.loadRoom 5 5, Op.checkRoomClear, Op.enterDoor 0]).rooms t = true ∧
      ∃ r, getRoom (run sampleEnv sampleGame
        [Op.loadRoom 5 5, Op.checkRoomClear, Op.enterDoor 0]).rooms (run sampleEnv sampleGame
        [Op.loadRoom 5 5, Op.checkRoomClear, Op.enterDoor 0]).currentRoom = some r ∧
        r.cleared = true) ∧
    (∀ i, (∀ r, getRoom (run sampleEnv sampleGame
        [Op.loadRoom 5 5, Op.checkRoomClear, Op.enterDoor 0]).rooms (run sampleEnv sampleGame
        [Op.loadRoom 5 5, Op.checkRoomClear, Op.enterDoor 0]).currentRoom = some r →
        r.cleared = false) →
      enterDoor sampleEnv i (run sampleEnv sampleGame
        [Op.loadRoom 5 5, Op.checkRoomClear, Op.enterDoor 0]) = run sampleEnv sampleGame
        [Op.loadRoom 5 5, Op.checkRoomClear, Op.enterDoor 0]) ∧
    (∀ (c : Coord) (r : Room) (later : List Op) (op : Op),
      getRoom (run sampleEnv sampleGame
        [Op.loadRoom 5 5, Op.checkRoomClear, Op.enterDoor 0]).rooms c = some r → r.cleared = true →
      loadTarget (run sampleEnv (run sampleEnv sampleGame
        [Op.loadRoom 5 5, Op.checkRoomClear, Op.enterDoor 0]) later) op = some c →
      (step sampleEnv (run sampleEnv (run sampleEnv sampleGame
        [Op.loadRoom 5 5, Op.checkRoomClear, Op.enterDoor 0]) later) op).enemies = []) :=
  doors_only_in_cleared_rooms sampleEnv sampleGame [Op.loadRoom 5 5, Op.checkRoomClear, Op.enterDoor 0]
    (by unfold DoorsLinked; decide) (Or.inl rfl) (by decide)

/-! ## Shop prices in doubles -/

theorem flw_1 : fl (5404319552844595 / 4503599627370496) = 5404319552844595 / 4503599627370496 := by
  rw [fl_eq_of_pos (5404319552844595 / 4503599627370496) 5404319552844595 (-52) (by norm_num) (by norm_num) (by norm_num)
    (by norm_num)]
  norm_num

theorem flw_2 : fl (9907919180215091 / 4503599627370496) = 2476979795053773 / 1125899906842624 := by
  rw [fl_eq_of_tie (9907919180215091 / 4503599627370496) 4953959590107546 (-51) (by norm_num) (by norm_num) (by decide)
    (Or.inr (by norm_num))]
  norm_num

theorem flw_3 : fl (8) = 8 := by
  rw [fl_eq_of_pos (8) 4503599627370496 (-49) (by norm_num) (by norm_num) (by norm_num)
    (by norm_num)]
  norm_num

theorem flw_4 : fl (61924494876344325 / 1125899906842624) = 7740561859543041 / 140737488355328 := by
  rw [fl_eq_of_pos (61924494876344325 / 1125899906842624) 7740561859543041 (-47) (by norm_num) (by norm_num) (by norm_num)
    (by norm_num)]
  norm_num

/-- The inflated price of a pool item with base price 25 on level 9: the double product
`25 * 2.2` is 55.00000000000001, so the price is 56. -/
theorem shopPrice_level9 :
    ⌈fl (25 * fl (1 + fl (fl ((9 : ℚ) - 1) * fl (15 / 100))))⌉ = 56 := by
  norm_num [flw_1, flw_2, flw_3, flw_4, fl_c015]
  rw [Int.ceil_eq_iff]
  norm_num

/-- The price `shopOffer` gives a pool item with base price 25 on level 9: 56, the ceiling of
the double product 55.00000000000001, where the exact product is 55. -/
theorem shopOffer_price_level9 : (shopOffer samplePriceEnv sampleLevel9).1.price = some 56 := by
  have h : (shopOffer samplePriceEnv sampleLevel9).1.price =
      some (Int.ceil (fl (((25 : Int) : ℚ) *
        fl (1 + fl (fl (((9 : Int) : ℚ) - 1) * fl (15 / 100)))))) := rfl
  rw [h]
  push_cast
  rw [shopPrice_level9]

end IsaacGame
